import Mathlib

/-!
# fosilo: voxel map, wire codec and game state

A shallow embedding of the parts of `pkg/vxl/vxl.go`,
`internal/protocol/protocol.go`, `internal/gamestate/gamestate.go`,
`internal/player/player.go`, `internal/physics/physics.go`,
`internal/server/server.go` and `internal/vote` that the verified properties
talk about.

Conventions of the embedding:

* Go `int` coordinates are `Int`; sizes that are passed to `make` are `Nat`.
* `uint8`, `uint32` and `uint64` values are `Nat` with explicit truncation
  where the source truncates.
* A `float32` is represented by its 32 bit IEEE pattern (a `Nat`); the
  arithmetic on the patterns is that of namespace `f32`.
* Loops are structural recursions over an explicit iteration budget.
-/

set_option maxRecDepth 100000

namespace vxl

/-! ## Constants and positions -/

def chunkSize : Nat := 16
def chunkGrowth : Nat := 2
def chunkShrink : Nat := 4
def defaultColor : Nat := 0x674028

/-- Conversion `uint32(v)` of a Go `int`. -/
def toU32 (v : Int) : Nat := (v % 4294967296).toNat

/-- Conversion `uint8(v)` of a Go `int` that is not negative. -/
def toU8 (v : Nat) : Nat := v % 256

/-- Source `newPosition(x, y, z uint32)`: `(y << 20) | (x << 8) | z` in 32 bit arithmetic. -/
def newPosition (x y z : Nat) : Nat :=
  ((y <<< 20) % 4294967296) ||| ((x <<< 8) % 4294967296) ||| z

/-- Source `position.X`. -/
def position.X (p : Nat) : Nat := (p >>> 8) &&& 0xFFF

/-- Source `position.Y`. -/
def position.Y (p : Nat) : Nat := (p >>> 20) &&& 0xFFF

/-- Source `position.Z`. -/
def position.Z (p : Nat) : Nat := p &&& 0xFF

/-- Source `newPosition(uint32(x), uint32(y), uint32(z))` as it is called on `int` coordinates. -/
def posOf (x y z : Int) : Nat := newPosition (toU32 x) (toU32 y) (toU32 z)

/-! ## Spans -/

structure span where
  length : Nat
  colorStart : Nat
  colorEnd : Nat
  airStart : Nat
deriving DecidableEq, Repr

/-- Source `span.dataLength`; the result is an `int` and can be negative or zero. -/
def span.dataLength (s : span) : Int :=
  if s.length > 0 then (s.length : Int) * 4
  else ((s.colorEnd : Int) + 2 - (s.colorStart : Int)) * 4

/-! ## Chunks -/

structure block where
  pos : Nat
  color : Nat
deriving DecidableEq, Repr

/-- The zero value of `block`, which `make` fills slices with. -/
def block.zero : block := { pos := 0, color := 0 }

/-- A chunk: the backing slice `blocks` (its length is the capacity) and the
number `count` of entries in use. -/
structure chunk where
  blocks : List block
  count : Nat
deriving DecidableEq, Repr

def newChunk : chunk :=
  { blocks := List.replicate (chunkSize * chunkSize * 2) block.zero, count := 0 }

/-- The entry `c.blocks[i]`. -/
def chunk.at (c : chunk) (i : Nat) : block := c.blocks.getD i block.zero

/-- The entries in use, `c.blocks[:c.count]`. -/
def chunk.entries (c : chunk) : List block := c.blocks.take c.count

/-- The loop of `sort.Search`: `for i < j { h := (i+j)/2; if !f(h) { i = h+1 } else { j = h } }`. -/
def sortSearchLoop (f : Nat → Bool) : Nat → Nat → Nat → Nat
  | 0, i, _ => i
  | fuel + 1, i, j =>
    if i < j then
      let h := (i + j) / 2
      if !f h then sortSearchLoop f fuel (h + 1) j else sortSearchLoop f fuel i h
    else i

/-- Source `sort.Search(n, f)`. -/
def sortSearch (n : Nat) (f : Nat → Bool) : Nat := sortSearchLoop f (n + 1) 0 n

/-- The index `sort.Search(c.count, func(i) bool { return c.blocks[i].pos >= pos })`. -/
def chunk.search (c : chunk) (pos : Nat) : Nat :=
  sortSearch c.count (fun i => decide ((c.at i).pos ≥ pos))

/-- The reallocation `newBlocks := make([]block, len*chunkGrowth); copy(newBlocks, c.blocks)`
that `append` and `insert` perform when the slice is full. -/
def chunk.grow (c : chunk) : chunk :=
  if c.count = c.blocks.length then
    { c with blocks := c.blocks ++
        List.replicate (c.blocks.length * chunkGrowth - c.blocks.length) block.zero }
  else c

/-- Source `chunk.append`. -/
def chunk.append (c : chunk) (pos color : Nat) : chunk :=
  let c1 := c.grow
  { blocks := c1.blocks.set c1.count { pos := pos, color := color }, count := c1.count + 1 }

/-- Source `chunk.insert`. -/
def chunk.insert (c : chunk) (pos color : Nat) : chunk :=
  let idx := c.search pos
  if idx < c.count ∧ (c.at idx).pos = pos then
    { c with blocks := c.blocks.set idx { pos := (c.at idx).pos, color := color } }
  else
    let c1 := c.grow
    { blocks := c1.blocks.take idx ++ [{ pos := pos, color := color }] ++
        (c1.blocks.drop idx).take (c1.count - idx) ++ c1.blocks.drop (c1.count + 1),
      count := c1.count + 1 }

/-- Source `chunk.remove`; the second component is the returned `bool`. -/
def chunk.remove (c : chunk) (pos : Nat) : chunk × Bool :=
  let idx := c.search pos
  if idx ≥ c.count ∨ (c.at idx).pos ≠ pos then (c, false)
  else
    let moved := c.blocks.take idx ++ (c.blocks.drop (idx + 1)).take (c.count - 1 - idx) ++
      c.blocks.drop (c.count - 1)
    let count := c.count - 1
    if count * chunkShrink ≤ c.blocks.length then
      let newSize := c.blocks.length / chunkGrowth
      if newSize > 0 then
        let kept := (moved.take count).take newSize
        ({ blocks := kept ++ List.replicate (newSize - kept.length) block.zero, count := count },
          true)
      else ({ blocks := moved, count := count }, true)
    else ({ blocks := moved, count := count }, true)

/-- Source `chunk.get`: `some color` for `(color, true)` and `none` for `(0, false)`. -/
def chunk.get (c : chunk) (pos : Nat) : Option Nat :=
  let idx := c.search pos
  if idx < c.count ∧ (c.at idx).pos = pos then some (c.at idx).color else none

/-- The representation invariant of a chunk: at most `len(blocks)` entries, and the
positions of the entries increase strictly. -/
def chunk.sorted (c : chunk) : Prop :=
  c.count ≤ c.blocks.length ∧ (c.entries.map block.pos).Pairwise (fun a b => a < b)

instance (c : chunk) : Decidable c.sorted := by unfold chunk.sorted; infer_instance

/-! ## The map -/

structure Map where
  width : Nat
  height : Nat
  depth : Nat
  chunks : List chunk
  geometry : List Nat
deriving DecidableEq, Repr

def newMap (width height depth : Nat) : Map :=
  let chunkCountX := (width + chunkSize - 1) / chunkSize
  let chunkCountY := (height + chunkSize - 1) / chunkSize
  { width := width, height := height, depth := depth,
    chunks := List.replicate (chunkCountX * chunkCountY) newChunk,
    geometry := List.replicate ((width * height * depth + 63) / 64) 0 }

/-- Source `Map.IsInside`. -/
def Map.IsInside (m : Map) (x y z : Int) : Bool :=
  decide (x ≥ 0 ∧ y ≥ 0 ∧ z ≥ 0 ∧ x < m.width ∧ y < m.height ∧ z < m.depth)

/-- Source `Map.chunkAt`: the index into `m.chunks` of the chunk of column `(x, y)`,
or `none` where the source returns `nil`. -/
def Map.chunkAt (m : Map) (x y : Int) : Option Nat :=
  if x < 0 ∨ y < 0 ∨ x ≥ m.width ∨ y ≥ m.height then none
  else
    let chunkCountX := (m.width + chunkSize - 1) / chunkSize
    some (x.toNat / chunkSize + y.toNat / chunkSize * chunkCountX)

/-- The chunk `m.chunks[i]`. -/
def Map.chunkOf (m : Map) (i : Nat) : chunk := m.chunks.getD i newChunk

/-- Replace `m.chunks[i]`, the effect of a method call through the chunk pointer. -/
def Map.setChunk (m : Map) (i : Nat) (c : chunk) : Map :=
  { m with chunks := m.chunks.set i c }

/-- Source `Map.geometryOffset`. -/
def Map.geometryOffset (m : Map) (x y z : Int) : Int :=
  z + (x + y * m.width) * m.depth

/-- Source `Map.hasGeometry`. -/
def Map.hasGeometry (m : Map) (x y z : Int) : Bool :=
  if x < 0 ∨ y < 0 ∨ z < 0 ∨ x ≥ m.width ∨ y ≥ m.height ∨ z ≥ m.depth then false
  else
    let offset := (m.geometryOffset x y z).toNat
    decide ((m.geometry.getD (offset / 64) 0) &&& (1 <<< (offset % 64)) > 0)

/-- The geometry bit number `off`. -/
def Map.bit (m : Map) (off : Nat) : Bool := (m.geometry.getD (off / 64) 0).testBit (off % 64)

/-- Source `Map.setGeometry`; `^(1 << bit)` is the 64 bit complement. -/
def Map.setGeometry (m : Map) (x y z : Int) (solid : Bool) : Map :=
  if x < 0 ∨ y < 0 ∨ z < 0 ∨ x ≥ m.width ∨ y ≥ m.height ∨ z ≥ m.depth then m
  else
    let offset := (m.geometryOffset x y z).toNat
    let idx := offset / 64
    let bit := offset % 64
    let old := m.geometry.getD idx 0
    if solid then { m with geometry := m.geometry.set idx (old ||| (1 <<< bit)) }
    else { m with geometry :=
      m.geometry.set idx (old &&& (18446744073709551615 ^^^ (1 <<< bit))) }

/-- Source `Map.IsSolid`; `%` of Go truncates towards zero. -/
def Map.IsSolid (m : Map) (x y z : Int) : Bool :=
  if z < 0 then false
  else if z ≥ m.depth then true
  else
    let x1 := if x < 0 ∨ x ≥ m.width then
      Int.tmod (Int.tmod x m.width + m.width) m.width else x
    let y1 := if y < 0 ∨ y ≥ m.height then
      Int.tmod (Int.tmod y m.height + m.height) m.height else y
    m.hasGeometry x1 y1 z

/-- Source `Map.OnSurface`. -/
def Map.OnSurface (m : Map) (x y z : Int) : Bool :=
  !m.IsSolid x (y + 1) z || !m.IsSolid x (y - 1) z ||
  !m.IsSolid (x + 1) y z || !m.IsSolid (x - 1) y z ||
  !m.IsSolid x y (z + 1) || !m.IsSolid x y (z - 1)

/-- Source `Map.Get`. -/
def Map.Get (m : Map) (x y z : Int) : Nat :=
  if !m.IsInside x y z || !m.hasGeometry x y z then 0
  else
    match m.chunkAt x y with
    | none => 0
    | some i =>
      match (m.chunkOf i).get (posOf x y z) with
      | some color => color
      | none => defaultColor

/-- The statement `if c := m.chunkAt(x, y); c != nil { c.insert(newPosition(...), color) }`. -/
def Map.insertAt (m : Map) (x y z : Int) (color : Nat) : Map :=
  match m.chunkAt x y with
  | none => m
  | some i => m.setChunk i ((m.chunkOf i).insert (posOf x y z) color)

/-- Source `Map.removeAir`. -/
def Map.removeAir (m : Map) (x y z : Int) : Map :=
  if !m.IsInside x y z || decide (z = (m.depth : Int) - 1) then m
  else if !m.hasGeometry x y z then m
  else
    match m.chunkAt x y with
    | none => m
    | some i =>
      let r := (m.chunkOf i).remove (posOf x y z)
      if r.2 then (m.setChunk i r.1).setGeometry x y z false
      else m.setChunk i r.1

/-- The six neighbours in the order of the source. -/
def neighbors (x y z : Int) : List (Int × Int × Int) :=
  [(x, y + 1, z), (x, y - 1, z), (x + 1, y, z), (x - 1, y, z), (x, y, z + 1), (x, y, z - 1)]

/-- One iteration of the loop of `Map.updateNeighborSurfaces`. -/
def Map.updateNeighbor (m : Map) (n : Int × Int × Int) : Map :=
  if m.IsSolid n.1 n.2.1 n.2.2 && !m.OnSurface n.1 n.2.1 n.2.2 then
    m.removeAir n.1 n.2.1 n.2.2
  else m

/-- Source `Map.updateNeighborSurfaces`. -/
def Map.updateNeighborSurfaces (m : Map) (x y z : Int) : Map :=
  (neighbors x y z).foldl Map.updateNeighbor m

/-- Source `Map.SetNoOptimize`. -/
def Map.SetNoOptimize (m : Map) (x y z : Int) (color : Nat) : Map :=
  if !m.IsInside x y z then m
  else (m.setGeometry x y z true).insertAt x y z color

/-- Source `Map.Set`. -/
def Map.Set (m : Map) (x y z : Int) (color : Nat) : Map :=
  if !m.IsInside x y z then m
  else ((m.setGeometry x y z true).insertAt x y z color).updateNeighborSurfaces x y z

/-- One iteration of the second loop of `Map.SetAir`; `n.2` is `wasSurface`. -/
def Map.exposeNeighbor (m : Map) (n : (Int × Int × Int) × Bool) : Map :=
  if !n.2 && m.OnSurface n.1.1 n.1.2.1 n.1.2.2 then
    m.insertAt n.1.1 n.1.2.1 n.1.2.2 defaultColor
  else m

/-- Source `Map.SetAir`. -/
def Map.SetAir (m : Map) (x y z : Int) : Map :=
  if !m.IsInside x y z || decide (z = (m.depth : Int) - 2) then m
  else
    let ns := (neighbors x y z).map
      (fun n => (n, m.IsSolid n.1 n.2.1 n.2.2 && m.OnSurface n.1 n.2.1 n.2.2))
    ns.foldl Map.exposeNeighbor (m.removeAir x y z)

/-! ## Ground level -/

/-- Source `Map.FindTopBlock`. -/
def Map.FindTopBlock (m : Map) (x y : Int) : Int :=
  if !m.IsInside x y 0 then (m.depth : Int) - 1
  else
    match (List.range m.depth).find? (fun (z : Nat) => m.hasGeometry x y (z : Int)) with
    | some z => (z : Int)
    | none => (m.depth : Int) - 1

/-- The inner loop of `Map.FindGroundLevel`,
`for dz := 1; dz <= minTerrainDepth && z+dz < m.depth; dz++`, which counts the
solid cells directly below `z` and stops at the first one that is air. -/
def Map.solidCount (m : Map) (x y : Int) (z : Nat) : Nat → Nat → Nat → Nat
  | 0, _, count => count
  | fuel + 1, dz, count =>
    if dz ≤ 5 ∧ z + dz < m.depth then
      if m.hasGeometry x y ((z : Int) + (dz : Int)) then m.solidCount x y z fuel (dz + 1) (count + 1)
      else count
    else count

/-- The test in the body of the first loop of `Map.FindGroundLevel`. -/
def Map.isGround (m : Map) (x y : Int) (z : Nat) : Bool :=
  !m.hasGeometry x y (z : Int) && m.hasGeometry x y ((z : Int) + 1) &&
    decide (m.solidCount x y z 5 1 0 ≥ 5)

/-- Source `Map.FindGroundLevel`. -/
def Map.FindGroundLevel (m : Map) (x y : Int) : Int :=
  if !m.IsInside x y 0 then (m.depth : Int) - 1
  else
    match (List.range (m.depth - 5)).find? (fun (z : Nat) => m.isGround x y z) with
    | some z => (z : Int)
    | none =>
      match (List.range' 1 (m.depth - 1)).find?
          (fun (z : Nat) => !m.hasGeometry x y ((z : Int) - 1) && m.hasGeometry x y (z : Int)) with
      | some z => (z : Int) - 1
      | none => (m.depth : Int) - 1

/-! ## Loading -/

/-- The ways in which loading stops without a map: the two errors that
`loadFromData` returns, a run time panic of an index or slice expression, and
the exhaustion of the iteration budget of the embedding. -/
inductive LoadFailure where
  | unexpectedEnd
  | spanExceeds
  | indexPanic
  | outOfFuel
deriving DecidableEq, Repr

/-- The columns in the order of the loops `for y { for x { ... } }`. -/
def columns (width height : Nat) : List (Int × Int) :=
  (List.range height).flatMap
    (fun (y : Nat) => (List.range width).map (fun (x : Nat) => ((x : Int), (y : Int))))

/-- The loop `for z := int(s.airStart); z < int(s.colorStart); z++ { m.setGeometry(x, y, z, false) }`. -/
def Map.clearAir (m : Map) (x y : Int) (s : span) : Map :=
  (List.range' s.airStart (s.colorStart - s.airStart)).foldl
    (fun (m : Map) (z : Nat) => m.setGeometry x y (z : Int) false) m

/-- One iteration of the colour loop of `loadFromData`: `none` when an index
into `colorData` is out of range. -/
def loadColor (x y : Int) (s : span) (colorData : List Nat) (c : Option chunk) (z : Nat) :
    Option chunk :=
  match c with
  | none => none
  | some c =>
    let idx := (z - s.colorStart) * 4
    if idx + 3 < colorData.length then
      let color := colorData.getD idx 0 ||| (colorData.getD (idx + 1) 0 <<< 8) |||
        (colorData.getD (idx + 2) 0 <<< 16) ||| (colorData.getD (idx + 3) 0 <<< 24)
      some (c.append (posOf x y (z : Int)) (color &&& 0xFFFFFF))
    else none

/-- The loop `for z := int(s.colorStart); z <= int(s.colorEnd); z++ { ... c.append(...) }`. -/
def loadColors (x y : Int) (s : span) (colorData : List Nat) (c : chunk) : Option chunk :=
  (List.range' s.colorStart (s.colorEnd + 1 - s.colorStart)).foldl
    (loadColor x y s colorData) (some c)

/-- The span loop `for { ... }` of one column of `loadFromData`, from byte
`offset` on; `i` is the index of the chunk of the column. The result is the
map and the offset behind the column. -/
def Map.loadColumn (data : List Nat) (x y : Int) (i : Nat) :
    Nat → Map → Nat → Except LoadFailure (Map × Nat)
  | 0, _, _ => .error .outOfFuel
  | fuel + 1, m, offset =>
    if offset + 4 > data.length then .error .unexpectedEnd
    else
      let s : span := { length := data.getD offset 0, colorStart := data.getD (offset + 1) 0,
                        colorEnd := data.getD (offset + 2) 0, airStart := data.getD (offset + 3) 0 }
      let length := s.dataLength
      if (offset : Int) + length > data.length then .error .spanExceeds
      else if (offset : Int) + length < (offset : Int) + 4 then .error .indexPanic
      else
        let colorData := (data.drop (offset + 4)).take (length.toNat - 4)
        let m1 := m.clearAir x y s
        match loadColors x y s colorData (m1.chunkOf i) with
        | none => .error .indexPanic
        | some c =>
          let m2 := m1.setChunk i c
          if s.length = 0 then .ok (m2, offset + length.toNat)
          else Map.loadColumn data x y i fuel m2 (offset + length.toNat)

/-- The two outer loops of `loadFromData` over the remaining columns. -/
def Map.loadColumns (data : List Nat) :
    List (Int × Int) → Map → Nat → Except LoadFailure (Map × Nat)
  | [], m, offset => .ok (m, offset)
  | (x, y) :: rest, m, offset =>
    match m.chunkAt x y with
    | none => Map.loadColumns data rest m offset
    | some i =>
      match Map.loadColumn data x y i (data.length + 1) m offset with
      | .ok (m1, offset1) => Map.loadColumns data rest m1 offset1
      | .error e => .error e

/-- Source `Map.loadFromData`. -/
def Map.loadFromData (m : Map) (data : List Nat) : Except LoadFailure Map :=
  match Map.loadColumns data (columns m.width m.height) m 0 with
  | .ok (m1, _) => .ok m1
  | .error e => .error e

/-- The statement `if m.hasGeometry(x, y, z) && !m.OnSurface(x, y, z) { insert default colour }`
of `addEdgeBlocks`. -/
def Map.addEdge (m : Map) (x y z : Int) : Map :=
  if m.hasGeometry x y z && !m.OnSurface x y z then m.insertAt x y z defaultColor else m

/-- The body of the loop over `z` of `addEdgeBlocks`. -/
def Map.addEdgeLayer (m : Map) (z : Nat) : Map :=
  let m1 := (List.range m.width).foldl
    (fun (m : Map) (x : Nat) => (m.addEdge (x : Int) 0 (z : Int)).addEdge (x : Int) ((m.height : Int) - 1) (z : Int)) m
  (List.range m.height).foldl
    (fun (m : Map) (y : Nat) => (m.addEdge 0 (y : Int) (z : Int)).addEdge ((m.width : Int) - 1) (y : Int) (z : Int)) m1

/-- Source `Map.addEdgeBlocks`. -/
def Map.addEdgeBlocks (m : Map) : Map :=
  (List.range m.depth).foldl Map.addEdgeLayer m

/-- Source `Create`; `data = none` is the `nil` slice. -/
def Create (width height depth : Nat) (data : Option (List Nat)) : Except LoadFailure Map :=
  let m := newMap width height depth
  match data with
  | none =>
    .ok ((columns width height).foldl
      (fun m c => m.Set c.1 c.2 ((depth : Int) - 1) defaultColor) m)
  | some d =>
    let m1 := { m with geometry := m.geometry.map (fun _ => 0xFFFFFFFFFFFFFFFF) }
    match m1.loadFromData d with
    | .ok m2 => .ok m2.addEdgeBlocks
    | .error e => .error e

/-! ## Writing -/

/-- The loop `for k < m.depth && p(k) { k++ }` started with `fuel = m.depth - k`. -/
def scanWhile (p : Nat → Bool) : Nat → Nat → Nat
  | 0, k => k
  | fuel + 1, k => if p k then scanWhile p fuel (k + 1) else k

/-- Little endian encoding of a `uint32`. -/
def le32 (v : Nat) : List Nat :=
  [v % 256, v / 256 % 256, v / 65536 % 256, v / 16777216 % 256]

/-- The loop `for z := int(a); z < int(b); z++ { write m.Get(x, y, z) | 0x7F000000 }`. -/
def Map.writeColors (m : Map) (x y : Int) (a b : Nat) : List Nat :=
  (List.range' a (b - a)).flatMap (fun (z : Nat) => le32 (m.Get x y (z : Int) ||| 0x7F000000))

/-- One iteration of the loop of `writeColumn` started at `k`: the bytes
written and the value of `k` at the end of the iteration. -/
def Map.writeSpan (m : Map) (x y : Int) (k : Nat) : List Nat × Nat :=
  let airStart := toU8 k
  let k1 := scanWhile (fun (k : Nat) => !m.IsSolid x y (k : Int)) (m.depth - k) k
  let topStart := toU8 k1
  let k2 := scanWhile (fun (k : Nat) => m.OnSurface x y (k : Int)) (m.depth - k1) k1
  let topEnd := toU8 k2
  let k3 := scanWhile (fun (k : Nat) => m.IsSolid x y (k : Int) && !m.OnSurface x y (k : Int))
    (m.depth - k2) k2
  let bottomStart := toU8 k3
  let z := scanWhile (fun (z : Nat) => m.OnSurface x y (z : Int)) (m.depth - k3) k3
  let k4 := if z ≠ m.depth then
    scanWhile (fun (k : Nat) => m.OnSurface x y (k : Int)) (m.depth - k3) k3 else k3
  let bottomEnd := toU8 k4
  let topLength := (topEnd + 256 - topStart) % 256
  let bottomLength := (bottomEnd + 256 - bottomStart) % 256
  let colorsLength := (topLength + bottomLength) % 256
  let s : span :=
    { airStart := airStart, colorStart := topStart, colorEnd := (topEnd + 255) % 256,
      length := if k4 = m.depth then 0 else (colorsLength + 1) % 256 }
  ([s.length, s.colorStart, s.colorEnd, s.airStart] ++ m.writeColors x y topStart topEnd ++
    m.writeColors x y bottomStart bottomEnd, k4)

/-- The loop `for k := 0; k < m.depth; { ... }` of `writeColumn` from `k` on. -/
def Map.writeSpans (m : Map) (x y : Int) : Nat → Nat → List Nat
  | 0, _ => []
  | fuel + 1, k =>
    if k < m.depth then
      let r := m.writeSpan x y k
      r.1 ++ (if r.2 = m.depth then [] else m.writeSpans x y fuel r.2)
    else []

/-- Source `Map.writeColumn`: the bytes written for column `(x, y)`. Every iteration
advances `k`, so `m.depth` iterations are enough. -/
def Map.writeColumn (m : Map) (x y : Int) : List Nat := m.writeSpans x y m.depth 0

/-- Source `Map.Write`: the bytes of the buffer. -/
def Map.Write (m : Map) : List Nat :=
  (columns m.width m.height).flatMap (fun c => m.writeColumn c.1 c.2)

/-- The slice that `buf.Bytes()` returns: `nil` when nothing was written. -/
def bufferBytes (b : List Nat) : Option (List Nat) := if b = [] then none else some b

/-! ## Predicates and inputs of the properties -/

/-- The map is built the way `newMap` builds it and its chunks are sound:
the sizes lie in the range of the position packing (12 bits for `x` and `y`,
8 bits for `z`), the geometry slice and the chunk grid have the lengths that
`newMap` allocates, and every chunk holds at most `len(blocks)` entries whose
positions increase strictly. -/
def Map.WF (m : Map) : Prop :=
  m.width ≤ 4096 ∧ m.height ≤ 4096 ∧ m.depth ≤ 256 ∧
  m.geometry.length = (m.width * m.height * m.depth + 63) / 64 ∧
  m.chunks.length =
    (m.width + chunkSize - 1) / chunkSize * ((m.height + chunkSize - 1) / chunkSize) ∧
  ∀ c ∈ m.chunks, c.sorted

instance (m : Map) : Decidable m.WF := by unfold Map.WF; infer_instance

/-- The cell `(x, y, z)` has an entry in the chunk list of its column. -/
def Map.hasEntry (m : Map) (x y z : Int) : Prop :=
  ∃ i, m.chunkAt x y = some i ∧ ∃ b ∈ (m.chunkOf i).entries, b.pos = posOf x y z

instance (m : Map) (x y z : Int) : Decidable (m.hasEntry x y z) := by
  unfold Map.hasEntry
  cases h : m.chunkAt x y with
  | none => exact isFalse (by simp)
  | some i =>
    exact decidable_of_iff (∃ b ∈ (m.chunkOf i).entries, b.pos = posOf x y z) (by simp)

/-- The entry `b` of chunk number `i` is at an in range cell of that chunk
whose geometry bit is set. -/
def Map.entrySolid (m : Map) (i : Nat) (b : block) : Bool :=
  let x : Int := position.X b.pos
  let y : Int := position.Y b.pos
  let z : Int := position.Z b.pos
  decide (posOf x y z = b.pos) && decide (m.chunkAt x y = some i) && m.hasGeometry x y z

/-- Every chunk list entry is at an in range cell whose geometry bit is set. -/
def Map.entriesSolid (m : Map) : Bool :=
  (List.range m.chunks.length).all (fun i => (m.chunkOf i).entries.all (m.entrySolid i))

/-- What the second loop of `SetAir` keeps: the sizes, the geometry, and the
absence of an entry at position `p` in chunk `i`. -/
def exposeInv (m0 : Map) (i p : Nat) (m : Map) : Prop :=
  m.width = m0.width ∧ m.height = m0.height ∧ m.depth = m0.depth ∧
    m.geometry = m0.geometry ∧ m.chunks.length = m0.chunks.length ∧
    (m.chunkOf i).count ≤ (m.chunkOf i).blocks.length ∧
    ∀ b ∈ (m.chunkOf i).entries, b.pos ≠ p

/-- Two maps of the same sizes whose geometry bits agree except at bit `off`. -/
def sameExcept (off : Nat) (m m' : Map) : Prop :=
  m'.width = m.width ∧ m'.height = m.height ∧ m'.depth = m.depth ∧
    ∀ o, o ≠ off → m'.bit o = m.bit o

/-- The maps of `Create(w, h, d, b)` and of `Create` on what `Write` returns for it. -/
def reload (w h d : Nat) (b : List Nat) : Option (Map × Map) :=
  match Create w h d (some b) with
  | .ok m1 =>
    match Create w h d (bufferBytes m1.Write) with
    | .ok m2 => some (m1, m2)
    | .error _ => none
  | .error _ => none

/-- A 2 x 2 x 8 map stream. Column `(0, 0)` has an overhang: air at `z = 0`,
a block at `z = 1`, air at `z = 2, 3` and ground from `z = 4` on. The other
three columns are air down to the ground at `z = 4`. -/
def overhangStream : List Nat :=
  [2, 1, 1, 0,  1, 2, 3, 0x7F,   0, 4, 4, 2,  4, 5, 6, 0x7F,
   0, 4, 4, 0,  9, 9, 9, 0x7F,
   0, 4, 4, 0,  9, 9, 9, 0x7F,
   0, 4, 4, 0,  9, 9, 9, 0x7F]

/-- The map of `Create(w, h, d, nil)`. -/
def flatWorld (w h d : Nat) : Map :=
  match Create w h d none with
  | .ok m => m
  | .error _ => newMap w h d

/-- A 3 x 3 x 4 map: bedrock at `z = 3` and, on top of it, a plus shaped
slab of five blocks at `z = 2` around the column `(1, 1)`. -/
def plusMap : Map :=
  (((((flatWorld 3 3 4).Set 1 1 2 5).Set 0 1 2 5).Set 2 1 2 5).Set 1 0 2 5).Set 1 2 2 5

/-- A 2 x 2 x 4 map: bedrock at `z = 3` and one block at `(0, 0, 1)`. -/
def pillarMap : Map := (flatWorld 2 2 4).Set 0 0 1 5

/-- A 1 x 1 x 4 map: bedrock at `z = 3` and a block at `(0, 0, 2)` above it. -/
def stackMap : Map := (flatWorld 1 1 4).Set 0 0 2 5

/-- A 3 x 3 x 8 map stream: every column is air at `z = 0` and solid from
`z = 1` on, with one colour for the surface block at `z = 1`. -/
def groundStream : List Nat := (List.replicate 9 [0, 1, 1, 0, 9, 9, 9, 0x7F]).flatten

/-- The map loaded from `groundStream`. -/
def groundMap : Map :=
  match Create 3 3 8 (some groundStream) with
  | .ok m => m
  | .error _ => newMap 3 3 8

/-- The eight bytes of a column that holds the single span
`(length 0, colour_start 63, colour_end 63, air_start 0)` and one colour word
with the low three bytes of `c` and the top byte `0x7F`. -/
def bedrockColumn (c : Nat) : List Nat :=
  [0, 63, 63, 0, c % 256, c / 256 % 256, c / 65536 % 256, 0x7F]

/-- The stream whose columns are `bedrockColumn colors[0]`, `bedrockColumn colors[1]`, ... -/
def bedrockStream (colors : List Nat) : List Nat := colors.flatMap bedrockColumn

/-- The word of a geometry column after the air cells `zs` were cleared. -/
def clearBits (v : Nat) (zs : List Nat) : Nat :=
  zs.foldl (fun v z => v &&& (18446744073709551615 ^^^ (1 <<< z))) v

/-- The map after the column `bedrockColumn c` was loaded for column `(x, y)` of chunk `i`. -/
def Map.withBedrock (m : Map) (x y : Int) (i c : Nat) : Map :=
  { m with
    geometry := m.geometry.set (x.toNat + y.toNat * m.width)
      (clearBits (m.geometry.getD (x.toNat + y.toNat * m.width) 0) (List.range' 0 63))
    chunks := m.chunks.set i ((m.chunkOf i).append (posOf x y 63) (c % 16777216)) }

/-- One step of loading a stream of bedrock columns: column `p.1` gets the colour `p.2`. -/
def Map.loadBedrock (m : Map) (p : (Int × Int) × Nat) : Map :=
  match m.chunkAt p.1.1 p.1.2 with
  | none => m
  | some i => m.withBedrock p.1.1 p.1.2 i p.2

/-- The slice of a chunk can take one more entry the way `append` stores it. -/
def chunk.ok (c : chunk) : Prop := 0 < c.blocks.length ∧ c.count ≤ c.blocks.length

/-- The chunk list entry that loading a bedrock column creates. -/
def bedrockEntry (p : (Int × Int) × Nat) : block :=
  { pos := posOf p.1.1 p.1.2 63, color := p.2 % 16777216 }

/-- The map that `Create` starts loading into: `newMap` with all geometry bits set. -/
def solidMap (w h d : Nat) : Map :=
  { newMap w h d with
    geometry := (newMap w h d).geometry.map (fun _ => 0xFFFFFFFFFFFFFFFF) }

/-- The map after the bedrock columns with the colours `cs` were loaded. -/
def bedrockMap (w h : Nat) (cs : List Nat) : Map :=
  ((columns w h).zip cs).foldl Map.loadBedrock (solidMap w h 64)

/-- Geometry of a map of depth 64 in which exactly the cells with `z = 63` are solid. -/
def Map.bedrockOnly (m : Map) : Prop :=
  m.depth = 64 ∧ m.geometry = List.replicate (m.width * m.height) 9223372036854775808

/-- Row major order of columns, the order of the loops `for y { for x { ... } }`. -/
def rowMajor (a b : Int × Int) : Prop := a.2 < b.2 ∨ (a.2 = b.2 ∧ a.1 < b.1)

/-- Geometry of a map of depth 64 while `Create` places the bedrock layer:
every word is `0` or `2 ^ 63`. -/
def Map.bedrockPartial (m : Map) : Prop :=
  m.depth = 64 ∧ m.geometry.length = m.width * m.height ∧
    ∀ K, K < m.geometry.length →
      m.geometry.getD K 0 = 0 ∨ m.geometry.getD K 0 = 9223372036854775808

/-- Colours for a 4097 x 2 map: `0` for every column but the last one, which has colour `1`. -/
def wideColors : List Nat := List.replicate 8193 0 ++ [1]

/-- Ground in the words of the property: `z < depth - 5`, cell `z` of column
`(x, y)` is air and the cells `z + 1 .. z + 5` are all solid. -/
def Map.groundAt (m : Map) (x y : Int) (z : Nat) : Prop :=
  z + 5 < m.depth ∧ m.hasGeometry x y (z : Int) = false ∧
    ∀ i : Nat, 1 ≤ i → i ≤ 5 → m.hasGeometry x y ((z : Int) + (i : Int)) = true

/-- An air to solid transition in the words of the property: `1 <= z < depth`,
cell `z - 1` is air and cell `z` is solid. -/
def Map.transitionAt (m : Map) (x y : Int) (z : Nat) : Prop :=
  1 ≤ z ∧ z < m.depth ∧ m.hasGeometry x y ((z : Int) - 1) = false ∧
    m.hasGeometry x y (z : Int) = true

end vxl

namespace protocol

/-! ## Extension info packet -/

structure ExtensionEntry where
  ExtensionID : Nat
  ExtensionVersion : Nat
deriving DecidableEq, Repr

structure PacketExtensionInfo where
  PacketID : Nat
  Length : Nat
  Entries : List ExtensionEntry
deriving DecidableEq, Repr

/-- The loop `for i, entry := range p.Entries { buf[2+i*2] = ...; buf[2+i*2+1] = ... }`
from entry number `i` on. -/
def writeEntries : List ExtensionEntry → Nat → List Nat → List Nat
  | [], _, buf => buf
  | entry :: rest, i, buf =>
    writeEntries rest (i + 1)
      ((buf.set (2 + i * 2) entry.ExtensionID).set (2 + i * 2 + 1) entry.ExtensionVersion)

/-- Source `PacketExtensionInfo.Write`: the bytes handed to the writer. -/
def PacketExtensionInfo.Write (p : PacketExtensionInfo) : List Nat :=
  let buf := List.replicate (2 + p.Entries.length * 2) 0
  let buf := buf.set 0 p.PacketID
  let buf := buf.set 1 p.Length
  writeEntries p.Entries 0 buf

inductive ReadError where
  | tooShort
  | tooShortForEntries
deriving DecidableEq, Repr

/-- Source `PacketExtensionInfo.Read`, called on the packet `p`: the packet after the
call, or the error. -/
def PacketExtensionInfo.Read (p : PacketExtensionInfo) (data : List Nat) :
    Except ReadError PacketExtensionInfo :=
  if data.length < 2 then .error .tooShort
  else
    let length := data.getD 1 0
    let expectedLen := 2 + length * 2
    if data.length < expectedLen then .error .tooShortForEntries
    else
      .ok { p with
        Length := length
        Entries := (List.range length).map (fun i =>
          { ExtensionID := data.getD (2 + i * 2) 0,
            ExtensionVersion := data.getD (2 + i * 2 + 1) 0 }) }

/-- The zero value `var packet PacketExtensionInfo`. -/
def PacketExtensionInfo.fresh : PacketExtensionInfo :=
  { PacketID := 0, Length := 0, Entries := [] }

/-- The extension info packet that `sendExtensionInfo` announces `PlayerProperties` with,
its length field filled in. -/
def sampleExtensionInfo : PacketExtensionInfo :=
  { PacketID := 60, Length := 1, Entries := [{ ExtensionID := 0, ExtensionVersion := 1 }] }

/-! ## State data packet -/

def GamemodeTypeCTF : Nat := 0
def GamemodeTypeTC : Nat := 1

structure Vector3f where
  X : Nat
  Y : Nat
  Z : Nat
deriving DecidableEq, Repr

structure Color3b where
  B : Nat
  G : Nat
  R : Nat
deriving DecidableEq, Repr

structure CTFStateData where
  Team1Score : Nat
  Team2Score : Nat
  CaptureLimit : Nat
  HeldIntels : Nat
  CarrierIDs : Nat × Nat
  Team1Intel : Vector3f
  Team2Intel : Vector3f
  Team1Base : Vector3f
  Team2Base : Vector3f
deriving DecidableEq, Repr

structure Territory where
  X : Nat
  Y : Nat
  Z : Nat
  Team : Nat
deriving DecidableEq, Repr

structure TCStateData where
  TerritoryCount : Nat
  Territories : { l : List Territory // l.length = 16 }
deriving DecidableEq

structure PacketStateData where
  PacketID : Nat
  PlayerID : Nat
  FogColor : Color3b
  Team1Color : Color3b
  Team2Color : Color3b
  Team1Name : { l : List Nat // l.length = 10 }
  Team2Name : { l : List Nat // l.length = 10 }
  Gamemode : Nat
  CTFState : CTFStateData
  TCState : TCStateData
deriving DecidableEq

/-- Source `binary.Write(&buf, binary.LittleEndian, value)` for a `float32` given by
its bit pattern; writing to a `bytes.Buffer` does not fail. -/
def writeFloat (bits : Nat) : List Nat :=
  [bits % 256, bits / 256 % 256, bits / 65536 % 256, bits / 16777216 % 256]

/-- Three floats of a vector. -/
def writeVector (v : Vector3f) : List Nat := writeFloat v.X ++ writeFloat v.Y ++ writeFloat v.Z

/-- The loop `for err == nil && buf.Len() < 104 { buf.WriteByte(0) }`. -/
def padLoop : Nat → List Nat → List Nat
  | 0, buf => buf
  | fuel + 1, buf => if buf.length < 104 then padLoop fuel (buf ++ [0]) else buf

/-- The fixed prefix that `PacketStateData.Write` starts with. -/
def PacketStateData.writeHeader (p : PacketStateData) : List Nat :=
  [p.PacketID, p.PlayerID,
   p.FogColor.B, p.FogColor.G, p.FogColor.R,
   p.Team1Color.B, p.Team1Color.G, p.Team1Color.R,
   p.Team2Color.B, p.Team2Color.G, p.Team2Color.R] ++
  p.Team1Name.val ++ p.Team2Name.val ++ [p.Gamemode]

/-- The twelve bytes of an intel: the carrier and eleven zero bytes when it is
held, its position otherwise. -/
def writeIntel (held : Bool) (carrier : Nat) (position : Vector3f) : List Nat :=
  if held then [carrier] ++ List.replicate 11 0 else writeVector position

/-- The byte `intelFlags` of the CTF branch. -/
def intelFlags (heldIntels : Nat) : Nat :=
  let team1HasEnemyIntel := (heldIntels &&& 2) ≠ 0
  let team2HasEnemyIntel := (heldIntels &&& 1) ≠ 0
  let flags := if team1HasEnemyIntel then 0 ||| 1 else 0
  if team2HasEnemyIntel then flags ||| 2 else flags

/-- The bytes that the territory control branch appends. -/
def TCStateData.write (t : TCStateData) : List Nat :=
  [t.TerritoryCount] ++
    ((t.Territories.val.take (min t.TerritoryCount 16)).flatMap (fun territory =>
      writeFloat territory.X ++ writeFloat territory.Y ++ writeFloat territory.Z ++
        [territory.Team]))

/-- Source `PacketStateData.Write`: the bytes handed to the writer. -/
def PacketStateData.Write (p : PacketStateData) : List Nat :=
  let buf := p.writeHeader
  if p.Gamemode = GamemodeTypeCTF then
    let team1HasEnemyIntel := (p.CTFState.HeldIntels &&& 2) ≠ 0
    let team2HasEnemyIntel := (p.CTFState.HeldIntels &&& 1) ≠ 0
    let buf := buf ++ [p.CTFState.Team1Score, p.CTFState.Team2Score, p.CTFState.CaptureLimit]
    let buf := buf ++ [intelFlags p.CTFState.HeldIntels]
    let buf := buf ++ writeIntel team2HasEnemyIntel p.CTFState.CarrierIDs.1 p.CTFState.Team1Intel
    let buf := buf ++ writeIntel team1HasEnemyIntel p.CTFState.CarrierIDs.2 p.CTFState.Team2Intel
    let buf := buf ++ writeVector p.CTFState.Team1Base ++ writeVector p.CTFState.Team2Base
    padLoop 104 buf
  else if p.Gamemode = GamemodeTypeTC then buf ++ p.TCState.write
  else buf

end protocol

namespace f32

/-! ## Single precision arithmetic

A `float32` is its IEEE 754 bit pattern. The operations decode the pattern,
compute the exact result and round it to the nearest representable value, ties
to even, as the hardware does. A finite magnitude is counted in units of
`2^(-149)`, the smallest subnormal, so that every finite value is an integer. -/

/-- The value that a bit pattern stands for; `finite neg mag` is
`(-1)^neg * mag * 2^(-149)`. -/
inductive Value where
  | nan
  | inf (neg : Bool)
  | finite (neg : Bool) (mag : Nat)
deriving DecidableEq, Repr

/-- Value of a 32 bit pattern: sign bit, eight exponent bits, 23 fraction bits. -/
def decode (b : Nat) : Value :=
  let neg := decide (b / 2147483648 % 2 = 1)
  let e := b / 8388608 % 256
  let f := b % 8388608
  if e = 255 then (if f = 0 then .inf neg else .nan)
  else if e = 0 then .finite neg f
  else .finite neg ((8388608 + f) * 2 ^ (e - 1))

def signBit (neg : Bool) : Nat := if neg then 2147483648 else 0

/-- The loop that counts how often `n` can be halved before it is below `2`. -/
def log2Loop : Nat → Nat → Nat
  | 0, _ => 0
  | fuel + 1, n => if n < 2 then 0 else log2Loop fuel (n / 2) + 1

/-- Index of the highest set bit of `n`, and `0` for `0`. -/
def log2 (n : Nat) : Nat := log2Loop n n

/-- Exponent and fraction bits of a representable magnitude. -/
def encodeMag (mag : Nat) : Nat :=
  if mag < 8388608 then mag
  else
    let e := log2 mag - 22
    e * 8388608 + (mag / 2 ^ (e - 1) - 8388608)

/-- Bit pattern of a value; the quiet NaN `0x7FC00000` stands for every NaN. -/
def encode : Value → Nat
  | .nan => 0x7FC00000
  | .inf neg => signBit neg + 0x7F800000
  | .finite neg mag => signBit neg + encodeMag mag

/-- Rounds the magnitude `a * 2^(-149-u)` to the nearest representable magnitude,
ties to even; `none` when the result is too large to be finite. -/
def roundMag (a u : Nat) : Option Nat :=
  let q := if u ≤ log2 a - 23 then log2 a - 23 else u
  let fl := a / 2 ^ q
  let rem := a % 2 ^ q
  let m := if 2 * rem > 2 ^ q ∨ (2 * rem = 2 ^ q ∧ fl % 2 = 1) then fl + 1 else fl
  let r := m * 2 ^ (q - u)
  if r < 2 ^ 277 then some r else none

/-- The value nearest to `(-1)^neg * a * 2^(-149-u)`. -/
def ofMag (neg : Bool) (a u : Nat) : Value :=
  match roundMag a u with
  | some r => .finite neg r
  | none => .inf neg

/-- A finite value as an integer multiple of `2^(-149)`. -/
def signed (neg : Bool) (mag : Nat) : Int := if neg then -(mag : Int) else (mag : Int)

def addValue : Value → Value → Value
  | .nan, _ => .nan
  | _, .nan => .nan
  | .inf s, .inf t => if s = t then .inf s else .nan
  | .inf s, .finite _ _ => .inf s
  | .finite _ _, .inf t => .inf t
  | .finite s a, .finite t b =>
    let v := signed s a + signed t b
    if v = 0 then .finite (s && t) 0 else ofMag (decide (v < 0)) v.natAbs 0

def mulValue : Value → Value → Value
  | .nan, _ => .nan
  | _, .nan => .nan
  | .inf s, .inf t => .inf (s != t)
  | .inf s, .finite t b => if b = 0 then .nan else .inf (s != t)
  | .finite s a, .inf t => if a = 0 then .nan else .inf (s != t)
  | .finite s a, .finite t b => ofMag (s != t) (a * b) 149

/-- Position of a value on the extended number line, NaN apart. -/
def Value.key : Value → Int
  | .nan => 0
  | .inf neg => if neg then -(2 ^ 300 : Int) else (2 ^ 300 : Int)
  | .finite neg mag => signed neg mag

def Value.isNaN : Value → Bool
  | .nan => true
  | _ => false

/-- Go `-x`: the sign bit is flipped. -/
def neg (x : Nat) : Nat := if x < 2147483648 then x + 2147483648 else x - 2147483648

/-- Go `x + y` on `float32`. -/
def add (x y : Nat) : Nat := encode (addValue (decode x) (decode y))

/-- Go `x - y` on `float32`. -/
def sub (x y : Nat) : Nat := encode (addValue (decode x) (decode (neg y)))

/-- Go `x * y` on `float32`. -/
def mul (x y : Nat) : Nat := encode (mulValue (decode x) (decode y))

/-- Go `x < y`; false when either side is NaN. -/
def lt (x y : Nat) : Bool :=
  !(decode x).isNaN && !(decode y).isNaN && decide ((decode x).key < (decode y).key)

/-- Go `x >= y`; false when either side is NaN. -/
def ge (x y : Nat) : Bool :=
  !(decode x).isNaN && !(decode y).isNaN && decide ((decode y).key ≤ (decode x).key)

/-- Go `x > y`; false when either side is NaN. -/
def gt (x y : Nat) : Bool := lt y x

/-- The value that the conversion of a float to `int` gives on amd64 when the
float is NaN, infinite or outside the 64 bit range. -/
def intIndefinite : Int := -9223372036854775808

def inInt64 (v : Int) : Bool := decide (-9223372036854775808 ≤ v ∧ v ≤ 9223372036854775807)

/-- Go `int(math.Floor(float64(x)))`. -/
def floorInt (x : Nat) : Int :=
  match decode x with
  | .finite s a =>
    let v := Int.fdiv (signed s a) (2 ^ 149)
    if inInt64 v then v else intIndefinite
  | _ => intIndefinite

/-- Go `int(x)` for a `float32`: the fraction is discarded. -/
def toInt (x : Nat) : Int :=
  match decode x with
  | .finite s a =>
    let v := Int.tdiv (signed s a) (2 ^ 149)
    if inInt64 v then v else intIndefinite
  | _ => intIndefinite

/-- Go `math.Abs(float64(x)) > c` for the `float64` constant `c = num * 2^(-52)`. -/
def absGt (x : Nat) (num : Nat) : Bool :=
  match decode x with
  | .nan => false
  | .inf _ => true
  | .finite _ a => decide (num * 2 ^ 97 < a)

/-- Go `float32(v)` for an `int`. -/
def ofInt (v : Int) : Nat :=
  encode (if v = 0 then .finite false 0 else ofMag (decide (v < 0)) (v.natAbs * 2 ^ 149) 0)

def one : Nat := 0x3F800000
def half : Nat := 0x3F000000

end f32

namespace protocol

/-! ## Enumerations and loadout constants -/

def WeaponTypeRifle : Nat := 0
def WeaponTypeSMG : Nat := 1
def WeaponTypeShotgun : Nat := 2

def ItemTypeSpade : Nat := 0
def ItemTypeBlock : Nat := 1
def ItemTypeGun : Nat := 2
def ItemTypeGrenade : Nat := 3

def HitTypeTorso : Nat := 0
def HitTypeHead : Nat := 1
def HitTypeArms : Nat := 2
def HitTypeLegs : Nat := 3
def HitTypeMelee : Nat := 4

def KillTypeWeapon : Nat := 0
def KillTypeHeadshot : Nat := 1
def KillTypeMelee : Nat := 2
def KillTypeGrenade : Nat := 3

def BlockActionTypeGrenadeDestroy : Nat := 3
def PacketTypeBlockAction : Nat := 13

def InitialBlocks : Nat := 50
def InitialGrenades : Nat := 3
def InitialHP : Nat := 100
def MaxHP : Nat := 100
def MaxBlocks : Nat := 50
def MaxGrenades : Nat := 3

/-- Source `GetDefaultMagazineAmmo`. -/
def GetDefaultMagazineAmmo (weapon : Nat) : Nat :=
  if weapon = WeaponTypeRifle then 10
  else if weapon = WeaponTypeSMG then 30
  else if weapon = WeaponTypeShotgun then 6
  else 0

/-- Source `GetDefaultReserveAmmo`. -/
def GetDefaultReserveAmmo (weapon : Nat) : Nat :=
  if weapon = WeaponTypeRifle then 50
  else if weapon = WeaponTypeSMG then 120
  else if weapon = WeaponTypeShotgun then 48
  else 0

/-- Source `GetFireDelay`, in milliseconds. -/
def GetFireDelay (weapon : Nat) : Nat :=
  if weapon = WeaponTypeRifle then 500
  else if weapon = WeaponTypeSMG then 100
  else if weapon = WeaponTypeShotgun then 1000
  else 0

/-- The fields `X, Y, Z int32` of `Vector3i` and of `PacketBlockAction`. -/
structure PacketBlockAction where
  PacketID : Nat
  PlayerID : Nat
  Action : Nat
  X : Int
  Y : Int
  Z : Int
deriving DecidableEq, Repr

/-- Source `PacketHit`. -/
structure PacketHit where
  PacketID : Nat
  PlayerID : Nat
  HitType : Nat
deriving DecidableEq, Repr

/-- Conversion `int32(v)` of a Go `int`. -/
def toI32 (v : Int) : Int := (v + 2147483648) % 4294967296 - 2147483648

end protocol

namespace player

open protocol

/-! ## Player records

Times (`time.Time`) and clock readings (`GetClock()`) are nanosecond counts that
the caller of an operation passes in. -/

def PlayerStateDisconnected : Nat := 0
def PlayerStateConnecting : Nat := 1
def PlayerStateLoading : Nat := 2
def PlayerStateWaitingForExistingPlayer : Nat := 3
def PlayerStateReady : Nat := 4
def PlayerStateDead : Nat := 5

/-- The fields of `Player` that the modelled operations read or write. -/
structure Player where
  ID : Nat
  Name : List Nat
  Team : Nat
  Weapon : Nat
  Tool : Nat
  Position : Vector3f
  EyePos : Vector3f
  Velocity : Vector3f
  HP : Nat
  Blocks : Nat
  Grenades : Nat
  MagazineAmmo : Nat
  ReserveAmmo : Nat
  Kills : Nat
  Deaths : Nat
  Alive : Bool
  Crouching : Bool
  Airborne : Bool
  Wade : Bool
  State : Nat
  Jumping : Bool
  LastClimb : Nat
  RespawnTime : Nat
  LastShotTime : Nat
  Reloading : Bool
  ReloadTime : Nat
  HasIntel : Bool
  NextBulletFireClock : Nat
  ReloadClock : Nat
  Permissions : Nat
deriving DecidableEq, Repr

/-- Source `New`: every field that the literal leaves out has its zero value. -/
def New (id : Nat) : Player :=
  { ID := id, Name := [], Team := 0, Weapon := 0, Tool := 0,
    Position := ⟨0, 0, 0⟩, EyePos := ⟨0, 0, 0⟩, Velocity := ⟨0, 0, 0⟩,
    HP := InitialHP, Blocks := InitialBlocks, Grenades := InitialGrenades,
    MagazineAmmo := 0, ReserveAmmo := 0, Kills := 0, Deaths := 0,
    Alive := false, Crouching := false, Airborne := false, Wade := false,
    State := PlayerStateConnecting, Jumping := false, LastClimb := 0,
    RespawnTime := 0, LastShotTime := 0, Reloading := false, ReloadTime := 0,
    HasIntel := false, NextBulletFireClock := 0, ReloadClock := 0, Permissions := 0 }

/-- The assignment `p.HasIntel = b`. -/
def Player.setHasIntel (p : Player) (b : Bool) : Player := { p with HasIntel := b }

/-- Source `Player.SetTeam`. -/
def Player.SetTeam (p : Player) (team : Nat) : Player := { p with Team := team }

/-- Source `Player.SetWeapon`. -/
def Player.SetWeapon (p : Player) (weapon : Nat) : Player :=
  { p with Weapon := weapon, MagazineAmmo := GetDefaultMagazineAmmo weapon,
           ReserveAmmo := GetDefaultReserveAmmo weapon }

/-- Source `Player.Damage`; `Deaths` is a `uint32`. -/
def Player.Damage (p : Player) (amount : Nat) (_source : Vector3f) (_damageType : Nat) : Player :=
  if !p.Alive || decide (p.HP = 0) then p
  else if amount ≥ p.HP then
    { p with HP := 0, Alive := false, Deaths := (p.Deaths + 1) % 4294967296 }
  else { p with HP := p.HP - amount }

/-- Source `Player.Kill`. -/
def Player.Kill (p : Player) : Player :=
  { p with HP := 0, Alive := false, Deaths := (p.Deaths + 1) % 4294967296 }

/-- Source `Player.Respawn`. -/
def Player.Respawn (p : Player) (position : Vector3f) : Player :=
  { p with HP := InitialHP, Blocks := InitialBlocks, Grenades := InitialGrenades,
           MagazineAmmo := GetDefaultMagazineAmmo p.Weapon,
           ReserveAmmo := GetDefaultReserveAmmo p.Weapon,
           Position := position, EyePos := position, Alive := true,
           State := PlayerStateReady, Velocity := ⟨0, 0, 0⟩, Airborne := false,
           Crouching := false, Wade := false, Jumping := false, LastClimb := 0,
           Tool := ItemTypeGun, Reloading := false, HasIntel := false }

/-- Source `Player.Restock`. -/
def Player.Restock (p : Player) : Player :=
  let p := if p.Blocks < MaxBlocks then { p with Blocks := MaxBlocks } else p
  let p := if p.Grenades < MaxGrenades then { p with Grenades := MaxGrenades } else p
  let p := if p.HP < MaxHP then { p with HP := MaxHP } else p
  { p with MagazineAmmo := GetDefaultMagazineAmmo p.Weapon,
           ReserveAmmo := GetDefaultReserveAmmo p.Weapon, Reloading := false }

/-- Source `Player.Shoot`; `currentClock` is the reading of `GetClock()` and
`now` that of `time.Now()`. The clocks are `uint64`. -/
def Player.Shoot (p : Player) (currentClock now : Nat) : Player × Bool :=
  if !p.Alive || decide (p.Tool ≠ ItemTypeGun) || p.Reloading || decide (p.MagazineAmmo = 0) then
    (p, false)
  else if currentClock < p.NextBulletFireClock then (p, false)
  else
    let fireDelayNanos := GetFireDelay p.Weapon * 1000000 % 18446744073709551616
    ({ p with MagazineAmmo := p.MagazineAmmo - 1, LastShotTime := now,
              NextBulletFireClock := (currentClock + fireDelayNanos) % 18446744073709551616 },
     true)

/-- Source `Player.StartReload`. -/
def Player.StartReload (p : Player) (currentClock now : Nat) : Player × Bool :=
  if !p.Alive || p.Reloading || decide (p.ReserveAmmo = 0) then (p, false)
  else if p.MagazineAmmo ≥ GetDefaultMagazineAmmo p.Weapon then (p, false)
  else
    ({ p with Reloading := true, ReloadTime := now + 2500000000,
              ReloadClock := (currentClock + 2500 * 1000000) % 18446744073709551616 },
     true)

/-- Source `Player.FinishReload`; the ammunition counters are `uint8`. -/
def Player.FinishReload (p : Player) : Player :=
  if !p.Reloading then p
  else
    let maxAmmo := GetDefaultMagazineAmmo p.Weapon
    let needed := (maxAmmo + 256 - p.MagazineAmmo % 256) % 256
    let needed := if needed > p.ReserveAmmo then p.ReserveAmmo else needed
    { p with MagazineAmmo := (p.MagazineAmmo + needed) % 256,
             ReserveAmmo := (p.ReserveAmmo + 256 - needed) % 256, Reloading := false }

/-- An operation on a player record together with its arguments. -/
inductive Op where
  | Damage (amount : Nat) (source : Vector3f) (damageType : Nat)
  | Kill
  | Respawn (position : Vector3f)
  | Restock
  | SetWeapon (weapon : Nat)
  | Shoot (currentClock now : Nat)
  | StartReload (currentClock now : Nat)
  | FinishReload
deriving DecidableEq, Repr

/-- The record after one operation. -/
def Op.apply : Op → Player → Player
  | .Damage amount source damageType, p => p.Damage amount source damageType
  | .Kill, p => p.Kill
  | .Respawn position, p => p.Respawn position
  | .Restock, p => p.Restock
  | .SetWeapon weapon, p => p.SetWeapon weapon
  | .Shoot currentClock now, p => (p.Shoot currentClock now).1
  | .StartReload currentClock now, p => (p.StartReload currentClock now).1
  | .FinishReload, p => p.FinishReload

/-- The record after a sequence of operations, the first of the list first. -/
def run (ops : List Op) (p : Player) : Player := ops.foldl (fun q op => op.apply q) p

/-- The bounds on hit points, blocks and grenades, and `Alive` only with
positive hit points. -/
def Player.ok (p : Player) : Prop :=
  p.HP ≤ 100 ∧ p.Blocks ≤ 50 ∧ p.Grenades ≤ 3 ∧ (p.Alive = true → 0 < p.HP)

/-! ## The registry

`Manager.players` is a Go map from id to a pointer to the record; the list
holds the records, and the record of an id is the first one with that id. -/

structure Manager where
  players : List Player
deriving DecidableEq, Repr

/-- Source `NewManager`. -/
def NewManager : Manager := { players := [] }

/-- Source `Manager.Get`. -/
def Manager.Get (m : Manager) (id : Nat) : Option Player :=
  m.players.find? (fun p => decide (p.ID = id))

/-- Source `Manager.Contains`. -/
def Manager.Contains (m : Manager) (id : Nat) : Bool := (m.Get id).isSome

/-- Source `Manager.Add`: `m.players[player.ID] = player`. -/
def Manager.Add (m : Manager) (p : Player) : Manager :=
  { players := p :: m.players.filter (fun q => decide (q.ID ≠ p.ID)) }

/-- The records after a write through the pointer that `Get(id)` returned. -/
def modifyFirst (id : Nat) (f : Player → Player) : List Player → List Player
  | [] => []
  | q :: qs => if q.ID = id then f q :: qs else q :: modifyFirst id f qs

/-- A write through the pointer that `Get(id)` returned. -/
def Manager.modify (m : Manager) (id : Nat) (f : Player → Player) : Manager :=
  { players := modifyFirst id f m.players }

end player

namespace gamestate

open protocol

structure Intel where
  Position : Vector3f
  Held : Bool
  CarrierID : Nat
  Team : Nat
deriving DecidableEq, Repr

/-- The fields of `GameState`, of its `Config` and of its `MapConfig` that
`GetStateData` reads. -/
structure GameState where
  Gamemode : Int
  RemoveIntel : Bool
  FogColor : Int × Int × Int
  Team1Color : Int × Int × Int
  Team2Color : Int × Int × Int
  Team1Name : List Nat
  Team2Name : List Nat
  Team1Score : Nat
  Team2Score : Nat
  CaptureLimit : Nat
  Intel : Intel × Intel
  Base : Vector3f × Vector3f
  IntelSpawnPos : Vector3f × Vector3f := (⟨0, 0, 0⟩, ⟨0, 0, 0⟩)
  Players : player.Manager := player.NewManager
  Map : vxl.Map := vxl.newMap 0 0 0
deriving DecidableEq

def GamemodeCTF : Int := 0
def GamemodeTC : Int := 1
def GamemodeBabel : Int := 2
def GamemodeTDM : Int := 3
def GamemodeArena : Int := 4

/-- Source `config.ParseGamemode`, the identifier it returns (`0` with the error). -/
def ParseGamemode (id : Int) : Int :=
  if id = 0 then GamemodeCTF
  else if id = 1 then GamemodeTC
  else if id = 2 then GamemodeBabel
  else if id = 3 then GamemodeTDM
  else if id = 4 then GamemodeArena
  else 0

/-- Source `protocolGamemodeFor`. -/
def protocolGamemodeFor (gm : Int) : Nat :=
  if gm = GamemodeTC then GamemodeTypeTC else GamemodeTypeCTF

/-- Source `GameState.intelEnabled`. -/
def GameState.intelEnabled (gs : GameState) : Bool :=
  if ParseGamemode gs.Gamemode = GamemodeTDM ∧ gs.RemoveIntel = true then false else true

/-- Conversion `uint8(v)` of a Go `int`. -/
def toU8 (v : Int) : Nat := (v % 256).toNat

/-- The array that `copy(stateData.Team1Name[:], name)` leaves in a zeroed `[10]byte`. -/
def copyName (name : List Nat) : { l : List Nat // l.length = 10 } :=
  ⟨name.take 10 ++ List.replicate (10 - (name.take 10).length) 0, by
    simp only [List.length_append, List.length_take, List.length_replicate]; omega⟩

/-- The zero value of `TCStateData`. -/
def zeroTC : TCStateData :=
  { TerritoryCount := 0, Territories := ⟨List.replicate 16 ⟨0, 0, 0, 0⟩, by simp⟩ }

/-- The zero value of `CTFStateData`. -/
def zeroCTF : CTFStateData :=
  { Team1Score := 0, Team2Score := 0, CaptureLimit := 0, HeldIntels := 0, CarrierIDs := (0, 0),
    Team1Intel := ⟨0, 0, 0⟩, Team2Intel := ⟨0, 0, 0⟩, Team1Base := ⟨0, 0, 0⟩,
    Team2Base := ⟨0, 0, 0⟩ }

/-- The value `heldIntels` that `GetStateData` computes. -/
def GameState.heldIntels (gs : GameState) : Nat :=
  let held := if gs.intelEnabled && gs.Intel.1.Held then 0 ||| 1 else 0
  if gs.intelEnabled && gs.Intel.2.Held then held ||| 2 else held

/-- Source `GameState.GetStateData`. -/
def GameState.GetStateData (gs : GameState) (playerID : Nat) : PacketStateData :=
  let protoGamemode := protocolGamemodeFor gs.Gamemode
  let ctf : CTFStateData :=
    if protoGamemode = GamemodeTypeCTF then
      { Team1Score := gs.Team1Score, Team2Score := gs.Team2Score,
        CaptureLimit := gs.CaptureLimit, HeldIntels := gs.heldIntels,
        CarrierIDs := if gs.intelEnabled then (gs.Intel.1.CarrierID, gs.Intel.2.CarrierID)
                      else (255, 255),
        Team1Intel := gs.Intel.1.Position, Team2Intel := gs.Intel.2.Position,
        Team1Base := gs.Base.1, Team2Base := gs.Base.2 }
    else zeroCTF
  { PacketID := 15, PlayerID := playerID,
    FogColor := { B := toU8 gs.FogColor.2.2, G := toU8 gs.FogColor.2.1, R := toU8 gs.FogColor.1 },
    Team1Color :=
      { B := toU8 gs.Team1Color.2.2, G := toU8 gs.Team1Color.2.1, R := toU8 gs.Team1Color.1 },
    Team2Color :=
      { B := toU8 gs.Team2Color.2.2, G := toU8 gs.Team2Color.2.1, R := toU8 gs.Team2Color.1 },
    Team1Name := copyName gs.Team1Name, Team2Name := copyName gs.Team2Name,
    Gamemode := protoGamemode, CTFState := ctf, TCState := zeroTC }

/-- A capture the flag state in which a player of team 2 (player 7) carries
the intel of team 1 and the intel of team 2 lies on the ground. -/
def team1IntelTaken : GameState :=
  { Gamemode := GamemodeCTF, RemoveIntel := false,
    FogColor := (128, 232, 255), Team1Color := (0, 0, 255), Team2Color := (0, 255, 0),
    Team1Name := [66, 108, 117, 101], Team2Name := [71, 114, 101, 101, 110],
    Team1Score := 0, Team2Score := 0, CaptureLimit := 10,
    Intel := ({ Position := ⟨0, 0, 0⟩, Held := true, CarrierID := 7, Team := 0 },
              { Position := ⟨0, 0, 0⟩, Held := false, CarrierID := 0, Team := 1 }),
    Base := (⟨0, 0, 0⟩, ⟨0, 0, 0⟩) }

/-! ## Intel operations -/

/-- The fields of `config.Config` and `config.MapConfig` that `New` and the
functions it calls read. A position is the vector of the three conversions
`float32(...)` that the source applies to the configured coordinates. -/
structure Settings where
  Gamemode : Int
  CaptureLimit : Int
  CapLimit : Option Int
  RemoveIntel : Bool
  FogColor : Int × Int × Int
  Team1Color : Int × Int × Int
  Team2Color : Int × Int × Int
  Team1Name : List Nat
  Team2Name : List Nat
  Team1Position : Vector3f
  Team2Position : Vector3f
  Team1Base : Vector3f
  Team2Base : Vector3f
deriving DecidableEq

/-- The vector `{X: 1e9, Y: 1e9, Z: 128}`. -/
def hiddenPos : Vector3f := ⟨0x4E6E6B28, 0x4E6E6B28, 0x43000000⟩

/-- The element `gs.Intel[i]`. -/
def GameState.intelAt (gs : GameState) (i : Nat) : gamestate.Intel :=
  if i = 0 then gs.Intel.1 else gs.Intel.2

/-- The assignment `gs.Intel[i] = v`. -/
def GameState.setIntel (gs : GameState) (i : Nat) (v : gamestate.Intel) : GameState :=
  if i = 0 then { gs with Intel := (v, gs.Intel.2) } else { gs with Intel := (gs.Intel.1, v) }

/-- The element `gs.IntelSpawnPos[i]`. -/
def GameState.spawnPosAt (gs : GameState) (i : Nat) : Vector3f :=
  if i = 0 then gs.IntelSpawnPos.1 else gs.IntelSpawnPos.2

/-- Source `GameState.initCTF`. -/
def GameState.initCTF (gs : GameState) (cfg : Settings) : GameState :=
  { gs with
    Team1Score := 0, Team2Score := 0,
    Intel := ({ Position := cfg.Team1Position, Held := false, CarrierID := 0, Team := 0 },
              { Position := cfg.Team2Position, Held := false, CarrierID := 0, Team := 1 }),
    IntelSpawnPos := (cfg.Team1Position, cfg.Team2Position),
    Base := (cfg.Team1Base, cfg.Team2Base) }

/-- Source `GameState.initBabel`: the second intel is created held. -/
def GameState.initBabel (gs : GameState) (cfg : Settings) : GameState :=
  { gs with
    Team1Score := 0, Team2Score := 0,
    Intel := ({ Position := cfg.Team1Position, Held := false, CarrierID := 0, Team := 0 },
              { Position := hiddenPos, Held := true, CarrierID := 0, Team := 1 }),
    IntelSpawnPos := (cfg.Team1Position, hiddenPos),
    Base := (cfg.Team1Base, cfg.Team2Base) }

/-- Source `GameState.initTDM`. -/
def GameState.initTDM (gs : GameState) (cfg : Settings) : GameState :=
  if gs.intelEnabled then
    { gs with
      Team1Score := 0, Team2Score := 0,
      Intel := ({ Position := cfg.Team1Position, Held := false, CarrierID := 0, Team := 0 },
                { Position := cfg.Team2Position, Held := false, CarrierID := 0, Team := 1 }),
      IntelSpawnPos := (cfg.Team1Position, cfg.Team2Position),
      Base := (cfg.Team1Base, cfg.Team2Base) }
  else
    { gs with
      Team1Score := 0, Team2Score := 0,
      Intel := ({ Position := hiddenPos, Held := false, CarrierID := 0, Team := 0 },
                { Position := hiddenPos, Held := false, CarrierID := 0, Team := 1 }),
      IntelSpawnPos := (hiddenPos, hiddenPos),
      Base := (cfg.Team1Base, cfg.Team2Base) }

/-- Source `GameState.initializeGamemode`. -/
def GameState.initializeGamemode (gs : GameState) (cfg : Settings) : GameState :=
  if gs.Gamemode = GamemodeCTF then gs.initCTF cfg
  else if gs.Gamemode = GamemodeBabel then gs.initBabel cfg
  else if gs.Gamemode = GamemodeTDM ∨ gs.Gamemode = GamemodeTC ∨ gs.Gamemode = GamemodeArena then
    gs.initTDM cfg
  else gs

/-- Source `New`; an identifier that `ParseGamemode` rejects becomes `GamemodeCTF`. -/
def New (cfg : Settings) (vxlMap : vxl.Map) : GameState :=
  let captureLimit := match cfg.CapLimit with
    | some c => toU8 c
    | none => toU8 cfg.CaptureLimit
  let gs : GameState :=
    { Gamemode := ParseGamemode cfg.Gamemode, RemoveIntel := cfg.RemoveIntel,
      FogColor := cfg.FogColor, Team1Color := cfg.Team1Color, Team2Color := cfg.Team2Color,
      Team1Name := cfg.Team1Name, Team2Name := cfg.Team2Name,
      Team1Score := 0, Team2Score := 0, CaptureLimit := captureLimit,
      Intel := ({ Position := ⟨0, 0, 0⟩, Held := false, CarrierID := 0, Team := 0 },
                { Position := ⟨0, 0, 0⟩, Held := false, CarrierID := 0, Team := 0 }),
      Base := (⟨0, 0, 0⟩, ⟨0, 0, 0⟩),
      IntelSpawnPos := (⟨0, 0, 0⟩, ⟨0, 0, 0⟩),
      Players := player.NewManager, Map := vxlMap }
  gs.initializeGamemode cfg

/-- Source `GameState.PickupIntel`. -/
def GameState.PickupIntel (gs : GameState) (playerID team : Nat) : GameState × Bool :=
  if team ≥ 2 then (gs, false)
  else
    let oppositeTeam := 1 - team
    if (gs.intelAt oppositeTeam).Held then (gs, false)
    else
      match gs.Players.Get playerID with
      | none => (gs, false)
      | some p =>
        if !p.Alive || decide (p.Team ≠ team) then (gs, false)
        else
          let gs := gs.setIntel oppositeTeam
            { gs.intelAt oppositeTeam with Held := true, CarrierID := playerID }
          ({ gs with Players := gs.Players.modify playerID (fun q => q.setHasIntel true) },
           true)

/-- The clamp `max(0, min(v, size-1))`. -/
def clampIndex (v : Int) (size : Nat) : Int :=
  let low := if v ≤ (size : Int) - 1 then v else (size : Int) - 1
  if 0 ≤ low then low else 0

/-- The position that `DropIntel` stores: the given one, with each coordinate
whose integer part lies outside the map moved into the map. -/
def GameState.dropPosition (gs : GameState) (position : Vector3f) : Vector3f :=
  let x := f32.toInt position.X
  let y := f32.toInt position.Y
  let z := f32.toInt position.Z
  let position := if x < 0 ∨ x ≥ gs.Map.width then
    { position with X := f32.add (f32.ofInt (clampIndex x gs.Map.width)) f32.half }
    else position
  let position := if y < 0 ∨ y ≥ gs.Map.height then
    { position with Y := f32.add (f32.ofInt (clampIndex y gs.Map.height)) f32.half }
    else position
  if z < 0 ∨ z ≥ gs.Map.depth then
    { position with Z := f32.ofInt (clampIndex z gs.Map.depth) }
  else position

/-- Source `GameState.DropIntel`. -/
def GameState.DropIntel (gs : GameState) (team : Nat) (position : Vector3f) : GameState :=
  if team ≥ 2 then gs
  else
    gs.setIntel team
      { gs.intelAt team with
        Held := false, Position := gs.dropPosition position, CarrierID := 0 }

/-- Source `GameState.CaptureIntel`; the scores are `uint8`. -/
def GameState.CaptureIntel (gs : GameState) (playerID team : Nat) : GameState × Bool :=
  if team ≥ 2 then (gs, false)
  else
    match gs.Players.Get playerID with
    | none => (gs, false)
    | some _ =>
      let intelToCheck := if gs.Gamemode = GamemodeBabel then 0 else 1 - team
      if !(gs.intelAt intelToCheck).Held || decide ((gs.intelAt intelToCheck).CarrierID ≠ playerID)
      then (gs, false)
      else
        let gs := gs.setIntel intelToCheck
          { gs.intelAt intelToCheck with
            Held := false, Position := gs.spawnPosAt intelToCheck, CarrierID := 0 }
        let gs := { gs with
          Players := gs.Players.modify playerID (fun q => q.setHasIntel false) }
        if team = 0 then ({ gs with Team1Score := (gs.Team1Score + 1) % 256 }, true)
        else ({ gs with Team2Score := (gs.Team2Score + 1) % 256 }, true)

/-- Source `GameState.ResetIntel`. -/
def GameState.ResetIntel (gs : GameState) : GameState :=
  { gs with
    Intel := ({ gs.Intel.1 with Held := false, Position := gs.IntelSpawnPos.1, CarrierID := 0 },
              { gs.Intel.2 with Held := false, Position := gs.IntelSpawnPos.2, CarrierID := 0 }) }

/-- Source `GameState.GetTeamScore`. -/
def GameState.GetTeamScore (gs : GameState) (team : Nat) : Nat :=
  if team = 0 then gs.Team1Score else gs.Team2Score

/-- A player enters the registry the way the server lets one in: on an id that
is free (`FindFreeID`) and with the record of `player.New`, whose `HasIntel` is
false; team and liveness, which the server sets later, are those of `p`. -/
def GameState.register (gs : GameState) (p : player.Player) : GameState :=
  if gs.Players.Contains p.ID || p.HasIntel then gs
  else { gs with Players := gs.Players.Add p }

/-- A step of the game state: a registration or one of the intel operations. -/
inductive Event where
  | Register (p : player.Player)
  | PickupIntel (playerID team : Nat)
  | CaptureIntel (playerID team : Nat)
  | DropIntel (team : Nat) (position : Vector3f)
  | ResetIntel
deriving DecidableEq

/-- The game state after one step. -/
def Event.apply : Event → GameState → GameState
  | .Register p, gs => gs.register p
  | .PickupIntel playerID team, gs => (gs.PickupIntel playerID team).1
  | .CaptureIntel playerID team, gs => (gs.CaptureIntel playerID team).1
  | .DropIntel team position, gs => gs.DropIntel team position
  | .ResetIntel, gs => gs.ResetIntel

/-- The game state after a sequence of steps, the first of the list first. -/
def run (events : List Event) (gs : GameState) : GameState :=
  events.foldl (fun s e => e.apply s) gs

/-- No `DropIntel` and no `ResetIntel` step. -/
def Event.keepsCarrier : Event → Bool
  | .DropIntel _ _ => false
  | .ResetIntel => false
  | _ => true

/-- The intel `v` is on the ground, or its carrier id is that of a registered
player who has `HasIntel` set. -/
def GameState.carried (gs : GameState) (v : gamestate.Intel) : Prop :=
  v.Held = true → ∃ p, gs.Players.Get v.CarrierID = some p ∧ p.HasIntel = true

/-- Every held intel names a registered player who has `HasIntel` set. -/
def GameState.heldHaveCarrier (gs : GameState) : Prop :=
  gs.carried gs.Intel.1 ∧ gs.carried gs.Intel.2

/-- The number of held intels whose carrier id is `id`. -/
def GameState.carriedBy (gs : GameState) (id : Nat) : Nat :=
  (if gs.Intel.1.Held = true ∧ gs.Intel.1.CarrierID = id then 1 else 0) +
    (if gs.Intel.2.Held = true ∧ gs.Intel.2.CarrierID = id then 1 else 0)

/-- Every registered player with `HasIntel` set carries exactly one held intel. -/
def GameState.carriersHoldOne (gs : GameState) : Prop :=
  ∀ id p, gs.Players.Get id = some p → p.HasIntel = true → gs.carriedBy id = 1

/-- What the intel operations keep in the modes with two intels: the mode, and
for each held intel a registered carrier of the other team with `HasIntel` set. -/
def GameState.carriersOfOtherTeam (gs : GameState) : Prop :=
  gs.Gamemode ≠ GamemodeBabel ∧
  (gs.Intel.1.Held = true →
    ∃ p, gs.Players.Get gs.Intel.1.CarrierID = some p ∧ p.HasIntel = true ∧ p.Team = 1) ∧
  (gs.Intel.2.Held = true →
    ∃ p, gs.Players.Get gs.Intel.2.CarrierID = some p ∧ p.HasIntel = true ∧ p.Team = 0)

/-- Settings of a small capture the flag game. -/
def sampleSettings (gamemode : Int) : Settings :=
  { Gamemode := gamemode, CaptureLimit := 10, CapLimit := none, RemoveIntel := false,
    FogColor := (128, 232, 255), Team1Color := (0, 0, 255), Team2Color := (0, 255, 0),
    Team1Name := [66, 108, 117, 101], Team2Name := [71, 114, 101, 101, 110],
    Team1Position := ⟨0x40000000, 0x40000000, 0x40000000⟩,
    Team2Position := ⟨0x40A00000, 0x40A00000, 0x40000000⟩,
    Team1Base := ⟨0x3F800000, 0x3F800000, 0x40000000⟩,
    Team2Base := ⟨0x40C00000, 0x40C00000, 0x40000000⟩ }

/-- An alive player with the given id and team, as `player.New` and the first
spawn leave the record. -/
def alivePlayer (id team : Nat) : player.Player :=
  ((player.New id).SetTeam team).Respawn ⟨0x40000000, 0x40000000, 0x40000000⟩

end gamestate

namespace physics

open protocol

/-! ## Damage table and grenade ballistics -/

/-- Source `CalculateDamage`; the distance is not looked at. -/
def CalculateDamage (weapon hitType : Nat) (_distance : Nat) : Nat :=
  if weapon = WeaponTypeRifle then
    if hitType = HitTypeHead then 100
    else if hitType = HitTypeTorso then 49
    else if hitType = HitTypeArms ∨ hitType = HitTypeLegs then 33
    else if hitType = HitTypeMelee then 80
    else 0
  else if weapon = WeaponTypeSMG then
    if hitType = HitTypeHead then 75
    else if hitType = HitTypeTorso then 29
    else if hitType = HitTypeArms ∨ hitType = HitTypeLegs then 18
    else if hitType = HitTypeMelee then 80
    else 0
  else if weapon = WeaponTypeShotgun then
    if hitType = HitTypeHead then 37
    else if hitType = HitTypeTorso then 27
    else if hitType = HitTypeArms ∨ hitType = HitTypeLegs then 16
    else if hitType = HitTypeMelee then 80
    else 0
  else 0

/-- The `float32` constant `32`. -/
def thirtyTwo : Nat := 0x42000000

/-- The `float32` constant `0.36`. -/
def bounceFactor : Nat := 0x3EB851EC

/-- The `float64` constant `BounceThreshold = 1.1`, as a multiple of `2^(-52)`. -/
def bounceThreshold : Nat := 4953959590107546

/-- What `MoveGrenade` leaves behind its two pointers, and its result. -/
structure GrenadeMove where
  position : Vector3f
  velocity : Vector3f
  ret : Int
deriving DecidableEq, Repr

/-- The integer cell `(int(math.Floor(x)), int(math.Floor(y)), int(math.Floor(z)))`. -/
def cellOf (v : Vector3f) : Int × Int × Int :=
  (f32.floorInt v.X, f32.floorInt v.Y, f32.floorInt v.Z)

/-- The condition of `MoveGrenade` under which it reflects the Z velocity. -/
def blockedZ (vxlMap : vxl.Map) (old new : Int × Int × Int) : Bool :=
  decide (new.2.2 ≠ old.2.2) &&
    ((decide (new.1 = old.1) && decide (new.2.1 = old.2.1)) || !vxlMap.IsSolid new.1 new.2.1 old.2.2)

/-- The condition of the first `else if` of `MoveGrenade`, for the X velocity. -/
def blockedX (vxlMap : vxl.Map) (old new : Int × Int × Int) : Bool :=
  decide (new.1 ≠ old.1) &&
    ((decide (new.2.1 = old.2.1) && decide (new.2.2 = old.2.2)) ||
      !vxlMap.IsSolid old.1 new.2.1 new.2.2)

/-- The condition of the second `else if` of `MoveGrenade`, for the Y velocity. -/
def blockedY (vxlMap : vxl.Map) (old new : Int × Int × Int) : Bool :=
  decide (new.2.1 ≠ old.2.1) &&
    ((decide (new.1 = old.1) && decide (new.2.2 = old.2.2)) ||
      !vxlMap.IsSolid new.1 old.2.1 new.2.2)

/-- The `float32` multiplication of the three components by `c`. -/
def scale (v : Vector3f) (c : Nat) : Vector3f :=
  { X := f32.mul v.X c, Y := f32.mul v.Y c, Z := f32.mul v.Z c }

/-- The statement `velocity.Z += dt` of `MoveGrenade`. -/
def fall (velocity : Vector3f) (dt : Nat) : Vector3f :=
  { velocity with Z := f32.add velocity.Z dt }

/-- The three statements `position.X += velocity.X * f` of `MoveGrenade`, with
`f := dt * 32`. -/
def advance (position velocity : Vector3f) (dt : Nat) : Vector3f :=
  let f := f32.mul dt thirtyTwo
  { X := f32.add position.X (f32.mul velocity.X f),
    Y := f32.add position.Y (f32.mul velocity.Y f),
    Z := f32.add position.Z (f32.mul velocity.Z f) }

/-- Source `MoveGrenade`. Every operation rounds on its own, as the compiler
for amd64 arranges it. -/
def MoveGrenade (vxlMap : vxl.Map) (position velocity : Vector3f) (dt : Nat) : GrenadeMove :=
  let oldPos := position
  let velocity := fall velocity dt
  let position := advance position velocity dt
  let new := cellOf position
  if new.1 < 0 ∨ new.1 ≥ vxlMap.width ∨ new.2.1 < 0 ∨ new.2.1 ≥ vxlMap.height then
    ⟨position, velocity, 0⟩
  else if new.2.2 < 0 then ⟨position, velocity, 0⟩
  else if new.2.2 ≠ (vxlMap.depth : Int) - 1 ∧ new.2.2 ≥ vxlMap.depth then
    ⟨position, velocity, 0⟩
  else
    let sz := if new.2.2 = (vxlMap.depth : Int) - 1 then (vxlMap.depth : Int) - 2 else new.2.2
    if !vxlMap.IsSolid new.1 new.2.1 sz then ⟨position, velocity, 0⟩
    else
      let ret : Int :=
        if f32.absGt velocity.X bounceThreshold || f32.absGt velocity.Y bounceThreshold ||
            f32.absGt velocity.Z bounceThreshold then 2 else 1
      let old := cellOf oldPos
      let velocity : Vector3f :=
        if blockedZ vxlMap old new then { velocity with Z := f32.neg velocity.Z }
        else if blockedX vxlMap old new then { velocity with X := f32.neg velocity.X }
        else if blockedY vxlMap old new then { velocity with Y := f32.neg velocity.Y }
        else velocity
      ⟨oldPos, scale velocity bounceFactor, ret⟩

/-- A grenade in the cell above the block `(0, 0, 1)` of `vxl.pillarMap`, at
`(0.5, 0.5, 0.5)`, that falls with velocity `(0, 0, 1)`. -/
def fallingPosition : Vector3f := ⟨0x3F000000, 0x3F000000, 0x3F000000⟩

/-- The velocity `(0, 0, 1)`. -/
def fallingVelocity : Vector3f := ⟨0, 0, 0x3F800000⟩

/-- The `float32` nearest to `1/60`. -/
def tick : Nat := 0x3C888889

end physics

namespace server

open protocol player

/-! ## Hit classification and validation -/

/-- Source `Server.determineHitType`. -/
def determineHitType (closestPoint targetPos : Vector3f) : Nat :=
  let headZ := f32.sub targetPos.Z f32.one
  let torsoZ := f32.sub targetPos.Z f32.half
  let legsZ := f32.add targetPos.Z f32.half
  if f32.lt closestPoint.Z headZ then HitTypeHead
  else if f32.lt closestPoint.Z torsoZ then HitTypeTorso
  else if f32.lt closestPoint.Z legsZ then HitTypeArms
  else HitTypeLegs

/-- The kill type that `processShot` and `handleHit` pass to `handlePlayerKill`. -/
def killTypeOf (hitType : Nat) : Nat :=
  if hitType = HitTypeHead then KillTypeHeadshot else KillTypeWeapon

/-- Source `Server.validateHitTarget`. -/
def validateHitTarget (attacker target : Player) : Bool :=
  if !target.Alive || !attacker.Alive then false
  else if target.Team = attacker.Team ∧ target.ID ≠ attacker.ID then false
  else true

/-- Source `Server.validateWeaponState`. -/
def validateWeaponState (p : Player) (hitType : Nat) : Bool :=
  if hitType = HitTypeMelee then
    if p.Tool ≠ ItemTypeSpade then false else true
  else if p.Tool ≠ ItemTypeGun then false
  else if p.Reloading then false
  else if p.MagazineAmmo = 0 then false
  else true

/-- The decoding `binary.Read(..., &packet)` of a `PacketHit`: three bytes. -/
def readPacketHit (data : List Nat) : Option PacketHit :=
  match data with
  | a :: b :: c :: _ => some { PacketID := a, PlayerID := b, HitType := c }
  | _ => none

/-- The arguments of a call `damagePlayer(playerID, damage, source, damageType)`. -/
structure DamageCall where
  playerID : Nat
  damage : Nat
  source : Vector3f
  damageType : Nat
deriving DecidableEq, Repr

/-- Source `Server.handleHit` up to its call of `damagePlayer`: the arguments of
that call, or `none` where the function returns before it. Two values come from
code that is not modelled and are parameters: `distance`, the result of
`calculateDistance` (a square root), and `rangeOk`, the result of
`validateWeaponRange` (a raycast through the terrain). -/
def handleHit (players : Manager) (distance : Nat) (rangeOk : Bool) (p : Player)
    (data : List Nat) : Option DamageCall :=
  match readPacketHit data with
  | none => none
  | some packet =>
    match players.Get packet.PlayerID with
    | none => none
    | some target =>
      if !validateHitTarget p target then none
      else if !validateWeaponState p packet.HitType then none
      else if packet.HitType ≠ HitTypeMelee ∧ rangeOk = false then none
      else
        let damage := physics.CalculateDamage p.Weapon packet.HitType distance
        match players.Get packet.PlayerID with
        | none => none
        | some target =>
          some { playerID := target.ID, damage := damage, source := p.Position, damageType := 1 }

/-- The record of player 3: alive, on team 0, holding the spade. -/
def spadePlayer : Player :=
  { gamestate.alivePlayer 3 0 with Tool := ItemTypeSpade }

/-! ## Grenade explosion -/

/-- The fields of `gamestate.Grenade`. -/
structure Grenade where
  Position : Vector3f
  Velocity : Vector3f
  FuseLength : Nat
  TimeCreated : Nat
  PlayerID : Nat
deriving DecidableEq, Repr

/-- What `explodeGrenade` does to the map: the map after it, the cells on which
it called `SetAir`, in order, and the block packets that it broadcast. -/
structure Explosion where
  map : vxl.Map
  calls : List (Int × Int × Int)
  packets : List PacketBlockAction
deriving DecidableEq

/-- The `float32` constant `62.0`. -/
def sixtyTwo : Nat := 0x42780000

/-- The values of the loop variables `dx`, `dy` and `dz`. -/
def offsets : List Int := [-1, 0, 1]

/-- The slice `destroyedBlocks` that the three nested loops of `explodeGrenade`
build; its entries have `int32` fields. -/
def destroyedBlocks (m : vxl.Map) (x y z : Int) : List (Int × Int × Int) :=
  offsets.flatMap (fun dx => offsets.flatMap (fun dy => offsets.flatMap (fun dz =>
    if z + dz ≥ 62 then []
    else if m.IsInside (x + dx) (y + dy) (z + dz) && m.IsSolid (x + dx) (y + dy) (z + dz) then
      [(toI32 (x + dx), toI32 (y + dy), toI32 (z + dz))]
    else [])))

/-- The packet that `explodeGrenade` broadcasts for a destroyed block. -/
def blockPacket (playerID : Nat) (block : Int × Int × Int) : PacketBlockAction :=
  { PacketID := PacketTypeBlockAction, PlayerID := playerID,
    Action := BlockActionTypeGrenadeDestroy, X := block.1, Y := block.2.1, Z := block.2.2 }

/-- One iteration of the last loop of `explodeGrenade`. -/
def destroyBlock (playerID : Nat) (e : Explosion) (block : Int × Int × Int) : Explosion :=
  { map := e.map.SetAir block.1 block.2.1 block.2.2,
    calls := e.calls ++ [block],
    packets := e.packets ++ [blockPacket playerID block] }

/-- Source `Server.explodeGrenade`, its effect on the map. The loop over the
players, which lies between the two block loops, reads the grenade and the map
and writes neither the map nor `destroyedBlocks`; it is left out. -/
def explodeGrenade (m : vxl.Map) (grenade : Grenade) : Explosion :=
  let x := f32.toInt grenade.Position.X
  let y := f32.toInt grenade.Position.Y
  let z := f32.toInt grenade.Position.Z
  if f32.ge grenade.Position.Z sixtyTwo then { map := m, calls := [], packets := [] }
  else
    (destroyedBlocks m x y z).foldl (destroyBlock grenade.PlayerID)
      { map := m, calls := [], packets := [] }

/-- A grenade of player 3 at `(0.5, 0.5, 0.5)`, next to the block `(0, 0, 1)` of
`vxl.pillarMap`. -/
def sampleGrenade : Grenade :=
  { Position := physics.fallingPosition, Velocity := ⟨0, 0, 0⟩, FuseLength := 0x40400000,
    TimeCreated := 0, PlayerID := 3 }

end server

namespace vote

open player

/-! ## Votes

Times are nanosecond counts. The callbacks of a vote only publish messages and
are left out; `playerCount` is the value that the callback `getPlayerCount`
returns. -/

/-- The fields of `Votekick`. -/
structure Votekick where
  instigator : Option Player
  victim : Option Player
  votes : List (Nat × Bool)
  startTime : Nat
  active : Bool
  percentage : Int
  banDuration : Int
  publicVotes : Bool
  playerCount : Int
deriving DecidableEq, Repr

/-- The fields of `Votemap`. -/
structure Votemap where
  instigator : Option Player
  mapChoices : List String
  votes : List (Nat × String)
  startTime : Nat
  active : Bool
  percentage : Int
  allowExtend : Bool
  currentMap : String
  playerCount : Int
deriving DecidableEq, Repr

/-- The errors of `Start` and `StartVote`, without their text. -/
inductive VoteError where
  | alreadyInProgress
  | noInstigator
  | cooldown
  | victimNil
  | selfKick
  | protectedVictim
  | notEnoughPlayers
  | nilDereference
deriving DecidableEq, Repr

/-- Source `Votekick.getRequiredVotes`. -/
def Votekick.getRequiredVotes (v : Votekick) : Int :=
  let playerCount := v.playerCount
  if playerCount = 0 then 0
  else
    let required := Int.tdiv (playerCount * v.percentage) 100
    if required = 0 ∧ playerCount > 0 then 1 else required

/-- Source `Votemap.getRequiredVotes`. -/
def Votemap.getRequiredVotes (v : Votemap) : Int :=
  let playerCount := v.playerCount
  if playerCount = 0 then 0
  else
    let required := Int.tdiv (playerCount * v.percentage) 100
    if required = 0 ∧ playerCount > 0 then 1 else required

/-- The assignment `votes[id] = choice` on a Go map. -/
def setVote {α : Type} (votes : List (Nat × α)) (id : Nat) (choice : α) : List (Nat × α) :=
  (id, choice) :: votes.filter (fun e => decide (e.1 ≠ id))

/-- Source `Votekick.Start`; a nil instigator makes the source panic. -/
def Votekick.Start (v : Votekick) : Except VoteError Votekick :=
  match v.victim with
  | none => .error .victimNil
  | some victim =>
    match v.instigator with
    | none => .error .nilDereference
    | some instigator =>
      if instigator.ID = victim.ID then .error .selfKick
      else if victim.Permissions &&& (1 <<< 3) ≠ 0 ∨ victim.Permissions &&& (1 <<< 4) ≠ 0 then
        .error .protectedVictim
      else if v.getRequiredVotes = 0 then .error .notEnoughPlayers
      else .ok { v with votes := setVote v.votes instigator.ID true, active := true }

/-- Source `Votemap.Start`. -/
def Votemap.Start (v : Votemap) : Except VoteError Votemap :=
  if v.getRequiredVotes = 0 then .error .notEnoughPlayers
  else .ok { v with active := true }

/-- The two implementations of the interface `Vote`. -/
inductive Vote where
  | kick (v : Votekick)
  | map (v : Votemap)
deriving DecidableEq, Repr

/-- Source `Instigator()`. -/
def Vote.Instigator : Vote → Option Player
  | .kick v => v.instigator
  | .map v => v.instigator

/-- Source `IsActive()`. -/
def Vote.IsActive : Vote → Bool
  | .kick v => v.active
  | .map v => v.active

/-- Source `Start()`. -/
def Vote.Start : Vote → Except VoteError Vote
  | .kick v => (Votekick.Start v).map Vote.kick
  | .map v => (Votemap.Start v).map Vote.map

/-- The fields `activeVote` and `cooldowns` of `Manager`. -/
structure Manager where
  activeVote : Option Vote
  cooldowns : List (Nat × Nat)
deriving DecidableEq, Repr

/-- Source `NewManager`. -/
def NewManager : Manager := { activeVote := none, cooldowns := [] }

/-- The lookup `m.cooldowns[id]`. -/
def Manager.cooldownOf (m : Manager) (id : Nat) : Option Nat :=
  (m.cooldowns.find? (fun e => decide (e.1 = id))).map (fun e => e.2)

/-- Source `Manager.HasActiveVote`. -/
def Manager.HasActiveVote (m : Manager) : Bool :=
  match m.activeVote with
  | none => false
  | some v => v.IsActive

/-- The length of the cooldown and of a vote, `120 * time.Second`. -/
def cooldownNanos : Nat := 120 * 1000000000

/-- The test `if cooldown, exists := m.cooldowns[id]; exists` with
`time.Now().Before(cooldown)` inside, at the time `checked`. -/
def Manager.onCooldown (m : Manager) (id checked : Nat) : Bool :=
  match m.cooldownOf id with
  | some cooldown => decide (checked < cooldown)
  | none => false

/-- Source `Manager.StartVote`: the manager after the call and the error that
the call returns. `checked` is the reading of `time.Now()` in the cooldown test,
`started` the one in the assignment of the new cooldown. -/
def Manager.StartVote (m : Manager) (v : Vote) (checked started : Nat) :
    Manager × Option VoteError :=
  if m.HasActiveVote then (m, some .alreadyInProgress)
  else
    match v.Instigator with
    | none => (m, some .noInstigator)
    | some instigator =>
      if m.onCooldown instigator.ID checked then (m, some .cooldown)
      else
        match v.Start with
        | .error err => (m, some err)
        | .ok started_vote =>
          ({ activeVote := some started_vote,
             cooldowns := (instigator.ID, started + cooldownNanos) ::
               m.cooldowns.filter (fun e => decide (e.1 ≠ instigator.ID)) }, none)

/-- A votekick among five players at 35 percent. -/
def sampleKick : Votekick :=
  { instigator := some (player.New 1), victim := some (player.New 4), votes := [],
    startTime := 0, active := false, percentage := 35, banDuration := 1800000000000,
    publicVotes := true, playerCount := 5 }

/-- A map vote among five players at 35 percent. -/
def sampleMapVote : Votemap :=
  { instigator := some (player.New 1), mapChoices := ["classicgen", "pinpoint"], votes := [],
    startTime := 0, active := false, percentage := 35, allowExtend := false,
    currentMap := "classicgen", playerCount := 5 }

end vote

namespace callbacks

open player

/-! ## Callback chains

A hook may read and change the state of the program (a script behind it can do
anything), so a hook is a function on a state `σ`. Only the hooks that return
a `bool` are listed. -/

/-- The hooks of the interface `Callbacks` that return a `bool`. -/
structure Callbacks (σ : Type) where
  OnChatMessage : Player → String → σ → Bool × σ
  OnBlockPlace : Player → Int → Int → Int → σ → Bool × σ
  OnBlockDestroy : Player → Int → Int → Int → σ → Bool × σ
  OnIntelPickup : Player → Nat → σ → Bool × σ
  OnIntelCapture : Player → Nat → σ → Bool × σ

/-- Source `DefaultCallbacks`: every hook returns `true`. -/
def DefaultCallbacks (σ : Type) : Callbacks σ :=
  { OnChatMessage := fun _ _ s => (true, s),
    OnBlockPlace := fun _ _ _ _ s => (true, s),
    OnBlockDestroy := fun _ _ _ _ s => (true, s),
    OnIntelPickup := fun _ _ s => (true, s),
    OnIntelCapture := fun _ _ s => (true, s) }

structure CallbackChain (σ : Type) where
  callbacks : List (Callbacks σ)

/-- Source `NewCallbackChain`. -/
def NewCallbackChain (σ : Type) : CallbackChain σ := { callbacks := [] }

/-- Source `CallbackChain.Register`. -/
def CallbackChain.Register {σ : Type} (c : CallbackChain σ) (cb : Callbacks σ) :
    CallbackChain σ :=
  { callbacks := c.callbacks ++ [cb] }

/-- What a call of a chain hook does: the value it returns, the state it leaves
and the indices into `callbacks` of the hooks it invoked, in the order of the
invocations. -/
structure Outcome (σ : Type) where
  result : Bool
  state : σ
  invoked : List Nat

/-- The loop `for _, cb := range c.callbacks { if !cb.Hook(...) { return false } }; return true`
from the callback with index `i` on; `hooks` are the calls `cb.Hook(...)` that
remain. -/
def vetoLoop {σ : Type} : List (σ → Bool × σ) → Nat → σ → List Nat → Outcome σ
  | [], _, s, invoked => { result := true, state := s, invoked := invoked }
  | hook :: rest, i, s, invoked =>
    let r := hook s
    if !r.1 then { result := false, state := r.2, invoked := invoked ++ [i] }
    else vetoLoop rest (i + 1) r.2 (invoked ++ [i])

/-- Source `CallbackChain.OnChatMessage`. -/
def CallbackChain.OnChatMessage {σ : Type} (c : CallbackChain σ) (p : Player) (message : String)
    (s : σ) : Outcome σ :=
  vetoLoop (c.callbacks.map (fun cb => cb.OnChatMessage p message)) 0 s []

/-- Source `CallbackChain.OnBlockPlace`. -/
def CallbackChain.OnBlockPlace {σ : Type} (c : CallbackChain σ) (p : Player) (x y z : Int)
    (s : σ) : Outcome σ :=
  vetoLoop (c.callbacks.map (fun cb => cb.OnBlockPlace p x y z)) 0 s []

/-- Source `CallbackChain.OnBlockDestroy`. -/
def CallbackChain.OnBlockDestroy {σ : Type} (c : CallbackChain σ) (p : Player) (x y z : Int)
    (s : σ) : Outcome σ :=
  vetoLoop (c.callbacks.map (fun cb => cb.OnBlockDestroy p x y z)) 0 s []

/-- Source `CallbackChain.OnIntelPickup`. -/
def CallbackChain.OnIntelPickup {σ : Type} (c : CallbackChain σ) (p : Player) (team : Nat)
    (s : σ) : Outcome σ :=
  vetoLoop (c.callbacks.map (fun cb => cb.OnIntelPickup p team)) 0 s []

/-- Source `CallbackChain.OnIntelCapture`. -/
def CallbackChain.OnIntelCapture {σ : Type} (c : CallbackChain σ) (p : Player) (team : Nat)
    (s : σ) : Outcome σ :=
  vetoLoop (c.callbacks.map (fun cb => cb.OnIntelCapture p team)) 0 s []

/-- The state in which the hook with index `i` runs when no hook before it
vetoes: the hooks before it have run in order. -/
def stateBefore {σ : Type} (hooks : List (σ → Bool × σ)) (s : σ) (i : Nat) : σ :=
  (hooks.take i).foldl (fun s hook => (hook s).2) s

/-- The value that the hook with index `i` returns when it runs after the hooks
before it; `true` when there is no such hook. -/
def answer {σ : Type} (hooks : List (σ → Bool × σ)) (s : σ) (i : Nat) : Bool :=
  match hooks.get? i with
  | some hook => (hook (stateBefore hooks s i)).1
  | none => true

/-- What the claim asks of one call with the hooks `hooks` from the state `s`:
the result is `true` exactly when every hook answers `true`; the hooks invoked
are those with the indices `0, 1, ..., k-1` in this order, each once; all of
them but the last answered `true`, and on a veto the last one answered
`false`; the state is the one that these `k` hooks leave. -/
def VetoSpec {σ : Type} (hooks : List (σ → Bool × σ)) (s : σ) (o : Outcome σ) : Prop :=
  (o.result = true ↔ ∀ i, i < hooks.length → answer hooks s i = true) ∧
  o.invoked = List.range o.invoked.length ∧
  o.invoked.length ≤ hooks.length ∧
  (∀ i, i + 1 < o.invoked.length → answer hooks s i = true) ∧
  (o.result = true → o.invoked.length = hooks.length) ∧
  (o.result = false →
    0 < o.invoked.length ∧ answer hooks s (o.invoked.length - 1) = false) ∧
  o.state = stateBefore hooks s o.invoked.length

/-- A callback set whose veto hooks all return `b` and count their calls in the state. -/
def counting (b : Bool) : Callbacks Nat :=
  { OnChatMessage := fun _ _ s => (b, s + 1),
    OnBlockPlace := fun _ _ _ _ s => (b, s + 1),
    OnBlockDestroy := fun _ _ _ _ s => (b, s + 1),
    OnIntelPickup := fun _ _ s => (b, s + 1),
    OnIntelCapture := fun _ _ s => (b, s + 1) }

end callbacks

namespace server

open protocol player

/-! ## Rate limiting

`checkRateLimit` works on the counters of the player record and on the mutex of
the record. The model lists the calls on the mutex and on the peer in program
order and replays them on the state of the mutex. Counters are Go `int`s; they
stay far below `2^63`, so they are integers here. -/

def PacketTypePositionData : Nat := 0
def PacketTypeOrientationData : Nat := 1
def PacketTypeBlockLine : Nat := 14

/-- The section `RateLimit` of the configuration. -/
structure RateLimitConfig where
  Enabled : Bool
  PacketsPerSecond : Int
  BurstSize : Int
  PositionPacketsPerSec : Int
  OrientPacketsPerSec : Int
  BlockPacketsPerSec : Int
deriving DecidableEq, Repr

/-- The values that `config.Load` fills in for a rate limit section that leaves
them out. -/
def defaultRateLimit : RateLimitConfig :=
  { Enabled := true, PacketsPerSecond := 100, BurstSize := 150, PositionPacketsPerSec := 60,
    OrientPacketsPerSec := 60, BlockPacketsPerSec := 30 }

/-- The counters of a player that `checkRateLimit` reads and writes. -/
structure RateCounters where
  PacketCounts : List (Nat × Int)
  TotalPacketCount : Int
  LastRateLimitReset : Nat
  RateLimitViolations : Int
deriving DecidableEq, Repr

/-- The counters that `player.New` sets up at the time `now`. -/
def RateCounters.fresh (now : Nat) : RateCounters :=
  { PacketCounts := [], TotalPacketCount := 0, LastRateLimitReset := now,
    RateLimitViolations := 0 }

/-- The read `p.PacketCounts[packetType]` of a Go map: `0` for a missing key. -/
def RateCounters.countOf (p : RateCounters) (packetType : Nat) : Int :=
  match p.PacketCounts.find? (fun e => decide (e.1 = packetType)) with
  | some e => e.2
  | none => 0

/-- The statement `p.PacketCounts[packetType]++`. -/
def RateCounters.bump (p : RateCounters) (packetType : Nat) : RateCounters :=
  { p with PacketCounts := (packetType, p.countOf packetType + 1) ::
      p.PacketCounts.filter (fun e => decide (e.1 ≠ packetType)) }

/-- A call that `checkRateLimit` makes on the mutex of the player or on the peer. -/
inductive Call where
  | Lock
  | Unlock
  | DisconnectLater (data : Nat)
deriving DecidableEq, Repr

/-- The mutex during a sequence of calls, from the state `held`: `some held1`
is the state at the end; `none` when an `Unlock` meets the mutex unlocked, which
is the fatal error `sync: Unlock of unlocked RWMutex`, or a `Lock` meets it
locked, where the only thread of the model blocks for ever. -/
def replay : List Call → Bool → Option Bool
  | [], held => some held
  | .Lock :: rest, held => if held then none else replay rest true
  | .Unlock :: rest, held => if held then replay rest false else none
  | .DisconnectLater _ :: rest, held => replay rest held

/-- The number of `Lock` calls in a sequence of calls. -/
def locks (calls : List Call) : Nat := calls.count .Lock

/-- The number of `Unlock` calls in a sequence of calls. -/
def unlocks (calls : List Call) : Nat := calls.count .Unlock

/-- What a call of `checkRateLimit` does: the counters it leaves, the calls it
makes in program order (the deferred `Unlock` last), and the value it returns,
`none` when the call ends in a fatal error instead of returning. -/
structure RateCheck where
  counters : RateCounters
  calls : List Call
  returned : Option Bool
deriving DecidableEq, Repr

/-- The value that reaches the caller: `value` when the calls leave the mutex
sound, nothing when one of them is fatal. -/
def finish (counters : RateCounters) (calls : List Call) (value : Bool) : RateCheck :=
  { counters := counters, calls := calls,
    returned := match replay calls false with
      | some _ => some value
      | none => none }

/-- The `switch packetType` that selects the limit of the packet type. -/
def perTypeLimit (cfg : RateLimitConfig) (packetType : Nat) : Int :=
  if packetType = PacketTypePositionData then cfg.PositionPacketsPerSec
  else if packetType = PacketTypeOrientationData then cfg.OrientPacketsPerSec
  else if packetType = PacketTypeBlockAction ∨ packetType = PacketTypeBlockLine then
    cfg.BlockPacketsPerSec
  else cfg.PacketsPerSecond

/-- The body of a violation branch: `p.RateLimitViolations++`, then the
disconnect with its own `p.Unlock()` when the count has reached five; the
deferred `Unlock` follows in both cases. -/
def violation (p : RateCounters) : RateCheck :=
  let p1 := { p with RateLimitViolations := p.RateLimitViolations + 1 }
  if p1.RateLimitViolations ≥ 5 then
    finish p1 [.Lock, .Unlock, .DisconnectLater 0, .Unlock] false
  else finish p1 [.Lock, .Unlock] false

/-- Source `Server.checkRateLimit`; `now` is the reading of `time.Now()`. -/
def checkRateLimit (cfg : RateLimitConfig) (p : RateCounters) (packetType now : Nat) : RateCheck :=
  if !cfg.Enabled then { counters := p, calls := [], returned := some true }
  else
    let p1 : RateCounters :=
      if now ≥ p.LastRateLimitReset + 1000000000 then
        { p with PacketCounts := [], TotalPacketCount := 0, LastRateLimitReset := now }
      else p
    let p2 := { p1 with TotalPacketCount := p1.TotalPacketCount + 1 }
    let p3 := p2.bump packetType
    if p3.TotalPacketCount > cfg.BurstSize then violation p3
    else if perTypeLimit cfg packetType > 0 ∧ p3.countOf packetType > perTypeLimit cfg packetType then
      violation p3
    else finish p3 [.Lock, .Unlock] true

/-- The counters and the answers after a run of packets of one type, each with
its reading of the clock; the run ends at a call that does not return. -/
def feed (cfg : RateLimitConfig) (packetType : Nat) :
    List Nat → RateCounters → List RateCheck
  | [], _ => []
  | now :: rest, p =>
    let r := checkRateLimit cfg p packetType now
    match r.returned with
    | some _ => r :: feed cfg packetType rest r.counters
    | none => [r]

/-- The answers to 200 position packets of a player that connected at time `0`,
one packet every four milliseconds, under the default limits. -/
def positionBurst : List RateCheck :=
  feed defaultRateLimit PacketTypePositionData
    ((List.range 200).map (fun (i : Nat) => i * 4000000)) (RateCounters.fresh 0)

/-- The counters of a player with four violations and sixty position packets in
the window that began at time `0`. -/
def fourViolations : RateCounters :=
  { PacketCounts := [(PacketTypePositionData, 60)], TotalPacketCount := 60,
    LastRateLimitReset := 0, RateLimitViolations := 4 }

end server

namespace server

open protocol player

/-! ## Team ids on the wire -/

def spectatorTeamID : Nat := 255
def spectatorClientTeamID : Nat := 2

def PacketTypeExistingPlayer : Nat := 9
def PacketTypeShortPlayerData : Nat := 10
def PacketTypeCreatePlayer : Nat := 12
def PacketTypeChangeTeam : Nat := 29

/-- Source `toInternalTeamID`; `none` is the result `(0, false)`. -/
def toInternalTeamID (team : Nat) : Option Nat :=
  if team = 0 ∨ team = 1 then some team
  else if team = spectatorClientTeamID ∨ team = spectatorTeamID then some spectatorTeamID
  else none

/-- Source `toNetworkTeamID`. -/
def toNetworkTeamID (team : Nat) : Nat :=
  if team = spectatorTeamID then spectatorClientTeamID else team

/-- The fields of `PacketExistingPlayer` but the colour. -/
structure PacketExistingPlayer where
  PacketID : Nat
  PlayerID : Nat
  Team : Nat
  Weapon : Nat
  Item : Nat
  Kills : Nat
  Name : List Nat
deriving DecidableEq, Repr

structure PacketShortPlayerData where
  PacketID : Nat
  PlayerID : Nat
  Team : Nat
  Weapon : Nat
deriving DecidableEq, Repr

structure PacketCreatePlayer where
  PacketID : Nat
  PlayerID : Nat
  Weapon : Nat
  Team : Nat
  X : Nat
  Y : Nat
  Z : Nat
  Name : List Nat
deriving DecidableEq, Repr

structure PacketChangeTeam where
  PacketID : Nat
  PlayerID : Nat
  TeamID : Nat
deriving DecidableEq, Repr

/-- The packet that `sendExistingPlayersData` builds for the player `other`;
`copy(packet.Name[:], other.Name)` keeps at most 16 bytes. -/
def existingPlayerPacket (other : Player) : PacketExistingPlayer :=
  { PacketID := PacketTypeExistingPlayer, PlayerID := other.ID,
    Team := toNetworkTeamID other.Team, Weapon := other.Weapon, Item := other.Tool,
    Kills := other.Kills, Name := other.Name.take 16 }

/-- The packet that `broadcastNewPlayer` builds. -/
def newPlayerPacket (p : Player) : PacketCreatePlayer :=
  { PacketID := PacketTypeCreatePlayer, PlayerID := p.ID, Weapon := p.Weapon,
    Team := toNetworkTeamID p.Team, X := p.Position.X, Y := p.Position.Y, Z := p.Position.Z,
    Name := p.Name.take 16 }

/-- The packet that `sendSpectatorConfirmation` builds. -/
def spectatorConfirmationPacket (p : Player) : PacketCreatePlayer :=
  { PacketID := PacketTypeCreatePlayer, PlayerID := p.ID, Weapon := p.Weapon,
    Team := spectatorClientTeamID, X := p.Position.X, Y := p.Position.Y, Z := p.Position.Z,
    Name := p.Name.take 16 }

/-- The `CreatePlayer` packet that `respawnPlayer` builds after `p.Respawn(spawnPos)`. -/
def respawnPacket (p : Player) (spawnPos : Vector3f) : PacketCreatePlayer :=
  { PacketID := PacketTypeCreatePlayer, PlayerID := p.ID, Weapon := p.Weapon,
    Team := toNetworkTeamID p.Team, X := spawnPos.X, Y := spawnPos.Y, Z := spawnPos.Z,
    Name := p.Name.take 16 }

/-- The packet that `broadcastChangeTeam` builds. -/
def changeTeamPacket (p : Player) : PacketChangeTeam :=
  { PacketID := PacketTypeChangeTeam, PlayerID := p.ID, TeamID := toNetworkTeamID p.Team }

/-- The packet that `broadcastShortPlayerData` builds. -/
def shortPlayerDataPacket (p : Player) : PacketShortPlayerData :=
  { PacketID := PacketTypeShortPlayerData, PlayerID := p.ID, Team := p.Team,
    Weapon := p.Weapon }

/-! ## Joining, team changes and damage

The handlers work on the game state, which holds the registry of players; the
pointer `p` of the source is the id of the record. The hooks of the game mode
and of the callback chain are taken to leave the records alone. Of the packets
that a handler sends, those with a team field are listed, in the order in
which they are built. -/

def PacketTypeChangeWeapon : Nat := 30
def DisconnectReasonBanned : Nat := 1

/-- A packet with a team field that the server sends. -/
inductive Outgoing where
  | existingPlayer (packet : PacketExistingPlayer)
  | createPlayer (packet : PacketCreatePlayer)
  | changeTeam (packet : PacketChangeTeam)
  | shortPlayerData (packet : PacketShortPlayerData)
deriving DecidableEq, Repr

/-- The team field of a packet. -/
def Outgoing.team : Outgoing → Nat
  | .existingPlayer packet => packet.Team
  | .createPlayer packet => packet.Team
  | .changeTeam packet => packet.TeamID
  | .shortPlayerData packet => packet.Team

/-- What a handler leaves: the game state, the packets with a team field that
it sent, and the reason of a `DisconnectNow` when it made that call. -/
structure Handled where
  state : gamestate.GameState
  sent : List Outgoing
  disconnect : Option Nat

/-- A handler that returns without an effect. -/
def Handled.nothing (gs : gamestate.GameState) : Handled :=
  { state := gs, sent := [], disconnect := none }

/-- Source `sendExistingPlayersData`: one packet for every other player in state `Ready`. -/
def existingPlayersData (gs : gamestate.GameState) (playerID : Nat) : List Outgoing :=
  (gs.Players.players.filter
    (fun other => !(decide (other.ID = playerID) || decide (other.State ≠ PlayerStateReady)))).map
    (fun other => .existingPlayer (existingPlayerPacket other))

/-- Source `respawnPlayer`; `spawnPos` is the position that `GetSpawnPosition` draws. -/
def respawnPlayer (gs : gamestate.GameState) (playerID : Nat) (spawnPos : Vector3f) : Handled :=
  match gs.Players.Get playerID with
  | none => Handled.nothing gs
  | some p =>
    if p.Team > 1 then Handled.nothing gs
    else
      { state := { gs with Players := gs.Players.modify playerID (fun q => q.Respawn spawnPos) },
        sent := [.createPlayer (respawnPacket (p.Respawn spawnPos) spawnPos),
                 .shortPlayerData (shortPlayerDataPacket (p.Respawn spawnPos))],
        disconnect := none }

/-- The locked block of `changePlayerTeam` that writes the record. -/
def joinTeam (p : Player) (team : Nat) : Player :=
  let p1 := if p.HasIntel && decide (p.Team ≤ 1) then { p with HasIntel := false } else p
  let p2 := { p1 with Team := team }
  let p3 := if team = spectatorTeamID then { p2 with Alive := false } else p2
  { p3 with State := PlayerStateReady }

/-- Source `changePlayerTeam`. -/
def changePlayerTeam (gs : gamestate.GameState) (playerID team : Nat) (spawnPos : Vector3f) :
    Handled :=
  match gs.Players.Get playerID with
  | none => Handled.nothing gs
  | some p =>
    if team ≠ spectatorTeamID ∧ team > 1 then Handled.nothing gs
    else if p.Team = team then Handled.nothing gs
    else
      let currentTeam := p.Team
      let droppedIntel := p.HasIntel && decide (currentTeam ≤ 1)
      let gs1 := { gs with Players := gs.Players.modify playerID (fun q => joinTeam q team) }
      let gs2 := if droppedIntel then gs1.DropIntel (1 - currentTeam) p.Position else gs1
      if team ≤ 1 then
        let r := respawnPlayer gs2 playerID spawnPos
        { r with sent := .changeTeam (changeTeamPacket (joinTeam p team)) :: r.sent }
      else
        { state := gs2,
          sent := [.shortPlayerData (shortPlayerDataPacket (joinTeam p team)),
                   .createPlayer (spectatorConfirmationPacket (joinTeam p team))],
          disconnect := none }

/-- Source `finalizePlayerJoin`. -/
def finalizePlayerJoin (gs : gamestate.GameState) (playerID : Nat) (spawnPos : Vector3f) :
    Handled :=
  let gs1 := { gs with Players := gs.Players.modify playerID (fun q => q.setHasIntel false) }
  match gs1.Players.Get playerID with
  | none => Handled.nothing gs1
  | some p =>
    if p.Team = spectatorTeamID then
      { state := gs1, sent := [.createPlayer (spectatorConfirmationPacket p)],
        disconnect := none }
    else
      let r := respawnPlayer gs1 playerID spawnPos
      { r with sent := .createPlayer (newPlayerPacket p) :: r.sent }

/-- The record that `handleExistingPlayer` writes for an accepted packet. -/
def joined (p : Player) (team weapon item : Nat) (name : List Nat) : Player :=
  { (p.SetTeam team).SetWeapon weapon with
    Name := name, Tool := item, State := PlayerStateReady, HasIntel := false }

/-- Source `handleExistingPlayer`. `decodeName` stands for the decoding of the
name bytes (`CP437ToString`, `TrimSpace` and the two replacement names) and
`banned` for `banManager.IsBannedByName` at the time of the call. -/
def handleExistingPlayer (decodeName : List Nat → List Nat) (banned : List Nat → Bool)
    (gs : gamestate.GameState) (playerID : Nat) (data : List Nat) (spawnPos : Vector3f) :
    Handled :=
  match gs.Players.Get playerID with
  | none => Handled.nothing gs
  | some p =>
    if data.length < 13 then Handled.nothing gs
    else if p.State ≠ PlayerStateWaitingForExistingPlayer ∧ p.Team ≠ spectatorTeamID then
      Handled.nothing gs
    else
      match toInternalTeamID (data.getD 2 0) with
      | none => Handled.nothing gs
      | some team =>
        let name := decodeName (data.drop 12)
        if banned name then { state := gs, sent := [], disconnect := some DisconnectReasonBanned }
        else
          finalizePlayerJoin
            { gs with
              Players := gs.Players.modify playerID
                (fun q => joined q team (data.getD 3 0) (data.getD 4 0) name) }
            playerID spawnPos

/-- Source `handleChangeTeam`; `binary.Read` needs the three bytes of `PacketChangeTeam`. -/
def handleChangeTeam (gs : gamestate.GameState) (playerID : Nat) (data : List Nat)
    (spawnPos : Vector3f) : Handled :=
  if data.length < 3 then Handled.nothing gs
  else
    match toInternalTeamID (data.getD 2 0) with
    | none => Handled.nothing gs
    | some team => changePlayerTeam gs playerID team spawnPos

/-- Source `handleChangeWeapon`; `binary.Read` needs the three bytes of `PacketChangeWeapon`. -/
def handleChangeWeapon (gs : gamestate.GameState) (playerID : Nat) (data : List Nat)
    (spawnPos : Vector3f) : Handled :=
  if data.length < 3 then Handled.nothing gs
  else
    let gs1 := { gs with Players := gs.Players.modify playerID (fun q => q.SetWeapon (data.getD 2 0)) }
    let r := respawnPlayer gs1 playerID spawnPos
    match r.state.Players.Get playerID with
    | none => r
    | some p => { r with sent := r.sent ++ [.shortPlayerData (shortPlayerDataPacket p)] }

/-- The cases of `handlePacket` for the packets `ExistingPlayer`, `ChangeTeam`
and `ChangeWeapon` of the player with the id `playerID`; `accepted` is the
answer of `checkRateLimit`. The result is `none` for the packet types whose
handlers are not part of the model. -/
def handlePacket (decodeName : List Nat → List Nat) (banned : List Nat → Bool)
    (gs : gamestate.GameState) (playerID : Nat) (data : List Nat) (accepted : Bool)
    (spawnPos : Vector3f) : Option Handled :=
  if data.length < 1 then some (Handled.nothing gs)
  else if !gs.Players.Contains playerID then some (Handled.nothing gs)
  else if !accepted then some (Handled.nothing gs)
  else if data.getD 0 0 = PacketTypeExistingPlayer then
    some (handleExistingPlayer decodeName banned gs playerID data spawnPos)
  else if data.getD 0 0 = PacketTypeChangeTeam then
    some (handleChangeTeam gs playerID data spawnPos)
  else if data.getD 0 0 = PacketTypeChangeWeapon then
    some (handleChangeWeapon gs playerID data spawnPos)
  else none

/-- Source `getGroundIntelDropPosition`. -/
def getGroundIntelDropPosition (gs : gamestate.GameState) (pos : Vector3f) : Vector3f :=
  let x := f32.toInt pos.X
  let y := f32.toInt pos.Y
  let outside := x < 0 ∨ y < 0 ∨ x ≥ gs.Map.width ∨ y ≥ gs.Map.height
  let x1 := if outside then gamestate.clampIndex x gs.Map.width else x
  let y1 := if outside then gamestate.clampIndex y gs.Map.height else y
  { X := f32.add (f32.ofInt x1) f32.half, Y := f32.add (f32.ofInt y1) f32.half,
    Z := f32.ofInt (gs.Map.FindGroundLevel x1 y1) }

/-- The block of `damagePlayer` that runs when `killed` is set: the intel of a
carrier drops to the ground, and the record gets the state `Dead` and a
respawn time. -/
def markDead (gs : gamestate.GameState) (playerID : Nat) (p : Player) (respawnAt : Nat) :
    gamestate.GameState :=
  let gs1 :=
    if p.HasIntel ∧ p.Team ≤ 1 then
      let dropped := gs.DropIntel (1 - p.Team) (getGroundIntelDropPosition gs p.Position)
      { dropped with Players := dropped.Players.modify playerID (fun q => q.setHasIntel false) }
    else gs
  { gs1 with
    Players := gs1.Players.modify playerID
      (fun q => { q with State := PlayerStateDead, RespawnTime := respawnAt }) }

/-- Source `damagePlayer`; `respawnAt` is the value of
`time.Now().Add(RespawnTime * time.Second)` at the call. The second component
is the returned `bool`. -/
def damagePlayer (gs : gamestate.GameState) (playerID damage : Nat) (source : Vector3f)
    (damageType respawnAt : Nat) : gamestate.GameState × Bool :=
  match gs.Players.Get playerID with
  | none => (gs, false)
  | some p =>
    let gs1 := { gs with
      Players := gs.Players.modify playerID (fun q => q.Damage damage source damageType) }
    let p1 := p.Damage damage source damageType
    if p1.HP = 0 then (markDead gs1 playerID p1 respawnAt, true)
    else (gs1, false)

/-- A game with the player 1 of team 0 in the state after `handleConnect`. -/
def loadingGame : gamestate.GameState :=
  gamestate.GameState.register (gamestate.New (gamestate.sampleSettings gamestate.GamemodeCTF)
    (vxl.flatWorld 4 4 8)) { player.New 1 with State := PlayerStateLoading }

/-- A game with the player 1 of team 0 alive and ready. -/
def readyGame : gamestate.GameState :=
  gamestate.GameState.register (gamestate.New (gamestate.sampleSettings gamestate.GamemodeCTF)
    (vxl.flatWorld 4 4 8)) (gamestate.alivePlayer 1 0)

/-- A game whose player 1 died of a hit at the time `7`, with three seconds to the respawn. -/
def deadGame : gamestate.GameState :=
  (damagePlayer readyGame 1 100 ⟨0, 0, 0⟩ 1 3000000007).1

end server

namespace vote

open player

/-! ## Casting votes

The callback `onSuccess` is taken to be set; a call of it is counted. -/

/-- The errors of `CastVote`, without their text. -/
inductive CastError where
  | notActive
  | ownVotekick
  | alreadyVoted
  | invalidChoice
  | nilDereference
deriving DecidableEq, Repr

/-- The loop of `getVotesRemaining` that counts the yes votes. -/
def Votekick.yesVotes (v : Votekick) : Int :=
  ((v.votes.filter (fun e => e.2)).length : Int)

/-- Source `Votekick.getVotesRemaining`. -/
def Votekick.getVotesRemaining (v : Votekick) : Int :=
  let remaining := v.getRequiredVotes - v.yesVotes
  if remaining < 0 then 0 else remaining

/-- Source `Votekick.succeed`: the vote after it and the number of calls of
`onSuccess`. -/
def Votekick.succeed (v : Votekick) : Votekick × Nat := ({ v with active := false }, 1)

/-- The end of `CastVote`, after the vote `voteYes` has been recorded:
`if voteYes && v.getVotesRemaining() == 0 { v.succeed() }`. -/
def Votekick.tally (v : Votekick) (voteYes : Bool) : Votekick × Option CastError × Nat :=
  if voteYes ∧ v.getVotesRemaining = 0 then (v.succeed.1, none, v.succeed.2) else (v, none, 0)

/-- Source `Votekick.CastVote`: the vote after the call, the error that the call
returns and the number of calls of `onSuccess`. `choice` is `none` for a value
that is not a `bool`. -/
def Votekick.CastVote (v : Votekick) (p : Player) (choice : Option Bool) :
    Votekick × Option CastError × Nat :=
  if !v.active then (v, some .notActive, 0)
  else
    match v.victim with
    | none => (v, some .nilDereference, 0)
    | some victim =>
      if p.ID = victim.ID then (v, some .ownVotekick, 0)
      else if (v.votes.find? (fun e => decide (e.1 = p.ID))).isSome then
        (v, some .alreadyVoted, 0)
      else
        match choice with
        | none => (v, some .invalidChoice, 0)
        | some voteYes =>
          Votekick.tally { v with votes := setVote v.votes p.ID voteYes } voteYes

/-- Source `Votekick.Timeout`. -/
def Votekick.Timeout (v : Votekick) : Votekick :=
  if !v.active then v else { v with active := false }

/-- The vote `sampleKick` after `Start`, or the vote itself when `Start` fails. -/
def startedKick : Votekick :=
  match sampleKick.Start with
  | .ok v => v
  | .error _ => sampleKick

end vote

namespace f64

/-! ## Double precision arithmetic

A `float64` is its IEEE 754 bit pattern. The operations decode the pattern,
compute the exact result and round it to the nearest representable value, ties
to even. A finite magnitude is counted in units of `2^(-1074)`, the smallest
subnormal, so that every finite value is an integer. -/

/-- The value that a bit pattern stands for; `finite neg mag` is
`(-1)^neg * mag * 2^(-1074)`. -/
inductive Value where
  | nan
  | inf (neg : Bool)
  | finite (neg : Bool) (mag : Nat)
deriving DecidableEq, Repr

/-- Value of a 64 bit pattern: sign bit, eleven exponent bits, 52 fraction bits. -/
def decode (b : Nat) : Value :=
  let neg := decide (b / 9223372036854775808 % 2 = 1)
  let e := b / 4503599627370496 % 2048
  let f := b % 4503599627370496
  if e = 2047 then (if f = 0 then .inf neg else .nan)
  else if e = 0 then .finite neg f
  else .finite neg ((4503599627370496 + f) * 2 ^ (e - 1))

def signBit (neg : Bool) : Nat := if neg then 9223372036854775808 else 0

/-- The least `k` from the given one on with `n < 2^(2^k)`. -/
def log2Width (n : Nat) : Nat → Nat → Nat
  | 0, k => k
  | fuel + 1, k => if n < 2 ^ 2 ^ k then k else log2Width n fuel (k + 1)

/-- Binary search for the index of the highest set bit of `n`: `acc` is the
part of the index found so far and `k` the number of lower bits still open. -/
def log2Search (n : Nat) : Nat → Nat → Nat
  | 0, acc => acc
  | k + 1, acc => if 2 ^ (acc + 2 ^ k) ≤ n then log2Search n k (acc + 2 ^ k) else log2Search n k acc

/-- Index of the highest set bit of `n`, and `0` for `0`. -/
def log2 (n : Nat) : Nat := log2Search n (log2Width n n 0) 0

/-- Exponent and fraction bits of a representable magnitude. -/
def encodeMag (mag : Nat) : Nat :=
  if mag < 4503599627370496 then mag
  else
    let e := log2 mag - 51
    e * 4503599627370496 + (mag / 2 ^ (e - 1) - 4503599627370496)

/-- Bit pattern of a value; the quiet NaN `0x7FF8000000000000` stands for every NaN. -/
def encode : Value → Nat
  | .nan => 0x7FF8000000000000
  | .inf neg => signBit neg + 0x7FF0000000000000
  | .finite neg mag => signBit neg + encodeMag mag

/-- Rounds the magnitude `n / d` (in units of `2^(-1074)`) to the nearest
representable magnitude, ties to even; `none` when the result is too large to
be finite. -/
def roundRatio (n d : Nat) : Option Nat :=
  let q := log2 (n / d) - 52
  let fl := n / (d * 2 ^ q)
  let rem := n % (d * 2 ^ q)
  let m := if 2 * rem > d * 2 ^ q ∨ (2 * rem = d * 2 ^ q ∧ fl % 2 = 1) then fl + 1 else fl
  let r := m * 2 ^ q
  if r < 2 ^ 2098 then some r else none

/-- The value nearest to `(-1)^neg * n / d` units. -/
def ofRatio (neg : Bool) (n d : Nat) : Value :=
  match roundRatio n d with
  | some r => .finite neg r
  | none => .inf neg

/-- A finite value as an integer multiple of `2^(-1074)`. -/
def signed (neg : Bool) (mag : Nat) : Int := if neg then -(mag : Int) else (mag : Int)

def addValue : Value → Value → Value
  | .nan, _ => .nan
  | _, .nan => .nan
  | .inf s, .inf t => if s = t then .inf s else .nan
  | .inf s, .finite _ _ => .inf s
  | .finite _ _, .inf t => .inf t
  | .finite s a, .finite t b =>
    let v := signed s a + signed t b
    if v = 0 then .finite (s && t) 0 else ofRatio (decide (v < 0)) v.natAbs 1

def mulValue : Value → Value → Value
  | .nan, _ => .nan
  | _, .nan => .nan
  | .inf s, .inf t => .inf (s != t)
  | .inf s, .finite t b => if b = 0 then .nan else .inf (s != t)
  | .finite s a, .inf t => if a = 0 then .nan else .inf (s != t)
  | .finite s a, .finite t b => ofRatio (s != t) (a * b) (2 ^ 1074)

def divValue : Value → Value → Value
  | .nan, _ => .nan
  | _, .nan => .nan
  | .inf _, .inf _ => .nan
  | .inf s, .finite t _ => .inf (s != t)
  | .finite s _, .inf t => .finite (s != t) 0
  | .finite s a, .finite t b =>
    if b = 0 then (if a = 0 then .nan else .inf (s != t))
    else ofRatio (s != t) (a * 2 ^ 1074) b

/-- Go `math.Floor` on values: the largest integer value not above the argument. -/
def floorValue : Value → Value
  | .finite s a =>
    if s then
      (if a = 0 then .finite true 0 else .finite true ((a + 2 ^ 1074 - 1) / 2 ^ 1074 * 2 ^ 1074))
    else .finite false (a / 2 ^ 1074 * 2 ^ 1074)
  | v => v

/-- Position of a value on the extended number line, NaN apart. -/
def Value.key : Value → Int
  | .nan => 0
  | .inf neg => if neg then -(2 ^ 2200 : Int) else (2 ^ 2200 : Int)
  | .finite neg mag => signed neg mag

def Value.isNaN : Value → Bool
  | .nan => true
  | _ => false

/-- Go `-x`: the sign bit is flipped. -/
def neg (x : Nat) : Nat :=
  if x < 9223372036854775808 then x + 9223372036854775808 else x - 9223372036854775808

/-- Go `x + y` on `float64`. -/
def add (x y : Nat) : Nat := encode (addValue (decode x) (decode y))

/-- Go `x - y` on `float64`. -/
def sub (x y : Nat) : Nat := encode (addValue (decode x) (decode (neg y)))

/-- Go `x * y` on `float64`. -/
def mul (x y : Nat) : Nat := encode (mulValue (decode x) (decode y))

/-- Go `x / y` on `float64`. -/
def div (x y : Nat) : Nat := encode (divValue (decode x) (decode y))

/-- Go `math.Floor(x)`. -/
def floor (x : Nat) : Nat := encode (floorValue (decode x))

/-- Go `x < y`; false when either side is NaN. -/
def lt (x y : Nat) : Bool :=
  !(decode x).isNaN && !(decode y).isNaN && decide ((decode x).key < (decode y).key)

/-- Go `float64(v)` for an integer. -/
def ofInt (v : Int) : Nat :=
  encode (if v = 0 then .finite false 0 else ofRatio (decide (v < 0)) (v.natAbs * 2 ^ 1074) 1)

/-- The value that the conversion of a float to `int` or `int64` gives on amd64
when the float is NaN, infinite or outside the 64 bit range. -/
def intIndefinite : Int := -9223372036854775808

/-- Go `int(x)` and `int64(x)` for a `float64`: the fraction is discarded. -/
def toInt (x : Nat) : Int :=
  match decode x with
  | .finite s a =>
    let v := Int.tdiv (signed s a) (2 ^ 1074)
    if -9223372036854775808 ≤ v ∧ v ≤ 9223372036854775807 then v else intIndefinite
  | _ => intIndefinite

/-- The test `math.Abs(frac) < 1e-9` on the fractional part that `math.Modf`
returns; `1e-9` is the double `0x3E112E0BE826D695`. It fails for NaN and for
the infinities, whose fractional part is NaN. -/
def fracBelowNano (x : Nat) : Bool :=
  match decode x with
  | .finite _ a =>
    (match decode 0x3E112E0BE826D695 with
     | .finite _ c => decide (a % 2 ^ 1074 < c)
     | _ => false)
  | _ => false

end f64
namespace mapmeta

/-! ## Map metadata: values

Strings are byte lists. A number is the bit pattern of a `float64`. The bytes
that the code names are `10` line feed, `34` and `39` the two quotes, `35` the
hash, `40 41` round, `91 93` square and `123 125` curly brackets, `42 43 45 47`
the operators `* + - /`, `44` comma, `46` dot, `58` colon, `61` equals sign and
`92` backslash. -/

/-- The bytes of a string of ASCII characters. -/
def ascii (s : String) : List Nat := s.data.map Char.toNat

/-- Source `Value`: the kind with the field that the kind uses. The zero value
`Value{}` is `null`. -/
inductive Value where
  | null
  | number (num : Nat)
  | string (str : List Nat)
  | bool (bval : Bool)
  | list (list : List Value)
  | dict (dict : List (List Nat × Value))

/-- The errors of the evaluation, without their text. -/
inductive EvalError where
  | notNumeric
  | notIndexable
  | indexOutOfRange
  | invalidNumber
  | unknownIdentifier
  | unexpectedSymbol
  | unexpectedToken
  | expected (symbol : List Nat)
  | invalidDictKey
  | unsupportedOperator
  | outOfFuel
deriving DecidableEq, Repr

/-- Source `Value.asNumber`. -/
def Value.asNumber : Value → Except EvalError Nat
  | .number num => .ok num
  | .bool bval => if bval then .ok (f64.ofInt 1) else .ok (f64.ofInt 0)
  | _ => .error .notNumeric

/-- Source `Value.asString`; `none` stands for the error. -/
def Value.asString : Value → Option (List Nat)
  | .string str => some str
  | _ => none

/-- Source `Value.asBool`; `none` stands for the error. -/
def Value.asBool : Value → Option Bool
  | .bool bval => some bval
  | _ => none

/-- Source `Value.isNumber`. -/
def Value.isNumber : Value → Bool
  | .number _ => true
  | _ => false

/-- Source `Value.isInt`. -/
def Value.isInt : Value → Bool
  | .number num => f64.fracBelowNano num
  | _ => false

/-- Source `Value.index`. -/
def Value.index (v idx : Value) : Except EvalError Value :=
  match idx.asNumber with
  | .error e => .error e
  | .ok i =>
    let index := f64.toInt i
    match v with
    | .list items =>
      if index < 0 ∨ index ≥ items.length then .error .indexOutOfRange
      else
        match items.get? index.toNat with
        | some item => .ok item
        | none => .error .indexOutOfRange
    | _ => .error .notIndexable

/-- The values of Go's `any` that `toInterface` produces; `int` is the type of
the extension `cap_limit`. -/
inductive Any where
  | nil
  | int64 (v : Int)
  | int (v : Int)
  | float64 (v : Nat)
  | string (s : List Nat)
  | bool (b : Bool)
  | int64s (l : List Int)
  | float64s (l : List Nat)
  | strings (l : List (List Nat))
  | anys (l : List Any)
  | map (m : List (List Nat × Any))

/-- The number of a value, `0` for the other kinds (the field `num`). -/
def Value.num : Value → Nat
  | .number num => num
  | _ => f64.ofInt 0

/-- The string of a value, empty for the other kinds (the field `str`). -/
def Value.str : Value → List Nat
  | .string str => str
  | _ => []

/-- The assignment `m[key] = val` on a Go map. -/
def setKey {α : Type} (m : List (List Nat × α)) (key : List Nat) (val : α) :
    List (List Nat × α) :=
  (key, val) :: m.filter (fun e => decide (e.1 ≠ key))

/-- The lookup `m[key]` with its `ok`. -/
def getKey {α : Type} (m : List (List Nat × α)) (key : List Nat) : Option α :=
  (m.find? (fun e => decide (e.1 = key))).map (fun e => e.2)

/-- The three flags that the first loop of `convertList` computes. -/
def listFlags (list : List Value) : Bool × Bool × Bool :=
  list.foldl
    (fun (f : Bool × Bool × Bool) val =>
      let allInts := if !val.isNumber then false else if !val.isInt then false else f.1
      let allFloats := if !val.isNumber then false else f.2.1
      let allStrings := match val with
        | .string _ => f.2.2
        | _ => false
      (allInts, allFloats, allStrings))
    (true, true, true)

mutual
/-- Source `Value.toInterface`. -/
def Value.toInterface : Value → Any
  | .null => .nil
  | .number num => if f64.fracBelowNano num then .int64 (f64.toInt num) else .float64 num
  | .string str => .string str
  | .bool bval => .bool bval
  | .list items =>
    if items.length = 0 then .anys []
    else if (listFlags items).1 then .int64s (items.map (fun val => f64.toInt val.num))
    else if (listFlags items).2.1 then .float64s (items.map Value.num)
    else if (listFlags items).2.2 then .strings (items.map Value.str)
    else .anys (toInterfaceList items)
  | .dict entries => .map (toInterfaceDict entries)
/-- The last loop of `convertList`. -/
def toInterfaceList : List Value → List Any
  | [] => []
  | val :: rest => val.toInterface :: toInterfaceList rest
/-- The loop of `toInterface` over a dict: values that convert to `nil` are
left out. The entries are visited from the oldest one on. -/
def toInterfaceDict : List (List Nat × Value) → List (List Nat × Any)
  | [] => []
  | (k, val) :: rest =>
    match val.toInterface with
    | .nil => toInterfaceDict rest
    | converted => setKey (toInterfaceDict rest) k converted
end

/-! ## Map metadata: the lexer -/

inductive tokenType where
  | tokenEOF
  | tokenIdentifier
  | tokenNumber
  | tokenString
  | tokenSymbol
deriving DecidableEq, Repr

structure token where
  typ : tokenType
  lit : List Nat
deriving DecidableEq, Repr

/-- Source `lexer`. The lexer only reads forward, so the model keeps the unread
rest `input[pos:]` of the input in place of `input` and `pos`. -/
structure lexer where
  rest : List Nat
deriving DecidableEq, Repr

/-- Source `newLexer`. -/
def newLexer (input : List Nat) : lexer := { rest := input }

/-- Source `isIdentifierStart`. -/
def isIdentifierStart (b : Nat) : Bool :=
  decide (b = 95) || (decide (65 ≤ b) && decide (b ≤ 90)) || (decide (97 ≤ b) && decide (b ≤ 122))

/-- Go `unicode.IsDigit(rune(b))` for a byte. -/
def isDigit (b : Nat) : Bool := decide (48 ≤ b) && decide (b ≤ 57)

/-- Source `isIdentifierPart`. -/
def isIdentifierPart (b : Nat) : Bool := isIdentifierStart b || isDigit b

/-- Go `unicode.IsSpace(rune(b))` for a byte: tab to carriage return, space,
next line and no-break space. -/
def isSpace (b : Nat) : Bool :=
  (decide (9 ≤ b) && decide (b ≤ 13)) || decide (b = 32) || decide (b = 133) || decide (b = 160)

/-- The bytes that `skipWhitespace` skips: space, tab, line feed, carriage return. -/
def isLexSpace (b : Nat) : Bool :=
  decide (b = 32) || decide (b = 9) || decide (b = 10) || decide (b = 13)

/-- The bytes of a number token: digits and dots. -/
def isNumberPart (b : Nat) : Bool := isDigit b || decide (b = 46)

/-- Source `lexer.skipWhitespace`. -/
def lexer.skipWhitespace (l : lexer) : lexer := { rest := l.rest.dropWhile isLexSpace }

/-- The byte that an escape sequence of a string literal stands for. -/
def unescape (ch : Nat) : Nat :=
  if ch = 110 then 10 else if ch = 116 then 9 else ch

/-- The loop of `scanString` on the unread rest: the literal and the rest behind
the closing quote, or `none` when the input ends first. -/
def scanStringLoop (delim : Nat) : List Nat → List Nat → Bool → Option (List Nat × List Nat)
  | [], _, _ => none
  | ch :: rest, builder, escaped =>
    if escaped then scanStringLoop delim rest (builder ++ [unescape ch]) false
    else if ch = 92 then scanStringLoop delim rest builder true
    else if ch = delim then some (builder, rest)
    else scanStringLoop delim rest (builder ++ [ch]) false

/-- Source `lexer.scanString`; `start` is the rest behind the opening quote.
An unterminated literal is the raw rest of the input. -/
def scanString (start : List Nat) (delim : Nat) : token × lexer :=
  match scanStringLoop delim start [] false with
  | some (lit, rest) => ({ typ := .tokenString, lit := lit }, { rest := rest })
  | none => ({ typ := .tokenString, lit := start }, { rest := [] })

/-- Go `string(ch)` for a byte: the UTF-8 encoding of the code point `ch`. -/
def byteString (ch : Nat) : List Nat :=
  if ch < 128 then [ch] else [192 + ch / 64, 128 + ch % 64]

/-- Source `lexer.nextToken`. -/
def lexer.nextToken (l : lexer) : token × lexer :=
  match l.skipWhitespace.rest with
  | [] => ({ typ := .tokenEOF, lit := [] }, { rest := [] })
  | ch :: tail =>
    if isIdentifierStart ch then
      ({ typ := .tokenIdentifier, lit := ch :: tail.takeWhile isIdentifierPart },
        { rest := tail.dropWhile isIdentifierPart })
    else if ch = 46 ∨ isDigit ch = true then
      ({ typ := .tokenNumber, lit := ch :: tail.takeWhile isNumberPart },
        { rest := tail.dropWhile isNumberPart })
    else if ch = 39 ∨ ch = 34 then scanString tail ch
    else if ch = 47 ∧ tail.head? = some 47 then
      ({ typ := .tokenSymbol, lit := [47, 47] }, { rest := tail.drop 1 })
    else ({ typ := .tokenSymbol, lit := byteString ch }, { rest := tail })

/-! ## Map metadata: numbers -/

/-- The value of a run of decimal digits that follows the value `acc`. -/
def digitsValue (acc : Nat) : List Nat → Nat
  | [] => acc
  | d :: rest => digitsValue (acc * 10 + (d - 48)) rest

/-- Go `strconv.ParseFloat(lit, 64)` on a literal of digits and dots, which is
all that the lexer passes: the nearest double of a literal with at most one dot
and at least one digit, an error for the other literals and for a value too
large for a double. -/
def parseFloat (lit : List Nat) : Except EvalError Nat :=
  let whole := lit.takeWhile (fun b => decide (b ≠ 46))
  let rest := lit.dropWhile (fun b => decide (b ≠ 46))
  let frac := rest.drop 1
  if frac.any (fun b => decide (b = 46)) then .error .invalidNumber
  else if whole.length + frac.length = 0 then .error .invalidNumber
  else
    match f64.roundRatio (digitsValue 0 (whole ++ frac) * 2 ^ 1074) (10 ^ frac.length) with
    | some mag => .ok (f64.encode (.finite false mag))
    | none => .error .invalidNumber

end mapmeta
namespace mapmeta

/-! ## Map metadata: the parser

The parser evaluates while it reads. `fuel` bounds the depth of the calls and
of the loop iterations; every level of it reads a token, so
`8 * len(expr) + 8` is never used up. -/

structure parser where
  lex : lexer
  cur : token
  peeked : Bool
deriving DecidableEq, Repr

/-- Source `newParser`. -/
def newParser (input : List Nat) : parser :=
  { lex := newLexer input, cur := { typ := .tokenEOF, lit := [] }, peeked := false }

/-- Source `parser.next`. -/
def parser.next (p : parser) : token × parser :=
  if p.peeked then (p.cur, { p with peeked := false })
  else
    let r := p.lex.nextToken
    (r.1, { p with lex := r.2, cur := r.1 })

/-- Source `parser.peek`. -/
def parser.peek (p : parser) : token × parser :=
  if !p.peeked then
    let r := p.lex.nextToken
    (r.1, { lex := r.2, cur := r.1, peeked := true })
  else (p.cur, p)

/-- Source `parser.consume`. -/
def parser.consume (p : parser) (expected : List Nat) : Bool × parser :=
  let r := p.peek
  if r.1.typ = .tokenSymbol ∧ r.1.lit = expected then (true, (r.2.next).2)
  else (false, r.2)

/-- Source `parser.expect`. -/
def parser.expect (p : parser) (expected : List Nat) : Except EvalError parser :=
  let r := p.consume expected
  if r.1 then .ok r.2 else .error (.expected expected)

/-- Source `applyBinary`. -/
def applyBinary (op : List Nat) (left right : Value) : Except EvalError Value :=
  match left.asNumber with
  | .error e => .error e
  | .ok l =>
    match right.asNumber with
    | .error e => .error e
    | .ok r =>
      if op = [43] then .ok (.number (f64.add l r))
      else if op = [45] then .ok (.number (f64.sub l r))
      else if op = [42] then .ok (.number (f64.mul l r))
      else if op = [47] then .ok (.number (f64.div l r))
      else if op = [47, 47] then .ok (.number (f64.floor (f64.div l r)))
      else .error .unsupportedOperator

/-- The test `tok.typ != tokenSymbol || (tok.lit != "+" && tok.lit != "-")` negated. -/
def isAdditive (tok : token) : Bool :=
  decide (tok.typ = .tokenSymbol) && (decide (tok.lit = [43]) || decide (tok.lit = [45]))

/-- The test of the loop of `parseMultiplicative` negated. -/
def isMultiplicative (tok : token) : Bool :=
  decide (tok.typ = .tokenSymbol) &&
    (decide (tok.lit = [42]) || decide (tok.lit = [47]) || decide (tok.lit = [47, 47]))

/-- The identifier `True`. -/
def litTrue : List Nat := [84, 114, 117, 101]

/-- The identifier `False`. -/
def litFalse : List Nat := [70, 97, 108, 115, 101]

/-- The identifier `None`. -/
def litNone : List Nat := [78, 111, 110, 101]

/-- The environment `map[string]Value`. -/
abbrev Env := List (List Nat × Value)

mutual
/-- Source `parser.parseExpression`. -/
def parseExpression : Nat → Env → parser → Except EvalError (Value × parser)
  | 0, _, _ => .error .outOfFuel
  | fuel + 1, env, p => parseAdditive fuel env p
/-- Source `parser.parseAdditive`. -/
def parseAdditive : Nat → Env → parser → Except EvalError (Value × parser)
  | 0, _, _ => .error .outOfFuel
  | fuel + 1, env, p =>
    match parseMultiplicative fuel env p with
    | .error e => .error e
    | .ok (left, p1) => additiveLoop fuel env left p1
/-- The loop of `parseAdditive`. -/
def additiveLoop : Nat → Env → Value → parser → Except EvalError (Value × parser)
  | 0, _, _, _ => .error .outOfFuel
  | fuel + 1, env, left, p =>
    if !isAdditive p.peek.1 then .ok (left, p.peek.2)
    else
      match parseMultiplicative fuel env (p.peek.2.next).2 with
      | .error e => .error e
      | .ok (right, p1) =>
        match applyBinary p.peek.1.lit left right with
        | .error e => .error e
        | .ok value => additiveLoop fuel env value p1
/-- Source `parser.parseMultiplicative`. -/
def parseMultiplicative : Nat → Env → parser → Except EvalError (Value × parser)
  | 0, _, _ => .error .outOfFuel
  | fuel + 1, env, p =>
    match parseUnary fuel env p with
    | .error e => .error e
    | .ok (left, p1) => multiplicativeLoop fuel env left p1
/-- The loop of `parseMultiplicative`. -/
def multiplicativeLoop : Nat → Env → Value → parser → Except EvalError (Value × parser)
  | 0, _, _, _ => .error .outOfFuel
  | fuel + 1, env, left, p =>
    if !isMultiplicative p.peek.1 then .ok (left, p.peek.2)
    else
      match parseUnary fuel env (p.peek.2.next).2 with
      | .error e => .error e
      | .ok (right, p1) =>
        match applyBinary p.peek.1.lit left right with
        | .error e => .error e
        | .ok value => multiplicativeLoop fuel env value p1
/-- Source `parser.parseUnary`. -/
def parseUnary : Nat → Env → parser → Except EvalError (Value × parser)
  | 0, _, _ => .error .outOfFuel
  | fuel + 1, env, p =>
    if isAdditive p.peek.1 then
      match parseUnary fuel env (p.peek.2.next).2 with
      | .error e => .error e
      | .ok (val, p1) =>
        if p.peek.1.lit = [45] then
          match val.asNumber with
          | .error e => .error e
          | .ok num => .ok (.number (f64.neg num), p1)
        else .ok (val, p1)
    else parsePrimary fuel env p.peek.2
/-- Source `parser.parsePrimary`. -/
def parsePrimary : Nat → Env → parser → Except EvalError (Value × parser)
  | 0, _, _ => .error .outOfFuel
  | fuel + 1, env, p =>
    let tok := p.next.1
    let p1 := p.next.2
    match tok.typ with
    | .tokenNumber =>
      match parseFloat tok.lit with
      | .error e => .error e
      | .ok f => parseIndexing fuel env (.number f) p1
    | .tokenString => parseIndexing fuel env (.string tok.lit) p1
    | .tokenIdentifier =>
      if tok.lit = litTrue then parseIndexing fuel env (.bool true) p1
      else if tok.lit = litFalse then parseIndexing fuel env (.bool false) p1
      else if tok.lit = litNone then parseIndexing fuel env .null p1
      else
        match getKey env tok.lit with
        | some val => parseIndexing fuel env val p1
        | none => .error .unknownIdentifier
    | .tokenSymbol =>
      if tok.lit = [40] then parseTupleOrGroup fuel env p1
      else if tok.lit = [91] then parseList fuel env p1
      else if tok.lit = [123] then parseDict fuel env p1
      else .error .unexpectedSymbol
    | .tokenEOF => .error .unexpectedToken
/-- Source `parser.parseTupleOrGroup`. -/
def parseTupleOrGroup : Nat → Env → parser → Except EvalError (Value × parser)
  | 0, _, _ => .error .outOfFuel
  | fuel + 1, env, p =>
    if (p.consume [41]).1 then .ok (.list [], (p.consume [41]).2)
    else
      match parseExpression fuel env (p.consume [41]).2 with
      | .error e => .error e
      | .ok (first, p1) =>
        if !(p1.consume [44]).1 then
          match (p1.consume [44]).2.expect [41] with
          | .error e => .error e
          | .ok p2 => .ok (first, p2)
        else tupleLoop fuel env [first] (p1.consume [44]).2
/-- The loop of `parseTupleOrGroup`. -/
def tupleLoop : Nat → Env → List Value → parser → Except EvalError (Value × parser)
  | 0, _, _, _ => .error .outOfFuel
  | fuel + 1, env, values, p =>
    if (p.consume [41]).1 then .ok (.list values, (p.consume [41]).2)
    else
      match parseExpression fuel env (p.consume [41]).2 with
      | .error e => .error e
      | .ok (val, p1) =>
        if (p1.consume [41]).1 then .ok (.list (values ++ [val]), (p1.consume [41]).2)
        else if !((p1.consume [41]).2.consume [44]).1 then
          match ((p1.consume [41]).2.consume [44]).2.expect [41] with
          | .error e => .error e
          | .ok p2 => .ok (.list (values ++ [val]), p2)
        else tupleLoop fuel env (values ++ [val]) ((p1.consume [41]).2.consume [44]).2
/-- Source `parser.parseList`. -/
def parseList : Nat → Env → parser → Except EvalError (Value × parser)
  | 0, _, _ => .error .outOfFuel
  | fuel + 1, env, p =>
    if (p.consume [93]).1 then .ok (.list [], (p.consume [93]).2)
    else listLoop fuel env [] (p.consume [93]).2
/-- The loop of `parseList`. -/
def listLoop : Nat → Env → List Value → parser → Except EvalError (Value × parser)
  | 0, _, _, _ => .error .outOfFuel
  | fuel + 1, env, values, p =>
    if p.peek.1.typ = .tokenSymbol ∧ p.peek.1.lit = [93] then
      .ok (.list values, (p.peek.2.next).2)
    else
      match parseExpression fuel env p.peek.2 with
      | .error e => .error e
      | .ok (val, p1) =>
        if (p1.consume [93]).1 then .ok (.list (values ++ [val]), (p1.consume [93]).2)
        else if !((p1.consume [93]).2.consume [44]).1 then
          match ((p1.consume [93]).2.consume [44]).2.expect [93] with
          | .error e => .error e
          | .ok p2 => .ok (.list (values ++ [val]), p2)
        else listLoop fuel env (values ++ [val]) ((p1.consume [93]).2.consume [44]).2
/-- Source `parser.parseDict`. -/
def parseDict : Nat → Env → parser → Except EvalError (Value × parser)
  | 0, _, _ => .error .outOfFuel
  | fuel + 1, env, p =>
    if (p.consume [125]).1 then .ok (.dict [], (p.consume [125]).2)
    else dictLoop fuel env [] (p.consume [125]).2
/-- The loop of `parseDict`. -/
def dictLoop : Nat → Env → List (List Nat × Value) → parser →
    Except EvalError (Value × parser)
  | 0, _, _, _ => .error .outOfFuel
  | fuel + 1, env, values, p =>
    if p.peek.1.typ = .tokenSymbol ∧ p.peek.1.lit = [125] then
      .ok (.dict values, (p.peek.2.next).2)
    else
      let keyTok := (p.peek.2.next).1
      if keyTok.typ = .tokenIdentifier ∨ keyTok.typ = .tokenString then
        match (p.peek.2.next).2.expect [58] with
        | .error e => .error e
        | .ok p1 =>
          match parseExpression fuel env p1 with
          | .error e => .error e
          | .ok (val, p2) =>
            if (p2.consume [125]).1 then
              .ok (.dict (setKey values keyTok.lit val), (p2.consume [125]).2)
            else if !((p2.consume [125]).2.consume [44]).1 then
              match ((p2.consume [125]).2.consume [44]).2.expect [125] with
              | .error e => .error e
              | .ok p3 => .ok (.dict (setKey values keyTok.lit val), p3)
            else
              dictLoop fuel env (setKey values keyTok.lit val)
                ((p2.consume [125]).2.consume [44]).2
      else .error .invalidDictKey
/-- Source `parser.parseIndexing`. -/
def parseIndexing : Nat → Env → Value → parser → Except EvalError (Value × parser)
  | 0, _, _, _ => .error .outOfFuel
  | fuel + 1, env, base, p =>
    if !(p.consume [91]).1 then .ok (base, (p.consume [91]).2)
    else
      match parseExpression fuel env (p.consume [91]).2 with
      | .error e => .error e
      | .ok (idx, p1) =>
        match p1.expect [93] with
        | .error e => .error e
        | .ok p2 =>
          match base.index idx with
          | .error e => .error e
          | .ok value => parseIndexing fuel env value p2
end

/-- Source `evaluateExpression`. -/
def evaluateExpression (expr : List Nat) (env : Env) : Except EvalError Value :=
  match parseExpression (8 * expr.length + 8) env (newParser expr) with
  | .error e => .error e
  | .ok (val, _) => .ok val

end mapmeta
namespace mapmeta

/-! ## Map metadata: assignments -/

structure assignment where
  Name : List Nat
  Expr : List Nat
deriving DecidableEq, Repr

/-- Source `trimWhitespace`: spaces and tabs are cut off at both ends. -/
def trimWhitespace (s : List Nat) : List Nat :=
  ((s.dropWhile (fun b => decide (b = 32) || decide (b = 9))).reverse.dropWhile
    (fun b => decide (b = 32) || decide (b = 9))).reverse

/-- Source `skipLine`, on the rest of the input from `pos` on. -/
def skipLine (rest : List Nat) : List Nat := rest.dropWhile (fun b => decide (b ≠ 10))

/-- The loop of `readExpression`. The scan only reads forward: `start` is the
input from `start` on, the list argument the input from `i` on and `n` the
difference `i - start`; `depth`, `inString`, `quote` and `escaped` are the
variables of the source. The result is the expression and the input from the
returned position on. -/
def readLoop (start : List Nat) :
    List Nat → Nat → Nat → Bool → Nat → Bool → List Nat × List Nat
  | [], n, _, _, _, _ => (trimWhitespace (start.take n), [])
  | ch :: tail, n, depth, inString, quote, escaped =>
    if inString then
      if escaped then readLoop start tail (n + 1) depth true quote false
      else if ch = 92 then readLoop start tail (n + 1) depth true quote true
      else if ch = quote then readLoop start tail (n + 1) depth false quote false
      else readLoop start tail (n + 1) depth true quote false
    else if ch = 10 then
      if depth = 0 then (trimWhitespace (start.take n), ch :: tail)
      else readLoop start tail (n + 1) depth false quote escaped
    else if ch = 35 then
      if depth = 0 then (trimWhitespace (start.take n), skipLine (ch :: tail))
      else readLoop start tail (n + 1) depth false quote escaped
    else if ch = 40 ∨ ch = 91 ∨ ch = 123 then
      readLoop start tail (n + 1) (depth + 1) false quote escaped
    else if ch = 41 ∨ ch = 93 ∨ ch = 125 then
      if (if depth > 0 then depth - 1 else depth) = 0 ∧ ch = 41 ∧ tail.head? = some 10 then
        (trimWhitespace (start.take (n + 1)), tail)
      else readLoop start tail (n + 1) (if depth > 0 then depth - 1 else depth) false quote escaped
    else if ch = 39 ∨ ch = 34 then readLoop start tail (n + 1) depth true ch escaped
    else readLoop start tail (n + 1) depth false quote escaped

/-- Source `readExpression`; `start` is the input from the index `start` on. -/
def readExpression (start : List Nat) : List Nat × List Nat :=
  readLoop start start 0 0 false 0 false

/-- The test `unicode.IsSpace(rune(b)) && b != '\n'` of the two inner loops. -/
def isBlank (b : Nat) : Bool := isSpace b && decide (b ≠ 10)

/-- The test `next == '=' || next == '>' || next == '<'` on the byte behind `=`. -/
def isComparison (afterEq : List Nat) : Bool :=
  match afterEq with
  | next :: _ => decide (next = 61) || decide (next = 62) || decide (next = 60)
  | [] => false

/-- The loop of `scanAssignments`; the list argument is the input from the
index `i` on and `assignments` holds the assignments found so far. Every
iteration moves `i` forward, so `len(input) + 1` iterations are never used up. -/
def scanLoop : Nat → List Nat → List assignment → List assignment
  | 0, _, assignments => assignments
  | _ + 1, [], assignments => assignments
  | fuel + 1, ch :: tail, assignments =>
    if isSpace ch then scanLoop fuel tail assignments
    else if !isIdentifierStart ch then scanLoop fuel tail assignments
    else
      match (tail.dropWhile isIdentifierPart).dropWhile isBlank with
      | [] => scanLoop fuel (tail.dropWhile isIdentifierPart) assignments
      | c :: afterEq =>
        if c ≠ 61 then scanLoop fuel (tail.dropWhile isIdentifierPart) assignments
        else if isComparison afterEq then scanLoop fuel afterEq assignments
        else if (readExpression (afterEq.dropWhile isBlank)).1 ≠ [] then
          scanLoop fuel (readExpression (afterEq.dropWhile isBlank)).2
            (assignments ++ [{ Name := ch :: tail.takeWhile isIdentifierPart,
                               Expr := (readExpression (afterEq.dropWhile isBlank)).1 }])
        else scanLoop fuel (readExpression (afterEq.dropWhile isBlank)).2 assignments

/-- Source `scanAssignments`. -/
def scanAssignments (input : List Nat) : List assignment :=
  scanLoop (input.length + 1) input []

/-- Go `strings.ReplaceAll(s, "\r\n", "\n")` followed by
`strings.ReplaceAll(s, "\r", "\n")`: a carriage return with its line feed, and
every other carriage return, becomes one line feed. -/
def replaceReturns : List Nat → List Nat
  | [] => []
  | 13 :: 10 :: rest => 10 :: replaceReturns rest
  | 13 :: rest => 10 :: replaceReturns rest
  | b :: rest => b :: replaceReturns rest

/-- Source `normalizeInput`; the byte order mark is the three bytes `EF BB BF`. -/
def normalizeInput (s : List Nat) : List Nat :=
  let s1 := replaceReturns s
  if s1.take 3 = [239, 187, 191] then s1.drop 3 else s1

/-- The loop of `Parse` over the assignments: an assignment whose expression
fails is skipped. -/
def evalAssignments (assignments : List assignment) (env : Env) : Env :=
  assignments.foldl
    (fun env a =>
      match evaluateExpression a.Expr env with
      | .ok val => setKey env a.Name val
      | .error _ => env)
    env

/-! ## Map metadata: the result -/

structure MetadataInfo where
  Name : List Nat
  Version : List Nat
  Author : List Nat
  Description : List Nat
deriving DecidableEq, Repr

structure Fog where
  R : Nat
  G : Nat
  B : Nat
deriving DecidableEq, Repr

structure Spawns where
  Blue : List (List Nat)
  Green : List (List Nat)
  BlueArea : List Nat
  GreenArea : List Nat
deriving DecidableEq, Repr

structure Rules where
  Protected : List (List Nat)
  Area : List Nat
  Ball : List Nat
  BlueGoal : List Nat
  GreenGoal : List Nat
  PenaltyAreas : List (List Nat)
deriving DecidableEq, Repr

structure EntityLocations where
  Flag : List Nat
  Base : List Nat
deriving DecidableEq, Repr

structure Entities where
  Blue : EntityLocations
  Green : EntityLocations
deriving DecidableEq, Repr

set_option linter.dupNamespace false in
/-- Source `Metadata`; a slice that is `nil` is the empty list. -/
structure Metadata where
  Metadata : MetadataInfo
  Fog : Option Fog
  Rules : Option Rules
  Spawns : Spawns
  Extensions : List (List Nat × Any)
  Entities : Entities

/-- Source `toFloatSlice`; `none` is the result `nil`. -/
def toFloatSlice (v : Value) (expected : Nat) : Option (List Nat) :=
  match v with
  | .list items =>
    if expected > 0 ∧ items.length ≠ expected then none
    else
      items.foldl
        (fun (result : Option (List Nat)) item =>
          match result, item.asNumber with
          | some fs, .ok f => some (fs ++ [f])
          | _, _ => none)
        (some [])
  | _ => none

/-- The length `len(toFloatSlice(v, expected))`, `0` for `nil`. -/
def floatsOr (v : Value) (expected : Nat) : List Nat := (toFloatSlice v expected).getD []

/-- Source `toMatrix`; the empty list is the result `nil`. -/
def toMatrix (v : Value) (rowLen : Nat) : List (List Nat) :=
  match v with
  | .list items =>
    items.foldl
      (fun (rows : List (List Nat)) item =>
        match item with
        | .list _ =>
          let values := floatsOr item 0
          if values.length < rowLen then rows else rows ++ [values.take rowLen]
        | _ => rows)
      []
  | _ => []

/-- Source `toStringSlice`; the empty list is also the result `nil`. -/
def toStringSlice (v : Value) : List (List Nat) :=
  match v with
  | .list items =>
    (items.foldl
      (fun (result : Option (List (List Nat))) item =>
        match result, item with
        | some ss, .string str => some (ss ++ [str])
        | _, _ => none)
      (some [])).getD []
  | _ => []

/-- Go `uint8(clampFloat(v, 0, 255))`: `math.Max` and `math.Min` pass a NaN on,
which the conversion on amd64 turns into `0`. -/
def clampByte (v : Nat) : Nat :=
  match f64.decode v with
  | .nan => 0
  | _ =>
    let low := if f64.lt v (f64.ofInt 0) then f64.ofInt 0 else v
    let high := if f64.lt (f64.ofInt 255) low then f64.ofInt 255 else low
    (f64.toInt high % 256).toNat

/-- The string of `env[key]` when it is there and is a string, else `old`. -/
def stringOr (env : Env) (key : List Nat) (old : List Nat) : List Nat :=
  match getKey env key with
  | some v => (v.asString).getD old
  | none => old

/-- The part of `buildMetadata` that fills `Extensions`. -/
def buildExtensions (env : Env) : List (List Nat × Any) :=
  let e0 : List (List Nat × Any) :=
    match getKey env (ascii "extensions") with
    | some (.dict entries) => toInterfaceDict entries
    | _ => []
  let e1 := [ascii "murderball", ascii "boss"].foldl
    (fun (e : List (List Nat × Any)) key =>
      match getKey env key with
      | some (.bool true) => setKey e key (.bool true)
      | _ => e)
    e0
  match getKey env (ascii "cap_limit") with
  | some v =>
    (match v.asNumber with
     | .ok n => setKey e1 (ascii "cap_limit") (.int (f64.toInt n))
     | .error _ => e1)
  | none => e1

/-- A list of `len` floats under `key`, else `old`. -/
def floatsAt (env : Env) (key : List Nat) (len : Nat) (old : List Nat) : List Nat :=
  match getKey env key with
  | some v => if (floatsOr v len).length = len then floatsOr v len else old
  | none => old

/-- The matrix under `key`; the empty list when there is none. -/
def matrixAt (env : Env) (key : List Nat) (rowLen : Nat) : List (List Nat) :=
  match getKey env key with
  | some v => toMatrix v rowLen
  | none => []

/-- The part of `buildMetadata` that fills `Rules`; `none` when `hasRules` stays false. -/
def buildRules (env : Env) : Option Rules :=
  let protected_ :=
    match getKey env (ascii "protected") with
    | some v => toStringSlice v
    | none => []
  let rules : Rules :=
    { Protected := protected_,
      Area := floatsAt env (ascii "area") 4 [],
      Ball := floatsAt env (ascii "ball") 3 [],
      BlueGoal := floatsAt env (ascii "blue_goal") 6 [],
      GreenGoal := floatsAt env (ascii "green_goal") 6 [],
      PenaltyAreas := matrixAt env (ascii "penalty_areas") 4 }
  if rules.Protected.length > 0 ∨ rules.Area.length = 4 ∨ rules.Ball.length = 3 ∨
      rules.BlueGoal.length = 6 ∨ rules.GreenGoal.length = 6 ∨ rules.PenaltyAreas.length > 0 then
    some rules
  else none

/-- Source `buildMetadata`. -/
def buildMetadata (env : Env) : Metadata :=
  { Metadata :=
      { Name := stringOr env (ascii "name") [],
        Version := stringOr env (ascii "version") [],
        Author := stringOr env (ascii "author") [],
        Description :=
          match getKey env (ascii "description") with
          | some v => (v.asString).getD []
          | none => stringOr env (ascii "desc") [] },
    Fog :=
      match getKey env (ascii "fog") with
      | some v =>
        (match floatsOr v 3 with
         | [r, g, b] => some { R := clampByte r, G := clampByte g, B := clampByte b }
         | _ => none)
      | none => none,
    Rules := buildRules env,
    Spawns :=
      { Blue := matrixAt env (ascii "spawn_locations_blue") 3,
        Green := matrixAt env (ascii "spawn_locations_green") 3,
        BlueArea := floatsAt env (ascii "BLUE_RECT") 4 [],
        GreenArea := floatsAt env (ascii "GREEN_RECT") 4 [] },
    Extensions := buildExtensions env,
    Entities :=
      { Blue := { Flag := (matrixAt env (ascii "intel_locations_blue") 3).headD [],
                  Base := (matrixAt env (ascii "base_locations_blue") 3).headD [] },
        Green := { Flag := (matrixAt env (ascii "intel_locations_green") 3).headD [],
                   Base := (matrixAt env (ascii "base_locations_green") 3).headD [] } } }

/-- The environment that `Parse` builds from the content of a file. -/
def parseEnv (content : List Nat) : Env :=
  evalAssignments (scanAssignments (normalizeInput content)) []

/-- Source `Parse`; `none` is the error `no name found`. -/
def Parse (content : List Nat) : Option Metadata :=
  let m := buildMetadata (parseEnv content)
  if m.Metadata.Name = [] then none else some m

end mapmeta
namespace mapmeta

/-! ## Map metadata: the source of the test -/

/-- The lines of the source text of `TestParseMetadataExpressions`. -/
def testLines : List String :=
  ["name = 'Test Map'",
   "version = \"1.2\"",
   "author = 'Author'",
   "description = ('A multi-line description')",
   "fog = (128, 200, 64)",
   "murderball = True",
   "",
   "extensions = \x7b",
   "    'water_damage': 100,",
   "    'push_blue_spawn': (10, 20, 30)",
   "\x7d",
   "",
   "AREA = (156, 190, 354, 322)",
   "PAD = 18",
   "WIDTH = 18",
   "BLUE_RECT = (AREA[0] + PAD, AREA[1], AREA[0] + PAD + WIDTH, AREA[3])",
   "GREEN_RECT = (AREA[2] - PAD - WIDTH, AREA[1], AREA[2] - PAD, AREA[3])",
   "area = AREA",
   "ball = (AREA[0] + (AREA[2] - AREA[0]) / 2, AREA[1] + (AREA[3] - AREA[1]) / 2, 40)",
   "blue_goal = (",
   "    AREA[0],",
   "    AREA[1],",
   "    40,",
   "    AREA[0] + 5,",
   "    AREA[1] + 5,",
   "    64,",
   ")",
   "green_goal = (",
   "    AREA[2],",
   "    AREA[1],",
   "    40,",
   "    AREA[2] + 5,",
   "    AREA[1] + 5,",
   "    64,",
   ")",
   "penalty_areas = [",
   "    (AREA[0], AREA[1], AREA[0] + 12, AREA[3]),",
   "    (AREA[2] - 12, AREA[1], AREA[2], AREA[3]),",
   "]",
   "",
   "spawn_locations_blue = [",
   "    (1, 2, 3),",
   "    (4, 5, 6),",
   "]",
   "",
   "spawn_locations_green = [",
   "    (7, 8, 9),",
   "]",
   "",
   "protected = ['A1', 'B2']"]

/-- The source text of the test: a line feed, then every line with its line feed. -/
def testSource : List Nat := 10 :: (testLines.map (fun l => ascii l ++ [10])).flatten

/-- The `int64` in a value of type `any`. -/
def Any.asInt64 : Any → Option Int
  | .int64 v => some v
  | _ => none

/-- The flag in a value of type `any`. -/
def Any.asBool : Any → Option Bool
  | .bool b => some b
  | _ => none

/-- An environment that binds `x`, `y` and `z` to the numbers `a`, `b` and `c`. -/
def xyz (a b c : Nat) : Env :=
  [([120], .number a), ([121], .number b), ([122], .number c)]

/-- The numbers of a list value, empty for a value that is not a list of numbers. -/
def Value.floats (v : Value) : List Nat := floatsOr v 0

end mapmeta

namespace f64

/-! ## Square roots and single precision -/

/-- Binary search for the integer square root: `acc` is the part of the root
found so far and `k` the number of lower bits still open. -/
def sqrtSearch (n : Nat) : Nat → Nat → Nat
  | 0, acc => acc
  | k + 1, acc =>
    if (acc + 2 ^ k) * (acc + 2 ^ k) ≤ n then sqrtSearch n k (acc + 2 ^ k) else sqrtSearch n k acc

/-- The largest `r` with `r * r <= n`. -/
def isqrt (n : Nat) : Nat := sqrtSearch n (log2 n / 2 + 1) 0

/-- The magnitude nearest to the square root of `n` units of `2^(-2148)`, ties
to even. -/
def roundSqrt (n : Nat) : Nat :=
  let q := log2 (isqrt n) - 52
  let fl := isqrt n / 2 ^ q
  let half := (2 * fl + 1) * (2 * fl + 1) * 2 ^ (2 * q)
  let m := if 4 * n > half ∨ (4 * n = half ∧ fl % 2 = 1) then fl + 1 else fl
  m * 2 ^ q

def sqrtValue : Value → Value
  | .nan => .nan
  | .inf neg => if neg then .nan else .inf false
  | .finite neg a =>
    if a = 0 then .finite neg 0
    else if neg then .nan
    else .finite false (roundSqrt (a * 2 ^ 1074))

/-- Go `math.Sqrt(x)`. -/
def sqrt (x : Nat) : Nat := encode (sqrtValue (decode x))

/-- Go `float64(x)` for a `float32`: the value is kept. -/
def ofFloat32 (x : Nat) : Nat :=
  encode (match f32.decode x with
    | .nan => .nan
    | .inf neg => .inf neg
    | .finite neg mag => .finite neg (mag * 2 ^ 925))

/-- Go `float32(x)` for a `float64`: the nearest single, ties to even. -/
def toFloat32 (x : Nat) : Nat :=
  f32.encode (match decode x with
    | .nan => .nan
    | .inf neg => .inf neg
    | .finite neg mag => f32.ofMag neg mag 925)

end f64

namespace server

open protocol player

/-! ## The hit scan

The terrain raycast `physics.RaycastVXL` is not modelled: its results `hit` and
`hitPos` are parameters of `processShot`. -/

/-- Source `Server.calculateDistance`:
`float32(math.Sqrt(float64(v.X*v.X + v.Y*v.Y + v.Z*v.Z)))`. -/
def calculateDistance (v : Vector3f) : Nat :=
  f64.toFloat32 (f64.sqrt (f64.ofFloat32
    (f32.add (f32.add (f32.mul v.X v.X) (f32.mul v.Y v.Y)) (f32.mul v.Z v.Z))))

/-- Source `Server.isValidTarget`. -/
def isValidTarget (shooter target : Player) : Bool :=
  decide (target.ID ≠ shooter.ID) && target.Alive && decide (target.Team ≠ shooter.Team)

/-- The `float32` constant `0.4`. -/
def hitRadius : Nat := 0x3ECCCCCD

/-- The `float32` constant `128`, the range of a shot. -/
def shotRange : Nat := 0x43000000

/-- The vector `a - b`. -/
def minus (a b : Vector3f) : Vector3f :=
  ⟨f32.sub a.X b.X, f32.sub a.Y b.Y, f32.sub a.Z b.Z⟩

/-- The value `dot` of `checkPlayerHit`. -/
def dotOf (direction toTarget : Vector3f) : Nat :=
  f32.add (f32.add (f32.mul direction.X toTarget.X) (f32.mul direction.Y toTarget.Y))
    (f32.mul direction.Z toTarget.Z)

/-- The value `closestPoint` of `checkPlayerHit`. -/
def closestPointOf (eyePos direction targetPos : Vector3f) : Vector3f :=
  let dot := dotOf direction (minus targetPos eyePos)
  ⟨f32.add eyePos.X (f32.mul direction.X dot), f32.add eyePos.Y (f32.mul direction.Y dot),
   f32.add eyePos.Z (f32.mul direction.Z dot)⟩

/-- The value `distanceToLine` of `checkPlayerHit`. -/
def distanceToLine (eyePos direction targetPos : Vector3f) : Nat :=
  calculateDistance (minus (closestPointOf eyePos direction targetPos) targetPos)

/-- Source `Server.checkPlayerHit`: the three results `hit`, `distance` and
`hitType`. -/
def checkPlayerHit (eyePos direction : Vector3f) (target : Player) (maxDistance : Nat) :
    Bool × Nat × Nat :=
  if f32.gt (calculateDistance (minus target.Position eyePos)) maxDistance then (false, 0, 0)
  else if f32.lt (dotOf direction (minus target.Position eyePos)) 0 then (false, 0, 0)
  else if f32.gt (distanceToLine eyePos direction target.Position) hitRadius then (false, 0, 0)
  else
    (true, calculateDistance (minus target.Position eyePos),
      determineHitType (closestPointOf eyePos direction target.Position) target.Position)

/-- What `findClosestPlayerHit` holds while it visits the players: the variables
`closestPlayer`, `hitType` and `closestDistance`. -/
structure ClosestHit where
  closestPlayer : Option Player
  hitType : Nat
  closestDistance : Nat
deriving DecidableEq, Repr

/-- The function that `findClosestPlayerHit` passes to `ForEach`. -/
def visitTarget (shooter : Player) (eyePos direction : Vector3f) (c : ClosestHit)
    (target : Player) : ClosestHit :=
  if target.State = PlayerStateDisconnected then c
  else if !isValidTarget shooter target then c
  else if (checkPlayerHit eyePos direction target c.closestDistance).1 then
    { closestPlayer := some target,
      hitType := (checkPlayerHit eyePos direction target c.closestDistance).2.2,
      closestDistance := (checkPlayerHit eyePos direction target c.closestDistance).2.1 }
  else c

/-- Source `Server.findClosestPlayerHit`; the players are visited in the order
of the list. -/
def findClosestPlayerHit (players : Manager) (shooter : Player) (eyePos direction : Vector3f)
    (maxRange : Nat) : ClosestHit :=
  players.players.foldl (visitTarget shooter eyePos direction)
    { closestPlayer := none, hitType := 0, closestDistance := maxRange }

/-- Source `Server.processShot` up to its call of `damagePlayer`: the arguments
of that call and the kill type that is reported when the call returns `true`,
or `none` where no player is damaged. -/
def processShot (players : Manager) (shooter : Player) (eyePos direction : Vector3f)
    (hit : Bool) (hitPos : Vector3f) : Option (DamageCall × Nat) :=
  match (findClosestPlayerHit players shooter eyePos direction shotRange).closestPlayer with
  | none => none
  | some closestPlayer =>
    if !hit || f32.lt (calculateDistance (minus closestPlayer.Position eyePos))
        (calculateDistance (minus hitPos eyePos)) then
      some ({ playerID := closestPlayer.ID,
              damage := physics.CalculateDamage shooter.Weapon
                (findClosestPlayerHit players shooter eyePos direction shotRange).hitType
                (f32.mul (calculateDistance (minus closestPlayer.Position eyePos))
                  (calculateDistance (minus closestPlayer.Position eyePos))),
              source := eyePos, damageType := 1 },
            killTypeOf (findClosestPlayerHit players shooter eyePos direction shotRange).hitType)
    else none

/-- The rifleman, player 1 of team 0, at `(64, 64, 30)`. -/
def rifleman : Player :=
  { gamestate.alivePlayer 1 0 with Position := ⟨0x42800000, 0x42800000, 0x41F00000⟩ }

/-- The target, player 2 of team 1, at `(64, 67, 30)`. -/
def opponent : Player :=
  { gamestate.alivePlayer 2 1 with Position := ⟨0x42800000, 0x42860000, 0x41F00000⟩ }

/-- The two players of the example. -/
def duel : Manager := { players := [rifleman, opponent] }

/-- The eye position that `handleShot` computes for the rifleman: his position
with `Z` lowered by the `float32` constant `0.3`. -/
def levelEye : Vector3f :=
  ⟨rifleman.Position.X, rifleman.Position.Y, f32.sub rifleman.Position.Z 0x3E99999A⟩

end server

/-! # Properties -/

namespace vxl

/-! ## Round trip of a map with an overhang (C1) -/

/-- C1 (code defect). `Create` accepts `overhangStream` for a 2 x 2 x 8 map and
accepts what `Write` returns for that map, but the second map differs from the
first in its geometry: the air cells `(0, 0, 2)` and `(0, 0, 3)` below the
overhang are air in the first map and solid in the second. The loop of
`writeColumn` that collects the top colours tests `OnSurface` without testing
`IsSolid`, so it runs through the air below the block at `z = 1`. -/
theorem C1_overhang_lost_on_reload :
    (reload 2 2 8 overhangStream).map
      (fun p => (p.1.IsSolid 0 0 2, p.2.IsSolid 0 0 2, p.1.IsSolid 0 0 3, p.2.IsSolid 0 0 3)) =
      some (false, true, false, true) := by
  decide!

/-! ## Covering a block with `Set` (C2) -/

/-- C2 (code defect). In `plusMap` the block `(1, 1, 2)` is solid. Placing a
block on top of it with `Set(1, 1, 1, colour)` encloses it on all six sides;
`updateNeighborSurfaces` then calls `removeAir` on it, which clears its geometry
bit together with its chunk list entry, so the covered block is air afterwards. -/
theorem C2_set_clears_enclosed_neighbor :
    plusMap.IsInside 1 1 1 = true ∧ plusMap.IsSolid 1 1 2 = true ∧
      (plusMap.Set 1 1 1 7).IsSolid 1 1 2 = false := by
  decide!

/-! ## Chunk list entries for air cells (C4) -/

/-- C4 (code defect). In `pillarMap` every chunk list entry is at an in range
solid cell. After `SetAir(0, 0, 1)` the chunk list holds entries for the air
cells next to the removed block, such as `(1, 0, 1)`, and after `SetAir(0, 0, 0)`
it holds an entry at the position packed from `z = -1`: the second loop of
`SetAir` inserts an entry for every neighbour that is on the surface without
testing that the neighbour is solid. -/
theorem C4_setair_adds_entries_for_air :
    pillarMap.entriesSolid = true ∧
      (pillarMap.SetAir 0 0 1).entriesSolid = false ∧
      (pillarMap.SetAir 0 0 1).IsSolid 1 0 1 = false ∧
      (∃ b ∈ ((pillarMap.SetAir 0 0 1).chunkOf 0).entries, b.pos = posOf 1 0 1) ∧
      (∃ b ∈ ((pillarMap.SetAir 0 0 0).chunkOf 0).entries, b.pos = posOf 0 0 (-1)) := by
  decide!

end vxl

namespace protocol

/-! ## Extension info round trip (C8) -/

/-- C8 (code defect). Reading the bytes that `Write` produces for
`sampleExtensionInfo` into a fresh packet succeeds and restores `Length` and
`Entries`, but `PacketID` stays `0` instead of `60`: `Read` never assigns
`p.PacketID = data[0]`. -/
theorem C8_read_drops_packet_id :
    sampleExtensionInfo.Length = sampleExtensionInfo.Entries.length ∧
      (PacketExtensionInfo.fresh.Read sampleExtensionInfo.Write).toOption =
        some { PacketID := 0, Length := 1, Entries := sampleExtensionInfo.Entries } ∧
      (PacketExtensionInfo.fresh.Read sampleExtensionInfo.Write).toOption ≠
        some sampleExtensionInfo := by
  decide!

end protocol

namespace vxl

/-! ## Wrapping of solidity queries (C6) -/


/-- The wrap `((x % w) + w) % w` of Go, with `%` truncating, is the modulus that is not negative. -/
theorem tmod_wrap (x w : Int) (hw : 0 < w) : Int.tmod (Int.tmod x w + w) w = x % w := by
  have h1 : x.tmod w + w * x.tdiv w = x := Int.tmod_add_tdiv x w
  have h2 : x.tmod w < w := Int.tmod_lt_of_pos x hw
  have h3 : -w < x.tmod w := by
    obtain ⟨n, rfl⟩ := Int.eq_ofNat_of_zero_le (Int.le_of_lt hw)
    cases x with
    | ofNat k =>
      have h5 : 0 ≤ Int.tmod (Int.ofNat k) (n : Int) := Int.tmod_nonneg (n : Int) (Int.ofNat_nonneg k)
      exact Int.lt_of_lt_of_le (by omega) h5
    | negSucc k =>
      have h4 : (k + 1) % n < n := Nat.mod_lt _ (by omega)
      show -(n : Int) < -((((k + 1) % n : Nat)) : Int)
      omega
  rcases Int.lt_or_le 0 (x.tmod w + w) with h | h
  · rw [Int.tmod_eq_emod (by omega) (by omega)]
    rw [Int.add_emod_self]
    conv_rhs => rw [← h1]
    rw [Int.add_mul_emod_self_left]
  · omega

/-- Inside the depth range `IsSolid` reads the geometry bit of the wrapped column. -/
theorem IsSolid_eq (m : Map) (x y z : Int) (hW : 1 ≤ m.width) (hH : 1 ≤ m.height)
    (hz0 : 0 ≤ z) (hz1 : z < m.depth) :
    m.IsSolid x y z = m.hasGeometry (x % m.width) (y % m.height) z := by
  have hw : (0 : Int) < m.width := by omega
  have hh : (0 : Int) < m.height := by omega
  unfold Map.IsSolid
  rw [if_neg (by omega), if_neg (by omega)]
  have ex : (if x < 0 ∨ x ≥ m.width then Int.tmod (Int.tmod x m.width + m.width) m.width else x)
      = x % m.width := by
    split
    · exact tmod_wrap x _ hw
    · rw [Int.emod_eq_of_lt (by omega) (by omega)]
  have ey : (if y < 0 ∨ y ≥ m.height then
      Int.tmod (Int.tmod y m.height + m.height) m.height else y) = y % m.height := by
    split
    · exact tmod_wrap y _ hh
    · rw [Int.emod_eq_of_lt (by omega) (by omega)]
  simp only [ex, ey]

/-- C6. For a map with width, height and depth at least 1 and all integers
`x`, `y`, `z`: `IsSolid` is false for `z < 0`, true for `z >= depth`, and
otherwise it is the geometry bit `hasGeometry` at `(x mod W, y mod H, z)` with
the modulus that is not negative (the wrapped column is in range), so that
`IsSolid` is periodic in `x` with period `W` and in `y` with period `H`. -/
theorem C6_IsSolid_wraps (m : Map) (x y z : Int) (hW : 1 ≤ m.width) (hH : 1 ≤ m.height)
    (hD : 1 ≤ m.depth) :
    (z < 0 → m.IsSolid x y z = false) ∧
    (z ≥ m.depth → m.IsSolid x y z = true) ∧
    (0 ≤ z → z < m.depth →
      m.IsSolid x y z = m.hasGeometry (x % m.width) (y % m.height) z) ∧
    0 ≤ x % m.width ∧ x % m.width < m.width ∧ 0 ≤ y % m.height ∧ y % m.height < m.height ∧
    m.IsSolid (x + m.width) y z = m.IsSolid x y z ∧
    m.IsSolid x (y + m.height) z = m.IsSolid x y z := by
  have hw : (0 : Int) < m.width := by omega
  have hh : (0 : Int) < m.height := by omega
  refine ⟨?_, ?_, ?_, Int.emod_nonneg _ (by omega), Int.emod_lt_of_pos _ hw,
    Int.emod_nonneg _ (by omega), Int.emod_lt_of_pos _ hh, ?_, ?_⟩
  · intro h; unfold Map.IsSolid; rw [if_pos h]
  · intro h; unfold Map.IsSolid; rw [if_neg (by omega), if_pos h]
  · intro h0 h1; exact IsSolid_eq m x y z hW hH h0 h1
  · rcases Int.lt_or_le z 0 with h | h
    · unfold Map.IsSolid; rw [if_pos h, if_pos h]
    · rcases Int.lt_or_le z m.depth with h1 | h1
      · rw [IsSolid_eq m _ y z hW hH h h1, IsSolid_eq m x y z hW hH h h1, Int.add_emod_self]
      · unfold Map.IsSolid; rw [if_neg (by omega), if_pos h1, if_neg (by omega), if_pos h1]
  · rcases Int.lt_or_le z 0 with h | h
    · unfold Map.IsSolid; rw [if_pos h, if_pos h]
    · rcases Int.lt_or_le z m.depth with h1 | h1
      · rw [IsSolid_eq m x _ z hW hH h h1, IsSolid_eq m x y z hW hH h h1, Int.add_emod_self]
      · unfold Map.IsSolid; rw [if_neg (by omega), if_pos h1, if_neg (by omega), if_pos h1]

/-- C6 at a concrete input: the column `(-1, 5)` of the 3 x 3 x 4 map `plusMap`. -/
theorem C6_IsSolid_wraps_witness :
    plusMap.IsSolid (-1) 5 2 = plusMap.hasGeometry ((-1) % 3) (5 % 3) 2 ∧
      plusMap.IsSolid (-1 + 3) 5 2 = plusMap.IsSolid (-1) 5 2 :=
  ⟨(C6_IsSolid_wraps plusMap (-1) 5 2 (by decide) (by decide) (by decide)).2.2.1
      (by decide) (by decide),
    (C6_IsSolid_wraps plusMap (-1) 5 2 (by decide) (by decide) (by decide)).2.2.2.2.2.2.2.1⟩

/-! ## Ground level (C7) -/


/-- With five cells below `z` in range, the count of the inner loop reaches five exactly
when all five are solid. -/
theorem solidCount_five (m : Map) (x y : Int) (z : Nat) (hz : z + 5 < m.depth) :
    m.solidCount x y z 5 1 0 ≥ 5 ↔
      ∀ i : Nat, 1 ≤ i → i ≤ 5 → m.hasGeometry x y ((z : Int) + (i : Int)) = true := by
  have e1 : z + 1 < m.depth := by omega
  have e2 : z + 2 < m.depth := by omega
  have e3 : z + 3 < m.depth := by omega
  have e4 : z + 4 < m.depth := by omega
  constructor
  · intro h i hi1 hi5
    simp only [Map.solidCount] at h
    have hi : i = 1 ∨ i = 2 ∨ i = 3 ∨ i = 4 ∨ i = 5 := by omega
    by_cases g1 : m.hasGeometry x y ((z : Int) + 1) = true
    · by_cases g2 : m.hasGeometry x y ((z : Int) + 2) = true
      · by_cases g3 : m.hasGeometry x y ((z : Int) + 3) = true
        · by_cases g4 : m.hasGeometry x y ((z : Int) + 4) = true
          · by_cases g5 : m.hasGeometry x y ((z : Int) + 5) = true
            · rcases hi with rfl | rfl | rfl | rfl | rfl <;>
                simp only [Nat.cast_ofNat, Nat.cast_one] <;> assumption
            · simp [g1, g2, g3, g4, g5, e1, e2, e3, e4, hz] at h
          · simp [g1, g2, g3, g4, e1, e2, e3, e4, hz] at h
        · simp [g1, g2, g3, e1, e2, e3, e4, hz] at h
      · simp [g1, g2, e1, e2, e3, e4, hz] at h
    · simp [g1, e1, e2, e3, e4, hz] at h
  · intro h
    have g1 := h 1 (by omega) (by omega)
    have g2 := h 2 (by omega) (by omega)
    have g3 := h 3 (by omega) (by omega)
    have g4 := h 4 (by omega) (by omega)
    have g5 := h 5 (by omega) (by omega)
    simp only [Nat.cast_ofNat, Nat.cast_one] at g1 g2 g3 g4 g5
    simp [Map.solidCount, g1, g2, g3, g4, g5, e1, e2, e3, e4, hz]

/-- The test of the first loop is the predicate `groundAt`. -/
theorem isGround_iff (m : Map) (x y : Int) (z : Nat) (hz : z < m.depth - 5) :
    m.isGround x y z = true ↔ m.groundAt x y z := by
  have hz5 : z + 5 < m.depth := by omega
  unfold Map.isGround Map.groundAt
  simp only [Bool.and_eq_true, Bool.not_eq_true', decide_eq_true_eq]
  rw [solidCount_five m x y z hz5]
  constructor
  · rintro ⟨⟨h1, _⟩, h3⟩
    exact ⟨hz5, h1, h3⟩
  · rintro ⟨_, h1, h3⟩
    refine ⟨⟨h1, ?_⟩, h3⟩
    simpa using h3 1 (by omega) (by omega)

theorem groundAt_lt (m : Map) (x y : Int) (z : Nat) (h : m.groundAt x y z) : z < m.depth - 5 := by
  have := h.1; omega

theorem transition_iff (m : Map) (x y : Int) (z : Nat) (h1 : 1 ≤ z) (h2 : z < 1 + (m.depth - 1)) :
    (!m.hasGeometry x y ((z : Int) - 1) && m.hasGeometry x y (z : Int)) = true ↔ m.transitionAt x y z := by
  unfold Map.transitionAt
  simp only [Bool.and_eq_true, Bool.not_eq_true']
  constructor
  · rintro ⟨a, b⟩; exact ⟨h1, by omega, a, b⟩
  · rintro ⟨_, _, a, b⟩; exact ⟨a, b⟩

/-- C7. For an in range column `(x, y)` (`IsInside(x, y, 0)`, the test of the
source): if some `z` with `0 <= z < depth - 5`
is air with `z+1 .. z+5` solid (`groundAt`), `FindGroundLevel` returns the
smallest such `z`; otherwise it returns `z - 1` for the smallest `z >= 1` with
`z - 1` air and `z` solid (`transitionAt`), or `depth - 1` when there is no
such transition; the result lies in `[0, depth - 1]`. -/
theorem C7_FindGroundLevel (m : Map) (x y : Int) (hin : m.IsInside x y 0 = true) :
    (∀ z, m.groundAt x y z → (∀ z', z' < z → ¬ m.groundAt x y z') →
      m.FindGroundLevel x y = (z : Int)) ∧
    ((∀ z, ¬ m.groundAt x y z) → ∀ z, m.transitionAt x y z →
      (∀ z', z' < z → ¬ m.transitionAt x y z') → m.FindGroundLevel x y = (z : Int) - 1) ∧
    ((∀ z, ¬ m.groundAt x y z) → (∀ z, ¬ m.transitionAt x y z) →
      m.FindGroundLevel x y = (m.depth : Int) - 1) ∧
    0 ≤ m.FindGroundLevel x y ∧ m.FindGroundLevel x y ≤ (m.depth : Int) - 1 := by
  have hd : 0 < m.depth := by
    simp only [Map.IsInside, decide_eq_true_eq] at hin; omega
  have hfirst : ∀ z, m.groundAt x y z → (∀ z', z' < z → ¬ m.groundAt x y z') →
      (List.range (m.depth - 5)).find? (fun z => m.isGround x y z) = some z := by
    intro z hz hmin
    rw [List.find?_range_eq_some]
    refine ⟨(isGround_iff m x y z (groundAt_lt m x y z hz)).2 hz,
      List.mem_range.2 (groundAt_lt m x y z hz), ?_⟩
    intro j hj
    have hj5 : j < m.depth - 5 := by have := groundAt_lt m x y z hz; omega
    cases hg : m.isGround x y j with
    | false => rfl
    | true => exact absurd ((isGround_iff m x y j hj5).1 hg) (hmin j hj)
  have hnone : (∀ z, ¬ m.groundAt x y z) →
      (List.range (m.depth - 5)).find? (fun z => m.isGround x y z) = none := by
    intro hno
    rw [List.find?_range_eq_none]
    intro i hi
    cases hg : m.isGround x y i with
    | false => rfl
    | true => exact absurd ((isGround_iff m x y i hi).1 hg) (hno i)
  have hsecond : ∀ z, m.transitionAt x y z → (∀ z', z' < z → ¬ m.transitionAt x y z') →
      (List.range' 1 (m.depth - 1)).find?
        (fun (z : Nat) => !m.hasGeometry x y ((z : Int) - 1) && m.hasGeometry x y (z : Int)) = some z := by
    intro z hz hmin
    have hz1 := hz.1
    have hz2 := hz.2.1
    rw [List.find?_range'_eq_some]
    refine ⟨(transition_iff m x y z hz1 (by omega)).2 hz, List.mem_range'_1.2 ⟨hz1, by omega⟩, ?_⟩
    intro j hj1 hj
    cases hg : (!m.hasGeometry x y ((j : Int) - 1) && m.hasGeometry x y (j : Int)) with
    | false => rfl
    | true => exact absurd ((transition_iff m x y j hj1 (by omega)).1 hg) (hmin j hj)
  have hnone2 : (∀ z, ¬ m.transitionAt x y z) →
      (List.range' 1 (m.depth - 1)).find?
        (fun (z : Nat) => !m.hasGeometry x y ((z : Int) - 1) && m.hasGeometry x y (z : Int)) = none := by
    intro hno
    rw [List.find?_range'_eq_none]
    intro i hi1 hi
    cases hg : (!m.hasGeometry x y ((i : Int) - 1) && m.hasGeometry x y (i : Int)) with
    | false => rfl
    | true => exact absurd ((transition_iff m x y i hi1 hi).1 hg) (hno i)
  refine ⟨?_, ?_, ?_, ?_⟩
  · intro z hz hmin
    unfold Map.FindGroundLevel
    simp only [hin, Bool.not_true, Bool.false_eq_true, if_false, hfirst z hz hmin]
  · intro hno z hz hmin
    unfold Map.FindGroundLevel
    simp only [hin, Bool.not_true, Bool.false_eq_true, if_false, hnone hno, hsecond z hz hmin]
  · intro hno hno2
    unfold Map.FindGroundLevel
    simp only [hin, Bool.not_true, Bool.false_eq_true, if_false, hnone hno, hnone2 hno2]
  · unfold Map.FindGroundLevel
    simp only [hin, Bool.not_true, Bool.false_eq_true, if_false]
    cases h1 : (List.range (m.depth - 5)).find? (fun z => m.isGround x y z) with
    | some z =>
      have := (List.find?_range_eq_some.1 h1).2.1
      have := List.mem_range.1 this
      simp only; omega
    | none =>
      cases h2 : (List.range' 1 (m.depth - 1)).find?
          (fun (z : Nat) => !m.hasGeometry x y ((z : Int) - 1) && m.hasGeometry x y (z : Int)) with
      | some z =>
        have := (List.find?_range'_eq_some.1 h2).2.1
        have := List.mem_range'_1.1 this
        simp only; omega
      | none => simp only; omega

/-- C7 at a concrete input: the column `(1, 1)` of `plusMap`. -/
theorem C7_FindGroundLevel_witness :
    plusMap.IsInside 1 1 0 = true ∧ 0 ≤ plusMap.FindGroundLevel 1 1 ∧
      plusMap.FindGroundLevel 1 1 ≤ (plusMap.depth : Int) - 1 :=
  ⟨by decide, (C7_FindGroundLevel plusMap 1 1 (by decide)).2.2.2⟩

end vxl

namespace protocol

/-! ## State data packet (C9) -/


/-- The padding loop appends zero bytes up to length 104. -/
theorem padLoop_eq (n : Nat) (buf : List Nat) :
    padLoop n buf = buf ++ List.replicate (min n (104 - buf.length)) 0 := by
  induction n generalizing buf with
  | zero => simp [padLoop]
  | succ n ih =>
    unfold padLoop
    split
    · rename_i h
      rw [ih]
      simp only [List.length_append, List.length_singleton, List.append_assoc]
      have : min (n + 1) (104 - buf.length) = min n (104 - (buf.length + 1)) + 1 := by omega
      rw [this, List.replicate_succ]
      simp
    · rename_i h
      have : min (n + 1) (104 - buf.length) = 0 := by omega
      rw [this]; simp

theorem writeHeader_length (p : PacketStateData) : p.writeHeader.length = 32 := by
  simp [PacketStateData.writeHeader, p.Team1Name.property, p.Team2Name.property]

theorem writeIntel_length (held : Bool) (carrier : Nat) (v : Vector3f) :
    (writeIntel held carrier v).length = 12 := by
  cases held <;> simp [writeIntel, writeVector, writeFloat]

theorem writeVector_length (v : Vector3f) : (writeVector v).length = 12 := by
  simp [writeVector, writeFloat]

theorem Write_ctf (p : PacketStateData) (h : p.Gamemode = GamemodeTypeCTF) :
    p.Write = p.writeHeader ++
      [p.CTFState.Team1Score, p.CTFState.Team2Score, p.CTFState.CaptureLimit,
        intelFlags p.CTFState.HeldIntels] ++
      writeIntel (decide ((p.CTFState.HeldIntels &&& 1) ≠ 0)) p.CTFState.CarrierIDs.1
        p.CTFState.Team1Intel ++
      writeIntel (decide ((p.CTFState.HeldIntels &&& 2) ≠ 0)) p.CTFState.CarrierIDs.2
        p.CTFState.Team2Intel ++
      (writeVector p.CTFState.Team1Base ++ writeVector p.CTFState.Team2Base) ++
      List.replicate 20 0 := by
  unfold PacketStateData.Write
  simp only [h, if_true]
  rw [padLoop_eq]
  simp only [List.length_append, writeHeader_length, writeIntel_length, writeVector_length,
    List.length_cons, List.length_nil, List.append_assoc]
  rfl

/-- C9. For every state data packet whose mode is CTF, `Write` emits exactly
104 bytes: the 32 byte header (type, player id, three B, G, R triples, two 10
byte team names, mode), 4 bytes of scores, capture limit and flags, two 12 byte
intel slots, 24 bytes of base positions, and then padding bytes that are all
zero (20 of them, which fill the packet up to 104 bytes). -/
theorem C9_ctf_state_data_layout (p : PacketStateData) (h : p.Gamemode = GamemodeTypeCTF) :
    p.Write.length = 104 ∧
    p.Write = p.writeHeader ++
      [p.CTFState.Team1Score, p.CTFState.Team2Score, p.CTFState.CaptureLimit,
        intelFlags p.CTFState.HeldIntels] ++
      writeIntel (decide ((p.CTFState.HeldIntels &&& 1) ≠ 0)) p.CTFState.CarrierIDs.1
        p.CTFState.Team1Intel ++
      writeIntel (decide ((p.CTFState.HeldIntels &&& 2) ≠ 0)) p.CTFState.CarrierIDs.2
        p.CTFState.Team2Intel ++
      (writeVector p.CTFState.Team1Base ++ writeVector p.CTFState.Team2Base) ++
      List.replicate 20 0 ∧
    p.writeHeader.length = 32 ∧
    (writeIntel (decide ((p.CTFState.HeldIntels &&& 1) ≠ 0)) p.CTFState.CarrierIDs.1
        p.CTFState.Team1Intel).length = 12 ∧
    (writeIntel (decide ((p.CTFState.HeldIntels &&& 2) ≠ 0)) p.CTFState.CarrierIDs.2
        p.CTFState.Team2Intel).length = 12 ∧
    (writeVector p.CTFState.Team1Base ++ writeVector p.CTFState.Team2Base).length = 24 := by
  refine ⟨?_, Write_ctf p h, writeHeader_length p, writeIntel_length _ _ _,
    writeIntel_length _ _ _, ?_⟩
  · rw [Write_ctf p h]
    simp only [List.length_append, writeHeader_length, writeIntel_length, writeVector_length,
      List.length_cons, List.length_nil, List.length_replicate]
  · simp only [List.length_append, writeVector_length]

/-- C9 at a concrete input: the packet built for the state `team1IntelTaken`. -/
theorem C9_ctf_state_data_layout_witness :
    (gamestate.team1IntelTaken.GetStateData 3).Gamemode = GamemodeTypeCTF ∧
      (gamestate.team1IntelTaken.GetStateData 3).Write.length = 104 :=
  ⟨by decide, (C9_ctf_state_data_layout (gamestate.team1IntelTaken.GetStateData 3) (by decide)).1⟩

/-- The byte at offset 35 of a CTF packet is `intelFlags`. -/
theorem Write_flags (p : PacketStateData) (h : p.Gamemode = GamemodeTypeCTF) :
    p.Write.getD 35 0 = intelFlags p.CTFState.HeldIntels := by
  rw [Write_ctf p h]
  simp only [List.append_assoc]
  rw [List.getD_append_right _ _ _ _ (by rw [writeHeader_length]; omega)]
  simp [writeHeader_length]

end protocol

namespace gamestate

open protocol

/-! ## Held intel flags (C10) -/

/-- C10 as stated fails. In `team1IntelTaken` the intel of team 1 is held (by a
player of team 2) and the intel of team 2 is not, and the flags byte at offset
35 is `2`: bit value 1 is clear and bit value 2 is set. -/
theorem C10_flags_counterexample :
    team1IntelTaken.Intel.1.Held = true ∧ team1IntelTaken.Intel.2.Held = false ∧
      (team1IntelTaken.GetStateData 0).Gamemode = GamemodeTypeCTF ∧
      (team1IntelTaken.GetStateData 0).Write.getD 35 0 = 2 := by
  decide!

/-- C10 (amended). In the CTF state data packet built by `GetStateData` and
encoded by `Write`, the flags byte at offset 35 has bit value 1 set exactly when
intel is enabled and the intel of team 2 is held (team 1 has the enemy intel),
and bit value 2 set exactly when intel is enabled and the intel of team 1 is
held (team 2 has the enemy intel). -/
theorem C10_flags_byte (gs : GameState) (playerID : Nat)
    (h : protocolGamemodeFor gs.Gamemode = GamemodeTypeCTF) :
    ((((gs.GetStateData playerID).Write.getD 35 0) &&& 1) ≠ 0 ↔
      (gs.intelEnabled = true ∧ gs.Intel.2.Held = true)) ∧
    ((((gs.GetStateData playerID).Write.getD 35 0) &&& 2) ≠ 0 ↔
      (gs.intelEnabled = true ∧ gs.Intel.1.Held = true)) := by
  have hg : (gs.GetStateData playerID).Gamemode = GamemodeTypeCTF := h
  have hh : (gs.GetStateData playerID).CTFState.HeldIntels = gs.heldIntels := by
    simp only [GameState.GetStateData, h, if_true]
  rw [Write_flags _ hg, hh]
  unfold GameState.heldIntels
  cases gs.intelEnabled <;> cases gs.Intel.1.Held <;> cases gs.Intel.2.Held <;> decide

/-- C10 (amended) at a concrete input: the state `team1IntelTaken`. -/
theorem C10_flags_byte_witness :
    protocolGamemodeFor team1IntelTaken.Gamemode = GamemodeTypeCTF ∧
      (((team1IntelTaken.GetStateData 0).Write.getD 35 0) &&& 2) ≠ 0 :=
  ⟨by decide, (C10_flags_byte team1IntelTaken 0 (by decide)).2.2 ⟨by decide, by decide⟩⟩

end gamestate

namespace vxl

/-! ## Binary search and chunk operations -/

theorem sortSearchLoop_spec (f : Nat → Bool) (n : Nat)
    (hmono : ∀ a b, a ≤ b → b < n → f a = true → f b = true) :
    ∀ fuel i j, i ≤ j → j ≤ n → j - i ≤ fuel → (∀ a, a < i → f a = false) →
      (∀ a, j ≤ a → a < n → f a = true) →
      i ≤ sortSearchLoop f fuel i j ∧ sortSearchLoop f fuel i j ≤ j ∧
        (∀ a, a < sortSearchLoop f fuel i j → f a = false) ∧
        (∀ a, sortSearchLoop f fuel i j ≤ a → a < n → f a = true) := by
  intro fuel
  induction fuel with
  | zero =>
    intro i j hij hjn hfuel hlo hhi
    have : i = j := by omega
    subst this
    simp only [sortSearchLoop]
    exact ⟨Nat.le_refl _, Nat.le_refl _, hlo, hhi⟩
  | succ fuel ih =>
    intro i j hij hjn hfuel hlo hhi
    unfold sortSearchLoop
    by_cases hlt : i < j
    · rw [if_pos hlt]
      have hh1 : i ≤ (i + j) / 2 := by omega
      have hh2 : (i + j) / 2 < j := by omega
      cases hf : f ((i + j) / 2) with
      | false =>
        simp only [hf, Bool.not_false, if_true]
        have := ih ((i + j) / 2 + 1) j (by omega) hjn (by omega)
          (by
            intro a ha
            cases hfa : f a with
            | false => rfl
            | true =>
              have := hmono a ((i + j) / 2) (by omega) (by omega) hfa
              rw [hf] at this; exact absurd this (by decide))
          hhi
        exact ⟨by omega, this.2.1, this.2.2.1, this.2.2.2⟩
      | true =>
        simp only [hf, Bool.not_true, Bool.false_eq_true, if_false]
        have := ih i ((i + j) / 2) hh1 (by omega) (by omega) hlo
          (by
            intro a ha han
            exact hmono ((i + j) / 2) a ha han hf)
        exact ⟨this.1, by omega, this.2.2.1, this.2.2.2⟩
    · rw [if_neg hlt]
      have : i = j := by omega
      subst this
      exact ⟨Nat.le_refl _, Nat.le_refl _, hlo, hhi⟩

theorem chunk.entries_length (c : chunk) (h : c.count ≤ c.blocks.length) :
    c.entries.length = c.count := by
  simp [chunk.entries, List.length_take, Nat.min_eq_left h]

theorem chunk.at_eq_getElem (c : chunk) (a : Nat) (h : a < c.blocks.length) :
    c.at a = c.blocks[a] := by
  unfold chunk.at
  exact List.getD_eq_getElem _ _ h

theorem chunk.entries_getElem (c : chunk) (a : Nat) (h : a < c.entries.length) :
    c.entries[a] = c.at a := by
  have h1 : a < c.blocks.length := by
    simp only [chunk.entries, List.length_take] at h; omega
  rw [chunk.at_eq_getElem c a h1]
  simp [chunk.entries]

theorem chunk.mem_entries (c : chunk) (h : c.count ≤ c.blocks.length) (b : block) :
    b ∈ c.entries ↔ ∃ a, a < c.count ∧ c.at a = b := by
  rw [List.mem_iff_getElem]
  constructor
  · rintro ⟨a, ha, rfl⟩
    exact ⟨a, by rw [chunk.entries_length c h] at ha; exact ha, (chunk.entries_getElem c a ha).symm⟩
  · rintro ⟨a, ha, rfl⟩
    have ha' : a < c.entries.length := by rw [chunk.entries_length c h]; exact ha
    exact ⟨a, ha', chunk.entries_getElem c a ha'⟩

theorem chunk.sorted_at (c : chunk) (h : c.sorted) (a b : Nat) (hab : a < b) (hb : b < c.count) :
    (c.at a).pos < (c.at b).pos := by
  have hl := chunk.entries_length c h.1
  have hp := List.pairwise_iff_getElem.1 h.2 a b (by simp [hl]; omega) (by simp [hl]; omega) hab
  simp only [List.getElem_map] at hp
  rw [chunk.entries_getElem, chunk.entries_getElem] at hp
  exact hp

theorem chunk.search_spec (c : chunk) (h : c.sorted) (p : Nat) :
    c.search p ≤ c.count ∧ (∀ a, a < c.search p → (c.at a).pos < p) ∧
      (∀ a, c.search p ≤ a → a < c.count → p ≤ (c.at a).pos) := by
  have hs := sortSearchLoop_spec (fun i => decide ((c.at i).pos ≥ p)) c.count
    (by
      intro a b hab hb hfa
      simp only [decide_eq_true_eq] at hfa ⊢
      rcases Nat.eq_or_lt_of_le hab with rfl | hlt
      · exact hfa
      · have := chunk.sorted_at c h a b hlt hb; omega)
    (c.count + 1) 0 c.count (Nat.zero_le _) (Nat.le_refl _) (by omega)
    (by intro a ha; omega) (by intro a h1 h2; omega)
  refine ⟨hs.2.1, ?_, ?_⟩
  · intro a ha
    have := hs.2.2.1 a ha
    simp only [decide_eq_false_iff_not] at this
    omega
  · intro a h1 h2
    have := hs.2.2.2 a h1 h2
    simpa using this

/-- On a sound chunk the search finds every position that has an entry. -/
theorem chunk.search_found (c : chunk) (h : c.sorted) (p : Nat)
    (hp : ∃ b ∈ c.entries, b.pos = p) :
    c.search p < c.count ∧ (c.at (c.search p)).pos = p := by
  obtain ⟨b, hb, rfl⟩ := hp
  obtain ⟨a, ha, rfl⟩ := (chunk.mem_entries c h.1 _).1 hb
  have hs := chunk.search_spec c h (c.at a).pos
  have h1 : c.search (c.at a).pos ≤ a := by
    by_contra hcon
    have := hs.2.1 a (by omega)
    omega
  refine ⟨by omega, ?_⟩
  have h2 := hs.2.2 (c.search (c.at a).pos) (Nat.le_refl _) (by omega)
  rcases Nat.eq_or_lt_of_le h1 with heq | hlt
  · rw [heq]
  · have := chunk.sorted_at c h _ a hlt ha
    omega


theorem sortSearchLoop_bounds (f : Nat → Bool) :
    ∀ fuel i j, i ≤ j → i ≤ sortSearchLoop f fuel i j ∧ sortSearchLoop f fuel i j ≤ j := by
  intro fuel
  induction fuel with
  | zero => intro i j hij; simp only [sortSearchLoop]; omega
  | succ fuel ih =>
    intro i j hij
    unfold sortSearchLoop
    by_cases hlt : i < j
    · rw [if_pos hlt]
      cases hf : f ((i + j) / 2) with
      | false =>
        simp only [hf, Bool.not_false, if_true]
        have := ih ((i + j) / 2 + 1) j (by omega)
        omega
      | true =>
        simp only [hf, Bool.not_true, Bool.false_eq_true, if_false]
        have := ih i ((i + j) / 2) (by omega)
        omega
    · rw [if_neg hlt]; omega

theorem chunk.search_le (c : chunk) (p : Nat) : c.search p ≤ c.count := by
  unfold chunk.search sortSearch
  exact (sortSearchLoop_bounds _ (c.count + 1) 0 c.count (Nat.zero_le _)).2

theorem chunk.grow_count (c : chunk) : c.grow.count = c.count := by
  unfold chunk.grow; split <;> rfl

theorem chunk.grow_entries (c : chunk) (h : c.count ≤ c.blocks.length) :
    c.grow.blocks.take c.count = c.blocks.take c.count := by
  unfold chunk.grow
  split
  · simp only [List.take_append_of_le_length h]
  · rfl

theorem chunk.grow_length (c : chunk) (h : c.count ≤ c.blocks.length) :
    c.count ≤ c.grow.blocks.length ∧
      (0 < c.blocks.length → c.count < c.grow.blocks.length) := by
  unfold chunk.grow chunkGrowth
  split
  · rename_i heq
    simp only [List.length_append, List.length_replicate]
    omega
  · rename_i hne
    omega

/-- The entries after `insert`: the count stays within the slice and every
entry is the inserted position or an entry that was there before. -/
theorem chunk.insert_entries (c : chunk) (h : c.count ≤ c.blocks.length) (q color : Nat) :
    (c.insert q color).count ≤ (c.insert q color).blocks.length ∧
      ∀ b ∈ (c.insert q color).entries, b.pos = q ∨ b ∈ c.entries := by
  unfold chunk.insert
  by_cases hf : c.search q < c.count ∧ (c.at (c.search q)).pos = q
  · simp only [hf, and_self, if_true]
    refine ⟨by simp only [List.length_set]; exact h, ?_⟩
    intro b hb
    simp only [chunk.entries, List.set_take] at hb
    rcases List.mem_or_eq_of_mem_set hb with hb | rfl
    · exact Or.inr hb
    · exact Or.inl rfl
  · rw [if_neg hf]
    have hidx := chunk.search_le c q
    have hgl := (chunk.grow_length c h).1
    have hgc := chunk.grow_count c
    have hge := chunk.grow_entries c h
    simp only [hgc]
    have hA : (c.grow.blocks.take (c.search q)).length = c.search q := by
      rw [List.length_take]; omega
    have hB : ((c.grow.blocks.drop (c.search q)).take (c.count - c.search q)).length =
        c.count - c.search q := by
      rw [List.length_take, List.length_drop]; omega
    have hlen : (c.grow.blocks.take (c.search q) ++ [(⟨q, color⟩ : block)] ++
        (c.grow.blocks.drop (c.search q)).take (c.count - c.search q)).length = c.count + 1 := by
      simp only [List.length_append, hA, hB, List.length_singleton]; omega
    refine ⟨?_, ?_⟩
    · simp only [List.length_append, hlen]; omega
    · intro b hb
      simp only [chunk.entries] at hb
      rw [List.take_append_of_le_length (by rw [hlen]), List.take_of_length_le (by rw [hlen])] at hb
      simp only [List.mem_append, List.mem_singleton] at hb
      rcases hb with (hb | rfl) | hb
      · right
        have : b ∈ c.grow.blocks.take c.count := by
          have h2 : c.grow.blocks.take (c.search q) =
              (c.grow.blocks.take c.count).take (c.search q) := by
            rw [List.take_take, Nat.min_eq_left hidx]
          rw [h2] at hb
          exact List.mem_of_mem_take hb
        rw [hge] at this; exact this
      · left; rfl
      · right
        have : b ∈ c.grow.blocks.take c.count := by
          rw [← List.drop_take] at hb
          exact List.mem_of_mem_drop hb
        rw [hge] at this; exact this

/-- The entries after a successful `remove`: the entry at the index found is erased. -/
theorem chunk.remove_entries (c : chunk) (h : c.count ≤ c.blocks.length) (p : Nat)
    (hf : c.search p < c.count ∧ (c.at (c.search p)).pos = p) :
    (c.remove p).2 = true ∧ (c.remove p).1.count ≤ (c.remove p).1.blocks.length ∧
      (c.remove p).1.entries = c.entries.eraseIdx (c.search p) := by
  have hE : c.entries.eraseIdx (c.search p) = c.blocks.take (c.search p) ++
      (c.blocks.drop (c.search p + 1)).take (c.count - 1 - c.search p) := by
    rw [List.eraseIdx_eq_take_drop_succ]
    simp only [chunk.entries, List.take_take, List.drop_take]
    rw [Nat.min_eq_left (by omega)]
    congr 2
    omega
  have hEl : (c.blocks.take (c.search p) ++
      (c.blocks.drop (c.search p + 1)).take (c.count - 1 - c.search p)).length = c.count - 1 := by
    simp only [List.length_append, List.length_take, List.length_drop]; omega
  have hml : (c.blocks.take (c.search p) ++
      (c.blocks.drop (c.search p + 1)).take (c.count - 1 - c.search p) ++
      c.blocks.drop (c.count - 1)).length = c.blocks.length := by
    rw [List.length_append, hEl, List.length_drop]; omega
  have hmt : (c.blocks.take (c.search p) ++
      (c.blocks.drop (c.search p + 1)).take (c.count - 1 - c.search p) ++
      c.blocks.drop (c.count - 1)).take (c.count - 1) = c.entries.eraseIdx (c.search p) := by
    rw [List.take_append_of_le_length (by rw [hEl]), List.take_of_length_le (by rw [hEl]), hE]
  unfold chunk.remove
  have hnot : ¬ (c.search p ≥ c.count ∨ (c.at (c.search p)).pos ≠ p) := by
    intro hc; rcases hc with hc | hc
    · omega
    · exact hc hf.2
  simp only [hnot, if_false]
  split
  · rename_i hshrink
    split
    · rename_i hpos
      have hk : (c.entries.eraseIdx (c.search p)).length = c.count - 1 := by rw [hE, hEl]
      generalize c.entries.eraseIdx (c.search p) = E at hmt hk ⊢
      simp only [hmt, chunk.entries, true_and]
      unfold chunkShrink at hshrink
      unfold chunkGrowth at hpos
      unfold chunkGrowth
      have hk2 : (E.take (c.blocks.length / 2)).length = c.count - 1 := by
        rw [List.length_take, hk]; omega
      refine ⟨?_, ?_⟩
      · simp only [List.length_append, List.length_replicate, hk2]; omega
      · rw [List.take_append_of_le_length (by rw [hk2]), List.take_of_length_le (by rw [hk2]),
          List.take_of_length_le (by rw [hk]; omega)]
    · exact ⟨rfl, by show c.count - 1 ≤ _; rw [hml]; omega, hmt⟩
  · exact ⟨rfl, by show c.count - 1 ≤ _; rw [hml]; omega, hmt⟩

/-- After a successful `remove` on a sound chunk no entry has the removed position. -/
theorem chunk.remove_no_entry (c : chunk) (h : c.sorted) (p : Nat)
    (hf : c.search p < c.count ∧ (c.at (c.search p)).pos = p) :
    ∀ b ∈ (c.remove p).1.entries, b.pos ≠ p := by
  intro b hb
  rw [(chunk.remove_entries c h.1 p hf).2.2] at hb
  obtain ⟨a, ha, rfl⟩ := List.mem_iff_getElem.1 hb
  have hl := chunk.entries_length c h.1
  have hal : a < c.count - 1 := by
    rw [List.length_eraseIdx] at ha
    split at ha <;> omega
  rw [List.getElem_eraseIdx]
  split
  · rename_i hlt
    rw [chunk.entries_getElem]
    have := chunk.sorted_at c h a (c.search p) hlt hf.1
    omega
  · rename_i hge
    rw [chunk.entries_getElem]
    have := chunk.sorted_at c h (c.search p) (a + 1) (by omega) (by omega)
    omega


/-! ## Positions and geometry bits -/

theorem toU32_of_nonneg (v : Int) (h0 : 0 ≤ v) (h1 : v < 4294967296) : toU32 v = v.toNat := by
  unfold toU32
  rw [Int.emod_eq_of_lt h0 h1]

theorem toU32_parity (v : Int) : toU32 v % 2 = (v % 2).toNat := by
  unfold toU32
  omega

theorem newPosition_parity (x y z : Nat) : newPosition x y z % 2 = z % 2 := by
  have h : ∀ n : Nat, n % 2 = if n.testBit 0 then 1 else 0 := by
    intro n
    rw [Nat.testBit_zero]
    rcases Nat.mod_two_eq_zero_or_one n with h | h <;> simp [h]
  rw [h (newPosition x y z), h z]
  congr 1
  unfold newPosition
  have e : (4294967296 : Nat) = 2 ^ 32 := by norm_num
  simp only [e, Nat.testBit_or, Nat.testBit_mod_two_pow, Nat.testBit_shiftLeft]
  simp

theorem posOf_parity (x y z : Int) : posOf x y z % 2 = (z % 2).toNat := by
  unfold posOf
  rw [newPosition_parity, toU32_parity]

theorem newPosition_eq (x y z : Nat) (hx : x < 4096) (hy : y < 4096) (hz : z < 256) :
    newPosition x y z = y * 1048576 + x * 256 + z := by
  unfold newPosition
  rw [Nat.shiftLeft_eq, Nat.shiftLeft_eq]
  rw [Nat.mod_eq_of_lt (by omega), Nat.mod_eq_of_lt (by omega)]
  have h1 : y * 2 ^ 20 ||| x * 2 ^ 8 = 2 ^ 20 * y + x * 2 ^ 8 := by
    rw [Nat.mul_comm y, Nat.mul_add_lt_is_or (by omega)]
  rw [h1]
  have h2 : 2 ^ 20 * y + x * 2 ^ 8 = 2 ^ 8 * (2 ^ 12 * y + x) := by ring
  rw [h2, ← Nat.mul_add_lt_is_or (by omega)]
  ring

theorem posOf_eq (x y z : Int) (hx0 : 0 ≤ x) (hx : x < 4096) (hy0 : 0 ≤ y) (hy : y < 4096)
    (hz0 : 0 ≤ z) (hz : z < 256) :
    posOf x y z = y.toNat * 1048576 + x.toNat * 256 + z.toNat := by
  unfold posOf
  rw [toU32_of_nonneg x hx0 (by omega), toU32_of_nonneg y hy0 (by omega),
    toU32_of_nonneg z hz0 (by omega)]
  exact newPosition_eq _ _ _ (by omega) (by omega) (by omega)

theorem and_two_pow_pos (w k : Nat) : decide (w &&& (1 <<< k) > 0) = w.testBit k := by
  rw [Nat.one_shiftLeft]
  have h : w &&& 2 ^ k = if w.testBit k then 2 ^ k else 0 := by
    apply Nat.eq_of_testBit_eq
    intro i
    rw [Nat.testBit_and, Nat.testBit_two_pow]
    by_cases hk : k = i
    · subst hk
      cases hw : w.testBit k <;> simp [Nat.testBit_two_pow]
    · cases hw : w.testBit k <;> simp [Nat.testBit_two_pow, hk]
  rw [h]
  cases hw : w.testBit k
  · simp
  · simp [Nat.two_pow_pos]

theorem Map.inRange_iff (m : Map) (x y z : Int) :
    ¬ (x < 0 ∨ y < 0 ∨ z < 0 ∨ x ≥ m.width ∨ y ≥ m.height ∨ z ≥ m.depth) ↔
      m.IsInside x y z = true := by
  unfold Map.IsInside
  simp only [decide_eq_true_eq]
  omega

theorem Map.hasGeometry_eq_bit (m : Map) (x y z : Int) (h : m.IsInside x y z = true) :
    m.hasGeometry x y z = m.bit (m.geometryOffset x y z).toNat := by
  unfold Map.hasGeometry
  rw [if_neg ((Map.inRange_iff m x y z).2 h)]
  exact and_two_pow_pos _ _

theorem Map.hasGeometry_outside (m : Map) (x y z : Int) (h : m.IsInside x y z = false) :
    m.hasGeometry x y z = false := by
  unfold Map.hasGeometry
  rw [if_pos]
  by_contra hc
  rw [(Map.inRange_iff m x y z).1 hc] at h
  exact absurd h (by decide)

theorem getD_set_self (l : List Nat) (i v : Nat) (h : i < l.length) :
    (l.set i v).getD i 0 = v := by
  rw [List.getD_eq_getElem _ _ (by rw [List.length_set]; exact h)]
  simp

theorem getD_set_other (l : List Nat) (i j v : Nat) (h : i ≠ j) :
    (l.set i v).getD j 0 = l.getD j 0 := by
  simp only [List.getD_eq_getElem?_getD]
  rw [List.getElem?_set_ne h]

/-- Effect of `setGeometry` on the geometry bits. -/
theorem Map.bit_setGeometry (m : Map) (x y z : Int) (b : Bool) (h : m.IsInside x y z = true)
    (hlen : (m.geometryOffset x y z).toNat / 64 < m.geometry.length) (off : Nat) :
    (m.setGeometry x y z b).bit off =
      if off = (m.geometryOffset x y z).toNat then b else m.bit off := by
  unfold Map.setGeometry
  rw [if_neg ((Map.inRange_iff m x y z).2 h)]
  generalize (m.geometryOffset x y z).toNat = o at hlen ⊢
  have e64 : (18446744073709551615 : Nat) = 2 ^ 64 - 1 := by norm_num
  by_cases hw : off / 64 = o / 64
  · by_cases hb : off % 64 = o % 64
    · have : off = o := by omega
      subst this
      rw [if_pos rfl]
      cases b
      · simp only [Bool.false_eq_true, if_false, Map.bit, getD_set_self _ _ _ hlen,
          Nat.testBit_and, Nat.testBit_xor, Nat.one_shiftLeft, Nat.testBit_two_pow, e64,
          Nat.testBit_two_pow_sub_one]
        have hlt : off % 64 < 64 := Nat.mod_lt _ (by norm_num)
        simp [hlt]
      · simp only [if_true, Map.bit, getD_set_self _ _ _ hlen, Nat.testBit_or,
          Nat.one_shiftLeft, Nat.testBit_two_pow]
        simp
    · have hne : off ≠ o := by intro h; subst h; exact hb rfl
      rw [if_neg hne]
      have hlt : off % 64 < 64 := Nat.mod_lt _ (by norm_num)
      cases b
      · simp only [Bool.false_eq_true, if_false, Map.bit, hw, getD_set_self _ _ _ hlen,
          Nat.testBit_and, Nat.testBit_xor, Nat.one_shiftLeft, Nat.testBit_two_pow, e64,
          Nat.testBit_two_pow_sub_one]
        have : (o % 64 = off % 64) = False := by simp; omega
        simp [this, hlt]
      · simp only [if_true, Map.bit, hw, getD_set_self _ _ _ hlen, Nat.testBit_or,
          Nat.one_shiftLeft, Nat.testBit_two_pow]
        have : (o % 64 = off % 64) = False := by simp; omega
        simp [this]
  · have hne : off ≠ o := by intro h; subst h; exact hw rfl
    rw [if_neg hne]
    cases b
    · simp only [Bool.false_eq_true, if_false, Map.bit, getD_set_other _ _ _ _ (Ne.symm hw)]
    · simp only [if_true, Map.bit, getD_set_other _ _ _ _ (Ne.symm hw)]


theorem Map.inside_bounds (m : Map) (x y z : Int) (h : m.IsInside x y z = true) :
    0 ≤ x ∧ x < m.width ∧ 0 ≤ y ∧ y < m.height ∧ 0 ≤ z ∧ z < m.depth := by
  simp only [Map.IsInside, decide_eq_true_eq] at h
  omega

theorem Map.offset_eq (m : Map) (x y z : Int) (h : m.IsInside x y z = true) :
    (m.geometryOffset x y z).toNat = z.toNat + (x.toNat + y.toNat * m.width) * m.depth := by
  obtain ⟨hx0, hx, hy0, hy, hz0, hz⟩ := Map.inside_bounds m x y z h
  unfold Map.geometryOffset
  obtain ⟨X, rfl⟩ := Int.eq_ofNat_of_zero_le hx0
  obtain ⟨Y, rfl⟩ := Int.eq_ofNat_of_zero_le hy0
  obtain ⟨Z, rfl⟩ := Int.eq_ofNat_of_zero_le hz0
  simp only [Int.toNat_ofNat]
  have : ((Z : Int) + ((X : Int) + (Y : Int) * (m.width : Int)) * (m.depth : Int)) =
      ((Z + (X + Y * m.width) * m.depth : Nat) : Int) := by push_cast; ring
  rw [this, Int.toNat_ofNat]

theorem Map.offset_lt (m : Map) (x y z : Int) (h : m.IsInside x y z = true) :
    (m.geometryOffset x y z).toNat < m.width * m.height * m.depth := by
  obtain ⟨hx0, hx, hy0, hy, hz0, hz⟩ := Map.inside_bounds m x y z h
  rw [Map.offset_eq m x y z h]
  have hX : x.toNat < m.width := by omega
  have hY : y.toNat < m.height := by omega
  have hZ : z.toNat < m.depth := by omega
  have h1 : y.toNat * m.width ≤ (m.height - 1) * m.width :=
    Nat.mul_le_mul_right _ (by omega)
  have h2 : (m.height - 1) * m.width + m.width = m.width * m.height := by
    have : m.height = (m.height - 1) + 1 := by omega
    conv_rhs => rw [this]
    ring
  have h3 : x.toNat + y.toNat * m.width + 1 ≤ m.width * m.height := by omega
  have h4 : (x.toNat + y.toNat * m.width + 1) * m.depth ≤ m.width * m.height * m.depth :=
    Nat.mul_le_mul_right _ h3
  have h5 : (x.toNat + y.toNat * m.width + 1) * m.depth =
      (x.toNat + y.toNat * m.width) * m.depth + m.depth := by ring
  omega

theorem Map.offset_word (m : Map) (hg : m.geometry.length = (m.width * m.height * m.depth + 63) / 64)
    (x y z : Int) (h : m.IsInside x y z = true) :
    (m.geometryOffset x y z).toNat / 64 < m.geometry.length := by
  have := Map.offset_lt m x y z h
  omega

theorem Map.chunkAt_inside (m : Map) (x y z : Int) (h : m.IsInside x y z = true) :
    m.chunkAt x y =
      some (x.toNat / chunkSize + y.toNat / chunkSize * ((m.width + chunkSize - 1) / chunkSize)) := by
  obtain ⟨hx0, hx, hy0, hy, hz0, hz⟩ := Map.inside_bounds m x y z h
  unfold Map.chunkAt
  rw [if_neg (by omega)]

theorem Map.chunkAt_some (m : Map) (x y : Int) (i : Nat) (h : m.chunkAt x y = some i) :
    0 ≤ x ∧ x < m.width ∧ 0 ≤ y ∧ y < m.height ∧
      i = x.toNat / chunkSize + y.toNat / chunkSize * ((m.width + chunkSize - 1) / chunkSize) := by
  unfold Map.chunkAt at h
  split at h
  · exact absurd h (by simp)
  · rename_i hn
    simp only [Option.some.injEq] at h
    refine ⟨by omega, by omega, by omega, by omega, h.symm⟩

theorem Map.chunkAt_lt (m : Map)
    (hc : m.chunks.length =
      (m.width + chunkSize - 1) / chunkSize * ((m.height + chunkSize - 1) / chunkSize))
    (x y : Int) (i : Nat) (h : m.chunkAt x y = some i) : i < m.chunks.length := by
  obtain ⟨hx0, hx, hy0, hy, rfl⟩ := Map.chunkAt_some m x y i h
  rw [hc]
  unfold chunkSize
  have hX : x.toNat / 16 < (m.width + 16 - 1) / 16 := by omega
  have hY : y.toNat / 16 + 1 ≤ (m.height + 16 - 1) / 16 := by omega
  have h1 := Nat.mul_le_mul_left ((m.width + 16 - 1) / 16) hY
  have h2 : (m.width + 16 - 1) / 16 * (y.toNat / 16 + 1) =
      y.toNat / 16 * ((m.width + 16 - 1) / 16) + (m.width + 16 - 1) / 16 := by ring
  omega

theorem Map.IsSolid_inside (m : Map) (x y z : Int) (h : m.IsInside x y z = true) :
    m.IsSolid x y z = m.hasGeometry x y z := by
  obtain ⟨hx0, hx, hy0, hy, hz0, hz⟩ := Map.inside_bounds m x y z h
  unfold Map.IsSolid
  rw [if_neg (by omega), if_neg (by omega), if_neg (by omega), if_neg (by omega)]

theorem Map.hasGeometry_congr (m m' : Map) (hw : m'.width = m.width) (hh : m'.height = m.height)
    (hd : m'.depth = m.depth) (hg : m'.geometry = m.geometry) (x y z : Int) :
    m'.hasGeometry x y z = m.hasGeometry x y z := by
  unfold Map.hasGeometry Map.geometryOffset
  rw [hw, hh, hd, hg]

theorem Map.chunkAt_congr (m m' : Map) (hw : m'.width = m.width) (hh : m'.height = m.height)
    (x y : Int) : m'.chunkAt x y = m.chunkAt x y := by
  unfold Map.chunkAt
  rw [hw, hh]

theorem Map.setGeometry_fields (m : Map) (x y z : Int) (b : Bool) :
    (m.setGeometry x y z b).width = m.width ∧ (m.setGeometry x y z b).height = m.height ∧
      (m.setGeometry x y z b).depth = m.depth ∧ (m.setGeometry x y z b).chunks = m.chunks := by
  unfold Map.setGeometry
  split
  · exact ⟨rfl, rfl, rfl, rfl⟩
  · cases b <;> exact ⟨rfl, rfl, rfl, rfl⟩

theorem Map.chunkOf_setChunk (m : Map) (i j : Nat) (c : chunk) (hi : i < m.chunks.length) :
    (m.setChunk i c).chunkOf j = if i = j then c else m.chunkOf j := by
  unfold Map.setChunk Map.chunkOf
  simp only [List.getD_eq_getElem?_getD]
  by_cases h : i = j
  · subst h
    rw [if_pos rfl, List.getElem?_set_self hi]; rfl
  · rw [if_neg h, List.getElem?_set_ne h]

theorem Map.chunkOf_mem (m : Map) (i : Nat) (hi : i < m.chunks.length) :
    m.chunkOf i ∈ m.chunks := by
  unfold Map.chunkOf
  rw [List.getD_eq_getElem _ _ hi]
  exact List.getElem_mem _

/-- Neighbours whose column is in range have a packed position other than that of the cell. -/
theorem posOf_neighbor_ne (m : Map) (hW : m.width ≤ 4096) (hH : m.height ≤ 4096)
    (hD : m.depth ≤ 256) (x y z : Int) (h : m.IsInside x y z = true)
    (n : Int × Int × Int) (hn : n ∈ neighbors x y z) (j : Nat)
    (hj : m.chunkAt n.1 n.2.1 = some j) : posOf n.1 n.2.1 n.2.2 ≠ posOf x y z := by
  obtain ⟨hx0, hx, hy0, hy, hz0, hz⟩ := Map.inside_bounds m x y z h
  obtain ⟨hnx0, hnx, hny0, hny, _⟩ := Map.chunkAt_some m _ _ j hj
  have hp := posOf_eq x y z hx0 (by omega) hy0 (by omega) hz0 (by omega)
  simp only [neighbors, List.mem_cons, List.mem_singleton, List.mem_nil_iff, or_false] at hn
  rcases hn with rfl | rfl | rfl | rfl | rfl | rfl
  · rw [hp, posOf_eq _ _ _ hnx0 (by omega) hny0 (by omega) hz0 (by omega)]
    simp only at hny0 hny ⊢
    omega
  · rw [hp, posOf_eq _ _ _ hnx0 (by omega) hny0 (by omega) hz0 (by omega)]
    simp only at hny0 hny ⊢
    omega
  · rw [hp, posOf_eq _ _ _ hnx0 (by omega) hny0 (by omega) hz0 (by omega)]
    simp only at hnx0 hnx ⊢
    omega
  · rw [hp, posOf_eq _ _ _ hnx0 (by omega) hny0 (by omega) hz0 (by omega)]
    simp only at hnx0 hnx ⊢
    omega
  · intro hc
    have h1 := posOf_parity x y (z + 1)
    have h2 := posOf_parity x y z
    simp only at hc
    rw [hc] at h1
    omega
  · intro hc
    have h1 := posOf_parity x y (z - 1)
    have h2 := posOf_parity x y z
    simp only at hc
    rw [hc] at h1
    omega


/-! ## Removing a surface block (C3) -/

theorem Map.insertAt_fields (m : Map) (x y z : Int) (color : Nat) :
    (m.insertAt x y z color).width = m.width ∧ (m.insertAt x y z color).height = m.height ∧
      (m.insertAt x y z color).depth = m.depth ∧
      (m.insertAt x y z color).geometry = m.geometry ∧
      (m.insertAt x y z color).chunks.length = m.chunks.length := by
  unfold Map.insertAt
  split
  · exact ⟨rfl, rfl, rfl, rfl, rfl⟩
  · exact ⟨rfl, rfl, rfl, rfl, by simp [Map.setChunk]⟩

theorem exposeInv_step (m0 : Map) (hW : m0.width ≤ 4096) (hH : m0.height ≤ 4096)
    (hD : m0.depth ≤ 256)
    (hc : m0.chunks.length =
      (m0.width + chunkSize - 1) / chunkSize * ((m0.height + chunkSize - 1) / chunkSize))
    (x y z : Int) (hin : m0.IsInside x y z = true) (i : Nat) (m : Map)
    (hinv : exposeInv m0 i (posOf x y z) m) (n : (Int × Int × Int) × Bool)
    (hn : n.1 ∈ neighbors x y z) : exposeInv m0 i (posOf x y z) (m.exposeNeighbor n) := by
  unfold Map.exposeNeighbor
  split
  · obtain ⟨h1, h2, h3, h4, h5, h6, h7⟩ := hinv
    have hf := Map.insertAt_fields m n.1.1 n.1.2.1 n.1.2.2 defaultColor
    refine ⟨hf.1.trans h1, hf.2.1.trans h2, hf.2.2.1.trans h3, hf.2.2.2.1.trans h4,
      hf.2.2.2.2.trans h5, ?_⟩
    unfold Map.insertAt
    cases hj : m.chunkAt n.1.1 n.1.2.1 with
    | none => exact ⟨h6, h7⟩
    | some j =>
      simp only
      have hj0 : m0.chunkAt n.1.1 n.1.2.1 = some j := by
        rw [← Map.chunkAt_congr m0 m h1 h2]; exact hj
      have hjl : j < m.chunks.length := by
        rw [h5]; exact Map.chunkAt_lt m0 hc _ _ j hj0
      rw [Map.chunkOf_setChunk m j i _ hjl]
      by_cases hji : j = i
      · subst hji
        rw [if_pos rfl]
        have hie := chunk.insert_entries (m.chunkOf j) h6 (posOf n.1.1 n.1.2.1 n.1.2.2) defaultColor
        refine ⟨hie.1, ?_⟩
        intro b hb
        rcases hie.2 b hb with hq | hold
        · rw [hq]
          exact posOf_neighbor_ne m0 hW hH hD x y z hin n.1 hn j hj0
        · exact h7 b hold
      · rw [if_neg hji]
        exact ⟨h6, h7⟩
  · exact hinv

theorem exposeInv_foldl (m0 : Map) (hW : m0.width ≤ 4096) (hH : m0.height ≤ 4096)
    (hD : m0.depth ≤ 256)
    (hc : m0.chunks.length =
      (m0.width + chunkSize - 1) / chunkSize * ((m0.height + chunkSize - 1) / chunkSize))
    (x y z : Int) (hin : m0.IsInside x y z = true) (i : Nat)
    (l : List ((Int × Int × Int) × Bool)) (hl : ∀ n ∈ l, n.1 ∈ neighbors x y z) :
    ∀ m, exposeInv m0 i (posOf x y z) m →
      exposeInv m0 i (posOf x y z) (l.foldl Map.exposeNeighbor m) := by
  induction l with
  | nil => intro m hm; exact hm
  | cons n rest ih =>
    intro m hm
    simp only [List.foldl_cons]
    exact ih (fun a ha => hl a (List.mem_cons_of_mem _ ha)) _
      (exposeInv_step m0 hW hH hD hc x y z hin i m hm n (hl n (List.mem_cons_self _ _)))

/-- C3 (amended). For every well formed map and every in range solid cell
`(x, y, z)` with `z < depth - 2` that has a chunk list entry, after
`SetAir(x, y, z)` the cell is air: `IsSolid` is false, `Get` is `0` and the cell
has no chunk list entry. -/
theorem C3_SetAir_clears_surface_block (m : Map) (x y z : Int) (hwf : m.WF)
    (hin : m.IsInside x y z = true) (hz : z < (m.depth : Int) - 2)
    (hsolid : m.IsSolid x y z = true) (hentry : m.hasEntry x y z) :
    (m.SetAir x y z).IsSolid x y z = false ∧ (m.SetAir x y z).Get x y z = 0 ∧
      ¬ (m.SetAir x y z).hasEntry x y z := by
  obtain ⟨hW, hH, hD, hg, hc, hch⟩ := hwf
  obtain ⟨i, hci, hbe⟩ := hentry
  have hil := Map.chunkAt_lt m hc x y i hci
  have hsorted : (m.chunkOf i).sorted := hch _ (Map.chunkOf_mem m i hil)
  have hfound := chunk.search_found (m.chunkOf i) hsorted (posOf x y z) hbe
  have hrem := chunk.remove_entries (m.chunkOf i) hsorted.1 (posOf x y z) hfound
  have hno := chunk.remove_no_entry (m.chunkOf i) hsorted (posOf x y z) hfound
  have hgeo : m.hasGeometry x y z = true := by
    rw [← Map.IsSolid_inside m x y z hin]; exact hsolid
  -- the map after `removeAir`
  have hra : m.removeAir x y z =
      (m.setChunk i ((m.chunkOf i).remove (posOf x y z)).1).setGeometry x y z false := by
    unfold Map.removeAir
    have hz1 : decide (z = (m.depth : Int) - 1) = false := by
      simp only [decide_eq_false_iff_not]; omega
    simp only [hin, hz1, hgeo, hci, hrem.1, Bool.not_true, Bool.or_self, Bool.false_eq_true,
      if_false, if_true]
  generalize hm1 : (m.setChunk i ((m.chunkOf i).remove (posOf x y z)).1) = m1 at hra
  have hm1w : m1.width = m.width := by rw [← hm1]; rfl
  have hm1h : m1.height = m.height := by rw [← hm1]; rfl
  have hm1d : m1.depth = m.depth := by rw [← hm1]; rfl
  have hm1g : m1.geometry = m.geometry := by rw [← hm1]; rfl
  have hm1l : m1.chunks.length = m.chunks.length := by rw [← hm1]; simp [Map.setChunk]
  have hm1c : m1.chunkOf i = ((m.chunkOf i).remove (posOf x y z)).1 := by
    rw [← hm1, Map.chunkOf_setChunk m i i _ hil, if_pos rfl]
  have hin1 : m1.IsInside x y z = true := by
    unfold Map.IsInside at hin ⊢; rw [hm1w, hm1h, hm1d]; exact hin
  have hsf := Map.setGeometry_fields m1 x y z false
  generalize hm2 : m1.setGeometry x y z false = m2 at hra hsf
  have hin2 : m2.IsInside x y z = true := by
    unfold Map.IsInside at hin1 ⊢; rw [hsf.1, hsf.2.1, hsf.2.2.1]; exact hin1
  have hbit2 : m2.hasGeometry x y z = false := by
    rw [Map.hasGeometry_eq_bit m2 x y z hin2, ← hm2]
    have hoff : m2.geometryOffset x y z = m1.geometryOffset x y z := by
      unfold Map.geometryOffset; rw [hsf.1, hsf.2.2.1]
    rw [hm2, hoff, ← hm2]
    rw [Map.bit_setGeometry m1 x y z false hin1
      (Map.offset_word m1 (by rw [hm1g, hm1w, hm1h, hm1d]; exact hg) x y z hin1), if_pos rfl]
  have hinv0 : exposeInv m2 i (posOf x y z) m2 := by
    refine ⟨rfl, rfl, rfl, rfl, rfl, ?_⟩
    have : m2.chunkOf i = ((m.chunkOf i).remove (posOf x y z)).1 := by
      rw [← hm1c]; unfold Map.chunkOf; rw [hsf.2.2.2]
    rw [this]
    exact ⟨hrem.2.1, hno⟩
  have hfinal := exposeInv_foldl m2 (by rw [hsf.1, hm1w]; exact hW) (by rw [hsf.2.1, hm1h]; exact hH)
    (by rw [hsf.2.2.1, hm1d]; exact hD)
    (by rw [hsf.2.2.2, hsf.1, hsf.2.1, hm1l, hm1w, hm1h]; exact hc) x y z hin2 i
    ((neighbors x y z).map
      (fun n => (n, m.IsSolid n.1 n.2.1 n.2.2 && m.OnSurface n.1 n.2.1 n.2.2)))
    (by
      intro n hn
      obtain ⟨a, ha, rfl⟩ := List.mem_map.1 hn
      exact ha)
    m2 hinv0
  have hsa : m.SetAir x y z = ((neighbors x y z).map
      (fun n => (n, m.IsSolid n.1 n.2.1 n.2.2 && m.OnSurface n.1 n.2.1 n.2.2))).foldl
      Map.exposeNeighbor m2 := by
    unfold Map.SetAir
    have hz2 : decide (z = (m.depth : Int) - 2) = false := by
      simp only [decide_eq_false_iff_not]; omega
    simp only [hin, hz2, Bool.not_true, Bool.or_self, Bool.false_eq_true, if_false, hra]
  rw [hsa]
  generalize ((neighbors x y z).map
      (fun n => (n, m.IsSolid n.1 n.2.1 n.2.2 && m.OnSurface n.1 n.2.1 n.2.2))).foldl
      Map.exposeNeighbor m2 = mf at hfinal
  obtain ⟨f1, f2, f3, f4, f5, f6, f7⟩ := hfinal
  have hinf : mf.IsInside x y z = true := by
    unfold Map.IsInside at hin2 ⊢; rw [f1, f2, f3]; exact hin2
  have hgf : mf.hasGeometry x y z = false := by
    rw [Map.hasGeometry_congr m2 mf f1 f2 f3 f4]; exact hbit2
  refine ⟨by rw [Map.IsSolid_inside mf x y z hinf]; exact hgf, ?_, ?_⟩
  · unfold Map.Get
    simp [hgf]
  · rintro ⟨i', hi', b, hb, hbp⟩
    have hci2 : mf.chunkAt x y = some i := by
      rw [Map.chunkAt_congr m2 mf f1 f2, Map.chunkAt_congr m1 m2 hsf.1 hsf.2.1,
        Map.chunkAt_congr m m1 hm1w hm1h]
      exact hci
    rw [hci2] at hi'
    simp only [Option.some.injEq] at hi'
    subst hi'
    exact f7 b hb hbp

/-- C3 as stated fails, in two ways. In `stackMap` the cell `(0, 0, 2)` is an in
range solid cell above the bedrock layer with a chunk list entry, but `z = 2` is
`depth - 2`, where `SetAir` returns at once: the cell stays solid. In
`groundMap` the cell `(1, 1, 3)` is an interior solid cell without a chunk list
entry; `removeAir` clears the geometry bit only when it removed an entry, so
this cell stays solid as well. -/
theorem C3_SetAir_counterexample :
    (stackMap.WF ∧ stackMap.IsInside 0 0 2 = true ∧ (2 : Int) < (stackMap.depth : Int) - 1 ∧
      stackMap.IsSolid 0 0 2 = true ∧ stackMap.hasEntry 0 0 2 ∧
      (stackMap.SetAir 0 0 2).IsSolid 0 0 2 = true) ∧
    (groundMap.WF ∧ groundMap.IsInside 1 1 3 = true ∧ (3 : Int) < (groundMap.depth : Int) - 2 ∧
      groundMap.IsSolid 1 1 3 = true ∧ ¬ groundMap.hasEntry 1 1 3 ∧
      (groundMap.SetAir 1 1 3).IsSolid 1 1 3 = true) := by
  decide!

/-- C3 (amended) at a concrete input: the block `(0, 0, 1)` of `pillarMap`. -/
theorem C3_SetAir_clears_surface_block_witness :
    pillarMap.WF ∧ pillarMap.hasEntry 0 0 1 ∧ (pillarMap.SetAir 0 0 1).IsSolid 0 0 1 = false :=
  ⟨by decide!, by decide!,
    (C3_SetAir_clears_surface_block pillarMap 0 0 1 (by decide!) (by decide!) (by decide!)
      (by decide!) (by decide!)).1⟩

end vxl

namespace vxl

/-! ## Loading and writing a map of bedrock columns (C5) -/

theorem Map.setGeometry_word (m : Map) (hd : m.depth = 64) (x y z : Int) (solid : Bool)
    (h : m.IsInside x y z = true) :
    (m.setGeometry x y z solid).geometry =
      m.geometry.set (x.toNat + y.toNat * m.width)
        (if solid then
          m.geometry.getD (x.toNat + y.toNat * m.width) 0 ||| (1 <<< z.toNat)
        else m.geometry.getD (x.toNat + y.toNat * m.width) 0 &&&
          (18446744073709551615 ^^^ (1 <<< z.toNat))) := by
  obtain ⟨hx0, hx, hy0, hy, hz0, hz⟩ := Map.inside_bounds m x y z h
  have ho := Map.offset_eq m x y z h
  rw [hd] at ho hz
  have h1 : (m.geometryOffset x y z).toNat / 64 = x.toNat + y.toNat * m.width := by omega
  have h2 : (m.geometryOffset x y z).toNat % 64 = z.toNat := by omega
  unfold Map.setGeometry
  rw [if_neg ((Map.inRange_iff m x y z).2 h)]
  simp only [h1, h2]
  cases solid <;> simp

theorem set_getElem_same (l : List Nat) (i : Nat) (h : i < l.length) : l.set i l[i] = l := by
  apply List.ext_getElem (by simp)
  intro n h1 h2
  rw [List.getElem_set]
  split
  · rename_i heq; subst heq; rfl
  · rfl

theorem Map.clearAir_fold (x y : Int) (zs : List Nat) :
    ∀ m : Map, m.depth = 64 → m.IsInside x y 0 = true → (∀ z ∈ zs, z < 64) →
      x.toNat + y.toNat * m.width < m.geometry.length →
      (zs.foldl (fun (m : Map) (z : Nat) => m.setGeometry x y (z : Int) false) m).geometry =
          m.geometry.set (x.toNat + y.toNat * m.width)
            (clearBits (m.geometry.getD (x.toNat + y.toNat * m.width) 0) zs) ∧
        (zs.foldl (fun (m : Map) (z : Nat) => m.setGeometry x y (z : Int) false) m).width =
          m.width ∧
        (zs.foldl (fun (m : Map) (z : Nat) => m.setGeometry x y (z : Int) false) m).height =
          m.height ∧
        (zs.foldl (fun (m : Map) (z : Nat) => m.setGeometry x y (z : Int) false) m).depth =
          m.depth ∧
        (zs.foldl (fun (m : Map) (z : Nat) => m.setGeometry x y (z : Int) false) m).chunks =
          m.chunks := by
  induction zs with
  | nil =>
    intro m hd hin hz hk
    refine ⟨?_, rfl, rfl, rfl, rfl⟩
    show m.geometry = m.geometry.set _ (m.geometry.getD _ 0)
    rw [List.getD_eq_getElem _ _ hk, set_getElem_same _ _ hk]
  | cons z zs ih =>
    intro m hd hin hz hk
    simp only [List.foldl_cons]
    have hz64 : z < 64 := hz z (List.mem_cons_self _ _)
    have hinz : m.IsInside x y (z : Int) = true := by
      have := Map.inside_bounds m x y 0 hin
      simp only [Map.IsInside, decide_eq_true_eq]
      omega
    have hf := Map.setGeometry_fields m x y (z : Int) false
    have hg := Map.setGeometry_word m hd x y (z : Int) false hinz
    have hin' : (m.setGeometry x y (z : Int) false).IsInside x y 0 = true := by
      unfold Map.IsInside at hin ⊢; rw [hf.1, hf.2.1, hf.2.2.1]; exact hin
    have hk' : x.toNat + y.toNat * (m.setGeometry x y (z : Int) false).width <
        (m.setGeometry x y (z : Int) false).geometry.length := by
      rw [hf.1, hg, List.length_set]; exact hk
    have := ih (m.setGeometry x y (z : Int) false) (by rw [hf.2.2.1]; exact hd) hin'
      (fun a ha => hz a (List.mem_cons_of_mem _ ha)) hk'
    refine ⟨?_, this.2.1.trans hf.1, this.2.2.1.trans hf.2.1, this.2.2.2.1.trans hf.2.2.1,
      this.2.2.2.2.trans hf.2.2.2⟩
    rw [this.1, hf.1, hg]
    simp only [Bool.false_eq_true, if_false, Int.toNat_ofNat, List.set_set]
    rw [getD_set_self _ _ _ hk]
    rfl

theorem clearBits_full : clearBits 18446744073709551615 (List.range' 0 63) = 9223372036854775808 := by
  decide

theorem clearBits_bedrock : clearBits 9223372036854775808 (List.range' 0 63) = 9223372036854775808 := by
  decide

theorem Map.ext_fields (a b : Map) (h1 : a.width = b.width) (h2 : a.height = b.height)
    (h3 : a.depth = b.depth) (h4 : a.chunks = b.chunks) (h5 : a.geometry = b.geometry) :
    a = b := by
  cases a; cases b; simp_all

theorem getD_mid (pre l post : List Nat) (j : Nat) (hj : j < l.length) :
    (pre ++ l ++ post).getD (pre.length + j) 0 = l.getD j 0 := by
  simp only [List.getD_eq_getElem?_getD, List.append_assoc]
  rw [List.getElem?_append_right (by omega)]
  simp only [Nat.add_sub_cancel_left]
  rw [List.getElem?_append_left hj]

theorem color_low (c : Nat) :
    (c % 256 ||| (c / 256 % 256) <<< 8 ||| (c / 65536 % 256) <<< 16 ||| 127 <<< 24) &&&
      0xFFFFFF = c % 16777216 := by
  have e1 : c % 256 ||| (c / 256 % 256) <<< 8 = 2 ^ 8 * (c / 256 % 256) + c % 256 := by
    rw [Nat.shiftLeft_eq, Nat.lor_comm, Nat.mul_comm, ← Nat.mul_add_lt_is_or (by omega)]
  have e2 : 2 ^ 8 * (c / 256 % 256) + c % 256 ||| (c / 65536 % 256) <<< 16 =
      2 ^ 16 * (c / 65536 % 256) + (2 ^ 8 * (c / 256 % 256) + c % 256) := by
    rw [Nat.shiftLeft_eq, Nat.lor_comm, Nat.mul_comm, ← Nat.mul_add_lt_is_or (by omega)]
  have e3 : 2 ^ 16 * (c / 65536 % 256) + (2 ^ 8 * (c / 256 % 256) + c % 256) ||| 127 <<< 24 =
      2 ^ 24 * 127 + (2 ^ 16 * (c / 65536 % 256) + (2 ^ 8 * (c / 256 % 256) + c % 256)) := by
    rw [Nat.shiftLeft_eq, Nat.lor_comm, Nat.mul_comm, ← Nat.mul_add_lt_is_or (by omega)]
  rw [e1, e2, e3]
  have e4 : (0xFFFFFF : Nat) = 2 ^ 24 - 1 := by norm_num
  rw [e4, Nat.and_pow_two_sub_one_eq_mod]
  omega

theorem chunk.append_entries (c : chunk) (h0 : 0 < c.blocks.length)
    (h : c.count ≤ c.blocks.length) (p color : Nat) :
    (c.append p color).entries = c.entries ++ [⟨p, color⟩] ∧
      (c.append p color).count = c.count + 1 ∧
      0 < (c.append p color).blocks.length ∧
      (c.append p color).count ≤ (c.append p color).blocks.length := by
  have hgl := (chunk.grow_length c h).2 h0
  have hgc := chunk.grow_count c
  have hge := chunk.grow_entries c h
  show (c.grow.blocks.set c.grow.count ⟨p, color⟩).take (c.grow.count + 1) =
      c.blocks.take c.count ++ [⟨p, color⟩] ∧ c.grow.count + 1 = c.count + 1 ∧
    0 < (c.grow.blocks.set c.grow.count ⟨p, color⟩).length ∧
    c.grow.count + 1 ≤ (c.grow.blocks.set c.grow.count ⟨p, color⟩).length
  rw [hgc, List.length_set]
  refine ⟨?_, rfl, by omega, by omega⟩
  rw [← hge]
  apply List.ext_getElem
  · simp only [List.length_take, List.length_set, List.length_append, List.length_singleton]
    omega
  · intro n h1 h2
    simp only [List.length_take, List.length_set] at h1
    rw [List.getElem_take, List.getElem_set]
    by_cases hn : c.count = n
    · subst hn
      rw [if_pos rfl, List.getElem_append_right (by simp)]
      simp
    · rw [if_neg hn, List.getElem_append_left (by simp; omega)]
      simp

theorem loadColors_bedrock (x y : Int) (c : Nat) (ch : chunk) :
    loadColors x y { length := 0, colorStart := 63, colorEnd := 63, airStart := 0 }
      [c % 256, c / 256 % 256, c / 65536 % 256, 127] ch =
      some (ch.append (posOf x y 63) (c % 16777216)) := by
  unfold loadColors
  simp only [Nat.reduceAdd, Nat.reduceSub, List.range'_one, List.foldl_cons, List.foldl_nil,
    loadColor, Nat.sub_self, Nat.zero_mul, Nat.zero_add, List.length_cons, List.length_nil,
    Nat.reduceLT, if_true, List.getD_cons_zero, List.getD_cons_succ]
  rw [color_low]
  rfl

theorem Map.loadColumn_bedrock (pre post : List Nat) (c : Nat) (x y : Int) (i fuel : Nat)
    (m : Map) (hd : m.depth = 64) (hin : m.IsInside x y 0 = true)
    (hk : x.toNat + y.toNat * m.width < m.geometry.length) :
    Map.loadColumn (pre ++ bedrockColumn c ++ post) x y i (fuel + 1) m pre.length =
      .ok (m.withBedrock x y i c, pre.length + 8) := by
  have g0 := getD_mid pre (bedrockColumn c) post 0 (by simp [bedrockColumn])
  have g1 := getD_mid pre (bedrockColumn c) post 1 (by simp [bedrockColumn])
  have g2 := getD_mid pre (bedrockColumn c) post 2 (by simp [bedrockColumn])
  have g3 := getD_mid pre (bedrockColumn c) post 3 (by simp [bedrockColumn])
  simp only [Nat.add_zero, bedrockColumn, List.getD_cons_zero, List.getD_cons_succ] at g0 g1 g2 g3
  have hlen : (pre ++ bedrockColumn c ++ post).length = pre.length + 8 + post.length := by
    simp only [bedrockColumn, List.length_append, List.length_cons, List.length_nil]
  have hdrop : ((pre ++ bedrockColumn c ++ post).drop (pre.length + 4)).take 4 =
      [c % 256, c / 256 % 256, c / 65536 % 256, 127] := by
    rw [List.append_assoc, List.drop_append]
    simp [bedrockColumn]
  unfold Map.loadColumn
  simp only [bedrockColumn] at hlen hdrop ⊢
  rw [if_neg (by rw [hlen]; omega)]
  simp only [g0, g1, g2, g3]
  have hdl : span.dataLength { length := 0, colorStart := 63, colorEnd := 63, airStart := 0 } = 8 := by
    decide
  simp only [hdl]
  rw [if_neg (by rw [hlen]; omega), if_neg (by omega)]
  have h84 : (8 : Int).toNat - 4 = 4 := by decide
  have h8 : (8 : Int).toNat = 8 := by decide
  simp only [h84, h8, hdrop]
  have hca := Map.clearAir_fold x y (List.range' 0 63) m hd hin
    (by intro z hz; have := List.mem_range'_1.1 hz; omega) hk
  have hcl : Map.clearAir m x y { length := 0, colorStart := 63, colorEnd := 63, airStart := 0 } =
      (List.range' 0 63).foldl (fun (m : Map) (z : Nat) => m.setGeometry x y (z : Int) false) m :=
    rfl
  rw [hcl]
  generalize (List.range' 0 63).foldl
    (fun (m : Map) (z : Nat) => m.setGeometry x y (z : Int) false) m = m1 at hca
  obtain ⟨c1, c2, c3, c4, c5⟩ := hca
  have hch : m1.chunkOf i = m.chunkOf i := by unfold Map.chunkOf; rw [c5]
  rw [hch, loadColors_bedrock]
  simp only [if_true]
  congr 2
  apply Map.ext_fields
  · exact c2
  · exact c3
  · exact c4
  · show m1.chunks.set i _ = m.chunks.set i _
    rw [c5]
  · exact c1

theorem Map.column_lt (m : Map) (x y : Int) (h : m.IsInside x y 0 = true) :
    x.toNat + y.toNat * m.width < m.width * m.height := by
  obtain ⟨hx0, hx, hy0, hy, hz0, hz⟩ := Map.inside_bounds m x y 0 h
  have h1 : y.toNat * m.width ≤ (m.height - 1) * m.width :=
    Nat.mul_le_mul_right _ (by omega)
  have h2 : (m.height - 1) * m.width + m.width = m.width * m.height := by
    have : m.height = (m.height - 1) + 1 := by omega
    conv_rhs => rw [this]
    ring
  omega

theorem Map.withBedrock_fields (m : Map) (x y : Int) (i c : Nat) :
    (m.withBedrock x y i c).width = m.width ∧ (m.withBedrock x y i c).height = m.height ∧
      (m.withBedrock x y i c).depth = m.depth ∧
      (m.withBedrock x y i c).geometry.length = m.geometry.length ∧
      (m.withBedrock x y i c).chunks.length = m.chunks.length := by
  simp [Map.withBedrock]

theorem Map.loadBedrock_fields (m : Map) (p : (Int × Int) × Nat) :
    (m.loadBedrock p).width = m.width ∧ (m.loadBedrock p).height = m.height ∧
      (m.loadBedrock p).depth = m.depth ∧
      (m.loadBedrock p).geometry.length = m.geometry.length ∧
      (m.loadBedrock p).chunks.length = m.chunks.length := by
  unfold Map.loadBedrock
  split
  · exact ⟨rfl, rfl, rfl, rfl, rfl⟩
  · exact Map.withBedrock_fields _ _ _ _ _

theorem Map.IsInside_congr (m m' : Map) (hw : m'.width = m.width) (hh : m'.height = m.height)
    (hd : m'.depth = m.depth) (x y z : Int) : m'.IsInside x y z = m.IsInside x y z := by
  unfold Map.IsInside
  rw [hw, hh, hd]

/-- Loading a stream of bedrock columns succeeds and performs `loadBedrock` column by column. -/
theorem Map.loadColumns_bedrock :
    ∀ (cols : List (Int × Int)) (cs pre : List Nat) (m : Map), cols.length = cs.length →
      m.depth = 64 → (∀ c ∈ cols, m.IsInside c.1 c.2 0 = true) →
      m.geometry.length = m.width * m.height →
      Map.loadColumns (pre ++ bedrockStream cs) cols m pre.length =
        .ok ((cols.zip cs).foldl Map.loadBedrock m, pre.length + 8 * cs.length) := by
  intro cols
  induction cols with
  | nil =>
    intro cs pre m hl hd hin hg
    have : cs = [] := List.eq_nil_of_length_eq_zero hl.symm
    subst this
    simp [Map.loadColumns]
  | cons col cols ih =>
    intro cs pre m hl hd hin hg
    cases cs with
    | nil => simp at hl
    | cons c cs =>
      obtain ⟨x, y⟩ := col
      have hxy := hin (x, y) (List.mem_cons_self _ _)
      simp only at hxy
      have hci := Map.chunkAt_inside m x y 0 hxy
      have hdata : pre ++ bedrockStream (c :: cs) = pre ++ bedrockColumn c ++ bedrockStream cs := by
        simp [bedrockStream, List.flatMap_cons]
      have hk : x.toNat + y.toNat * m.width < m.geometry.length := by
        rw [hg]; exact Map.column_lt m x y hxy
      unfold Map.loadColumns
      simp only [hci]
      have hfuel : (pre ++ bedrockStream (c :: cs)).length + 1 =
          (pre ++ bedrockStream (c :: cs)).length + 1 := rfl
      rw [hdata, Map.loadColumn_bedrock pre (bedrockStream cs) c x y _ _ m hd hxy hk]
      simp only
      have hf := Map.withBedrock_fields m x y
        (x.toNat / chunkSize + y.toNat / chunkSize * ((m.width + chunkSize - 1) / chunkSize)) c
      have hpre : pre.length + 8 = (pre ++ bedrockColumn c).length := by
        simp [bedrockColumn]
      rw [hpre]
      have := ih cs (pre ++ bedrockColumn c) _ (by simpa using hl) (hf.2.2.1.trans hd)
        (by
          intro c' hc'
          rw [Map.IsInside_congr m _ hf.1 hf.2.1 hf.2.2.1]
          exact hin c' (List.mem_cons_of_mem _ hc'))
        (by rw [hf.2.2.2.1, hf.1, hf.2.1]; exact hg)
      rw [this]
      simp only [List.zip_cons_cons, List.foldl_cons, List.length_cons, ← hpre]
      have hlb : m.loadBedrock ((x, y), c) = m.withBedrock x y
          (x.toNat / chunkSize + y.toNat / chunkSize * ((m.width + chunkSize - 1) / chunkSize))
          c := by
        unfold Map.loadBedrock
        simp only [hci]
      rw [hlb]
      congr 2
      omega

theorem Map.withBedrock_word (m : Map) (x y : Int) (i c : Nat)
    (hk : x.toNat + y.toNat * m.width < m.geometry.length)
    (hv : m.geometry.getD (x.toNat + y.toNat * m.width) 0 = 18446744073709551615 ∨
      m.geometry.getD (x.toNat + y.toNat * m.width) 0 = 9223372036854775808) (K : Nat) :
    (m.withBedrock x y i c).geometry.getD K 0 =
      if K = x.toNat + y.toNat * m.width then 9223372036854775808 else m.geometry.getD K 0 := by
  unfold Map.withBedrock
  simp only
  by_cases h : K = x.toNat + y.toNat * m.width
  · subst h
    rw [if_pos rfl, getD_set_self _ _ _ hk]
    rcases hv with hv | hv <;> rw [hv]
    · exact clearBits_full
    · exact clearBits_bedrock
  · rw [if_neg h, getD_set_other _ _ _ _ (Ne.symm h)]

theorem Map.loadBedrock_geometry :
    ∀ (l : List ((Int × Int) × Nat)) (m : Map),
      m.geometry.length = m.width * m.height →
      (∀ p ∈ l, m.IsInside p.1.1 p.1.2 0 = true) →
      (∀ K, K < m.geometry.length → m.geometry.getD K 0 = 18446744073709551615 ∨
        m.geometry.getD K 0 = 9223372036854775808) →
      (∀ K, K < m.geometry.length →
        (l.foldl Map.loadBedrock m).geometry.getD K 0 = 18446744073709551615 ∨
        (l.foldl Map.loadBedrock m).geometry.getD K 0 = 9223372036854775808) ∧
      (∀ K, m.geometry.getD K 0 = 9223372036854775808 →
        (l.foldl Map.loadBedrock m).geometry.getD K 0 = 9223372036854775808) ∧
      (∀ p ∈ l, (l.foldl Map.loadBedrock m).geometry.getD
        (p.1.1.toNat + p.1.2.toNat * m.width) 0 = 9223372036854775808) := by
  intro l
  induction l with
  | nil =>
    intro m hg hin hv
    exact ⟨hv, fun K h => h, fun p hp => absurd hp (List.not_mem_nil _)⟩
  | cons p l ih =>
    intro m hg hin hv
    simp only [List.foldl_cons]
    have hp := hin p (List.mem_cons_self _ _)
    have hci := Map.chunkAt_inside m p.1.1 p.1.2 0 hp
    have hk : p.1.1.toNat + p.1.2.toNat * m.width < m.geometry.length := by
      rw [hg]; exact Map.column_lt m _ _ hp
    have hlb : m.loadBedrock p = m.withBedrock p.1.1 p.1.2
        (p.1.1.toNat / chunkSize +
          p.1.2.toNat / chunkSize * ((m.width + chunkSize - 1) / chunkSize)) p.2 := by
      unfold Map.loadBedrock
      simp only [hci]
    have hf := Map.loadBedrock_fields m p
    have hw := fun K => Map.withBedrock_word m p.1.1 p.1.2
      (p.1.1.toNat / chunkSize +
        p.1.2.toNat / chunkSize * ((m.width + chunkSize - 1) / chunkSize)) p.2 hk (hv _ hk) K
    rw [← hlb] at hw
    have hv' : ∀ K, K < (m.loadBedrock p).geometry.length →
        (m.loadBedrock p).geometry.getD K 0 = 18446744073709551615 ∨
        (m.loadBedrock p).geometry.getD K 0 = 9223372036854775808 := by
      intro K hK
      rw [hf.2.2.2.1] at hK
      rw [hw K]
      split
      · exact Or.inr rfl
      · exact hv K hK
    have := ih (m.loadBedrock p) (by rw [hf.2.2.2.1, hf.1, hf.2.1]; exact hg)
      (by
        intro q hq
        rw [Map.IsInside_congr m _ hf.1 hf.2.1 hf.2.2.1]
        exact hin q (List.mem_cons_of_mem _ hq))
      hv'
    refine ⟨?_, ?_, ?_⟩
    · intro K hK
      exact this.1 K (by rw [hf.2.2.2.1]; exact hK)
    · intro K hK
      apply this.2.1
      rw [hw K]
      split
      · rfl
      · exact hK
    · intro q hq
      rcases List.mem_cons.1 hq with rfl | hq
      · apply this.2.1
        rw [hw, if_pos rfl]
      · have := this.2.2 q hq
        rw [hf.1] at this
        exact this

theorem Map.loadBedrock_chunks :
    ∀ (l : List ((Int × Int) × Nat)) (m : Map),
      m.chunks.length =
        (m.width + chunkSize - 1) / chunkSize * ((m.height + chunkSize - 1) / chunkSize) →
      (∀ j, j < m.chunks.length → (m.chunkOf j).ok) →
      ∀ j, j < m.chunks.length →
        ((l.foldl Map.loadBedrock m).chunkOf j).ok ∧
        ((l.foldl Map.loadBedrock m).chunkOf j).entries = (m.chunkOf j).entries ++
          (l.filter (fun p => decide (m.chunkAt p.1.1 p.1.2 = some j))).map bedrockEntry := by
  intro l
  induction l with
  | nil =>
    intro m hc hok j hj
    simp only [List.foldl_nil, List.filter_nil, List.map_nil, List.append_nil, and_true]
    exact hok j hj
  | cons p l ih =>
    intro m hc hok j hj
    simp only [List.foldl_cons]
    have hf := Map.loadBedrock_fields m p
    have hstep : ∀ j, j < m.chunks.length → ((m.loadBedrock p).chunkOf j).ok ∧
        ((m.loadBedrock p).chunkOf j).entries = (m.chunkOf j).entries ++
          ([p].filter (fun p => decide (m.chunkAt p.1.1 p.1.2 = some j))).map bedrockEntry := by
      intro j hj
      unfold Map.loadBedrock
      cases hci : m.chunkAt p.1.1 p.1.2 with
      | none =>
        simp only [List.filter_cons, hci, decide_eq_true_eq, List.filter_nil]
        simp only [reduceCtorEq, if_false, List.map_nil, List.append_nil, and_true]
        exact hok j hj
      | some i =>
        have hil := Map.chunkAt_lt m hc _ _ i hci
        have hch : (m.withBedrock p.1.1 p.1.2 i p.2).chunkOf j =
            if i = j then (m.chunkOf i).append (posOf p.1.1 p.1.2 63) (p.2 % 16777216)
            else m.chunkOf j := Map.chunkOf_setChunk m i j _ hil
        simp only [hch, List.filter_cons, hci, decide_eq_true_eq, List.filter_nil,
          Option.some.injEq]
        by_cases hij : i = j
        · subst hij
          have ha := chunk.append_entries (m.chunkOf i) (hok i hj).1 (hok i hj).2
            (posOf p.1.1 p.1.2 63) (p.2 % 16777216)
          simp only [if_true, List.map_cons, List.map_nil]
          exact ⟨⟨ha.2.2.1, ha.2.2.2⟩, ha.1⟩
        · simp only [hij, if_false, List.map_nil, List.append_nil, and_true]
          exact hok j hj
    have hca : ∀ q : (Int × Int) × Nat,
        (m.loadBedrock p).chunkAt q.1.1 q.1.2 = m.chunkAt q.1.1 q.1.2 := by
      intro q; exact Map.chunkAt_congr m _ hf.1 hf.2.1 _ _
    have := ih (m.loadBedrock p) (by rw [hf.2.2.2.2, hf.1, hf.2.1]; exact hc)
      (by intro j hj; rw [hf.2.2.2.2] at hj; exact (hstep j hj).1) j
      (by rw [hf.2.2.2.2]; exact hj)
    refine ⟨this.1, ?_⟩
    rw [this.2, (hstep j hj).2]
    simp only [hca, List.append_assoc, ← List.map_append, ← List.filter_append,
      List.singleton_append]

theorem columns_length (w h : Nat) : (columns w h).length = w * h := by
  unfold columns
  induction h with
  | zero => simp
  | succ h ih =>
    rw [List.range_succ, List.flatMap_append, List.length_append, ih]
    simp only [List.flatMap_cons, List.flatMap_nil, List.append_nil, List.length_map,
      List.length_range]
    ring

theorem mem_columns (w h : Nat) (c : Int × Int) :
    c ∈ columns w h ↔ ∃ x y : Nat, x < w ∧ y < h ∧ c = ((x : Int), (y : Int)) := by
  unfold columns
  simp only [List.mem_flatMap, List.mem_range, List.mem_map]
  constructor
  · rintro ⟨y, hy, x, hx, rfl⟩
    exact ⟨x, y, hx, hy, rfl⟩
  · rintro ⟨x, y, hx, hy, rfl⟩
    exact ⟨y, hy, x, hx, rfl⟩

theorem Map.loadBedrock_foldl_fields (l : List ((Int × Int) × Nat)) :
    ∀ m : Map, (l.foldl Map.loadBedrock m).width = m.width ∧
      (l.foldl Map.loadBedrock m).height = m.height ∧
      (l.foldl Map.loadBedrock m).depth = m.depth ∧
      (l.foldl Map.loadBedrock m).geometry.length = m.geometry.length ∧
      (l.foldl Map.loadBedrock m).chunks.length = m.chunks.length := by
  induction l with
  | nil => intro m; exact ⟨rfl, rfl, rfl, rfl, rfl⟩
  | cons p l ih =>
    intro m
    simp only [List.foldl_cons]
    have h1 := ih (m.loadBedrock p)
    have h2 := Map.loadBedrock_fields m p
    exact ⟨h1.1.trans h2.1, h1.2.1.trans h2.2.1, h1.2.2.1.trans h2.2.2.1,
      h1.2.2.2.1.trans h2.2.2.2.1, h1.2.2.2.2.trans h2.2.2.2.2⟩

theorem solidMap_fields (w h : Nat) :
    (solidMap w h 64).width = w ∧ (solidMap w h 64).height = h ∧ (solidMap w h 64).depth = 64 ∧
      (solidMap w h 64).geometry = List.replicate (w * h) 18446744073709551615 ∧
      (solidMap w h 64).chunks = List.replicate
        ((w + chunkSize - 1) / chunkSize * ((h + chunkSize - 1) / chunkSize)) newChunk := by
  refine ⟨rfl, rfl, rfl, ?_, rfl⟩
  show ((newMap w h 64).geometry.map (fun _ => 0xFFFFFFFFFFFFFFFF)) = _
  unfold newMap
  simp only [List.map_replicate]
  congr 1
  omega

theorem bedrockMap_fields (w h : Nat) (cs : List Nat) :
    (bedrockMap w h cs).width = w ∧ (bedrockMap w h cs).height = h ∧
      (bedrockMap w h cs).depth = 64 ∧ (bedrockMap w h cs).geometry.length = w * h ∧
      (bedrockMap w h cs).chunks.length =
        (w + chunkSize - 1) / chunkSize * ((h + chunkSize - 1) / chunkSize) := by
  have h1 := Map.loadBedrock_foldl_fields ((columns w h).zip cs) (solidMap w h 64)
  have h2 := solidMap_fields w h
  unfold bedrockMap
  refine ⟨h1.1.trans h2.1, h1.2.1.trans h2.2.1, h1.2.2.1.trans h2.2.2.1, ?_, ?_⟩
  · rw [h1.2.2.2.1, h2.2.2.2.1, List.length_replicate]
  · rw [h1.2.2.2.2, h2.2.2.2.2, List.length_replicate]

theorem solidMap_inside (w h : Nat) (c : Int × Int) (hc : c ∈ columns w h) :
    (solidMap w h 64).IsInside c.1 c.2 0 = true := by
  obtain ⟨x, y, hx, hy, rfl⟩ := (mem_columns w h c).1 hc
  have h2 := solidMap_fields w h
  simp only [Map.IsInside, h2.1, h2.2.1, h2.2.2.1, decide_eq_true_eq]
  omega

theorem mem_zip_of_mem {α β : Type} (l1 : List α) (l2 : List β) (h : l1.length ≤ l2.length)
    (a : α) (ha : a ∈ l1) : ∃ b, (a, b) ∈ l1.zip l2 := by
  obtain ⟨i, hi, rfl⟩ := List.mem_iff_getElem.1 ha
  have hi2 : i < l2.length := by omega
  refine ⟨l2[i], ?_⟩
  rw [List.mem_iff_getElem]
  exact ⟨i, by simp [List.length_zip]; omega, by simp⟩

/-- After loading, every geometry word is `2 ^ 63`: only the bedrock bit is set. -/
theorem bedrockMap_geometry (w h : Nat) (hw : 1 ≤ w) (cs : List Nat) (hl : cs.length = w * h) :
    (bedrockMap w h cs).geometry = List.replicate (w * h) 9223372036854775808 := by
  have hf := bedrockMap_fields w h cs
  have h2 := solidMap_fields w h
  have hin : ∀ p ∈ (columns w h).zip cs, (solidMap w h 64).IsInside p.1.1 p.1.2 0 = true := by
    intro p hp
    exact solidMap_inside w h p.1 (List.of_mem_zip hp).1
  have hv : ∀ K, K < (solidMap w h 64).geometry.length →
      (solidMap w h 64).geometry.getD K 0 = 18446744073709551615 ∨
      (solidMap w h 64).geometry.getD K 0 = 9223372036854775808 := by
    intro K hK
    left
    rw [List.getD_eq_getElem _ _ hK]
    simp only [h2.2.2.2.1, List.getElem_replicate]
  have hg := Map.loadBedrock_geometry ((columns w h).zip cs) (solidMap w h 64)
    (by rw [h2.2.2.2.1, h2.1, h2.2.1, List.length_replicate]) hin hv
  apply List.ext_getElem
  · rw [hf.2.2.2.1, List.length_replicate]
  · intro K hK1 hK2
    rw [List.getElem_replicate]
    rw [hf.2.2.2.1] at hK1
    have hKh : K / w < h := by
      rw [Nat.div_lt_iff_lt_mul (by omega)]; rw [Nat.mul_comm]; exact hK1
    have hc : (((K % w : Nat) : Int), ((K / w : Nat) : Int)) ∈ columns w h :=
      (mem_columns w h _).2 ⟨K % w, K / w, Nat.mod_lt _ (by omega), hKh, rfl⟩
    obtain ⟨col, hcol⟩ := mem_zip_of_mem (columns w h) cs
      (by rw [columns_length, hl]) _ hc
    have := hg.2.2 _ hcol
    simp only [Int.toNat_ofNat, h2.1] at this
    rw [Nat.mod_add_div' K w] at this
    have hK3 : K < (bedrockMap w h cs).geometry.length := by rw [hf.2.2.2.1]; exact hK1
    have e := List.getD_eq_getElem (bedrockMap w h cs).geometry 0 hK3
    rw [← e]
    exact this

theorem Map.bedrockOnly_hasGeometry (m : Map) (hb : m.bedrockOnly) (x y z : Int)
    (hin : m.IsInside x y z = true) : m.hasGeometry x y z = decide (z = 63) := by
  obtain ⟨hx0, hx, hy0, hy, hz0, hz⟩ := Map.inside_bounds m x y z hin
  have hin0 : m.IsInside x y 0 = true := by
    simp only [Map.IsInside, decide_eq_true_eq]; omega
  have hK := Map.column_lt m x y hin0
  rw [Map.hasGeometry_eq_bit m x y z hin, Map.offset_eq m x y z hin, hb.1]
  rw [hb.1] at hz
  unfold Map.bit
  have h1 : (z.toNat + (x.toNat + y.toNat * m.width) * 64) / 64 = x.toNat + y.toNat * m.width := by
    omega
  have h2 : (z.toNat + (x.toNat + y.toNat * m.width) * 64) % 64 = z.toNat := by omega
  rw [h1, h2, hb.2, List.getD_eq_getElem _ _ (by rw [List.length_replicate]; exact hK),
    List.getElem_replicate]
  have e : (9223372036854775808 : Nat) = 2 ^ 63 := by norm_num
  rw [e, Nat.testBit_two_pow]
  congr 1
  apply propext
  constructor <;> intro h <;> omega

theorem Map.bedrockOnly_IsSolid (m : Map) (hb : m.bedrockOnly) (hW : 1 ≤ m.width)
    (hH : 1 ≤ m.height) (x y z : Int) (hz0 : 0 ≤ z) (hz : z < 64) :
    m.IsSolid x y z = decide (z = 63) := by
  have hw : (0 : Int) < m.width := by omega
  have hh : (0 : Int) < m.height := by omega
  rw [IsSolid_eq m x y z hW hH hz0 (by rw [hb.1]; exact hz)]
  apply Map.bedrockOnly_hasGeometry m hb
  have h1 := Int.emod_nonneg x (Int.ne_of_gt hw)
  have h2 := Int.emod_lt_of_pos x hw
  have h3 := Int.emod_nonneg y (Int.ne_of_gt hh)
  have h4 := Int.emod_lt_of_pos y hh
  simp only [Map.IsInside, decide_eq_true_eq, hb.1]
  omega

theorem Map.bedrockOnly_OnSurface (m : Map) (hb : m.bedrockOnly) (hW : 1 ≤ m.width)
    (hH : 1 ≤ m.height) (x y : Int) : m.OnSurface x y 63 = true := by
  unfold Map.OnSurface
  have : m.IsSolid x y 62 = false := by
    rw [Map.bedrockOnly_IsSolid m hb hW hH x y _ (by omega) (by omega)]
    decide
  simp [this]

theorem Map.bedrockOnly_addEdge (m : Map) (hb : m.bedrockOnly) (hW : 1 ≤ m.width)
    (hH : 1 ≤ m.height) (x y z : Int) : m.addEdge x y z = m := by
  unfold Map.addEdge
  rw [if_neg]
  intro hc
  simp only [Bool.and_eq_true, Bool.not_eq_true'] at hc
  have hin : m.IsInside x y z = true := by
    by_contra hn
    have := Map.hasGeometry_outside m x y z (by simpa using hn)
    rw [this] at hc
    exact absurd hc.1 (by decide)
  have h63 := Map.bedrockOnly_hasGeometry m hb x y z hin
  rw [hc.1] at h63
  have hz : z = 63 := by simpa using h63.symm
  subst hz
  rw [Map.bedrockOnly_OnSurface m hb hW hH x y] at hc
  exact absurd hc.2 (by decide)

theorem foldl_fixed {α β : Type} (f : β → α → β) (b : β) (h : ∀ a, f b a = b) :
    ∀ l : List α, l.foldl f b = b := by
  intro l
  induction l with
  | nil => rfl
  | cons a l ih => rw [List.foldl_cons, h a, ih]

theorem Map.bedrockOnly_addEdgeBlocks (m : Map) (hb : m.bedrockOnly) (hW : 1 ≤ m.width)
    (hH : 1 ≤ m.height) : m.addEdgeBlocks = m := by
  unfold Map.addEdgeBlocks
  apply foldl_fixed
  intro z
  unfold Map.addEdgeLayer
  simp only
  rw [foldl_fixed _ m (by
    intro x
    simp only [Map.bedrockOnly_addEdge m hb hW hH])]
  rw [foldl_fixed _ m (by
    intro y
    simp only [Map.bedrockOnly_addEdge m hb hW hH])]

theorem bedrockMap_bedrockOnly (w h : Nat) (hw : 1 ≤ w) (cs : List Nat)
    (hl : cs.length = w * h) : (bedrockMap w h cs).bedrockOnly := by
  have hf := bedrockMap_fields w h cs
  exact ⟨hf.2.2.1, by rw [hf.1, hf.2.1]; exact bedrockMap_geometry w h hw cs hl⟩

/-- Loading a stream of bedrock columns: `Create` succeeds with `bedrockMap`. -/
theorem Create_bedrock (w h : Nat) (hw : 1 ≤ w) (hh : 1 ≤ h) (cs : List Nat)
    (hl : cs.length = w * h) :
    Create w h 64 (some (bedrockStream cs)) = .ok (bedrockMap w h cs) := by
  have h2 := solidMap_fields w h
  have hload := Map.loadColumns_bedrock (columns w h) cs [] (solidMap w h 64)
    (by rw [columns_length, hl]) h2.2.2.1 (fun c hc => solidMap_inside w h c hc)
    (by rw [h2.2.2.2.1, h2.1, h2.2.1, List.length_replicate])
  simp only [List.nil_append, List.length_nil, Nat.zero_add] at hload
  have hf := bedrockMap_fields w h cs
  have hb := bedrockMap_bedrockOnly w h hw cs hl
  have he := Map.bedrockOnly_addEdgeBlocks (bedrockMap w h cs) hb (by rw [hf.1]; exact hw)
    (by rw [hf.2.1]; exact hh)
  unfold Create
  show (match Map.loadFromData (solidMap w h 64) (bedrockStream cs) with
    | .ok m2 => Except.ok m2.addEdgeBlocks
    | .error e => Except.error e) = _
  unfold Map.loadFromData
  rw [h2.1, h2.2.1, hload]
  simp only
  rw [show ((columns w h).zip cs).foldl Map.loadBedrock (solidMap w h 64) = bedrockMap w h cs
    from rfl, he]

theorem scanWhile_run (p : Nat → Bool) :
    ∀ n k fuel, (∀ j, j < n → p (k + j) = true) →
      (fuel = n ∨ (n < fuel ∧ p (k + n) = false)) → scanWhile p fuel k = k + n := by
  intro n
  induction n with
  | zero =>
    intro k fuel _ hstop
    rcases hstop with rfl | ⟨hlt, hp⟩
    · rfl
    · obtain ⟨f, rfl⟩ : ∃ f, fuel = f + 1 := ⟨fuel - 1, by omega⟩
      simp only [scanWhile, Nat.add_zero] at hp ⊢
      rw [hp]; rfl
  | succ n ih =>
    intro k fuel hrun hstop
    obtain ⟨f, rfl⟩ : ∃ f, fuel = f + 1 := ⟨fuel - 1, by omega⟩
    have h0 : p k = true := by simpa using hrun 0 (by omega)
    simp only [scanWhile, h0, if_true]
    rw [ih (k + 1) f (by
      intro j hj
      have := hrun (j + 1) (by omega)
      rw [← this]; congr 1; omega)
      (by
        rcases hstop with h | ⟨hlt, hp⟩
        · left; omega
        · right; exact ⟨by omega, by rw [← hp]; congr 1; omega⟩)]
    omega

/-- On a map with only the bedrock layer solid a column is written as one span and one colour. -/
theorem Map.bedrockOnly_writeColumn (m : Map) (hb : m.bedrockOnly) (hW : 1 ≤ m.width)
    (hH : 1 ≤ m.height) (x y : Int) :
    m.writeColumn x y = [0, 63, 63, 0] ++ le32 (m.Get x y 63 ||| 0x7F000000) := by
  have hs : ∀ k : Nat, k < 64 → m.IsSolid x y (k : Int) = decide (k = 63) := by
    intro k hk
    rw [Map.bedrockOnly_IsSolid m hb hW hH x y _ (by omega) (by omega)]
    congr 1
    apply propext
    constructor <;> intro h <;> omega
  have hk1 : scanWhile (fun (k : Nat) => !m.IsSolid x y (k : Int)) 64 0 = 63 := by
    have := scanWhile_run (fun (k : Nat) => !m.IsSolid x y (k : Int)) 63 0 64
      (by
        intro j hj
        simp only [Nat.zero_add]
        rw [hs j (by omega)]
        simp; omega)
      (Or.inr ⟨by omega, by simp only [Nat.zero_add]; rw [hs 63 (by omega)]; simp⟩)
    simpa using this
  have hk2 : scanWhile (fun (k : Nat) => m.OnSurface x y (k : Int)) 1 63 = 64 := by
    have h63 := Map.bedrockOnly_OnSurface m hb hW hH x y
    simp only [scanWhile]
    have : m.OnSurface x y ((63 : Nat) : Int) = true := h63
    rw [this]
    rfl
  unfold Map.writeColumn
  rw [hb.1]
  unfold Map.writeSpans
  rw [hb.1, if_pos (by omega)]
  unfold Map.writeSpan
  simp only [hb.1, Nat.sub_zero, hk1, hk2, Nat.reduceSub, scanWhile, Nat.sub_self]
  simp [toU8, Map.writeColors]

/-- On a sound chunk `get` returns the colour of the entry with the position asked for. -/
theorem chunk.get_of_mem (c : chunk) (h : c.sorted) (p color : Nat)
    (hm : (⟨p, color⟩ : block) ∈ c.entries) : c.get p = some color := by
  have hf := chunk.search_found c h p ⟨_, hm, rfl⟩
  obtain ⟨a, ha, hat⟩ := (chunk.mem_entries c h.1 _).1 hm
  have hidx : a = c.search p := by
    rcases Nat.lt_trichotomy a (c.search p) with hlt | heq | hgt
    · have := chunk.sorted_at c h a (c.search p) hlt hf.1
      rw [hat, hf.2] at this
      exact absurd this (Nat.lt_irrefl _)
    · exact heq
    · have := chunk.sorted_at c h (c.search p) a hgt ha
      rw [hat, hf.2] at this
      exact absurd this (Nat.lt_irrefl _)
  unfold chunk.get
  simp only [hf, and_self, if_true]
  rw [← hidx, hat]

theorem toU32_natCast (v : Nat) : toU32 (v : Int) = v % 4294967296 := by
  unfold toU32
  omega

theorem shift_wrap (v : Nat) :
    ((v % 4294967296) <<< 20) % 4294967296 = ((v % 4096) <<< 20) % 4294967296 := by
  rw [Nat.shiftLeft_eq, Nat.shiftLeft_eq]
  have e : (2 : Nat) ^ 20 = 1048576 := by norm_num
  rw [e]
  omega

/-- The packed position of a cell of the bedrock layer, for any `y`. -/
theorem posOf_bedrock (x y : Nat) (hx : x < 4096) :
    posOf (x : Int) (y : Int) 63 = y % 4096 * 1048576 + x * 256 + 63 := by
  have hz : toU32 63 = 63 := by decide
  have hx' : toU32 (x : Int) = x := by rw [toU32_natCast]; omega
  have h1 : posOf (x : Int) (y : Int) 63 = newPosition x (y % 4096) 63 := by
    unfold posOf
    rw [hz, hx', toU32_natCast]
    unfold newPosition
    rw [shift_wrap]
  rw [h1, newPosition_eq x (y % 4096) 63 hx (Nat.mod_lt _ (by norm_num)) (by norm_num)]

theorem columns_pairwise (w h : Nat) : (columns w h).Pairwise rowMajor := by
  unfold columns
  rw [List.pairwise_flatMap]
  constructor
  · intro y _
    rw [List.pairwise_map]
    refine List.Pairwise.imp ?_ (List.pairwise_lt_range w)
    intro a b hab
    right
    exact ⟨rfl, by simpa using hab⟩
  · refine List.Pairwise.imp ?_ (List.pairwise_lt_range h)
    intro a b hab p hp q hq
    obtain ⟨x1, _, rfl⟩ := List.mem_map.1 hp
    obtain ⟨x2, _, rfl⟩ := List.mem_map.1 hq
    left
    simpa using hab

theorem chunk_index_split (cx q1 r1 q2 r2 : Nat) (h1 : q1 < cx) (h2 : q2 < cx)
    (h : q1 + r1 * cx = q2 + r2 * cx) : q1 = q2 ∧ r1 = r2 := by
  have hr : r1 = r2 := by
    have e1 : (q1 + r1 * cx) / cx = r1 := by
      rw [Nat.add_mul_div_right _ _ (by omega), Nat.div_eq_of_lt h1, Nat.zero_add]
    have e2 : (q2 + r2 * cx) / cx = r2 := by
      rw [Nat.add_mul_div_right _ _ (by omega), Nat.div_eq_of_lt h2, Nat.zero_add]
    rw [← e1, ← e2, h]
  subst hr
  exact ⟨by omega, rfl⟩

/-- Within one chunk the packed positions of the bedrock cells follow the row major order. -/
theorem bedrockEntry_lt (m : Map) (hW : m.width ≤ 4096) (i : Nat) (a b : (Int × Int) × Nat)
    (ha : m.chunkAt a.1.1 a.1.2 = some i) (hb : m.chunkAt b.1.1 b.1.2 = some i)
    (hab : rowMajor a.1 b.1) : (bedrockEntry a).pos < (bedrockEntry b).pos := by
  obtain ⟨ax0, ax, ay0, ay, hai⟩ := Map.chunkAt_some m _ _ i ha
  obtain ⟨bx0, bx, by0, by', hbi⟩ := Map.chunkAt_some m _ _ i hb
  obtain ⟨⟨x1, y1⟩, c1⟩ := a
  obtain ⟨⟨x2, y2⟩, c2⟩ := b
  simp only at ax0 ax ay0 ay hai bx0 bx by0 by' hbi
  obtain ⟨X1, rfl⟩ := Int.eq_ofNat_of_zero_le ax0
  obtain ⟨Y1, rfl⟩ := Int.eq_ofNat_of_zero_le ay0
  obtain ⟨X2, rfl⟩ := Int.eq_ofNat_of_zero_le bx0
  obtain ⟨Y2, rfl⟩ := Int.eq_ofNat_of_zero_le by0
  simp only [Int.toNat_ofNat] at hai hbi
  unfold chunkSize at hai hbi
  have hsplit := chunk_index_split ((m.width + 16 - 1) / 16) (X1 / 16) (Y1 / 16) (X2 / 16)
    (Y2 / 16) (by omega) (by omega) (by rw [← hai, ← hbi])
  simp only [bedrockEntry]
  rw [posOf_bedrock X1 Y1 (by omega), posOf_bedrock X2 Y2 (by omega)]
  simp only [rowMajor] at hab
  omega

theorem newChunk_ok : newChunk.ok ∧ newChunk.entries = [] := by
  refine ⟨⟨?_, ?_⟩, rfl⟩
  · show 0 < (List.replicate (chunkSize * chunkSize * 2) block.zero).length
    rw [List.length_replicate]; decide
  · show 0 ≤ (List.replicate (chunkSize * chunkSize * 2) block.zero).length
    exact Nat.zero_le _

theorem solidMap_chunkOf (w h j : Nat) (hj : j < (solidMap w h 64).chunks.length) :
    (solidMap w h 64).chunkOf j = newChunk := by
  unfold Map.chunkOf
  rw [List.getD_eq_getElem _ _ hj]
  simp only [(solidMap_fields w h).2.2.2.2, List.getElem_replicate]

/-- The chunk lists of the loaded map: sound slices that hold the entries of the
columns of the chunk in the order of loading. -/
theorem bedrockMap_chunk (w h : Nat) (cs : List Nat) (j : Nat)
    (hj : j < (solidMap w h 64).chunks.length) :
    ((bedrockMap w h cs).chunkOf j).ok ∧
      ((bedrockMap w h cs).chunkOf j).entries =
        (((columns w h).zip cs).filter
          (fun p => decide ((solidMap w h 64).chunkAt p.1.1 p.1.2 = some j))).map bedrockEntry := by
  have h2 := solidMap_fields w h
  have := Map.loadBedrock_chunks ((columns w h).zip cs) (solidMap w h 64)
    (by rw [h2.2.2.2.2, h2.1, h2.2.1, List.length_replicate])
    (by intro j hj; rw [solidMap_chunkOf w h j hj]; exact newChunk_ok.1) j hj
  rw [solidMap_chunkOf w h j hj, newChunk_ok.2, List.nil_append] at this
  exact this

theorem bedrockMap_sorted (w h : Nat) (hw : w ≤ 4096) (cs : List Nat)
    (hl : cs.length = w * h) (j : Nat) (hj : j < (solidMap w h 64).chunks.length) :
    ((bedrockMap w h cs).chunkOf j).sorted := by
  have hc := bedrockMap_chunk w h cs j hj
  refine ⟨hc.1.2, ?_⟩
  rw [hc.2, List.pairwise_map, List.pairwise_map]
  have hp : ((columns w h).zip cs).Pairwise (fun a b => rowMajor a.1 b.1) := by
    have := columns_pairwise w h
    rw [← List.map_fst_zip (columns w h) cs (by rw [columns_length, hl]),
      List.pairwise_map] at this
    exact this
  refine List.Pairwise.imp_of_mem ?_ (List.Pairwise.filter _ hp)
  intro a b ha hb hab
  have ha' := (List.mem_filter.1 ha).2
  have hb' := (List.mem_filter.1 hb).2
  simp only [decide_eq_true_eq] at ha' hb'
  exact bedrockEntry_lt (solidMap w h 64) (by rw [(solidMap_fields w h).1]; exact hw) j a b
    ha' hb' hab

/-- In the loaded map `Get` returns the low three bytes of the colour of the column. -/
theorem bedrockMap_Get (w h : Nat) (hw1 : 1 ≤ w) (hw : w ≤ 4096) (cs : List Nat)
    (hl : cs.length = w * h) (p : (Int × Int) × Nat) (hp : p ∈ (columns w h).zip cs) :
    (bedrockMap w h cs).Get p.1.1 p.1.2 63 = p.2 % 16777216 := by
  have hf := bedrockMap_fields w h cs
  have h2 := solidMap_fields w h
  have hb := bedrockMap_bedrockOnly w h hw1 cs hl
  have hcol := (List.of_mem_zip hp).1
  obtain ⟨x, y, hx, hy, hxy⟩ := (mem_columns w h p.1).1 hcol
  have hin : (bedrockMap w h cs).IsInside p.1.1 p.1.2 63 = true := by
    rw [hxy]
    simp only [Map.IsInside, hf.1, hf.2.1, hf.2.2.1, decide_eq_true_eq]
    omega
  have hgeo := Map.bedrockOnly_hasGeometry _ hb _ _ _ hin
  have hci := Map.chunkAt_inside _ _ _ _ hin
  generalize hi : p.1.1.toNat / chunkSize + p.1.2.toNat / chunkSize *
    (((bedrockMap w h cs).width + chunkSize - 1) / chunkSize) = i at hci
  have hci' : (solidMap w h 64).chunkAt p.1.1 p.1.2 = some i := by
    rw [← Map.chunkAt_congr (solidMap w h 64) (bedrockMap w h cs) (hf.1.trans h2.1.symm)
      (hf.2.1.trans h2.2.1.symm)]
    exact hci
  have hil : i < (solidMap w h 64).chunks.length :=
    Map.chunkAt_lt _ (by rw [h2.2.2.2.2, h2.1, h2.2.1, List.length_replicate]) _ _ i hci'
  have hmem : bedrockEntry p ∈ ((bedrockMap w h cs).chunkOf i).entries := by
    rw [(bedrockMap_chunk w h cs i hil).2]
    exact List.mem_map_of_mem _ (List.mem_filter.2 ⟨hp, by simpa using hci'⟩)
  have hget := chunk.get_of_mem _ (bedrockMap_sorted w h hw cs hl i hil) _ _ hmem
  unfold Map.Get
  simp only [hin, hgeo, hci, decide_True, Bool.not_true, Bool.or_self, Bool.false_eq_true,
    if_false]
  rw [hget]

theorem le32_color (c : Nat) :
    le32 (c % 16777216 ||| 0x7F000000) = [c % 256, c / 256 % 256, c / 65536 % 256, 0x7F] := by
  have e : c % 16777216 ||| 0x7F000000 = 2 ^ 24 * 127 + c % 16777216 := by
    rw [Nat.lor_comm, Nat.mul_add_lt_is_or (by omega)]
  rw [e]
  unfold le32
  simp only [List.cons.injEq, and_true]
  omega

theorem flatMap_zip {α β γ : Type} (f : α → List γ) (g : β → List γ) :
    ∀ (l1 : List α) (l2 : List β), l1.length = l2.length →
      (∀ p ∈ l1.zip l2, f p.1 = g p.2) → l1.flatMap f = l2.flatMap g := by
  intro l1
  induction l1 with
  | nil =>
    intro l2 hl _
    have : l2 = [] := List.eq_nil_of_length_eq_zero hl.symm
    subst this; rfl
  | cons a l1 ih =>
    intro l2 hl h
    cases l2 with
    | nil => simp at hl
    | cons b l2 =>
      simp only [List.flatMap_cons]
      rw [h (a, b) (by simp), ih l2 (by simpa using hl)
        (fun p hp => h p (by simp only [List.zip_cons_cons]; exact List.mem_cons_of_mem _ hp))]

/-- Writing the loaded map gives back the stream. -/
theorem bedrockMap_Write (w h : Nat) (hw1 : 1 ≤ w) (hw : w ≤ 4096) (hh : 1 ≤ h) (cs : List Nat)
    (hl : cs.length = w * h) : (bedrockMap w h cs).Write = bedrockStream cs := by
  have hf := bedrockMap_fields w h cs
  have hb := bedrockMap_bedrockOnly w h hw1 cs hl
  unfold Map.Write bedrockStream
  rw [hf.1, hf.2.1]
  apply flatMap_zip _ _ _ _ (by rw [columns_length, hl])
  intro p hp
  rw [Map.bedrockOnly_writeColumn _ hb (by rw [hf.1]; exact hw1) (by rw [hf.2.1]; exact hh),
    bedrockMap_Get w h hw1 hw cs hl p hp, le32_color]
  rfl

theorem Map.removeAir_bottom (m : Map) (x y z : Int) (h : z = (m.depth : Int) - 1) :
    m.removeAir x y z = m := by
  unfold Map.removeAir
  rw [if_pos (by simp [h])]

theorem Map.removeAir_outside (m : Map) (x y z : Int) (h : m.IsInside x y z = false) :
    m.removeAir x y z = m := by
  unfold Map.removeAir
  rw [if_pos (by simp [h])]

theorem Map.updateNeighbor_of_id (m : Map) (n : Int × Int × Int)
    (h : m.removeAir n.1 n.2.1 n.2.2 = m) : m.updateNeighbor n = m := by
  unfold Map.updateNeighbor
  split
  · exact h
  · rfl

theorem Map.updateNeighbor_of_air (m : Map) (n : Int × Int × Int)
    (h : m.IsSolid n.1 n.2.1 n.2.2 = false) : m.updateNeighbor n = m := by
  unfold Map.updateNeighbor
  rw [h]
  rfl

theorem Map.bedrockPartial_air (m : Map) (hb : m.bedrockPartial) (x y : Int)
    (hin : m.IsInside x y 63 = true) : m.IsSolid x y 62 = false := by
  obtain ⟨hx0, hx, hy0, hy, hz0, hz⟩ := Map.inside_bounds m x y 63 hin
  have hin62 : m.IsInside x y 62 = true := by
    simp only [Map.IsInside, decide_eq_true_eq]; omega
  have hin0 : m.IsInside x y 0 = true := by
    simp only [Map.IsInside, decide_eq_true_eq]; omega
  have hK := Map.column_lt m x y hin0
  rw [Map.IsSolid_inside m x y 62 hin62, Map.hasGeometry_eq_bit m x y 62 hin62,
    Map.offset_eq m x y 62 hin62, hb.1]
  unfold Map.bit
  have h1 : ((62 : Int).toNat + (x.toNat + y.toNat * m.width) * 64) / 64 =
      x.toNat + y.toNat * m.width := by
    have : (62 : Int).toNat = 62 := by decide
    omega
  have h2 : ((62 : Int).toNat + (x.toNat + y.toNat * m.width) * 64) % 64 = 62 := by
    have : (62 : Int).toNat = 62 := by decide
    omega
  rw [h1, h2]
  rcases hb.2.2 _ (by rw [hb.2.1]; exact hK) with h | h <;> rw [h] <;> decide

/-- Placing a bedrock block: on the geometry `Set(x, y, 63, colour)` sets the word of the
column to `2 ^ 63` and nothing else. -/
theorem Map.bedrockPartial_Set (m : Map) (hb : m.bedrockPartial) (x y : Int) (color : Nat)
    (hin : m.IsInside x y 63 = true) :
    (m.Set x y 63 color).width = m.width ∧ (m.Set x y 63 color).height = m.height ∧
      (m.Set x y 63 color).depth = m.depth ∧
      (m.Set x y 63 color).geometry =
        m.geometry.set (x.toNat + y.toNat * m.width) 9223372036854775808 := by
  have hin0 : m.IsInside x y 0 = true := by
    have := Map.inside_bounds m x y 63 hin
    simp only [Map.IsInside, decide_eq_true_eq]; omega
  have hK : x.toNat + y.toNat * m.width < m.geometry.length := by
    rw [hb.2.1]; exact Map.column_lt m x y hin0
  have hsg := Map.setGeometry_word m hb.1 x y 63 true hin
  have hsf := Map.setGeometry_fields m x y 63 true
  have hif := Map.insertAt_fields (m.setGeometry x y 63 true) x y 63 color
  generalize hm2 : (m.setGeometry x y 63 true).insertAt x y 63 color = m2 at hif
  have hw2 : m2.width = m.width := hif.1.trans hsf.1
  have hh2 : m2.height = m.height := hif.2.1.trans hsf.2.1
  have hd2 : m2.depth = m.depth := hif.2.2.1.trans hsf.2.2.1
  have hg2 : m2.geometry = m.geometry.set (x.toNat + y.toNat * m.width) 9223372036854775808 := by
    rw [hif.2.2.2.1, hsg]
    simp only [if_true]
    congr 1
    rcases hb.2.2 _ hK with h | h <;> rw [h] <;> decide
  have hb2 : m2.bedrockPartial := by
    refine ⟨hd2.trans hb.1, ?_, ?_⟩
    · rw [hg2, List.length_set, hw2, hh2]; exact hb.2.1
    · intro K hK2
      rw [hg2] at hK2 ⊢
      rw [List.length_set] at hK2
      by_cases hKe : K = x.toNat + y.toNat * m.width
      · subst hKe
        rw [getD_set_self _ _ _ hK]; exact Or.inr rfl
      · rw [getD_set_other _ _ _ _ (Ne.symm hKe)]; exact hb.2.2 K hK2
  have hin2 : m2.IsInside x y 63 = true := by
    rw [Map.IsInside_congr m m2 hw2 hh2 hd2]; exact hin
  have hup : m2.updateNeighborSurfaces x y 63 = m2 := by
    unfold Map.updateNeighborSurfaces neighbors
    have hbot : ((63 : Int) = (m2.depth : Int) - 1) := by rw [hd2, hb.1]; rfl
    simp only [List.foldl_cons, List.foldl_nil]
    rw [Map.updateNeighbor_of_id m2 _ (Map.removeAir_bottom m2 _ _ _ hbot),
      Map.updateNeighbor_of_id m2 _ (Map.removeAir_bottom m2 _ _ _ hbot),
      Map.updateNeighbor_of_id m2 _ (Map.removeAir_bottom m2 _ _ _ hbot),
      Map.updateNeighbor_of_id m2 _ (Map.removeAir_bottom m2 _ _ _ hbot),
      Map.updateNeighbor_of_id m2 _ (Map.removeAir_outside m2 _ _ _ (by
        simp only [Map.IsInside, hd2, hb.1, decide_eq_false_iff_not]; omega)),
      Map.updateNeighbor_of_air m2 _ (Map.bedrockPartial_air m2 hb2 x y hin2)]
  have hset : m.Set x y 63 color = m2 := by
    unfold Map.Set
    simp only [hin, Bool.not_true, Bool.false_eq_true, if_false, hm2, hup]
  rw [hset]
  exact ⟨hw2, hh2, hd2, hg2⟩

theorem Map.bedrockPartial_foldl (color : Nat) :
    ∀ (l : List (Int × Int)) (m : Map), m.bedrockPartial →
      (∀ c ∈ l, m.IsInside c.1 c.2 63 = true) →
      (l.foldl (fun (m : Map) (c : Int × Int) => m.Set c.1 c.2 63 color) m).width = m.width ∧
      (l.foldl (fun (m : Map) (c : Int × Int) => m.Set c.1 c.2 63 color) m).height = m.height ∧
      (l.foldl (fun (m : Map) (c : Int × Int) => m.Set c.1 c.2 63 color) m).geometry.length =
        m.geometry.length ∧
      (∀ K, m.geometry.getD K 0 = 9223372036854775808 →
        (l.foldl (fun (m : Map) (c : Int × Int) => m.Set c.1 c.2 63 color) m).geometry.getD K 0 =
          9223372036854775808) ∧
      (∀ c ∈ l,
        (l.foldl (fun (m : Map) (c : Int × Int) => m.Set c.1 c.2 63 color) m).geometry.getD
          (c.1.toNat + c.2.toNat * m.width) 0 = 9223372036854775808) := by
  intro l
  induction l with
  | nil =>
    intro m hb hin
    exact ⟨rfl, rfl, rfl, fun K h => h, fun c hc => absurd hc (List.not_mem_nil _)⟩
  | cons c l ih =>
    intro m hb hin
    simp only [List.foldl_cons]
    have hc := hin c (List.mem_cons_self _ _)
    have hin0 : m.IsInside c.1 c.2 0 = true := by
      have := Map.inside_bounds m c.1 c.2 63 hc
      simp only [Map.IsInside, decide_eq_true_eq]; omega
    have hK : c.1.toNat + c.2.toNat * m.width < m.geometry.length := by
      rw [hb.2.1]; exact Map.column_lt m c.1 c.2 hin0
    obtain ⟨s1, s2, s3, s4⟩ := Map.bedrockPartial_Set m hb c.1 c.2 color hc
    have hb' : (m.Set c.1 c.2 63 color).bedrockPartial := by
      refine ⟨s3.trans hb.1, ?_, ?_⟩
      · rw [s4, List.length_set, s1, s2]; exact hb.2.1
      · intro K hK2
        rw [s4] at hK2 ⊢
        rw [List.length_set] at hK2
        by_cases hKe : K = c.1.toNat + c.2.toNat * m.width
        · subst hKe
          rw [getD_set_self _ _ _ hK]; exact Or.inr rfl
        · rw [getD_set_other _ _ _ _ (Ne.symm hKe)]; exact hb.2.2 K hK2
    have := ih (m.Set c.1 c.2 63 color) hb'
      (by
        intro q hq
        rw [Map.IsInside_congr m _ s1 s2 s3]
        exact hin q (List.mem_cons_of_mem _ hq))
    refine ⟨this.1.trans s1, this.2.1.trans s2, ?_, ?_, ?_⟩
    · rw [this.2.2.1, s4, List.length_set]
    · intro K hKv
      apply this.2.2.2.1
      rw [s4]
      by_cases hKe : K = c.1.toNat + c.2.toNat * m.width
      · subst hKe
        rw [getD_set_self _ _ _ hK]
      · rw [getD_set_other _ _ _ _ (Ne.symm hKe)]; exact hKv
    · intro q hq
      rcases List.mem_cons.1 hq with rfl | hq
      · apply this.2.2.2.1
        rw [s4, getD_set_self _ _ _ hK]
      · have := this.2.2.2.2 q hq
        rw [s1] at this
        exact this

/-- The geometry that `Create(w, h, 64, nil)` builds: every word is `2 ^ 63`. -/
theorem flatWorld_geometry (w h : Nat) (hw : 1 ≤ w) :
    (flatWorld w h 64).geometry = List.replicate (w * h) 9223372036854775808 := by
  have hnew : (newMap w h 64).bedrockPartial := by
    refine ⟨rfl, ?_, ?_⟩
    · show (List.replicate ((w * h * 64 + 63) / 64) 0).length = w * h
      rw [List.length_replicate]; omega
    · intro K hK
      left
      rw [List.getD_eq_getElem _ _ hK]
      show (List.replicate ((w * h * 64 + 63) / 64) 0)[K] = 0
      rw [List.getElem_replicate]
  have hin : ∀ c ∈ columns w h, (newMap w h 64).IsInside c.1 c.2 63 = true := by
    intro c hc
    obtain ⟨x, y, hx, hy, rfl⟩ := (mem_columns w h c).1 hc
    show decide (_ ∧ _ ∧ _ ∧ _ < ((w : Nat) : Int) ∧ _ < ((h : Nat) : Int) ∧
      _ < ((64 : Nat) : Int)) = true
    simp only [decide_eq_true_eq]
    omega
  have hfold := Map.bedrockPartial_foldl defaultColor (columns w h) (newMap w h 64) hnew hin
  have hflat : flatWorld w h 64 = (columns w h).foldl
      (fun (m : Map) (c : Int × Int) => m.Set c.1 c.2 63 defaultColor) (newMap w h 64) := by
    unfold flatWorld Create
    rfl
  rw [hflat]
  generalize (columns w h).foldl
      (fun (m : Map) (c : Int × Int) => m.Set c.1 c.2 63 defaultColor) (newMap w h 64) = mf
    at hfold
  obtain ⟨f1, f2, f3, f4, f5⟩ := hfold
  have hlen : mf.geometry.length = w * h := by rw [f3]; exact hnew.2.1
  apply List.ext_getElem
  · rw [hlen, List.length_replicate]
  · intro K hK1 hK2
    rw [List.getElem_replicate]
    rw [hlen] at hK1
    have hKh : K / w < h := by
      rw [Nat.div_lt_iff_lt_mul (by omega)]; rw [Nat.mul_comm]; exact hK1
    have hc : (((K % w : Nat) : Int), ((K / w : Nat) : Int)) ∈ columns w h :=
      (mem_columns w h _).2 ⟨K % w, K / w, Nat.mod_lt _ (by omega), hKh, rfl⟩
    have := f5 _ hc
    simp only [Int.toNat_ofNat] at this
    have hwid : (newMap w h 64).width = w := rfl
    rw [hwid, Nat.mod_add_div' K w] at this
    have e := List.getD_eq_getElem mf.geometry 0 (by rw [hlen]; exact hK1 : K < mf.geometry.length)
    rw [← e]
    exact this

set_option maxRecDepth 10000000 in
theorem wide_filter :
    ((columns 4097 2).zip wideColors).filter
      (fun p => decide ((solidMap 4097 2 64).chunkAt p.1.1 p.1.2 = some 256)) =
      [((4096, 0), 0), ((4096, 1), 1)] := by
  decide!

theorem sortSearchLoop_congr (f g : Nat → Bool) (n : Nat) (hfg : ∀ a, a < n → f a = g a) :
    ∀ fuel i j, j ≤ n → sortSearchLoop f fuel i j = sortSearchLoop g fuel i j := by
  intro fuel
  induction fuel with
  | zero => intro i j _; rfl
  | succ fuel ih =>
    intro i j hj
    unfold sortSearchLoop
    by_cases hlt : i < j
    · simp only [hlt, if_true]
      rw [hfg ((i + j) / 2) (by omega), ih _ _ hj, ih _ _ (by omega : (i + j) / 2 ≤ n)]
    · simp only [hlt, if_false]

/-- The result of `get` depends on the entries in use only. -/
theorem chunk.get_entries (c : chunk) (h : c.count ≤ c.blocks.length) (p : Nat) :
    c.get p = ({ blocks := c.entries, count := c.entries.length } : chunk).get p := by
  have hl := chunk.entries_length c h
  rw [hl]
  have hat : ∀ a, a < c.count →
      ({ blocks := c.entries, count := c.count } : chunk).at a = c.at a := by
    intro a ha
    have ha' : a < c.entries.length := by rw [hl]; exact ha
    rw [← chunk.entries_getElem c a ha']
    unfold chunk.at
    exact List.getD_eq_getElem _ _ ha'
  have hs : ({ blocks := c.entries, count := c.count } : chunk).search p = c.search p := by
    unfold chunk.search sortSearch
    apply sortSearchLoop_congr _ _ c.count _ _ _ _ (Nat.le_refl _)
    intro a ha
    rw [hat a ha]
  unfold chunk.get
  simp only [hs]
  by_cases hlt : c.search p < c.count
  · rw [hat _ hlt]
  · simp [hlt]

theorem columns_last (w h : Nat) :
    columns (w + 1) (h + 1) =
      (columns (w + 1) h ++ (List.range w).map (fun (x : Nat) => ((x : Int), (h : Int)))) ++
        [((w : Int), (h : Int))] := by
  unfold columns
  rw [List.range_succ (n := h), List.flatMap_append]
  simp only [List.flatMap_cons, List.flatMap_nil, List.append_nil]
  rw [List.range_succ (n := w), List.map_append]
  simp only [List.map_cons, List.map_nil, List.append_assoc]

theorem wide_len : wideColors.length = 4097 * 2 := by
  simp only [wideColors, List.length_append, List.length_replicate, List.length_singleton]

theorem wide_chunk_lt : 256 < (solidMap 4097 2 64).chunks.length := by
  rw [(solidMap_fields 4097 2).2.2.2.2, List.length_replicate]
  decide

theorem wide_bedrockOnly : (bedrockMap 4097 2 wideColors).bedrockOnly :=
  bedrockMap_bedrockOnly 4097 2 (by decide) wideColors wide_len

theorem wide_chunk : ((bedrockMap 4097 2 wideColors).chunkOf 256).ok ∧
    ((bedrockMap 4097 2 wideColors).chunkOf 256).entries =
      [((4096, 0), 0), ((4096, 1), 1)].map bedrockEntry := by
  have hch := bedrockMap_chunk 4097 2 wideColors 256 wide_chunk_lt
  rw [wide_filter] at hch
  exact hch

theorem wide_inside : (bedrockMap 4097 2 wideColors).IsInside 4096 1 63 = true := by
  have hf := bedrockMap_fields 4097 2 wideColors
  simp only [Map.IsInside, hf.1, hf.2.1, hf.2.2.1, decide_eq_true_eq]
  omega

theorem wide_chunkAt : (bedrockMap 4097 2 wideColors).chunkAt 4096 1 = some 256 := by
  have hf := bedrockMap_fields 4097 2 wideColors
  rw [Map.chunkAt_inside _ _ _ _ wide_inside, hf.1]
  decide

theorem wide_geometry : (bedrockMap 4097 2 wideColors).hasGeometry 4096 1 63 = true := by
  rw [Map.bedrockOnly_hasGeometry _ wide_bedrockOnly _ _ _ wide_inside]
  decide

theorem wide_lookup :
    ({ blocks := [((4096, 0), 0), ((4096, 1), 1)].map bedrockEntry,
       count := ([((4096, 0), 0), ((4096, 1), 1)].map bedrockEntry).length } : chunk).get
      (posOf 4096 1 63) = some 0 := by
  decide

theorem Map.Get_of_entry (m : Map) (x y z : Int) (i color : Nat)
    (hin : m.IsInside x y z = true) (hgeo : m.hasGeometry x y z = true)
    (hci : m.chunkAt x y = some i) (hget : (m.chunkOf i).get (posOf x y z) = some color) :
    m.Get x y z = color := by
  unfold Map.Get
  simp only [hin, hgeo, hci, Bool.not_true, Bool.or_self, Bool.false_eq_true, if_false, hget]

theorem chunk.get_of_entries (c : chunk) (h : c.ok) (es : List block) (he : c.entries = es)
    (p color : Nat)
    (hg : ({ blocks := es, count := es.length } : chunk).get p = some color) :
    c.get p = some color := by
  rw [chunk.get_entries c h.2, he]
  exact hg

/-- In the 4097 x 2 map the columns `(4096, 0)` and `(4096, 1)` share a chunk and a packed
position, and `Get` returns the colour of the first of them for both. -/
theorem wide_Get : (bedrockMap 4097 2 wideColors).Get 4096 1 63 = 0 :=
  Map.Get_of_entry _ _ _ _ _ _ wide_inside wide_geometry wide_chunkAt
    (chunk.get_of_entries _ wide_chunk.1 _ wide_chunk.2 _ _ wide_lookup)

/-- A map with only the bedrock layer solid whose last column reads another colour than
`c` does not write a stream that ends with the column of colour `c`. -/
theorem Map.Write_ne_of_last (m : Map) (w h : Nat) (hw : m.width = w + 1)
    (hh : m.height = h + 1) (hb : m.bedrockOnly) (cs : List Nat) (c g : Nat)
    (hg : m.Get (w : Int) (h : Int) 63 = g)
    (hne : le32 (g ||| 0x7F000000) ≠ [c % 256, c / 256 % 256, c / 65536 % 256, 0x7F]) :
    m.Write ≠ bedrockStream (cs ++ [c]) := by
  intro heq
  unfold Map.Write bedrockStream at heq
  rw [hw, hh, columns_last w h] at heq
  simp only [List.flatMap_append, List.flatMap_cons, List.flatMap_nil, List.append_nil] at heq
  rw [Map.bedrockOnly_writeColumn m hb (by omega) (by omega), hg] at heq
  have h2 := (List.append_inj' heq (by simp [bedrockColumn, le32])).2
  simp only [bedrockColumn, List.cons_append, List.nil_append, List.cons.injEq, true_and] at h2
  exact hne h2

/-- C5 as stated fails for widths above 4096. For the 4097 x 2 map whose columns
all have colour `0` except the last one with colour `1`, `Create` succeeds but
`Write` does not return the input: `newPosition` packs `x` into 12 bits, so the
cells `(4096, 0, 63)` and `(4096, 1, 63)` get the same packed position. -/
theorem C5_wide_counterexample :
    ∃ m, Create 4097 2 64 (some (bedrockStream wideColors)) = .ok m ∧
      m.Write ≠ bedrockStream wideColors :=
  ⟨bedrockMap 4097 2 wideColors,
    Create_bedrock 4097 2 (by decide) (by decide) wideColors wide_len,
    Map.Write_ne_of_last _ 4096 1 (bedrockMap_fields 4097 2 wideColors).1
      (bedrockMap_fields 4097 2 wideColors).2.1 wide_bedrockOnly (List.replicate 8193 0) 1 0
      wide_Get (by decide)⟩

/-- C5 (amended). For every width from 1 to 4096, every height of at least 1 and
depth 64: if every column of the input stream is the single 8 byte span
`(length 0, colour_start 63, colour_end 63, air_start 0)` followed by one colour
word whose top byte is `0x7F`, then `Create` succeeds, the resulting geometry has
exactly the cells with `z = 63` solid, it is the geometry that
`Create(w, h, 64, nil)` builds, and `Write` returns the input stream. -/
theorem C5_bedrock_round_trip (w h : Nat) (hw1 : 1 ≤ w) (hw : w ≤ 4096) (hh : 1 ≤ h)
    (colors : List Nat) (hl : colors.length = w * h) :
    ∃ m, Create w h 64 (some (bedrockStream colors)) = .ok m ∧
      (∀ x y z, m.IsInside x y z = true → (m.hasGeometry x y z = true ↔ z = 63)) ∧
      Create w h 64 none = .ok (flatWorld w h 64) ∧
      m.geometry = (flatWorld w h 64).geometry ∧
      m.Write = bedrockStream colors := by
  refine ⟨bedrockMap w h colors, Create_bedrock w h hw1 hh colors hl, ?_, rfl, ?_,
    bedrockMap_Write w h hw1 hw hh colors hl⟩
  · intro x y z hin
    rw [Map.bedrockOnly_hasGeometry _ (bedrockMap_bedrockOnly w h hw1 colors hl) x y z hin]
    simp
  · rw [bedrockMap_geometry w h hw1 colors hl, flatWorld_geometry w h hw1]

/-- C5 (amended) at a concrete input: a 2 x 1 map with two colours. -/
theorem C5_bedrock_round_trip_witness :
    [0x112233, 0x445566].length = 2 * 1 ∧
      ∃ m, Create 2 1 64 (some (bedrockStream [0x112233, 0x445566])) = .ok m ∧
        m.Write = bedrockStream [0x112233, 0x445566] :=
  ⟨by decide,
    (C5_bedrock_round_trip 2 1 (by decide) (by decide) (by decide) [0x112233, 0x445566]
      (by decide)).imp (fun _ hm => ⟨hm.1, hm.2.2.2.2⟩)⟩

end vxl

namespace vxl

/-! ## Iteration budgets

The loops of `sort.Search`, `writeColumn` and `loadFromData` are embedded with an
iteration budget. The budgets that the embedding passes are never exhausted. -/

/-- The search loop does not depend on the iteration budget once the budget
covers the length of the interval. -/
theorem sortSearchLoop_fuel (f : Nat → Bool) :
    ∀ fuel1 fuel2 i j, j - i ≤ fuel1 → j - i ≤ fuel2 →
      sortSearchLoop f fuel1 i j = sortSearchLoop f fuel2 i j := by
  intro fuel1
  induction fuel1 with
  | zero =>
    intro fuel2 i j h1 _
    cases fuel2 with
    | zero => rfl
    | succ n =>
      simp only [sortSearchLoop]
      rw [if_neg (by omega)]
  | succ fuel1 ih =>
    intro fuel2 i j h1 h2
    cases fuel2 with
    | zero =>
      simp only [sortSearchLoop]
      rw [if_neg (by omega)]
    | succ n =>
      simp only [sortSearchLoop]
      by_cases hlt : i < j
      · simp only [hlt, if_true]
        rw [ih n ((i + j) / 2 + 1) j (by omega) (by omega),
          ih n i ((i + j) / 2) (by omega) (by omega)]
      · simp only [hlt, if_false]

theorem scanWhile_bounds (p : Nat → Bool) :
    ∀ fuel k, k ≤ scanWhile p fuel k ∧ scanWhile p fuel k ≤ k + fuel ∧
      (0 < fuel → p k = true → k < scanWhile p fuel k) := by
  intro fuel
  induction fuel with
  | zero => intro k; simp [scanWhile]
  | succ fuel ih =>
    intro k
    simp only [scanWhile]
    by_cases hp : p k = true
    · simp only [hp, if_true]
      have := ih (k + 1)
      omega
    · rw [if_neg hp]
      refine ⟨Nat.le_refl _, by omega, ?_⟩
      intro _ h
      exact absurd h hp

/-- Every iteration of the loop of `writeColumn` advances `k` and stays within the depth. -/
theorem Map.writeSpan_progress (m : Map) (x y : Int) (k : Nat) (hk : k < m.depth) :
    k < (m.writeSpan x y k).2 ∧ (m.writeSpan x y k).2 ≤ m.depth := by
  unfold Map.writeSpan
  simp only
  generalize hk1 : scanWhile (fun (k : Nat) => !m.IsSolid x y (k : Int)) (m.depth - k) k = k1
  have b1 := scanWhile_bounds (fun (k : Nat) => !m.IsSolid x y (k : Int)) (m.depth - k) k
  rw [hk1] at b1
  generalize hk2 : scanWhile (fun (k : Nat) => m.OnSurface x y (k : Int)) (m.depth - k1) k1 = k2
  have b2 := scanWhile_bounds (fun (k : Nat) => m.OnSurface x y (k : Int)) (m.depth - k1) k1
  rw [hk2] at b2
  generalize hk3 : scanWhile
    (fun (k : Nat) => m.IsSolid x y (k : Int) && !m.OnSurface x y (k : Int)) (m.depth - k2) k2 = k3
  have b3 := scanWhile_bounds
    (fun (k : Nat) => m.IsSolid x y (k : Int) && !m.OnSurface x y (k : Int)) (m.depth - k2) k2
  rw [hk3] at b3
  generalize hk4 : scanWhile (fun (k : Nat) => m.OnSurface x y (k : Int)) (m.depth - k3) k3 = k4
  have b4 := scanWhile_bounds (fun (k : Nat) => m.OnSurface x y (k : Int)) (m.depth - k3) k3
  rw [hk4] at b4
  have hfin : k < k3 := by
    by_cases h1 : k < k1
    · omega
    · have hk1e : k1 = k := by omega
      subst hk1e
      have hs : m.IsSolid x y (k1 : Int) = true := by
        cases hsol : m.IsSolid x y (k1 : Int) with
        | true => rfl
        | false =>
          have := b1.2.2 (by omega) (by simp [hsol])
          omega
      by_cases h2 : m.OnSurface x y (k1 : Int) = true
      · have := b2.2.2 (by omega) h2
        omega
      · have hk2e : k2 = k1 := by
          rw [← hk2]
          obtain ⟨f, hf⟩ : ∃ f, m.depth - k1 = f + 1 := ⟨m.depth - k1 - 1, by omega⟩
          rw [hf]
          simp only [scanWhile]
          rw [if_neg h2]
        subst hk2e
        have := b3.2.2 (by omega) (by simp [hs, h2])
        omega
  split <;> omega

/-- The loop of `writeColumn` does not depend on the iteration budget once the
budget covers the cells that are left. -/
theorem Map.writeSpans_fuel (m : Map) (x y : Int) :
    ∀ fuel1 fuel2 k, m.depth - k ≤ fuel1 → m.depth - k ≤ fuel2 →
      m.writeSpans x y fuel1 k = m.writeSpans x y fuel2 k := by
  intro fuel1
  induction fuel1 with
  | zero =>
    intro fuel2 k h1 _
    cases fuel2 with
    | zero => rfl
    | succ n =>
      simp only [Map.writeSpans]
      rw [if_neg (by omega)]
  | succ fuel1 ih =>
    intro fuel2 k h1 h2
    cases fuel2 with
    | zero =>
      simp only [Map.writeSpans]
      rw [if_neg (by omega)]
    | succ n =>
      simp only [Map.writeSpans]
      by_cases hlt : k < m.depth
      · simp only [hlt, if_true]
        have hp := Map.writeSpan_progress m x y k hlt
        rw [ih n (m.writeSpan x y k).2 (by omega) (by omega)]
      · simp only [hlt, if_false]

/-- The span loop of `loadFromData` does not depend on the iteration budget once
the budget exceeds the number of bytes that are left. -/
theorem Map.loadColumn_fuel (data : List Nat) (x y : Int) (i : Nat) :
    ∀ fuel1 fuel2 (m : Map) (offset : Nat), data.length - offset < fuel1 →
      data.length - offset < fuel2 →
      Map.loadColumn data x y i fuel1 m offset = Map.loadColumn data x y i fuel2 m offset := by
  intro fuel1
  induction fuel1 with
  | zero => intro fuel2 m offset h1; omega
  | succ fuel1 ih =>
    intro fuel2 m offset h1 h2
    cases fuel2 with
    | zero => omega
    | succ n =>
      simp only [Map.loadColumn]
      split
      · rfl
      · rename_i hlen
        split
        · rfl
        · rename_i hex
          split
          · rfl
          · rename_i hpan
            split
            · rfl
            · split
              · rfl
              · rename_i c hc hl0
                have hl4 : span.dataLength
                    { length := data.getD offset 0, colorStart := data.getD (offset + 1) 0,
                      colorEnd := data.getD (offset + 2) 0,
                      airStart := data.getD (offset + 3) 0 } =
                    (data.getD offset 0 : Int) * 4 := by
                  unfold span.dataLength
                  rw [if_pos (by simp only; omega)]
                rw [hl4] at hex ⊢
                apply ih <;> omega

/-- With the budget that `loadColumns` passes, the span loop ends with a map or
with one of the failures of the source, not by exhausting the budget. -/
theorem Map.loadColumn_terminates (data : List Nat) (x y : Int) (i : Nat) :
    ∀ fuel (m : Map) (offset : Nat), data.length - offset < fuel →
      Map.loadColumn data x y i fuel m offset ≠ .error .outOfFuel := by
  intro fuel
  induction fuel with
  | zero => intro m offset h; omega
  | succ fuel ih =>
    intro m offset h
    simp only [Map.loadColumn]
    split
    · simp
    · rename_i hlen
      split
      · simp
      · rename_i hex
        split
        · simp
        · split
          · simp
          · split
            · simp
            · rename_i c hc hl0
              have hl4 : span.dataLength
                  { length := data.getD offset 0, colorStart := data.getD (offset + 1) 0,
                    colorEnd := data.getD (offset + 2) 0,
                    airStart := data.getD (offset + 3) 0 } =
                  (data.getD offset 0 : Int) * 4 := by
                unfold span.dataLength
                rw [if_pos (by simp only; omega)]
              rw [hl4] at hex ⊢
              apply ih
              omega


end vxl

namespace physics

open protocol

/-! ## Damage table (C11) -/

/-- C11: for the rifle, the submachine gun and the shotgun `CalculateDamage`
returns 100/49/33, 75/29/18 and 37/27/16 for a head, torso and limb hit, arms
and legs both counting as limb, and 80 for a melee hit, for every distance. -/
theorem C11_damage_table (distance : Nat) :
    (CalculateDamage WeaponTypeRifle HitTypeHead distance = 100 ∧
      CalculateDamage WeaponTypeRifle HitTypeTorso distance = 49 ∧
      CalculateDamage WeaponTypeRifle HitTypeArms distance = 33 ∧
      CalculateDamage WeaponTypeRifle HitTypeLegs distance = 33 ∧
      CalculateDamage WeaponTypeRifle HitTypeMelee distance = 80) ∧
    (CalculateDamage WeaponTypeSMG HitTypeHead distance = 75 ∧
      CalculateDamage WeaponTypeSMG HitTypeTorso distance = 29 ∧
      CalculateDamage WeaponTypeSMG HitTypeArms distance = 18 ∧
      CalculateDamage WeaponTypeSMG HitTypeLegs distance = 18 ∧
      CalculateDamage WeaponTypeSMG HitTypeMelee distance = 80) ∧
    (CalculateDamage WeaponTypeShotgun HitTypeHead distance = 37 ∧
      CalculateDamage WeaponTypeShotgun HitTypeTorso distance = 27 ∧
      CalculateDamage WeaponTypeShotgun HitTypeArms distance = 16 ∧
      CalculateDamage WeaponTypeShotgun HitTypeLegs distance = 16 ∧
      CalculateDamage WeaponTypeShotgun HitTypeMelee distance = 80) := by
  refine ⟨⟨?_, ?_, ?_, ?_, ?_⟩, ⟨?_, ?_, ?_, ?_, ?_⟩, ⟨?_, ?_, ?_, ?_, ?_⟩⟩ <;> rfl

end physics

namespace f32

/-- A value is not below itself. -/
theorem lt_irrefl (x : Nat) : lt x x = false := by
  simp [lt]

end f32

namespace server

open protocol player

/-! ## Hit classification at eye height (C12) -/

/-- The result is a head hit exactly when the first comparison succeeds. -/
theorem determineHitType_head (closestPoint targetPos : Vector3f) :
    determineHitType closestPoint targetPos = HitTypeHead ↔
      f32.lt closestPoint.Z (f32.sub targetPos.Z f32.one) = true := by
  unfold determineHitType
  simp only []
  constructor
  · intro h
    by_contra hc
    rw [if_neg hc] at h
    split_ifs at h <;> revert h <;> decide
  · intro h
    rw [if_pos h]

/-- A hit that `checkPlayerHit` reports lies within the hit radius of the
target, and its hit type is the one of the closest point. -/
theorem checkPlayerHit_hit (eyePos direction : Vector3f) (target : Player) (maxDistance : Nat)
    (h : (checkPlayerHit eyePos direction target maxDistance).1 = true) :
    f32.gt (distanceToLine eyePos direction target.Position) hitRadius = false ∧
      (checkPlayerHit eyePos direction target maxDistance).2.2
        = determineHitType (closestPointOf eyePos direction target.Position) target.Position := by
  unfold checkPlayerHit at h ⊢
  split_ifs at h ⊢
  simp_all

/-- What `findClosestPlayerHit` keeps about the player it holds. -/
theorem visitTarget_foldl (shooter : Player) (eyePos direction : Vector3f) (all : List Player) :
    ∀ (l : List Player) (c : ClosestHit), (∀ t ∈ l, t ∈ all) →
      (∀ t, c.closestPlayer = some t →
        t ∈ all ∧ isValidTarget shooter t = true ∧
          f32.gt (distanceToLine eyePos direction t.Position) hitRadius = false ∧
          c.hitType = determineHitType (closestPointOf eyePos direction t.Position) t.Position) →
      ∀ t, (l.foldl (visitTarget shooter eyePos direction) c).closestPlayer = some t →
        t ∈ all ∧ isValidTarget shooter t = true ∧
          f32.gt (distanceToLine eyePos direction t.Position) hitRadius = false ∧
          (l.foldl (visitTarget shooter eyePos direction) c).hitType
            = determineHitType (closestPointOf eyePos direction t.Position) t.Position := by
  intro l
  induction l with
  | nil => intro c _ hc t ht; exact hc t ht
  | cons x xs ih =>
    intro c hl hc t ht
    rw [List.foldl_cons] at ht ⊢
    refine ih _ (fun t ht => hl t (List.mem_cons_of_mem _ ht)) ?_ t ht
    intro u hu
    unfold visitTarget at hu ⊢
    split_ifs at hu ⊢ with h1 h2 h3
    · exact hc u hu
    · exact hc u hu
    · simp only [Option.some.injEq] at hu
      subst hu
      have hv : isValidTarget shooter x = true := by simpa using h2
      exact ⟨hl x (List.mem_cons_self _ _), hv,
        (checkPlayerHit_hit eyePos direction x c.closestDistance h3).1,
        (checkPlayerHit_hit eyePos direction x c.closestDistance h3).2⟩
    · exact hc u hu

/-- The player that `findClosestPlayerHit` returns is a valid target within the
hit radius of the shot, and the hit type is the one of its closest point. -/
theorem findClosestPlayerHit_some (players : Manager) (shooter : Player)
    (eyePos direction : Vector3f) (maxRange : Nat) (t : Player)
    (h : (findClosestPlayerHit players shooter eyePos direction maxRange).closestPlayer = some t) :
    t ∈ players.players ∧ isValidTarget shooter t = true ∧
      f32.gt (distanceToLine eyePos direction t.Position) hitRadius = false ∧
      (findClosestPlayerHit players shooter eyePos direction maxRange).hitType
        = determineHitType (closestPointOf eyePos direction t.Position) t.Position := by
  unfold findClosestPlayerHit at h ⊢
  exact visitTarget_foldl shooter eyePos direction players.players players.players _
    (fun _ ht => ht) (fun _ hn => by cases hn) t h

/-- The damage call of `processShot` names a valid target within the hit radius
of the shot; damage and kill type follow the hit type of its closest point. -/
theorem processShot_some (players : Manager) (shooter : Player) (eyePos direction : Vector3f)
    (hit : Bool) (hitPos : Vector3f) (call : DamageCall) (killType : Nat)
    (h : processShot players shooter eyePos direction hit hitPos = some (call, killType)) :
    ∃ target ∈ players.players, isValidTarget shooter target = true ∧
      call.playerID = target.ID ∧
      f32.gt (distanceToLine eyePos direction target.Position) hitRadius = false ∧
      call.damage = physics.CalculateDamage shooter.Weapon
        (determineHitType (closestPointOf eyePos direction target.Position) target.Position)
        (f32.mul (calculateDistance (minus target.Position eyePos))
          (calculateDistance (minus target.Position eyePos))) ∧
      killType
        = killTypeOf (determineHitType (closestPointOf eyePos direction target.Position)
            target.Position) := by
  unfold processShot at h
  cases ht : (findClosestPlayerHit players shooter eyePos direction shotRange).closestPlayer with
  | none => rw [ht] at h; cases h
  | some t =>
    rw [ht] at h
    simp only [] at h
    have hf := findClosestPlayerHit_some players shooter eyePos direction shotRange t ht
    split_ifs at h
    simp only [Option.some.injEq, Prod.mk.injEq] at h
    refine ⟨t, hf.1, hf.2.1, ?_, hf.2.2.1, ?_, ?_⟩
    · rw [← h.1]
    · rw [← h.1, hf.2.2.2]
    · rw [← h.2, hf.2.2.2]

/-- The rifle does 100 damage for a head hit only. -/
theorem rifle_damage_head (hitType distance : Nat) :
    physics.CalculateDamage WeaponTypeRifle hitType distance = 100 ↔ hitType = HitTypeHead := by
  unfold physics.CalculateDamage
  rw [if_pos rfl]
  constructor
  · intro h
    by_contra hc
    rw [if_neg hc] at h
    split_ifs at h <;> revert h <;> decide
  · intro h
    rw [if_pos h]

/-- C12 as stated fails: for a target at `(64, 67, 30)` and a closest point at
`Z = 29`, the eye height, `determineHitType` returns `HitTypeTorso`. A shot from
`(64, 64, 29)` along the Y axis has that closest point; it is at distance 1 from
the target's position, outside the hit radius, so `checkPlayerHit` reports no
hit and `processShot` damages nobody, also with no terrain in the way. -/
theorem C12_eye_height_counterexample :
    determineHitType ⟨0x42800000, 0x42860000, 0x41E80000⟩ ⟨0x42800000, 0x42860000, 0x41F00000⟩
        = HitTypeTorso ∧
      f32.sub 0x41F00000 f32.one = 0x41E80000 ∧
      closestPointOf ⟨0x42800000, 0x42800000, 0x41E80000⟩ ⟨0, f32.one, 0⟩
          ⟨0x42800000, 0x42860000, 0x41F00000⟩
        = ⟨0x42800000, 0x42860000, 0x41E80000⟩ ∧
      distanceToLine ⟨0x42800000, 0x42800000, 0x41E80000⟩ ⟨0, f32.one, 0⟩
          ⟨0x42800000, 0x42860000, 0x41F00000⟩
        = f32.one ∧
      checkPlayerHit ⟨0x42800000, 0x42800000, 0x41E80000⟩ ⟨0, f32.one, 0⟩ opponent shotRange
        = (false, 0, 0) ∧
      processShot duel rifleman ⟨0x42800000, 0x42800000, 0x41E80000⟩ ⟨0, f32.one, 0⟩ false
          ⟨0, 0, 0⟩
        = none := by
  decide!

/-- C12, amended: `determineHitType` returns `HitTypeHead` exactly when the Z of
the closest point is strictly below the target's Z minus one, so a closest point
at exactly that height, the eye height, is not a head hit. `checkPlayerHit`
reports a hit only within the hit radius of the target's position, with the hit
type of the closest point. When `processShot` damages a player, that player is
within the hit radius; a rifle does 100 damage exactly when the hit type of the
closest point is `HitTypeHead`, and the kill type is `KillTypeHeadshot` exactly
then and `KillTypeWeapon` otherwise. -/
theorem C12_head_strictly_above_eye_height (closestPoint targetPos : Vector3f)
    (h : closestPoint.Z = f32.sub targetPos.Z f32.one) :
    (∀ point : Vector3f, determineHitType point targetPos = HitTypeHead ↔
      f32.lt point.Z (f32.sub targetPos.Z f32.one) = true) ∧
    determineHitType closestPoint targetPos ≠ HitTypeHead ∧
    (∀ (eyePos direction : Vector3f) (target : Player) (maxDistance : Nat),
      (checkPlayerHit eyePos direction target maxDistance).1 = true →
        f32.gt (distanceToLine eyePos direction target.Position) hitRadius = false ∧
        (checkPlayerHit eyePos direction target maxDistance).2.2
          = determineHitType (closestPointOf eyePos direction target.Position)
              target.Position) ∧
    (∀ (players : Manager) (shooter : Player) (eyePos direction : Vector3f) (hit : Bool)
        (hitPos : Vector3f) (call : DamageCall) (killType : Nat),
      processShot players shooter eyePos direction hit hitPos = some (call, killType) →
      ∃ target ∈ players.players, call.playerID = target.ID ∧
        f32.gt (distanceToLine eyePos direction target.Position) hitRadius = false ∧
        (shooter.Weapon = WeaponTypeRifle →
          (call.damage = 100 ↔
            determineHitType (closestPointOf eyePos direction target.Position) target.Position
              = HitTypeHead)) ∧
        (killType = KillTypeHeadshot ↔
          determineHitType (closestPointOf eyePos direction target.Position) target.Position
            = HitTypeHead) ∧
        (killType = KillTypeWeapon ↔
          determineHitType (closestPointOf eyePos direction target.Position) target.Position
            ≠ HitTypeHead)) := by
  refine ⟨fun point => determineHitType_head point targetPos, ?_,
    fun eyePos direction target maxDistance hh =>
      checkPlayerHit_hit eyePos direction target maxDistance hh, ?_⟩
  · rw [Ne, determineHitType_head, h, f32.lt_irrefl]
    decide
  · intro players shooter eyePos direction hit hitPos call killType hs
    obtain ⟨target, hm, _, hid, hgt, hd, hk⟩ :=
      processShot_some players shooter eyePos direction hit hitPos call killType hs
    refine ⟨target, hm, hid, hgt, ?_, ?_, ?_⟩
    · intro hw
      rw [hd, hw]
      exact rifle_damage_head _ _
    · rw [hk]
      unfold killTypeOf
      split_ifs with hc
      · exact ⟨fun _ => hc, fun _ => rfl⟩
      · exact ⟨fun hx => absurd hx (by decide), fun hx => absurd hx hc⟩
    · rw [hk]
      unfold killTypeOf
      split_ifs with hc
      · exact ⟨fun hx => absurd hx (by decide), fun hx => absurd hc hx⟩
      · exact ⟨fun _ => hc, fun _ => rfl⟩

/-- The amended statement at the target `(64, 67, 30)`: a closest point at
`Z = 29` is not a head hit, and the rifleman's level shot from the eye position
`(64, 64, 29.7)` damages player 2 with a hit that is not a head hit. -/
theorem C12_head_strictly_above_eye_height_witness :
    (⟨0x42800000, 0x42860000, 0x41E80000⟩ : Vector3f).Z
        = f32.sub (⟨0x42800000, 0x42860000, 0x41F00000⟩ : Vector3f).Z f32.one ∧
      determineHitType ⟨0x42800000, 0x42860000, 0x41E80000⟩
        ⟨0x42800000, 0x42860000, 0x41F00000⟩ ≠ HitTypeHead ∧
      processShot duel rifleman levelEye ⟨0, f32.one, 0⟩ false ⟨0, 0, 0⟩
        = some (⟨2, 33, levelEye, 1⟩, KillTypeWeapon) ∧
      ∃ target ∈ duel.players, target.ID = 2 ∧
        f32.gt (distanceToLine levelEye ⟨0, f32.one, 0⟩ target.Position) hitRadius = false ∧
        determineHitType (closestPointOf levelEye ⟨0, f32.one, 0⟩ target.Position)
          target.Position ≠ HitTypeHead := by
  have hp : processShot duel rifleman levelEye ⟨0, f32.one, 0⟩ false ⟨0, 0, 0⟩
      = some (⟨2, 33, levelEye, 1⟩, KillTypeWeapon) := by decide!
  have hc := C12_head_strictly_above_eye_height ⟨0x42800000, 0x42860000, 0x41E80000⟩
    ⟨0x42800000, 0x42860000, 0x41F00000⟩ (by decide!)
  obtain ⟨t, hm, hid, hgt, hd, _, _⟩ :=
    hc.2.2.2 duel rifleman levelEye ⟨0, f32.one, 0⟩ false ⟨0, 0, 0⟩ _ _ hp
  exact ⟨by decide!, hc.2.1, hp, t, hm, hid.symm, hgt,
    fun hh => absurd ((hd rfl).2 hh) (by decide)⟩

/-! ## Validation of reported hits (C13) -/

/-- What `validateHitTarget` tests. -/
theorem validateHitTarget_iff (attacker target : Player) :
    validateHitTarget attacker target = true ↔
      target.Alive = true ∧ attacker.Alive = true ∧
        (target.Team ≠ attacker.Team ∨ target.ID = attacker.ID) := by
  unfold validateHitTarget
  cases target.Alive <;> cases attacker.Alive <;> simp

/-- C13 as stated fails: an alive player who reports a melee hit on themself
passes `validateHitTarget`, although target and attacker are on the same team,
and `handleHit` goes on to call `damagePlayer` for 80 points, which leaves the
player with 20. -/
theorem C13_self_hit_counterexample :
    spadePlayer.Team = spadePlayer.Team ∧
      validateHitTarget spadePlayer spadePlayer = true ∧
      handleHit ⟨[spadePlayer]⟩ 0 true spadePlayer [5, 3, 4]
        = some ⟨3, 80, spadePlayer.Position, 1⟩ ∧
      handleHit ⟨[spadePlayer]⟩ 0 false spadePlayer [5, 3, 4]
        = some ⟨3, 80, spadePlayer.Position, 1⟩ ∧
      (spadePlayer.Damage 80 spadePlayer.Position 1).HP = 20 := by
  decide

/-- C13, amended: `validateHitTarget` holds exactly when target and attacker are
alive and the target is on another team or is the attacker; in particular it is
false for every other player of the attacker's team. Whenever `handleHit` gets
as far as calling `damagePlayer`, the call is for the registered player that
the packet names and that player passed `validateHitTarget`. -/
theorem C13_hit_needs_valid_target (players : Manager) (distance : Nat) (rangeOk : Bool)
    (p : Player) (data : List Nat) (call : DamageCall)
    (h : handleHit players distance rangeOk p data = some call) :
    (∀ attacker target : Player, validateHitTarget attacker target = true ↔
      target.Alive = true ∧ attacker.Alive = true ∧
        (target.Team ≠ attacker.Team ∨ target.ID = attacker.ID)) ∧
    (∀ attacker target : Player, target.Team = attacker.Team → target.ID ≠ attacker.ID →
      validateHitTarget attacker target = false) ∧
    ∃ packet target, readPacketHit data = some packet ∧
      players.Get packet.PlayerID = some target ∧ call.playerID = target.ID ∧
      call.damage = physics.CalculateDamage p.Weapon packet.HitType distance ∧
      validateHitTarget p target = true ∧ target.Alive = true ∧ p.Alive = true ∧
      (target.Team ≠ p.Team ∨ target.ID = p.ID) := by
  refine ⟨validateHitTarget_iff, ?_, ?_⟩
  · intro attacker target ht hid
    cases hv : validateHitTarget attacker target
    · rfl
    · rw [validateHitTarget_iff] at hv
      rcases hv.2.2 with h1 | h1
      · exact absurd ht h1
      · exact absurd h1 hid
  · unfold handleHit at h
    cases hp : readPacketHit data with
    | none => rw [hp] at h; cases h
    | some packet =>
      rw [hp] at h
      simp only [] at h
      cases hg : players.Get packet.PlayerID with
      | none => rw [hg] at h; cases h
      | some target =>
        rw [hg] at h
        simp only [] at h
        cases hv : validateHitTarget p target with
        | false => rw [hv] at h; cases h
        | true =>
          rw [hv] at h
          simp only [Bool.not_true, Bool.false_eq_true, if_false] at h
          split_ifs at h
          have hc := Option.some.inj h
          subst hc
          have hv2 := (validateHitTarget_iff p target).1 hv
          exact ⟨packet, target, rfl, hg, rfl, rfl, hv, hv2.1, hv2.2.1, hv2.2.2⟩

/-- The amended statement at a hit that player 3 of team 0 reports on the alive
player 5 of team 1. -/
theorem C13_hit_needs_valid_target_witness :
    handleHit ⟨[spadePlayer, gamestate.alivePlayer 5 1]⟩ 0 true spadePlayer [5, 5, 4]
        = some ⟨5, 80, spadePlayer.Position, 1⟩ ∧
      validateHitTarget spadePlayer (gamestate.alivePlayer 5 0) = false :=
  ⟨by decide,
   (C13_hit_needs_valid_target ⟨[spadePlayer, gamestate.alivePlayer 5 1]⟩ 0 true spadePlayer
      [5, 5, 4] ⟨5, 80, spadePlayer.Position, 1⟩ (by decide)).2.1 spadePlayer
      (gamestate.alivePlayer 5 0) (by decide) (by decide)⟩

end server

namespace physics

open protocol

/-! ## Grenade bounce (C14) -/

/-- `MoveGrenade` either passes or bounces; in the second case the result is
1 or 2, the position is the old one and the velocity is the reflected and
scaled one. -/
theorem MoveGrenade_cases (vxlMap : vxl.Map) (position velocity : Vector3f) (dt : Nat) :
    MoveGrenade vxlMap position velocity dt = ⟨advance position (fall velocity dt) dt,
        fall velocity dt, 0⟩ ∨
    ((MoveGrenade vxlMap position velocity dt).ret = 1 ∨
        (MoveGrenade vxlMap position velocity dt).ret = 2) ∧
      (MoveGrenade vxlMap position velocity dt).position = position ∧
      (MoveGrenade vxlMap position velocity dt).velocity =
        scale
          (if blockedZ vxlMap (cellOf position) (cellOf (advance position (fall velocity dt) dt))
           then { fall velocity dt with Z := f32.neg (fall velocity dt).Z }
           else if blockedX vxlMap (cellOf position)
              (cellOf (advance position (fall velocity dt) dt))
           then { fall velocity dt with X := f32.neg (fall velocity dt).X }
           else if blockedY vxlMap (cellOf position)
              (cellOf (advance position (fall velocity dt) dt))
           then { fall velocity dt with Y := f32.neg (fall velocity dt).Y }
           else fall velocity dt) bounceFactor := by
  unfold MoveGrenade
  simp only []
  split_ifs <;> simp

/-- C14: when `MoveGrenade` returns a value other than 0, the position is the
one before the call and the velocity is the velocity after gravity
(`velocity.Z += dt`) with at most one component negated (Z if the Z condition
holds, else X if the X condition holds, else Y if the Y condition holds, else
none) and then all three components multiplied by the `float32` constant 0.36;
when it returns 0 the velocity is the velocity after gravity, with no
component negated or scaled. -/
theorem C14_MoveGrenade_bounce (vxlMap : vxl.Map) (position velocity : Vector3f) (dt : Nat) :
    ((MoveGrenade vxlMap position velocity dt).ret ≠ 0 →
      (MoveGrenade vxlMap position velocity dt).position = position ∧
      (MoveGrenade vxlMap position velocity dt).velocity =
        scale
          (if blockedZ vxlMap (cellOf position) (cellOf (advance position (fall velocity dt) dt))
           then { fall velocity dt with Z := f32.neg (fall velocity dt).Z }
           else if blockedX vxlMap (cellOf position)
              (cellOf (advance position (fall velocity dt) dt))
           then { fall velocity dt with X := f32.neg (fall velocity dt).X }
           else if blockedY vxlMap (cellOf position)
              (cellOf (advance position (fall velocity dt) dt))
           then { fall velocity dt with Y := f32.neg (fall velocity dt).Y }
           else fall velocity dt) bounceFactor) ∧
    ((MoveGrenade vxlMap position velocity dt).ret = 0 →
      (MoveGrenade vxlMap position velocity dt).velocity = fall velocity dt ∧
      (MoveGrenade vxlMap position velocity dt).position =
        advance position (fall velocity dt) dt) := by
  rcases MoveGrenade_cases vxlMap position velocity dt with h | ⟨hr, hp, hv⟩
  · rw [h]
    exact ⟨fun h0 => absurd rfl h0, fun _ => ⟨rfl, rfl⟩⟩
  · refine ⟨fun _ => ⟨hp, hv⟩, fun h0 => ?_⟩
    rcases hr with h1 | h1 <;> rw [h1] at h0 <;> exact absurd h0 (by decide)

/-- The statement at a grenade that falls onto the block `(0, 0, 1)` of
`vxl.pillarMap`: the call returns 1, the position stays `(0.5, 0.5, 0.5)` and
only the Z velocity changes sign before the scaling. -/
theorem C14_MoveGrenade_bounce_witness :
    (MoveGrenade vxl.pillarMap fallingPosition fallingVelocity tick).ret = 1 ∧
      (MoveGrenade vxl.pillarMap fallingPosition fallingVelocity tick).position
        = fallingPosition ∧
      (MoveGrenade vxl.pillarMap fallingPosition fallingVelocity tick).velocity
        = scale { fall fallingVelocity tick with Z := f32.neg (fall fallingVelocity tick).Z }
            bounceFactor := by
  have hret : (MoveGrenade vxl.pillarMap fallingPosition fallingVelocity tick).ret = 1 := by
    decide!
  have h := (C14_MoveGrenade_bounce vxl.pillarMap fallingPosition fallingVelocity tick).1
    (by rw [hret]; decide)
  have hz : blockedZ vxl.pillarMap (cellOf fallingPosition)
      (cellOf (advance fallingPosition (fall fallingVelocity tick) tick)) = true := by
    decide!
  rw [if_pos hz] at h
  exact ⟨hret, h.1, h.2⟩

end physics

namespace vxl

/-! ## Cells that `SetAir` leaves alone -/

theorem Map.bit_setGeometry_other (m : Map) (x y z : Int) (b : Bool) (off : Nat)
    (hne : off ≠ (m.geometryOffset x y z).toNat) :
    (m.setGeometry x y z b).bit off = m.bit off := by
  by_cases hin : m.IsInside x y z = true
  · by_cases hlen : (m.geometryOffset x y z).toNat / 64 < m.geometry.length
    · rw [Map.bit_setGeometry m x y z b hin hlen off, if_neg hne]
    · unfold Map.setGeometry
      rw [if_neg ((Map.inRange_iff m x y z).2 hin)]
      have hle : m.geometry.length ≤ (m.geometryOffset x y z).toNat / 64 := by omega
      cases b <;> simp only [Map.bit, Bool.false_eq_true, if_false, if_true] <;>
        rw [List.set_eq_of_length_le hle]
  · unfold Map.setGeometry
    rw [if_pos]
    by_contra hc
    exact hin ((Map.inRange_iff m x y z).1 hc)

theorem sameExcept_refl (off : Nat) (m : Map) : sameExcept off m m :=
  ⟨rfl, rfl, rfl, fun _ _ => rfl⟩

theorem Map.removeAir_sameExcept (m : Map) (x y z : Int) :
    sameExcept (m.geometryOffset x y z).toNat m (m.removeAir x y z) := by
  unfold Map.removeAir
  split_ifs
  · exact sameExcept_refl _ m
  · exact sameExcept_refl _ m
  · split
    · exact sameExcept_refl _ m
    · rename_i i _
      simp only []
      split_ifs
      · have hf := Map.setGeometry_fields (m.setChunk i ((m.chunkOf i).remove (posOf x y z)).1)
          x y z false
        refine ⟨hf.1, hf.2.1, hf.2.2.1, fun o ho => ?_⟩
        exact (Map.bit_setGeometry_other
          (m.setChunk i ((m.chunkOf i).remove (posOf x y z)).1) x y z false o ho).trans rfl
      · exact ⟨rfl, rfl, rfl, fun _ _ => rfl⟩

theorem Map.exposeNeighbor_geometry (m : Map) (n : (Int × Int × Int) × Bool) :
    (m.exposeNeighbor n).width = m.width ∧ (m.exposeNeighbor n).height = m.height ∧
      (m.exposeNeighbor n).depth = m.depth ∧ (m.exposeNeighbor n).geometry = m.geometry := by
  unfold Map.exposeNeighbor
  split_ifs
  · have h := Map.insertAt_fields m n.1.1 n.1.2.1 n.1.2.2 defaultColor
    exact ⟨h.1, h.2.1, h.2.2.1, h.2.2.2.1⟩
  · exact ⟨rfl, rfl, rfl, rfl⟩

theorem Map.foldl_exposeNeighbor_geometry (l : List ((Int × Int × Int) × Bool)) (m : Map) :
    (l.foldl Map.exposeNeighbor m).width = m.width ∧
      (l.foldl Map.exposeNeighbor m).height = m.height ∧
      (l.foldl Map.exposeNeighbor m).depth = m.depth ∧
      (l.foldl Map.exposeNeighbor m).geometry = m.geometry := by
  induction l generalizing m with
  | nil => exact ⟨rfl, rfl, rfl, rfl⟩
  | cons n t ih =>
    rw [List.foldl_cons]
    obtain ⟨h1, h2, h3, h4⟩ := ih (m.exposeNeighbor n)
    obtain ⟨g1, g2, g3, g4⟩ := Map.exposeNeighbor_geometry m n
    exact ⟨h1.trans g1, h2.trans g2, h3.trans g3, h4.trans g4⟩

/-- `SetAir(x, y, z)` keeps the sizes and every geometry bit other than the one
of the cell `(x, y, z)`. -/
theorem Map.SetAir_sameExcept (m : Map) (x y z : Int) :
    sameExcept (m.geometryOffset x y z).toNat m (m.SetAir x y z) := by
  unfold Map.SetAir
  split_ifs
  · exact sameExcept_refl _ m
  · obtain ⟨h1, h2, h3, h4⟩ := Map.foldl_exposeNeighbor_geometry
      ((neighbors x y z).map
        (fun n => (n, m.IsSolid n.1 n.2.1 n.2.2 && m.OnSurface n.1 n.2.1 n.2.2)))
      (m.removeAir x y z)
    obtain ⟨r1, r2, r3, r4⟩ := Map.removeAir_sameExcept m x y z
    refine ⟨h1.trans r1, h2.trans r2, h3.trans r3, fun o ho => ?_⟩
    rw [← r4 o ho]
    unfold Map.bit
    rw [h4]

theorem Map.SetAir_outside (m : Map) (x y z : Int) (h : m.IsInside x y z = false) :
    m.SetAir x y z = m := by
  unfold Map.SetAir
  rw [if_pos (by simp [h])]

/-- Distinct cells of the map have distinct geometry bits. -/
theorem Map.offset_injective (m : Map) (x y z a b c : Int) (h1 : m.IsInside x y z = true)
    (h2 : m.IsInside a b c = true)
    (he : (m.geometryOffset x y z).toNat = (m.geometryOffset a b c).toNat) :
    x = a ∧ y = b ∧ z = c := by
  obtain ⟨hx0, hx, hy0, hy, hz0, hz⟩ := Map.inside_bounds m x y z h1
  obtain ⟨ha0, ha, hb0, hb, hc0, hc⟩ := Map.inside_bounds m a b c h2
  rw [Map.offset_eq m x y z h1, Map.offset_eq m a b c h2] at he
  have hD : 0 < m.depth := by omega
  have hW : 0 < m.width := by omega
  have hzc : z.toNat = c.toNat := by
    have e1 := congrArg (fun v => v % m.depth) he
    simp only [Nat.add_mul_mod_self_right] at e1
    rwa [Nat.mod_eq_of_lt (by omega), Nat.mod_eq_of_lt (by omega)] at e1
  have hcol : x.toNat + y.toNat * m.width = a.toNat + b.toNat * m.width := by
    rw [hzc] at he
    exact Nat.eq_of_mul_eq_mul_right hD (Nat.add_left_cancel he)
  have hxa : x.toNat = a.toNat := by
    have e1 := congrArg (fun v => v % m.width) hcol
    simp only [Nat.add_mul_mod_self_right] at e1
    rwa [Nat.mod_eq_of_lt (by omega), Nat.mod_eq_of_lt (by omega)] at e1
  have hyb : y.toNat = b.toNat := by
    rw [hxa] at hcol
    exact Nat.eq_of_mul_eq_mul_right hW (Nat.add_left_cancel hcol)
  omega

/-- A sequence of `SetAir` calls keeps the sizes of the map and the solidity of
every cell of the map that is not among the calls. -/
theorem Map.foldl_SetAir_frame (l : List (Int × Int × Int)) (m : Map) :
    (l.foldl (fun (s : Map) (c : Int × Int × Int) => s.SetAir c.1 c.2.1 c.2.2) m).width
        = m.width ∧
    (l.foldl (fun (s : Map) (c : Int × Int × Int) => s.SetAir c.1 c.2.1 c.2.2) m).height
        = m.height ∧
    (l.foldl (fun (s : Map) (c : Int × Int × Int) => s.SetAir c.1 c.2.1 c.2.2) m).depth
        = m.depth ∧
    ∀ a b c, m.IsInside a b c = true → (a, b, c) ∉ l →
      (l.foldl (fun (s : Map) (c : Int × Int × Int) => s.SetAir c.1 c.2.1 c.2.2) m).hasGeometry
        a b c = m.hasGeometry a b c := by
  induction l generalizing m with
  | nil => exact ⟨rfl, rfl, rfl, fun _ _ _ _ _ => rfl⟩
  | cons p t ih =>
    rw [List.foldl_cons]
    obtain ⟨i1, i2, i3, i4⟩ := ih (m.SetAir p.1 p.2.1 p.2.2)
    obtain ⟨s1, s2, s3, s4⟩ := Map.SetAir_sameExcept m p.1 p.2.1 p.2.2
    refine ⟨i1.trans s1, i2.trans s2, i3.trans s3, fun a b c hin hnot => ?_⟩
    have hin' : (m.SetAir p.1 p.2.1 p.2.2).IsInside a b c = true := by
      unfold Map.IsInside at hin ⊢
      rw [s1, s2, s3]
      exact hin
    have hp : (a, b, c) ≠ p := fun h => hnot (h ▸ List.mem_cons_self _ _)
    have ht : (a, b, c) ∉ t := fun h => hnot (List.mem_cons_of_mem _ h)
    rw [i4 a b c hin' ht]
    by_cases hpin : m.IsInside p.1 p.2.1 p.2.2 = true
    · rw [Map.hasGeometry_eq_bit _ a b c hin', Map.hasGeometry_eq_bit m a b c hin]
      have hoff : (m.SetAir p.1 p.2.1 p.2.2).geometryOffset a b c = m.geometryOffset a b c := by
        unfold Map.geometryOffset
        rw [s1, s3]
      rw [hoff]
      apply s4
      intro he
      obtain ⟨e1, e2, e3⟩ := Map.offset_injective m a b c p.1 p.2.1 p.2.2 hin hpin he
      exact hp (by rw [e1, e2, e3])
    · rw [Map.SetAir_outside m p.1 p.2.1 p.2.2 (by simpa using hpin)]

end vxl

namespace server

open protocol player

/-! ## Blocks that a grenade removes (C15) -/

theorem length_flatMap_le {α β : Type} (l : List α) (f : α → List β) (k : Nat)
    (h : ∀ a, (f a).length ≤ k) : (l.flatMap f).length ≤ l.length * k := by
  induction l with
  | nil => simp
  | cons a t ih =>
    rw [List.flatMap_cons, List.length_append, List.length_cons, Nat.succ_mul]
    have := h a
    omega

theorem toI32_of_lt (v : Int) (h0 : 0 ≤ v) (h1 : v < 2147483648) : toI32 v = v := by
  unfold toI32
  omega

/-- The last loop of `explodeGrenade` calls `SetAir` on the collected blocks, in
order, and broadcasts one packet for each. -/
theorem foldl_destroyBlock (playerID : Nat) (l : List (Int × Int × Int)) (e : Explosion) :
    (l.foldl (destroyBlock playerID) e).calls = e.calls ++ l ∧
    (l.foldl (destroyBlock playerID) e).packets = e.packets ++ l.map (blockPacket playerID) ∧
    (l.foldl (destroyBlock playerID) e).map =
      l.foldl (fun (m : vxl.Map) (c : Int × Int × Int) => m.SetAir c.1 c.2.1 c.2.2) e.map := by
  induction l generalizing e with
  | nil => simp
  | cons b t ih =>
    rw [List.foldl_cons, List.foldl_cons]
    obtain ⟨h1, h2, h3⟩ := ih (destroyBlock playerID e b)
    rw [h1, h2, h3]
    simp [destroyBlock, blockPacket]

theorem destroyedBlocks_length (m : vxl.Map) (x y z : Int) :
    (destroyedBlocks m x y z).length ≤ 27 := by
  unfold destroyedBlocks
  have h3 : offsets.length = 3 := rfl
  refine le_trans (length_flatMap_le _ _ 9 ?_) (by rw [h3])
  intro dx
  refine le_trans (length_flatMap_le _ _ 3 ?_) (by rw [h3])
  intro dy
  refine le_trans (length_flatMap_le _ _ 1 ?_) (by rw [h3])
  intro dz
  split_ifs <;> simp

theorem mem_offsets (d : Int) (h : d ∈ offsets) : -1 ≤ d ∧ d ≤ 1 := by
  simp only [offsets, List.mem_cons, List.mem_singleton, List.not_mem_nil, or_false] at h
  omega

theorem mem_destroyedBlocks (m : vxl.Map) (hw : m.width ≤ 2147483648)
    (hh : m.height ≤ 2147483648) (x y z : Int) (c : Int × Int × Int)
    (hc : c ∈ destroyedBlocks m x y z) :
    c.2.2 < 62 ∧ (x - 1 ≤ c.1 ∧ c.1 ≤ x + 1) ∧ (y - 1 ≤ c.2.1 ∧ c.2.1 ≤ y + 1) ∧
      (z - 1 ≤ c.2.2 ∧ c.2.2 ≤ z + 1) ∧ m.IsInside c.1 c.2.1 c.2.2 = true ∧
      m.IsSolid c.1 c.2.1 c.2.2 = true := by
  unfold destroyedBlocks at hc
  obtain ⟨dx, hdx, hc⟩ := List.mem_flatMap.1 hc
  obtain ⟨dy, hdy, hc⟩ := List.mem_flatMap.1 hc
  obtain ⟨dz, hdz, hc⟩ := List.mem_flatMap.1 hc
  have bx := mem_offsets dx hdx
  have bY := mem_offsets dy hdy
  have bz := mem_offsets dz hdz
  split_ifs at hc with h62 hin
  · cases hc
  · rw [List.mem_singleton] at hc
    rw [Bool.and_eq_true] at hin
    obtain ⟨hx0, hx1, hy0, hy1, hz0, hz1⟩ := vxl.Map.inside_bounds m _ _ _ hin.1
    have ex : toI32 (x + dx) = x + dx := toI32_of_lt _ hx0 (by omega)
    have ey : toI32 (y + dy) = y + dy := toI32_of_lt _ hy0 (by omega)
    have ez : toI32 (z + dz) = z + dz := toI32_of_lt _ hz0 (by omega)
    rw [ex, ey, ez] at hc
    subst hc
    refine ⟨by simpa using h62, ⟨by simp; omega, by simp; omega⟩, ⟨by simp; omega, by simp; omega⟩,
      ⟨by simp; omega, by simp; omega⟩, hin.1, hin.2⟩
  · cases hc


/-- C15: for every map at most `2^31` cells wide and high (the server's maps are
512 by 512 by 64) and every grenade, each cell on which `explodeGrenade` calls
`SetAir`, and for which it broadcasts a packet, has `z < 62`, lies in the cube
of 3 by 3 by 3 cells around the integer cell `(int(X), int(Y), int(Z))` of the
grenade and is a solid cell of the map; there are at most 27 such cells; a
grenade with `Z >= 62` leaves the map as it is and broadcasts nothing; and every
other cell of the map keeps its geometry bit. -/
theorem C15_explodeGrenade_blocks (m : vxl.Map) (grenade : Grenade)
    (hw : m.width ≤ 2147483648) (hh : m.height ≤ 2147483648) :
    (∀ c ∈ (explodeGrenade m grenade).calls,
      c.2.2 < 62 ∧
      (f32.toInt grenade.Position.X - 1 ≤ c.1 ∧ c.1 ≤ f32.toInt grenade.Position.X + 1) ∧
      (f32.toInt grenade.Position.Y - 1 ≤ c.2.1 ∧ c.2.1 ≤ f32.toInt grenade.Position.Y + 1) ∧
      (f32.toInt grenade.Position.Z - 1 ≤ c.2.2 ∧ c.2.2 ≤ f32.toInt grenade.Position.Z + 1) ∧
      m.IsInside c.1 c.2.1 c.2.2 = true ∧ m.IsSolid c.1 c.2.1 c.2.2 = true) ∧
    (explodeGrenade m grenade).calls.length ≤ 27 ∧
    (explodeGrenade m grenade).packets =
      (explodeGrenade m grenade).calls.map (blockPacket grenade.PlayerID) ∧
    (f32.ge grenade.Position.Z sixtyTwo = true →
      explodeGrenade m grenade = { map := m, calls := [], packets := [] }) ∧
    (∀ a b c, m.IsInside a b c = true → (a, b, c) ∉ (explodeGrenade m grenade).calls →
      (explodeGrenade m grenade).map.hasGeometry a b c = m.hasGeometry a b c) := by
  have e : explodeGrenade m grenade =
      if f32.ge grenade.Position.Z sixtyTwo = true then { map := m, calls := [], packets := [] }
      else (destroyedBlocks m (f32.toInt grenade.Position.X) (f32.toInt grenade.Position.Y)
        (f32.toInt grenade.Position.Z)).foldl (destroyBlock grenade.PlayerID)
          { map := m, calls := [], packets := [] } := rfl
  rw [e]
  by_cases hge : f32.ge grenade.Position.Z sixtyTwo = true
  · rw [if_pos hge]
    exact ⟨fun c hc => absurd hc (List.not_mem_nil c), Nat.zero_le _, rfl, fun _ => rfl,
      fun _ _ _ _ _ => rfl⟩
  · rw [if_neg hge]
    obtain ⟨h1, h2, h3⟩ := foldl_destroyBlock grenade.PlayerID
      (destroyedBlocks m (f32.toInt grenade.Position.X) (f32.toInt grenade.Position.Y)
        (f32.toInt grenade.Position.Z)) { map := m, calls := [], packets := [] }
    rw [h1, h2, h3, List.nil_append, List.nil_append]
    refine ⟨fun c hc => mem_destroyedBlocks m hw hh _ _ _ c hc, destroyedBlocks_length m _ _ _,
      rfl, fun h => absurd h hge, fun a b c hin hnot => ?_⟩
    exact (vxl.Map.foldl_SetAir_frame _ m).2.2.2 a b c hin hnot

/-- The statement at a grenade next to the block `(0, 0, 1)` of
`vxl.pillarMap`: that block is the only one removed. -/
theorem C15_explodeGrenade_blocks_witness :
    vxl.pillarMap.width ≤ 2147483648 ∧ vxl.pillarMap.height ≤ 2147483648 ∧
      (explodeGrenade vxl.pillarMap sampleGrenade).calls = [(0, 0, 1)] ∧
      (explodeGrenade vxl.pillarMap sampleGrenade).map.IsSolid 0 0 1 = false ∧
      (explodeGrenade vxl.pillarMap sampleGrenade).calls.length ≤ 27 :=
  ⟨by decide, by decide, by decide!, by decide!,
   (C15_explodeGrenade_blocks vxl.pillarMap sampleGrenade (by decide) (by decide)).2.1⟩

end server

namespace player

open protocol

/-! ## Bounds of a player record (C16) -/

theorem New_ok (id : Nat) : (New id).ok := by
  refine ⟨?_, ?_, ?_, ?_⟩
  · show InitialHP ≤ 100
    decide
  · show InitialBlocks ≤ 50
    decide
  · show InitialGrenades ≤ 3
    decide
  · intro h
    cases h

theorem Player.Damage_ok (p : Player) (amount : Nat) (source : Vector3f) (damageType : Nat)
    (h : p.ok) : (p.Damage amount source damageType).ok := by
  obtain ⟨h1, h2, h3, h4⟩ := h
  unfold Player.Damage
  split_ifs with ha hb
  · exact ⟨h1, h2, h3, h4⟩
  · exact ⟨Nat.zero_le _, h2, h3, fun hc => by cases hc⟩
  · refine ⟨?_, h2, h3, fun _ => ?_⟩
    · show p.HP - amount ≤ 100
      omega
    · show 0 < p.HP - amount
      omega

theorem Player.Damage_le (p : Player) (amount : Nat) (source : Vector3f) (damageType : Nat) :
    (p.Damage amount source damageType).HP ≤ p.HP := by
  unfold Player.Damage
  split_ifs
  · exact Nat.le_refl _
  · exact Nat.zero_le _
  · exact Nat.sub_le _ _

theorem Player.Restock_ok (p : Player) (h : p.ok) : p.Restock.ok := by
  obtain ⟨h1, h2, h3, h4⟩ := h
  unfold Player.Restock
  simp only [MaxBlocks, MaxGrenades, MaxHP]
  split_ifs <;> refine ⟨?_, ?_, ?_, ?_⟩ <;> simp only [] <;> first | omega | (intro hq; first | omega | exact h4 hq)

theorem Player.Shoot_ok (p : Player) (currentClock now : Nat) (h : p.ok) :
    (p.Shoot currentClock now).1.ok := by
  unfold Player.Shoot
  split_ifs <;> exact h

theorem Player.StartReload_ok (p : Player) (currentClock now : Nat) (h : p.ok) :
    (p.StartReload currentClock now).1.ok := by
  unfold Player.StartReload
  split_ifs <;> exact h

theorem Player.FinishReload_ok (p : Player) (h : p.ok) : p.FinishReload.ok := by
  unfold Player.FinishReload
  split_ifs <;> exact h

theorem Op.apply_ok (op : Op) (p : Player) (h : p.ok) : (op.apply p).ok := by
  cases op with
  | Damage amount source damageType => exact Player.Damage_ok p amount source damageType h
  | Kill => exact ⟨Nat.zero_le _, h.2.1, h.2.2.1, fun hc => by cases hc⟩
  | Respawn position =>
    refine ⟨?_, ?_, ?_, fun _ => ?_⟩
    · show InitialHP ≤ 100
      decide
    · show InitialBlocks ≤ 50
      decide
    · show InitialGrenades ≤ 3
      decide
    · show 0 < InitialHP
      decide
  | Restock => exact Player.Restock_ok p h
  | SetWeapon weapon => exact h
  | Shoot currentClock now => exact Player.Shoot_ok p currentClock now h
  | StartReload currentClock now => exact Player.StartReload_ok p currentClock now h
  | FinishReload => exact Player.FinishReload_ok p h

theorem run_ok (ops : List Op) (p : Player) (h : p.ok) : (run ops p).ok := by
  induction ops generalizing p with
  | nil => exact h
  | cons op t ih => exact ih (op.apply p) (Op.apply_ok op p h)

/-- C16: every record that a sequence of `Damage`, `Kill`, `Respawn`,
`Restock`, `SetWeapon`, `Shoot`, `StartReload` and `FinishReload` calls, with
any arguments and in any order, makes of the record of `New` has `HP <= 100`,
`Blocks <= 50`, `Grenades <= 3` and positive `HP` when it is alive; and
`Damage` never raises `HP`, whatever the amount. -/
theorem C16_player_bounds (id : Nat) (ops : List Op) :
    (run ops (New id)).HP ≤ 100 ∧ (run ops (New id)).Blocks ≤ 50 ∧
      (run ops (New id)).Grenades ≤ 3 ∧
      ((run ops (New id)).Alive = true → 0 < (run ops (New id)).HP) ∧
      ∀ (amount : Nat) (source : Vector3f) (damageType : Nat),
        ((run ops (New id)).Damage amount source damageType).HP ≤ (run ops (New id)).HP ∧
        (amount < (run ops (New id)).HP → (run ops (New id)).Alive = true →
          ((run ops (New id)).Damage amount source damageType).HP
            = (run ops (New id)).HP - amount) :=
  ⟨(run_ok ops (New id) (New_ok id)).1, (run_ok ops (New id) (New_ok id)).2.1,
   (run_ok ops (New id) (New_ok id)).2.2.1, (run_ok ops (New id) (New_ok id)).2.2.2,
   fun amount source damageType =>
     ⟨Player.Damage_le _ amount source damageType, fun hlt halive => by
       unfold Player.Damage
       rw [if_neg (by simp [halive]; omega), if_neg (by omega)]⟩⟩


/-! ## Lookups in the registry -/

theorem find?_modifyFirst (id id' : Nat) (f : Player → Player) (hf : ∀ q, (f q).ID = q.ID)
    (l : List Player) :
    (modifyFirst id f l).find? (fun p => decide (p.ID = id')) =
      if id' = id then (l.find? (fun p => decide (p.ID = id'))).map f
      else l.find? (fun p => decide (p.ID = id')) := by
  induction l with
  | nil => simp [modifyFirst]
  | cons q qs ih =>
    unfold modifyFirst
    by_cases hq : q.ID = id
    · rw [if_pos hq]
      by_cases hi : id' = id
      · rw [if_pos hi, List.find?_cons_of_pos _ (by simp [hf, hq, hi]),
          List.find?_cons_of_pos _ (by simp [hq, hi])]
        rfl
      · rw [if_neg hi, List.find?_cons_of_neg _ (by simp [hf, hq]; exact fun h => hi h.symm),
          List.find?_cons_of_neg _ (by simp [hq]; exact fun h => hi h.symm)]
    · rw [if_neg hq]
      by_cases hqi : q.ID = id'
      · have hi : id' ≠ id := fun h => hq (hqi.trans h)
        rw [if_neg hi, List.find?_cons_of_pos _ (by simp [hqi]),
          List.find?_cons_of_pos _ (by simp [hqi])]
      · rw [List.find?_cons_of_neg _ (by simp [hqi]), List.find?_cons_of_neg _ (by simp [hqi])]
        exact ih

theorem Manager.Get_modify (m : Manager) (id id' : Nat) (f : Player → Player)
    (hf : ∀ q, (f q).ID = q.ID) :
    (m.modify id f).Get id' = if id' = id then (m.Get id').map f else m.Get id' :=
  find?_modifyFirst id id' f hf m.players

theorem Manager.Get_setHasIntel (m : Manager) (id id' : Nat) (b : Bool) :
    (m.modify id (fun q => q.setHasIntel b)).Get id' =
      if id' = id then (m.Get id').map (fun q => q.setHasIntel b) else m.Get id' :=
  Manager.Get_modify m id id' (fun q => q.setHasIntel b) (fun _ => rfl)

theorem find?_filter_ne (id id' : Nat) (h : id' ≠ id) (l : List Player) :
    (l.filter (fun q => decide (q.ID ≠ id))).find? (fun p => decide (p.ID = id')) =
      l.find? (fun p => decide (p.ID = id')) := by
  induction l with
  | nil => rfl
  | cons q qs ih =>
    by_cases hq : q.ID = id
    · rw [List.filter_cons_of_neg (by simp [hq]),
        List.find?_cons_of_neg _ (by simp [hq]; exact fun e => h e.symm)]
      exact ih
    · rw [List.filter_cons_of_pos (by simp [hq])]
      by_cases hqi : q.ID = id'
      · rw [List.find?_cons_of_pos _ (by simp [hqi]), List.find?_cons_of_pos _ (by simp [hqi])]
      · rw [List.find?_cons_of_neg _ (by simp [hqi]), List.find?_cons_of_neg _ (by simp [hqi])]
        exact ih

theorem Manager.Get_Add (m : Manager) (p : Player) (id' : Nat) :
    (m.Add p).Get id' = if id' = p.ID then some p else m.Get id' := by
  unfold Manager.Add Manager.Get
  by_cases h : id' = p.ID
  · rw [if_pos h, List.find?_cons_of_pos _ (by simp [h])]
  · rw [if_neg h, List.find?_cons_of_neg _ (by simp; exact fun e => h e.symm)]
    exact find?_filter_ne p.ID id' h m.players

theorem Manager.Get_ID (m : Manager) (id : Nat) (p : Player) (h : m.Get id = some p) :
    p.ID = id := by
  have := List.find?_some h
  simpa using this

end player

namespace gamestate

open protocol player

/-! ## Intel carriers (C17) -/

/-- Either `PickupIntel` changes nothing and returns false, or the player is
registered, alive and on the given team, the other team's intel lay on the
ground, and the new state has that intel held by the player and the player's
`HasIntel` set. -/
theorem GameState.PickupIntel_eq (gs : GameState) (playerID team : Nat) :
    gs.PickupIntel playerID team = (gs, false) ∨
    ∃ p, gs.Players.Get playerID = some p ∧ p.Alive = true ∧ p.Team = team ∧
      (gs.PickupIntel playerID team).2 = true ∧
      (gs.PickupIntel playerID team).1.Gamemode = gs.Gamemode ∧
      (gs.PickupIntel playerID team).1.Players =
        gs.Players.modify playerID (fun q => q.setHasIntel true) ∧
      ((team = 0 ∧ gs.Intel.2.Held = false ∧
        (gs.PickupIntel playerID team).1.Intel =
          (gs.Intel.1, { gs.Intel.2 with Held := true, CarrierID := playerID })) ∨
       (team = 1 ∧ gs.Intel.1.Held = false ∧
        (gs.PickupIntel playerID team).1.Intel =
          ({ gs.Intel.1 with Held := true, CarrierID := playerID }, gs.Intel.2))) := by
  unfold GameState.PickupIntel
  by_cases ht : team ≥ 2
  · left; rw [if_pos ht]
  · rw [if_neg ht]
    simp only []
    by_cases hh : (gs.intelAt (1 - team)).Held = true
    · left; rw [if_pos hh]
    · rw [if_neg hh]
      cases hg : gs.Players.Get playerID with
      | none => left; rfl
      | some p =>
        simp only []
        by_cases hp : (!p.Alive || decide (p.Team ≠ team)) = true
        · left; rw [if_pos hp]
        · rw [if_neg hp]
          right
          have ha : p.Alive = true := by
            cases h : p.Alive
            · simp [h] at hp
            · rfl
          have htm : p.Team = team := by
            by_contra hc
            simp [hc] at hp
          have h01 : team = 0 ∨ team = 1 := by omega
          rcases h01 with h0 | h1
          · subst h0
            exact ⟨p, rfl, ha, htm, rfl, rfl, rfl,
              Or.inl ⟨rfl, by simpa [GameState.intelAt] using hh, rfl⟩⟩
          · subst h1
            exact ⟨p, rfl, ha, htm, rfl, rfl, rfl,
              Or.inr ⟨rfl, by simpa [GameState.intelAt] using hh, rfl⟩⟩

/-- Either `CaptureIntel` changes nothing and returns false, or it returns
true, the player is registered and carries the intel with index `i` that the
mode makes the function look at, and the new state has that intel back at its
spawn position, the player's `HasIntel` cleared and the score of `team` raised
by one in `uint8` arithmetic. -/
theorem GameState.CaptureIntel_eq (gs : GameState) (playerID team : Nat) :
    gs.CaptureIntel playerID team = (gs, false) ∨
    ∃ p i, team < 2 ∧ gs.Players.Get playerID = some p ∧
      i = (if gs.Gamemode = GamemodeBabel then 0 else 1 - team) ∧
      (gs.intelAt i).Held = true ∧ (gs.intelAt i).CarrierID = playerID ∧
      (gs.CaptureIntel playerID team).2 = true ∧
      (gs.CaptureIntel playerID team).1.Gamemode = gs.Gamemode ∧
      (gs.CaptureIntel playerID team).1.Players =
        gs.Players.modify playerID (fun q => q.setHasIntel false) ∧
      (gs.CaptureIntel playerID team).1.Intel =
        (gs.setIntel i { gs.intelAt i with
          Held := false, Position := gs.spawnPosAt i, CarrierID := 0 }).Intel ∧
      (gs.CaptureIntel playerID team).1.Team1Score =
        (if team = 0 then (gs.Team1Score + 1) % 256 else gs.Team1Score) ∧
      (gs.CaptureIntel playerID team).1.Team2Score =
        (if team = 0 then gs.Team2Score else (gs.Team2Score + 1) % 256) := by
  unfold GameState.CaptureIntel
  by_cases ht : team ≥ 2
  · left; rw [if_pos ht]
  · rw [if_neg ht]
    cases hg : gs.Players.Get playerID with
    | none => left; rfl
    | some p =>
      simp only []
      generalize (if gs.Gamemode = GamemodeBabel then 0 else 1 - team) = i
      by_cases hc : (!(gs.intelAt i).Held || decide ((gs.intelAt i).CarrierID ≠ playerID)) = true
      · left; rw [if_pos hc]
      · rw [if_neg hc]
        right
        have hh : (gs.intelAt i).Held = true := by
          cases h : (gs.intelAt i).Held
          · simp [h] at hc
          · rfl
        have hcar : (gs.intelAt i).CarrierID = playerID := by
          by_contra hne
          simp [hne] at hc
        refine ⟨p, i, by omega, rfl, rfl, hh, hcar, ?_⟩
        by_cases h0 : team = 0
        · rw [if_pos h0, if_pos h0, if_pos h0]
          by_cases hi : i = 0 <;> simp [GameState.setIntel, hi]
        · rw [if_neg h0, if_neg h0, if_neg h0]
          by_cases hi : i = 0 <;> simp [GameState.setIntel, hi]


theorem GameState.register_eq (gs : GameState) (p : Player) :
    gs.register p = gs ∨
    (gs.Players.Get p.ID = none ∧ p.HasIntel = false ∧
      gs.register p = { gs with Players := gs.Players.Add p }) := by
  unfold GameState.register
  by_cases h : (gs.Players.Contains p.ID || p.HasIntel) = true
  · left; rw [if_pos h]
  · right
    rw [if_neg h]
    rw [Bool.or_eq_true, not_or] at h
    refine ⟨?_, by simpa using h.2, rfl⟩
    have h1 := h.1
    unfold Manager.Contains at h1
    cases hg : gs.Players.Get p.ID with
    | none => rfl
    | some q => rw [hg] at h1; exact absurd rfl h1

theorem GameState.DropIntel_eq (gs : GameState) (team : Nat) (position : Vector3f) :
    gs.DropIntel team position = gs ∨
    ∃ v : gamestate.Intel, v.Held = false ∧
      ((team = 0 ∧ gs.DropIntel team position = { gs with Intel := (v, gs.Intel.2) }) ∨
       (team = 1 ∧ gs.DropIntel team position = { gs with Intel := (gs.Intel.1, v) })) := by
  unfold GameState.DropIntel
  by_cases ht : team ≥ 2
  · left; rw [if_pos ht]
  · right
    rw [if_neg ht]
    refine ⟨{ gs.intelAt team with
      Held := false, Position := gs.dropPosition position, CarrierID := 0 }, rfl, ?_⟩
    have h01 : team = 0 ∨ team = 1 := by omega
    rcases h01 with h0 | h1
    · subst h0
      exact Or.inl ⟨rfl, by simp [GameState.setIntel]⟩
    · subst h1
      exact Or.inr ⟨rfl, by simp [GameState.setIntel]⟩

/-- Every step keeps, in the modes with two intels, a registered carrier of the
other team for each held intel. -/
theorem Event.apply_carriersOfOtherTeam (e : Event) (gs : GameState)
    (h : gs.carriersOfOtherTeam) : (e.apply gs).carriersOfOtherTeam := by
  obtain ⟨hm, h1, h2⟩ := h
  cases e with
  | Register p =>
    show (gs.register p).carriersOfOtherTeam
    rcases GameState.register_eq gs p with he | ⟨hn, _, he⟩
    · rw [he]; exact ⟨hm, h1, h2⟩
    · rw [he]
      refine ⟨hm, fun hh => ?_, fun hh => ?_⟩
      · obtain ⟨q, hq, hi, ht⟩ := h1 hh
        refine ⟨q, ?_, hi, ht⟩
        show (gs.Players.Add p).Get gs.Intel.1.CarrierID = some q
        rw [Manager.Get_Add, if_neg, hq]
        intro hc
        rw [hc, hn] at hq
        cases hq
      · obtain ⟨q, hq, hi, ht⟩ := h2 hh
        refine ⟨q, ?_, hi, ht⟩
        show (gs.Players.Add p).Get gs.Intel.2.CarrierID = some q
        rw [Manager.Get_Add, if_neg, hq]
        intro hc
        rw [hc, hn] at hq
        cases hq
  | PickupIntel playerID team =>
    show (gs.PickupIntel playerID team).1.carriersOfOtherTeam
    rcases GameState.PickupIntel_eq gs playerID team with he | ⟨p, hg, _, htm, _, hG, hP, hcase⟩
    · rw [he]; exact ⟨hm, h1, h2⟩
    · generalize (gs.PickupIntel playerID team).1 = gs' at hG hP hcase ⊢
      unfold GameState.carriersOfOtherTeam
      rw [hG, hP]
      rcases hcase with ⟨h0, _, hI⟩ | ⟨h0, _, hI⟩
      · rw [hI]
        dsimp only
        refine ⟨hm, fun hh => ?_, fun _ => ?_⟩
        · obtain ⟨q, hq, hi, ht⟩ := h1 hh
          rw [Manager.Get_setHasIntel, hq]
          split_ifs
          · exact ⟨_, rfl, rfl, ht⟩
          · exact ⟨q, rfl, hi, ht⟩
        · rw [Manager.Get_setHasIntel, if_pos rfl, hg]
          exact ⟨_, rfl, rfl, by rw [← h0]; exact htm⟩
      · rw [hI]
        dsimp only
        refine ⟨hm, fun _ => ?_, fun hh => ?_⟩
        · rw [Manager.Get_setHasIntel, if_pos rfl, hg]
          exact ⟨_, rfl, rfl, by rw [← h0]; exact htm⟩
        · obtain ⟨q, hq, hi, ht⟩ := h2 hh
          rw [Manager.Get_setHasIntel, hq]
          split_ifs
          · exact ⟨_, rfl, rfl, ht⟩
          · exact ⟨q, rfl, hi, ht⟩
  | CaptureIntel playerID team =>
    show (gs.CaptureIntel playerID team).1.carriersOfOtherTeam
    rcases GameState.CaptureIntel_eq gs playerID team with
      he | ⟨p, i, ht2, hg, hi, hheld, hcar, _, hG, hP, hI, _, _⟩
    · rw [he]; exact ⟨hm, h1, h2⟩
    · generalize (gs.CaptureIntel playerID team).1 = gs' at hG hP hI ⊢
      unfold GameState.carriersOfOtherTeam
      rw [hG, hP, hI]
      rw [if_neg hm] at hi
      have h01 : team = 0 ∨ team = 1 := by omega
      rcases h01 with h0 | h0
      · subst h0
        subst hi
        have hheld2 : gs.Intel.2.Held = true := hheld
        have hcar2 : gs.Intel.2.CarrierID = playerID := hcar
        obtain ⟨q2, hq2, _, ht2'⟩ := h2 hheld2
        rw [hcar2, hg] at hq2
        have hpq : p = q2 := Option.some.inj hq2
        refine ⟨hm, fun hh => ?_, fun hh => ?_⟩
        · have hh1 : gs.Intel.1.Held = true := hh
          obtain ⟨q, hq, hi, ht⟩ := h1 hh1
          have hne : gs.Intel.1.CarrierID ≠ playerID := by
            intro hc
            rw [hc, hg] at hq
            have : p = q := Option.some.inj hq
            rw [← this, hpq, ht2'] at ht
            cases ht
          refine ⟨q, ?_, hi, ht⟩
          rw [Manager.Get_setHasIntel]
          show (if gs.Intel.1.CarrierID = playerID then _ else _) = _
          rw [if_neg hne]
          exact hq
        · cases hh
      · subst h0
        subst hi
        have hheld1 : gs.Intel.1.Held = true := hheld
        have hcar1 : gs.Intel.1.CarrierID = playerID := hcar
        obtain ⟨q1, hq1, _, ht1'⟩ := h1 hheld1
        rw [hcar1, hg] at hq1
        have hpq : p = q1 := Option.some.inj hq1
        refine ⟨hm, fun hh => ?_, fun hh => ?_⟩
        · cases hh
        · have hh2 : gs.Intel.2.Held = true := hh
          obtain ⟨q, hq, hi, ht⟩ := h2 hh2
          have hne : gs.Intel.2.CarrierID ≠ playerID := by
            intro hc
            rw [hc, hg] at hq
            have : p = q := Option.some.inj hq
            rw [← this, hpq, ht1'] at ht
            cases ht
          refine ⟨q, ?_, hi, ht⟩
          rw [Manager.Get_setHasIntel]
          show (if gs.Intel.2.CarrierID = playerID then _ else _) = _
          rw [if_neg hne]
          exact hq
  | DropIntel team position =>
    show (gs.DropIntel team position).carriersOfOtherTeam
    rcases GameState.DropIntel_eq gs team position with he | ⟨v, hv, ⟨_, he⟩ | ⟨_, he⟩⟩
    · rw [he]; exact ⟨hm, h1, h2⟩
    · rw [he]
      exact ⟨hm, fun hh => absurd (hv ▸ hh : false = true) (by decide), h2⟩
    · rw [he]
      exact ⟨hm, h1, fun hh => absurd (hv ▸ hh : false = true) (by decide)⟩
  | ResetIntel =>
    show gs.ResetIntel.carriersOfOtherTeam
    refine ⟨hm, fun hh => ?_, fun hh => ?_⟩
    · exact absurd (show false = true from hh) Bool.false_ne_true
    · exact absurd (show false = true from hh) Bool.false_ne_true


/-- A step other than `DropIntel` and `ResetIntel` keeps that every player with
`HasIntel` set carries exactly one held intel. -/
theorem Event.apply_carriersHoldOne (e : Event) (hk : e.keepsCarrier = true) (gs : GameState)
    (h : gs.carriersOfOtherTeam) (hc : gs.carriersHoldOne) : (e.apply gs).carriersHoldOne := by
  obtain ⟨hm, h1, h2⟩ := h
  cases e with
  | Register p =>
    show (gs.register p).carriersHoldOne
    rcases GameState.register_eq gs p with he | ⟨_, hf, he⟩
    · rw [he]; exact hc
    · rw [he]
      intro id p' hg' hi'
      have hg2 : (gs.Players.Add p).Get id = some p' := hg'
      rw [Manager.Get_Add] at hg2
      by_cases hid : id = p.ID
      · rw [if_pos hid] at hg2
        rw [← Option.some.inj hg2, hf] at hi'
        cases hi'
      · rw [if_neg hid] at hg2
        exact hc id p' hg2 hi'
  | PickupIntel playerID team =>
    show (gs.PickupIntel playerID team).1.carriersHoldOne
    rcases GameState.PickupIntel_eq gs playerID team with he | ⟨p, hg, _, htm, _, _, hP, hcase⟩
    · rw [he]; exact hc
    · generalize (gs.PickupIntel playerID team).1 = gs' at hP hcase ⊢
      intro id p' hg' hi'
      rw [hP, Manager.Get_setHasIntel] at hg'
      unfold GameState.carriedBy
      rcases hcase with ⟨h0, hfree, hI⟩ | ⟨h0, hfree, hI⟩
      · rw [hI]
        dsimp only
        by_cases hid : id = playerID
        · subst hid
          have hneg : ¬ (gs.Intel.1.Held = true ∧ gs.Intel.1.CarrierID = id) := by
            rintro ⟨hh, hcar⟩
            obtain ⟨q, hq, _, ht⟩ := h1 hh
            rw [hcar, hg] at hq
            rw [← Option.some.inj hq, htm, h0] at ht
            cases ht
          rw [if_neg hneg, if_pos ⟨rfl, rfl⟩]
        · rw [if_neg hid] at hg'
          have hold := hc id p' hg' hi'
          unfold GameState.carriedBy at hold
          rw [if_neg (fun hx : gs.Intel.2.Held = true ∧ _ => by
            rw [hfree] at hx; exact Bool.false_ne_true hx.1)] at hold
          rw [if_neg (fun hx : true = true ∧ playerID = id => hid hx.2.symm)]
          exact hold
      · rw [hI]
        dsimp only
        by_cases hid : id = playerID
        · subst hid
          have hneg : ¬ (gs.Intel.2.Held = true ∧ gs.Intel.2.CarrierID = id) := by
            rintro ⟨hh, hcar⟩
            obtain ⟨q, hq, _, ht⟩ := h2 hh
            rw [hcar, hg] at hq
            rw [← Option.some.inj hq, htm, h0] at ht
            cases ht
          rw [if_pos ⟨rfl, rfl⟩, if_neg hneg]
        · rw [if_neg hid] at hg'
          have hold := hc id p' hg' hi'
          unfold GameState.carriedBy at hold
          rw [if_neg (fun hx : gs.Intel.1.Held = true ∧ _ => by
            rw [hfree] at hx; exact Bool.false_ne_true hx.1)] at hold
          rw [if_neg (fun hx : true = true ∧ playerID = id => hid hx.2.symm)]
          exact hold
  | CaptureIntel playerID team =>
    show (gs.CaptureIntel playerID team).1.carriersHoldOne
    rcases GameState.CaptureIntel_eq gs playerID team with
      he | ⟨p, i, ht2, hg, hi, hheld, hcar, _, _, hP, hI, _, _⟩
    · rw [he]; exact hc
    · generalize (gs.CaptureIntel playerID team).1 = gs' at hP hI ⊢
      intro id p' hg' hi'
      rw [hP, Manager.Get_setHasIntel] at hg'
      by_cases hid : id = playerID
      · rw [if_pos hid, hid, hg] at hg'
        rw [← Option.some.inj hg'] at hi'
        cases hi'
      · rw [if_neg hid] at hg'
        have hold := hc id p' hg' hi'
        unfold GameState.carriedBy at hold ⊢
        rw [hI]
        rw [if_neg hm] at hi
        have h01 : team = 0 ∨ team = 1 := by omega
        rcases h01 with h0 | h0
        · subst h0
          subst hi
          have hcar2 : gs.Intel.2.CarrierID = playerID := hcar
          rw [if_neg (fun hx : gs.Intel.2.Held = true ∧ gs.Intel.2.CarrierID = id =>
            hid (hx.2.symm.trans hcar2))] at hold
          show (if gs.Intel.1.Held = true ∧ gs.Intel.1.CarrierID = id then 1 else 0) +
            (if false = true ∧ 0 = id then 1 else 0) = 1
          rw [if_neg (fun hx : false = true ∧ 0 = id => Bool.false_ne_true hx.1)]
          exact hold
        · subst h0
          subst hi
          have hcar1 : gs.Intel.1.CarrierID = playerID := hcar
          rw [if_neg (fun hx : gs.Intel.1.Held = true ∧ gs.Intel.1.CarrierID = id =>
            hid (hx.2.symm.trans hcar1))] at hold
          show (if false = true ∧ 0 = id then 1 else 0) +
            (if gs.Intel.2.Held = true ∧ gs.Intel.2.CarrierID = id then 1 else 0) = 1
          rw [if_neg (fun hx : false = true ∧ 0 = id => Bool.false_ne_true hx.1)]
          exact hold
  | DropIntel team position => cases hk
  | ResetIntel => cases hk

/-- The state of `New` in a mode other than babel: both intels on the ground,
nobody registered. -/
theorem New_fields (cfg : Settings) (vxlMap : vxl.Map)
    (hmode : ParseGamemode cfg.Gamemode ≠ GamemodeBabel) :
    (New cfg vxlMap).Gamemode = ParseGamemode cfg.Gamemode ∧
      (New cfg vxlMap).Intel.1.Held = false ∧ (New cfg vxlMap).Intel.2.Held = false ∧
      (New cfg vxlMap).Players = NewManager := by
  unfold New GameState.initializeGamemode
  simp only []
  split_ifs with h1 h2
  · exact ⟨rfl, rfl, rfl, rfl⟩
  · unfold GameState.initTDM
    split_ifs <;> exact ⟨rfl, rfl, rfl, rfl⟩
  · exact ⟨rfl, rfl, rfl, rfl⟩

theorem New_carriersOfOtherTeam (cfg : Settings) (vxlMap : vxl.Map)
    (hmode : ParseGamemode cfg.Gamemode ≠ GamemodeBabel) :
    (New cfg vxlMap).carriersOfOtherTeam := by
  obtain ⟨hG, hI1, hI2, _⟩ := New_fields cfg vxlMap hmode
  refine ⟨by rw [hG]; exact hmode, fun hh => ?_, fun hh => ?_⟩
  · rw [hI1] at hh; cases hh
  · rw [hI2] at hh; cases hh

theorem New_carriersHoldOne (cfg : Settings) (vxlMap : vxl.Map)
    (hmode : ParseGamemode cfg.Gamemode ≠ GamemodeBabel) :
    (New cfg vxlMap).carriersHoldOne := by
  obtain ⟨_, _, _, hP⟩ := New_fields cfg vxlMap hmode
  intro id p hg _
  rw [hP] at hg
  cases hg

theorem run_carriersOfOtherTeam (events : List Event) (gs : GameState)
    (h : gs.carriersOfOtherTeam) : (run events gs).carriersOfOtherTeam := by
  induction events generalizing gs with
  | nil => exact h
  | cons e t ih => exact ih (e.apply gs) (Event.apply_carriersOfOtherTeam e gs h)

theorem run_carriersHoldOne (events : List Event) (hk : ∀ e ∈ events, e.keepsCarrier = true)
    (gs : GameState) (h : gs.carriersOfOtherTeam) (hc : gs.carriersHoldOne) :
    (run events gs).carriersHoldOne := by
  induction events generalizing gs with
  | nil => exact hc
  | cons e t ih =>
    exact ih (fun x hx => hk x (List.mem_cons_of_mem _ hx)) (e.apply gs)
      (Event.apply_carriersOfOtherTeam e gs h)
      (Event.apply_carriersHoldOne e (hk e (List.mem_cons_self _ _)) gs h hc)


/-- C17 as stated fails twice. In babel mode the state of `New` has the second
intel held with carrier id 0 although nobody is registered. In capture the flag
mode, after player 3 of team 0 registers, picks up the intel of team 1 and
`DropIntel(1, ...)` puts it down, the player still has `HasIntel` set and
carries no held intel. -/
theorem C17_carrier_counterexample :
    ¬ (New (sampleSettings 2) (vxl.newMap 2 2 4)).heldHaveCarrier ∧
    ¬ (run [.Register (alivePlayer 3 0), .PickupIntel 3 0,
            .DropIntel 1 ⟨0x3F000000, 0x3F000000, 0x3F000000⟩]
          (New (sampleSettings 0) (vxl.newMap 2 2 4))).carriersHoldOne := by
  constructor
  · intro h
    have hheld : (New (sampleSettings 2) (vxl.newMap 2 2 4)).Intel.2.Held = true := by decide
    obtain ⟨p, hp, _⟩ := h.2 hheld
    have hnone : (New (sampleSettings 2) (vxl.newMap 2 2 4)).Players.Get
        (New (sampleSettings 2) (vxl.newMap 2 2 4)).Intel.2.CarrierID = none := by decide
    rw [hnone] at hp
    cases hp
  · intro h
    have hget : (run [.Register (alivePlayer 3 0), .PickupIntel 3 0,
            .DropIntel 1 ⟨0x3F000000, 0x3F000000, 0x3F000000⟩]
          (New (sampleSettings 0) (vxl.newMap 2 2 4))).Players.Get 3
        = some ((alivePlayer 3 0).setHasIntel true) := by decide!
    have hone := h 3 _ hget rfl
    have hzero : (run [.Register (alivePlayer 3 0), .PickupIntel 3 0,
            .DropIntel 1 ⟨0x3F000000, 0x3F000000, 0x3F000000⟩]
          (New (sampleSettings 0) (vxl.newMap 2 2 4))).carriedBy 3 = 0 := by decide!
    rw [hzero] at hone
    cases hone

/-- C17, amended. In every state that registrations of fresh players on free
ids, `PickupIntel`, `CaptureIntel`, `DropIntel` and `ResetIntel` make of the
state of `New` in a mode other than babel, each held intel has a carrier id
that names a registered player whose `HasIntel` is set, and two held intels
have different carriers; if no `DropIntel` and no `ResetIntel` was among the
steps, every registered player with `HasIntel` set is the carrier of exactly
one held intel. -/
theorem C17_intel_carriers (cfg : Settings) (vxlMap : vxl.Map) (events : List Event)
    (hmode : ParseGamemode cfg.Gamemode ≠ GamemodeBabel) :
    (run events (New cfg vxlMap)).heldHaveCarrier ∧
    ((run events (New cfg vxlMap)).Intel.1.Held = true →
      (run events (New cfg vxlMap)).Intel.2.Held = true →
      (run events (New cfg vxlMap)).Intel.1.CarrierID ≠
        (run events (New cfg vxlMap)).Intel.2.CarrierID) ∧
    ((∀ e ∈ events, e.keepsCarrier = true) → (run events (New cfg vxlMap)).carriersHoldOne) := by
  have hinv := run_carriersOfOtherTeam events (New cfg vxlMap)
    (New_carriersOfOtherTeam cfg vxlMap hmode)
  obtain ⟨_, h1, h2⟩ := hinv
  refine ⟨⟨fun hh => ?_, fun hh => ?_⟩, fun hh1 hh2 hc => ?_, fun hk => ?_⟩
  · obtain ⟨p, hp, hi, _⟩ := h1 hh
    exact ⟨p, hp, hi⟩
  · obtain ⟨p, hp, hi, _⟩ := h2 hh
    exact ⟨p, hp, hi⟩
  · obtain ⟨p, hp, _, ht1⟩ := h1 hh1
    obtain ⟨q, hq, _, ht2⟩ := h2 hh2
    rw [hc, hq] at hp
    rw [← Option.some.inj hp, ht2] at ht1
    cases ht1
  · exact run_carriersHoldOne events hk (New cfg vxlMap)
      (New_carriersOfOtherTeam cfg vxlMap hmode) (New_carriersHoldOne cfg vxlMap hmode)

/-- The amended statement in capture the flag mode after player 3 of team 0
registered and picked up the intel of team 1. -/
theorem C17_intel_carriers_witness :
    ParseGamemode (sampleSettings 0).Gamemode ≠ GamemodeBabel ∧
      (run [.Register (alivePlayer 3 0), .PickupIntel 3 0]
        (New (sampleSettings 0) (vxl.newMap 2 2 4))).Intel.2.Held = true ∧
      (run [.Register (alivePlayer 3 0), .PickupIntel 3 0]
        (New (sampleSettings 0) (vxl.newMap 2 2 4))).heldHaveCarrier ∧
      (run [.Register (alivePlayer 3 0), .PickupIntel 3 0]
        (New (sampleSettings 0) (vxl.newMap 2 2 4))).carriersHoldOne :=
  ⟨by decide, by decide,
   (C17_intel_carriers (sampleSettings 0) (vxl.newMap 2 2 4)
      [.Register (alivePlayer 3 0), .PickupIntel 3 0] (by decide)).1,
   (C17_intel_carriers (sampleSettings 0) (vxl.newMap 2 2 4)
      [.Register (alivePlayer 3 0), .PickupIntel 3 0] (by decide)).2.2 (by decide)⟩


/-! ## Capturing an intel (C18) -/

theorem GameState.CaptureIntel_true (gs : GameState) (playerID team : Nat) (ht : team < 2)
    (p : Player) (hg : gs.Players.Get playerID = some p)
    (hh : (gs.intelAt (if gs.Gamemode = GamemodeBabel then 0 else 1 - team)).Held = true)
    (hc : (gs.intelAt (if gs.Gamemode = GamemodeBabel then 0 else 1 - team)).CarrierID
      = playerID) :
    (gs.CaptureIntel playerID team).2 = true := by
  unfold GameState.CaptureIntel
  rw [if_neg (by omega), hg]
  simp only []
  rw [if_neg (by simp [hh, hc])]
  split_ifs <;> rfl

theorem GameState.intelAt_setIntel (gs : GameState) (i : Nat) (v : gamestate.Intel) :
    (gs.setIntel i v).Intel = (if i = 0 then (v, gs.Intel.2) else (gs.Intel.1, v)) := by
  unfold GameState.setIntel
  split_ifs <;> rfl

/-- C18: `CaptureIntel(playerID, team)` returns true exactly when `team < 2`,
the player is registered and the intel with index `1 - team` (index 0 in babel
mode) is held with carrier `playerID`. When it returns true, the score of
`team` is one higher in `uint8` arithmetic (exactly one higher when it was
below 255), the other score is the old one, the captured intel is not held and
lies at its spawn position, and the player's `HasIntel` is false. When it
returns false, the state, the registry with its player records included, is
the old one. -/
theorem C18_CaptureIntel (gs : GameState) (playerID team : Nat) :
    ((gs.CaptureIntel playerID team).2 = true ↔
      team < 2 ∧ (gs.Players.Get playerID).isSome = true ∧
        (gs.intelAt (if gs.Gamemode = GamemodeBabel then 0 else 1 - team)).Held = true ∧
        (gs.intelAt (if gs.Gamemode = GamemodeBabel then 0 else 1 - team)).CarrierID
          = playerID) ∧
    ((gs.CaptureIntel playerID team).2 = true →
      (gs.CaptureIntel playerID team).1.GetTeamScore team
          = (gs.GetTeamScore team + 1) % 256 ∧
        (gs.GetTeamScore team < 255 →
          (gs.CaptureIntel playerID team).1.GetTeamScore team = gs.GetTeamScore team + 1) ∧
        (gs.CaptureIntel playerID team).1.GetTeamScore (1 - team)
          = gs.GetTeamScore (1 - team) ∧
        ((gs.CaptureIntel playerID team).1.intelAt
          (if gs.Gamemode = GamemodeBabel then 0 else 1 - team)).Held = false ∧
        ((gs.CaptureIntel playerID team).1.intelAt
          (if gs.Gamemode = GamemodeBabel then 0 else 1 - team)).Position
          = gs.spawnPosAt (if gs.Gamemode = GamemodeBabel then 0 else 1 - team) ∧
        ∃ p, (gs.CaptureIntel playerID team).1.Players.Get playerID = some p ∧
          p.HasIntel = false) ∧
    ((gs.CaptureIntel playerID team).2 = false → (gs.CaptureIntel playerID team).1 = gs) := by
  rcases GameState.CaptureIntel_eq gs playerID team with
    he | ⟨p, i, ht2, hg, hi, hheld, hcar, hret, _, hP, hI, hS1, hS2⟩
  · refine ⟨⟨fun h => ?_, fun h => ?_⟩, fun h => ?_, fun _ => by rw [he]⟩
    · rw [he] at h; cases h
    · obtain ⟨ht, hsome, hh, hc⟩ := h
      cases hg : gs.Players.Get playerID with
      | none => rw [hg] at hsome; cases hsome
      | some p =>
        have := GameState.CaptureIntel_true gs playerID team ht p hg hh hc
        rw [he] at this
        cases this
    · rw [he] at h; cases h
  · subst hi
    refine ⟨⟨fun _ => ⟨ht2, by rw [hg]; rfl, hheld, hcar⟩, fun _ => hret⟩, fun _ => ?_,
      fun h => by rw [hret] at h; cases h⟩
    generalize (gs.CaptureIntel playerID team).1 = gs' at hP hI hS1 hS2 ⊢
    have h01 : team = 0 ∨ team = 1 := by omega
    have hscore : gs'.GetTeamScore team = (gs.GetTeamScore team + 1) % 256 := by
      unfold GameState.GetTeamScore
      rcases h01 with h0 | h0
      · subst h0
        rw [if_pos rfl, if_pos rfl, hS1, if_pos rfl]
      · subst h0
        rw [if_neg (by decide), if_neg (by decide), hS2, if_neg (by decide)]
    refine ⟨hscore, fun hlt => ?_, ?_, ?_, ?_, ?_⟩
    · rw [hscore]
      exact Nat.mod_eq_of_lt (by omega)
    · unfold GameState.GetTeamScore
      rcases h01 with h0 | h0
      · subst h0
        rw [if_neg (by decide), if_neg (by decide), hS2, if_pos rfl]
      · subst h0
        rw [if_pos (by decide), if_pos (by decide), hS1, if_neg (by decide)]
    · unfold GameState.intelAt
      rw [hI, GameState.intelAt_setIntel]
      split_ifs <;> rfl
    · unfold GameState.intelAt
      rw [hI, GameState.intelAt_setIntel]
      split_ifs <;> rfl
    · rw [hP, Manager.Get_setHasIntel, if_pos rfl, hg]
      exact ⟨_, rfl, rfl⟩

/-- The statement in a capture the flag game in which player 3 of team 1 has
picked up the intel of team 0: the capture succeeds and the score of team 1
goes from 0 to 1. -/
theorem C18_CaptureIntel_witness :
    ((run [.Register (alivePlayer 3 1), .PickupIntel 3 1]
        (New (sampleSettings 0) (vxl.newMap 2 2 4))).CaptureIntel 3 1).2 = true ∧
      ((run [.Register (alivePlayer 3 1), .PickupIntel 3 1]
        (New (sampleSettings 0) (vxl.newMap 2 2 4))).CaptureIntel 3 1).1.GetTeamScore 1 = 1 ∧
      ((run [.Register (alivePlayer 3 1), .PickupIntel 3 1]
        (New (sampleSettings 0) (vxl.newMap 2 2 4))).CaptureIntel 3 0).1
        = run [.Register (alivePlayer 3 1), .PickupIntel 3 1]
            (New (sampleSettings 0) (vxl.newMap 2 2 4)) :=
  ⟨by decide, by decide,
   (C18_CaptureIntel (run [.Register (alivePlayer 3 1), .PickupIntel 3 1]
      (New (sampleSettings 0) (vxl.newMap 2 2 4))) 3 0).2.2 (by decide)⟩

end gamestate

namespace vote

open player

/-! ## Required votes (C19) -/

theorem requiredVotes_floor (n p : Int) (hn : 1 ≤ n) (hp0 : 0 ≤ p) :
    (if n = 0 then (0 : Int)
     else if Int.tdiv (n * p) 100 = 0 ∧ n > 0 then 1 else Int.tdiv (n * p) 100)
      = max 1 ⌊((n * p : Int) : ℚ) / 100⌋ := by
  have hnp : 0 ≤ n * p := Int.mul_nonneg (by omega) hp0
  have hfloor : ⌊((n * p : Int) : ℚ) / 100⌋ = n * p / 100 := by
    have := Rat.floor_intCast_div_natCast (n * p) 100
    simpa using this
  rw [hfloor, Int.tdiv_eq_ediv hnp (by decide), if_neg (by omega)]
  have hq : 0 ≤ n * p / 100 := Int.ediv_nonneg hnp (by decide)
  split_ifs with h
  · rw [h.1]; rfl
  · have : n * p / 100 ≠ 0 := fun h0 => h ⟨h0, by omega⟩
    rw [max_eq_right (by omega)]

/-- C19 as stated fails: five players at 35 percent need one vote, for a
votekick and for a map vote, while the ceiling of `5 * 35 / 100` is 2. -/
theorem C19_ceiling_counterexample :
    sampleKick.getRequiredVotes = 1 ∧ sampleMapVote.getRequiredVotes = 1 ∧
      ⌈((5 * 35 : Int) : ℚ) / 100⌉ = 2 := by
  refine ⟨by decide, by decide, ?_⟩
  rw [Int.ceil_eq_iff]
  norm_num

/-- C19, amended: for a player count `n >= 1` and a percentage `p >= 0`, so for
every percentage from 0 to 100, a votekick and a map vote require the floor of
`n * p / 100` votes, raised to 1 when that is 0. -/
theorem C19_required_votes (kick : Votekick) (mapVote : Votemap)
    (hn : 1 ≤ kick.playerCount) (hp0 : 0 ≤ kick.percentage)
    (hm : 1 ≤ mapVote.playerCount) (hq0 : 0 ≤ mapVote.percentage) :
    kick.getRequiredVotes
        = max 1 ⌊((kick.playerCount * kick.percentage : Int) : ℚ) / 100⌋ ∧
      mapVote.getRequiredVotes
        = max 1 ⌊((mapVote.playerCount * mapVote.percentage : Int) : ℚ) / 100⌋ :=
  ⟨requiredVotes_floor kick.playerCount kick.percentage hn hp0,
   requiredVotes_floor mapVote.playerCount mapVote.percentage hm hq0⟩

/-- The amended statement for five players at 35 percent: one vote. -/
theorem C19_required_votes_witness :
    sampleKick.getRequiredVotes = max 1 ⌊((5 * 35 : Int) : ℚ) / 100⌋ ∧
      sampleMapVote.getRequiredVotes = max 1 ⌊((5 * 35 : Int) : ℚ) / 100⌋ :=
  C19_required_votes sampleKick sampleMapVote (by decide) (by decide) (by decide) (by decide)


/-! ## Starting a vote (C20) -/

theorem Votekick.kick_Start_active (k k' : Votekick) (h : k.Start = .ok k') : k'.active = true := by
  unfold Votekick.Start at h
  cases hv : k.victim with
  | none => rw [hv] at h; cases h
  | some victim =>
    rw [hv] at h
    cases hi : k.instigator with
    | none => rw [hi] at h; cases h
    | some instigator =>
      rw [hi] at h
      simp only [] at h
      split_ifs at h
      rw [← Except.ok.inj h]

theorem Votemap.map_Start_active (k k' : Votemap) (h : k.Start = .ok k') : k'.active = true := by
  unfold Votemap.Start at h
  split_ifs at h
  rw [← Except.ok.inj h]

theorem Vote.Start_active (v v' : Vote) (h : v.Start = .ok v') : v'.IsActive = true := by
  cases v with
  | kick k =>
    have h2 : (Votekick.Start k).map Vote.kick = .ok v' := h
    cases hk : Votekick.Start k with
    | error e => rw [hk] at h2; cases h2
    | ok k' =>
      rw [hk] at h2
      have h3 : Vote.kick k' = v' := Except.ok.inj h2
      rw [← h3]
      exact Votekick.kick_Start_active k k' hk
  | map k =>
    have h2 : (Votemap.Start k).map Vote.map = .ok v' := h
    cases hk : Votemap.Start k with
    | error e => rw [hk] at h2; cases h2
    | ok k' =>
      rw [hk] at h2
      have h3 : Vote.map k' = v' := Except.ok.inj h2
      rw [← h3]
      exact Votemap.map_Start_active k k' hk

/-- The lookup after the assignment `m.cooldowns[id] = t`. -/
theorem cooldownOf_set (cooldowns : List (Nat × Nat)) (id t : Nat) (vOpt : Option Vote) :
    ({ activeVote := vOpt,
       cooldowns := (id, t) :: cooldowns.filter (fun e => decide (e.1 ≠ id)) } : Manager).cooldownOf
      id = some t := by
  unfold Manager.cooldownOf
  rw [List.find?_cons_of_pos _ (by simp)]
  rfl

/-- `StartVote` either returns an error and the old manager, or it returns no
error and the manager with the started vote and the new cooldown. -/
theorem Manager.StartVote_cases (m : Manager) (v : Vote) (checked started : Nat) :
    (∃ err, m.StartVote v checked started = (m, some err)) ∨
    ∃ p v', v.Instigator = some p ∧ v.Start = .ok v' ∧ m.HasActiveVote = false ∧
      m.onCooldown p.ID checked = false ∧
      m.StartVote v checked started =
        ({ activeVote := some v',
           cooldowns := (p.ID, started + cooldownNanos) ::
             m.cooldowns.filter (fun e => decide (e.1 ≠ p.ID)) }, none) := by
  unfold Manager.StartVote
  by_cases ha : m.HasActiveVote = true
  · left; exact ⟨_, by rw [if_pos ha]⟩
  · rw [if_neg ha]
    rcases hi : v.Instigator with _ | p
    · left; exact ⟨_, rfl⟩
    · by_cases hc : m.onCooldown p.ID checked = true
      · left; exact ⟨.cooldown, by simp only [hc, if_true]⟩
      · rcases hs : v.Start with err | v'
        · left; exact ⟨err, by simp only [hc, Bool.false_eq_true, if_false]⟩
        · right
          exact ⟨p, v', rfl, rfl, by simpa using ha, by simpa using hc,
            by simp only [hc, Bool.false_eq_true, if_false]⟩

theorem Manager.onCooldown_false (m : Manager) (id checked c : Nat)
    (h : m.onCooldown id checked = false) (hc : m.cooldownOf id = some c) : c ≤ checked := by
  unfold Manager.onCooldown at h
  rw [hc] at h
  simp only [decide_eq_false_iff_not] at h
  omega

/-- C20: `StartVote` returns an error and leaves the manager (vote slot and
cooldown table) as it was whenever a vote is active or the cooldown of the
instigator has not expired, and more generally whenever it returns an error. A
call that returns no error puts the started vote, which is active, into the
vote slot and sets the cooldown of the instigator to 120 seconds after the
start; from then on every `StartVote` by that instigator at a time before
the cooldown ends returns an error and changes nothing, whatever the vote
slot holds by then. -/
theorem C20_StartVote (m : Manager) (v : Vote) (checked started : Nat) :
    ((m.StartVote v checked started).2 ≠ none → (m.StartVote v checked started).1 = m) ∧
    (m.HasActiveVote = true → (m.StartVote v checked started).2 ≠ none) ∧
    (∀ p c, v.Instigator = some p → m.cooldownOf p.ID = some c → checked < c →
      (m.StartVote v checked started).2 ≠ none) ∧
    ((m.StartVote v checked started).2 = none →
      ∃ p v', v.Instigator = some p ∧ v.Start = .ok v' ∧ v'.IsActive = true ∧
        (m.StartVote v checked started).1.activeVote = some v' ∧
        (m.StartVote v checked started).1.HasActiveVote = true ∧
        (m.StartVote v checked started).1.cooldownOf p.ID = some (started + cooldownNanos) ∧
        ∀ (later : Manager) (v2 : Vote) (p2 : Player) (checked2 started2 : Nat),
          later.cooldowns = (m.StartVote v checked started).1.cooldowns →
          v2.Instigator = some p2 → p2.ID = p.ID → checked2 < started + cooldownNanos →
          (later.StartVote v2 checked2 started2).2 ≠ none ∧
            (later.StartVote v2 checked2 started2).1 = later) := by
  rcases Manager.StartVote_cases m v checked started with ⟨err, he⟩ | ⟨p, v', hi, hs, ha, hcool, he⟩
  · rw [he]
    refine ⟨fun _ => rfl, fun _ => by simp, fun _ _ _ _ _ => by simp, fun h => by cases h⟩
  · rw [he]
    refine ⟨fun h => absurd rfl h, fun h => ?_, fun q c hq hc hlt => ?_, fun _ => ?_⟩
    · rw [ha] at h; cases h
    · rw [hi] at hq
      rw [← Option.some.inj hq] at hc
      have := Manager.onCooldown_false m p.ID checked c hcool hc
      omega
    · have hact := Vote.Start_active v v' hs
      refine ⟨p, v', hi, hs, hact, rfl, ?_, cooldownOf_set _ _ _ _, ?_⟩
      · unfold Manager.HasActiveVote
        exact hact
      · intro later v2 p2 checked2 started2 hcd hi2 hid hlt
        have hc2 : later.cooldownOf p2.ID = some (started + cooldownNanos) := by
          unfold Manager.cooldownOf
          rw [hcd, hid]
          exact cooldownOf_set _ _ _ (some v')
        rcases Manager.StartVote_cases later v2 checked2 started2 with
          ⟨err, he2⟩ | ⟨q, _, hq, _, _, hcool2, _⟩
        · rw [he2]
          exact ⟨by simp, rfl⟩
        · rw [hi2] at hq
          rw [← Option.some.inj hq] at hcool2
          have := Manager.onCooldown_false later p2.ID checked2 _ hcool2 hc2
          omega

/-- The statement for the votekick of player 1 that starts at time 0 with no
vote active: the call succeeds; with the vote slot empty again, a second call
by player 1 fails after 119 seconds and succeeds after 120. -/
theorem C20_StartVote_witness :
    (NewManager.StartVote (.kick sampleKick) 0 0).2 = none ∧
      (NewManager.StartVote (.kick sampleKick) 0 0).1.HasActiveVote = true ∧
      (({ activeVote := none,
          cooldowns := (NewManager.StartVote (.kick sampleKick) 0 0).1.cooldowns } :
          Manager).StartVote (.kick sampleKick) 119000000000 119000000000).2
        = some .cooldown ∧
      (({ activeVote := none,
          cooldowns := (NewManager.StartVote (.kick sampleKick) 0 0).1.cooldowns } :
          Manager).StartVote (.kick sampleKick) 120000000000 120000000000).2 = none ∧
      ((NewManager.StartVote (.kick sampleKick) 0 0).1.StartVote (.map sampleMapVote)
          300000000000 300000000000).1 = (NewManager.StartVote (.kick sampleKick) 0 0).1 :=
  ⟨by decide, by decide, by decide, by decide,
   (C20_StartVote (NewManager.StartVote (.kick sampleKick) 0 0).1 (.map sampleMapVote)
      300000000000 300000000000).1 (by decide)⟩

end vote

namespace callbacks

open player

/-! ## Veto hooks of a callback chain (C21) -/

/-- Running one more hook extends the state by its effect. -/
theorem stateBefore_succ {σ : Type} (pre rest : List (σ → Bool × σ)) (hook : σ → Bool × σ)
    (s : σ) :
    stateBefore (pre ++ hook :: rest) s (pre.length + 1) =
      (hook (stateBefore (pre ++ hook :: rest) s pre.length)).2 := by
  unfold stateBefore
  have h1 : (pre ++ hook :: rest).take (pre.length + 1) = pre ++ [hook] := by
    rw [show pre ++ hook :: rest = (pre ++ [hook]) ++ rest by simp]
    rw [List.take_left' (by simp)]
  have h2 : (pre ++ hook :: rest).take pre.length = pre := List.take_left' rfl
  rw [h1, h2, List.foldl_append]
  rfl

/-- The answer of the hook that stands behind `pre`. -/
theorem answer_at {σ : Type} (pre rest : List (σ → Bool × σ)) (hook : σ → Bool × σ) (s : σ) :
    answer (pre ++ hook :: rest) s pre.length =
      (hook (stateBefore (pre ++ hook :: rest) s pre.length)).1 := by
  unfold answer
  have : (pre ++ hook :: rest).get? pre.length = some hook := by
    rw [List.get?_eq_getElem?, List.getElem?_append_right (Nat.le_refl _)]
    simp
  rw [this]

/-- The loop meets `VetoSpec` from every position that it reaches without a veto. -/
theorem vetoLoop_spec {σ : Type} (s0 : σ) :
    ∀ (rest pre : List (σ → Bool × σ)),
      (∀ j, j < pre.length → answer (pre ++ rest) s0 j = true) →
      VetoSpec (pre ++ rest) s0
        (vetoLoop rest pre.length (stateBefore (pre ++ rest) s0 pre.length)
          (List.range pre.length)) := by
  intro rest
  induction rest with
  | nil =>
    intro pre hpre
    simp only [vetoLoop, List.append_nil] at hpre ⊢
    refine ⟨⟨fun _ => hpre, fun _ => rfl⟩, ?_, ?_, ?_, ?_, ?_, ?_⟩
    · simp
    · simp
    · intro i hi
      apply hpre
      simp only [List.length_range] at hi
      omega
    · intro _
      simp
    · intro h
      cases h
    · simp
  | cons hook rest ih =>
    intro pre hpre
    have hans := answer_at pre rest hook s0
    have hst := stateBefore_succ pre rest hook s0
    rw [vetoLoop]
    by_cases hv : (hook (stateBefore (pre ++ hook :: rest) s0 pre.length)).1 = true
    · have hnot : ¬ ((!(hook (stateBefore (pre ++ hook :: rest) s0 pre.length)).1) = true) := by
        rw [hv]; decide
      rw [if_neg hnot]
      have hpre2 : ∀ j, j < (pre ++ [hook]).length →
          answer ((pre ++ [hook]) ++ rest) s0 j = true := by
        intro j hj
        rw [List.append_assoc, List.singleton_append]
        simp only [List.length_append, List.length_singleton] at hj
        by_cases hjl : j < pre.length
        · exact hpre j hjl
        · have : j = pre.length := by omega
          rw [this, hans, hv]
      have h := ih (pre ++ [hook]) hpre2
      rw [List.append_assoc, List.singleton_append] at h
      have hlen : (pre ++ [hook]).length = pre.length + 1 := by simp
      rw [hlen, hst, List.range_succ] at h
      exact h
    · have hf : (hook (stateBefore (pre ++ hook :: rest) s0 pre.length)).1 = false := by
        cases hb : (hook (stateBefore (pre ++ hook :: rest) s0 pre.length)).1
        · rfl
        · exact absurd hb hv
      have hyes : ((!(hook (stateBefore (pre ++ hook :: rest) s0 pre.length)).1) = true) := by
        rw [hf]; rfl
      rw [if_pos hyes]
      have hlen : (List.range pre.length ++ [pre.length]).length = pre.length + 1 := by simp
      refine ⟨⟨?_, ?_⟩, ?_, ?_, ?_, ?_, ?_, ?_⟩
      · intro h
        cases h
      · intro h
        have := h pre.length (by simp)
        rw [hans, hf] at this
        cases this
      · show List.range pre.length ++ [pre.length] = _
        rw [hlen, List.range_succ]
      · show (List.range pre.length ++ [pre.length]).length ≤ _
        rw [hlen]; simp
      · intro i hi
        have hi2 : i + 1 < pre.length + 1 := by
          have : i + 1 < (List.range pre.length ++ [pre.length]).length := hi
          rwa [hlen] at this
        exact hpre i (by omega)
      · intro h
        cases h
      · intro _
        show 0 < (List.range pre.length ++ [pre.length]).length ∧
          answer (pre ++ hook :: rest) s0
            ((List.range pre.length ++ [pre.length]).length - 1) = false
        rw [hlen]
        refine ⟨by omega, ?_⟩
        rw [Nat.add_sub_cancel, hans, hf]
      · show (hook (stateBefore (pre ++ hook :: rest) s0 pre.length)).2 =
          stateBefore (pre ++ hook :: rest) s0 (List.range pre.length ++ [pre.length]).length
        rw [hlen, hst]

/-- The loop from the first callback on meets `VetoSpec`. -/
theorem vetoLoop_start {σ : Type} (hooks : List (σ → Bool × σ)) (s : σ) :
    VetoSpec hooks s (vetoLoop hooks 0 s []) := by
  have h := vetoLoop_spec s hooks [] (fun j hj => absurd hj (Nat.not_lt_zero j))
  simpa [stateBefore] using h

/-- Registering callbacks one after the other keeps their order. -/
theorem Register_foldl {σ : Type} (cbs : List (Callbacks σ)) (c : CallbackChain σ) :
    (cbs.foldl CallbackChain.Register c).callbacks = c.callbacks ++ cbs := by
  induction cbs generalizing c with
  | nil => simp
  | cons cb rest ih =>
    rw [List.foldl_cons, ih]
    simp [CallbackChain.Register]

/-- C21: for the chain that holds the callbacks `cbs` in the order of their
registration, each of `OnChatMessage`, `OnBlockPlace`, `OnBlockDestroy`,
`OnIntelPickup` and `OnIntelCapture` returns `true` exactly when every
registered callback returns `true` (so `true` for the empty chain), invokes the
callbacks in registration order, each at most once, and invokes none after the
first one that returns `false`. -/
theorem C21_veto_chain {σ : Type} (cbs : List (Callbacks σ)) (p : Player) (message : String)
    (x y z : Int) (team : Nat) (s : σ) :
    (cbs.foldl CallbackChain.Register (NewCallbackChain σ)).callbacks = cbs ∧
    VetoSpec (cbs.map (fun cb => cb.OnChatMessage p message)) s
      ((cbs.foldl CallbackChain.Register (NewCallbackChain σ)).OnChatMessage p message s) ∧
    VetoSpec (cbs.map (fun cb => cb.OnBlockPlace p x y z)) s
      ((cbs.foldl CallbackChain.Register (NewCallbackChain σ)).OnBlockPlace p x y z s) ∧
    VetoSpec (cbs.map (fun cb => cb.OnBlockDestroy p x y z)) s
      ((cbs.foldl CallbackChain.Register (NewCallbackChain σ)).OnBlockDestroy p x y z s) ∧
    VetoSpec (cbs.map (fun cb => cb.OnIntelPickup p team)) s
      ((cbs.foldl CallbackChain.Register (NewCallbackChain σ)).OnIntelPickup p team s) ∧
    VetoSpec (cbs.map (fun cb => cb.OnIntelCapture p team)) s
      ((cbs.foldl CallbackChain.Register (NewCallbackChain σ)).OnIntelCapture p team s) := by
  have hreg : (cbs.foldl CallbackChain.Register (NewCallbackChain σ)).callbacks = cbs := by
    rw [Register_foldl]
    simp [NewCallbackChain]
  refine ⟨hreg, ?_, ?_, ?_, ?_, ?_⟩
  · unfold CallbackChain.OnChatMessage
    rw [hreg]
    exact vetoLoop_start _ s
  · unfold CallbackChain.OnBlockPlace
    rw [hreg]
    exact vetoLoop_start _ s
  · unfold CallbackChain.OnBlockDestroy
    rw [hreg]
    exact vetoLoop_start _ s
  · unfold CallbackChain.OnIntelPickup
    rw [hreg]
    exact vetoLoop_start _ s
  · unfold CallbackChain.OnIntelCapture
    rw [hreg]
    exact vetoLoop_start _ s

/-- Three callbacks of which the second vetoes: the chain returns `false` after
two invocations and the third callback does not run. -/
theorem veto_chain_example :
    ((([counting true, counting false, counting true].foldl CallbackChain.Register
        (NewCallbackChain Nat)).OnBlockPlace (player.New 1) 3 4 5 0).result = false) ∧
    ((([counting true, counting false, counting true].foldl CallbackChain.Register
        (NewCallbackChain Nat)).OnBlockPlace (player.New 1) 3 4 5 0).invoked = [0, 1]) ∧
    ((([counting true, counting false, counting true].foldl CallbackChain.Register
        (NewCallbackChain Nat)).OnBlockPlace (player.New 1) 3 4 5 0).state = 2) := by
  refine ⟨rfl, rfl, rfl⟩

end callbacks

namespace server

open protocol player

/-! ## Rate limiting (C22, C28) -/

/-- Evaluation for C22: of 200 position packets in one window under the default
limits (burst 150, position limit 60), packets 1 to 60 are accepted with the
violation count at 0 and packets 61 to 64 are rejected with the count going
from 1 to 4. On packet 65 the count becomes 5 and `DisconnectLater(0)` is
called, but the call does not return `false`: it has released the mutex itself
and the deferred `Unlock` then meets the mutex unlocked, which is fatal, so no
later packet is handled. -/
theorem C22_fifth_rejection_is_fatal :
    positionBurst.map (fun r => (r.returned, r.counters.RateLimitViolations)) =
      List.replicate 60 (some true, 0) ++
        [(some false, 1), (some false, 2), (some false, 3), (some false, 4), (none, 5)] ∧
    (positionBurst.get? 64).map (fun r => r.calls) =
      some [Call.Lock, Call.Unlock, Call.DisconnectLater 0, Call.Unlock] ∧
    positionBurst.length = 65 := by
  decide

/-- Evaluation for C28: for a player with four violations the next position
packet over the limit makes `checkRateLimit` call `Lock` once and `Unlock`
twice, the second time on the mutex that is no longer held. A rejection below
five violations and an accepted packet call each once. -/
theorem C28_double_unlock :
    (checkRateLimit defaultRateLimit fourViolations PacketTypePositionData 5).calls =
      [Call.Lock, Call.Unlock, Call.DisconnectLater 0, Call.Unlock] ∧
    locks (checkRateLimit defaultRateLimit fourViolations PacketTypePositionData 5).calls = 1 ∧
    unlocks (checkRateLimit defaultRateLimit fourViolations PacketTypePositionData 5).calls = 2 ∧
    replay (checkRateLimit defaultRateLimit fourViolations PacketTypePositionData 5).calls false
      = none ∧
    replay [Call.Lock, Call.Unlock, Call.DisconnectLater 0] false = some false ∧
    (checkRateLimit defaultRateLimit fourViolations PacketTypePositionData 5).returned = none ∧
    (checkRateLimit defaultRateLimit (RateCounters.fresh 0) PacketTypePositionData 5).calls =
      [Call.Lock, Call.Unlock] ∧
    (checkRateLimit defaultRateLimit { fourViolations with RateLimitViolations := 0 }
      PacketTypePositionData 5).calls = [Call.Lock, Call.Unlock] := by
  decide

/-- A violation branch either stays below five violations, unlocks once and
returns `false`, or reaches five, unlocks twice and does not return. -/
theorem violation_calls (p : RateCounters) :
    ((violation p).calls = [Call.Lock, Call.Unlock] ∧ (violation p).returned = some false ∧
      (violation p).counters.RateLimitViolations < 5) ∨
    ((violation p).calls = [Call.Lock, Call.Unlock, Call.DisconnectLater 0, Call.Unlock] ∧
      (violation p).returned = none ∧ (violation p).counters.RateLimitViolations ≥ 5) := by
  unfold violation
  simp only []
  by_cases h : p.RateLimitViolations + 1 ≥ 5
  · rw [if_pos h]
    exact Or.inr ⟨rfl, rfl, h⟩
  · rw [if_neg h]
    exact Or.inl ⟨rfl, rfl, not_le.mp h⟩

/-- The counters that a violation branch leaves. -/
theorem violation_counters (p : RateCounters) :
    (violation p).counters = { p with RateLimitViolations := p.RateLimitViolations + 1 } := by
  unfold violation
  simp only []
  split_ifs <;> rfl

/-- Every call of `checkRateLimit` with rate limiting enabled locks once; it
unlocks once and returns, except when the violation count reaches five, where
it unlocks twice and does not return. -/
theorem checkRateLimit_calls (cfg : RateLimitConfig) (p : RateCounters) (packetType now : Nat)
    (h : cfg.Enabled = true) :
    ((checkRateLimit cfg p packetType now).calls = [Call.Lock, Call.Unlock] ∧
      (checkRateLimit cfg p packetType now).returned ≠ none) ∨
    ((checkRateLimit cfg p packetType now).calls =
        [Call.Lock, Call.Unlock, Call.DisconnectLater 0, Call.Unlock] ∧
      (checkRateLimit cfg p packetType now).returned = none ∧
      (checkRateLimit cfg p packetType now).counters.RateLimitViolations ≥ 5) := by
  have hv : ∀ q : RateCounters,
      ((violation q).calls = [Call.Lock, Call.Unlock] ∧ (violation q).returned ≠ none) ∨
      ((violation q).calls = [Call.Lock, Call.Unlock, Call.DisconnectLater 0, Call.Unlock] ∧
        (violation q).returned = none ∧ (violation q).counters.RateLimitViolations ≥ 5) := by
    intro q
    rcases violation_calls q with ⟨h1, h2, _⟩ | h3
    · left
      refine ⟨h1, ?_⟩
      rw [h2]
      exact Option.some_ne_none _
    · exact Or.inr h3
  unfold checkRateLimit
  rw [h]
  simp only [Bool.not_true, Bool.false_eq_true, if_false]
  split_ifs
  · exact hv _
  · exact hv _
  · left
    exact ⟨rfl, Option.some_ne_none _⟩
  · exact hv _
  · exact hv _
  · left
    exact ⟨rfl, Option.some_ne_none _⟩

end server

namespace server

open protocol player

/-! ## Joining through other packets (C23) -/

/-- Evaluation for C23: player 1 is in state `Loading` and not alive, and every
name is banned. A `ChangeTeam` packet to team 1 and a `ChangeWeapon` packet each
leave the player in state `Ready` and alive, while an `ExistingPlayer` packet is
ignored in state `Loading`; the same two packets do the same to a player in
state `WaitingForExistingPlayer`. -/
theorem C23_ready_without_join :
    (loadingGame.Players.Get 1).map (fun p => (p.State, p.Alive)) =
      some (PlayerStateLoading, false) ∧
    (handlePacket id (fun _ => true) loadingGame 1 [29, 1, 1] true ⟨0, 0, 0⟩).map
      (fun h => (h.state.Players.Get 1).map (fun p => (p.State, p.Alive))) =
      some (some (PlayerStateReady, true)) ∧
    (handlePacket id (fun _ => true) loadingGame 1 [30, 1, 1] true ⟨0, 0, 0⟩).map
      (fun h => (h.state.Players.Get 1).map (fun p => (p.State, p.Alive))) =
      some (some (PlayerStateReady, true)) ∧
    (handlePacket id (fun _ => true) loadingGame 1
        [9, 1, 0, 0, 2, 0, 0, 0, 0, 1, 2, 3, 65] true ⟨0, 0, 0⟩).map
      (fun h => (h.state.Players.Get 1).map (fun p => (p.State, p.Alive))) =
      some (some (PlayerStateLoading, false)) ∧
    (handlePacket id (fun _ => true)
        { loadingGame with
          Players := loadingGame.Players.modify 1
            (fun q => { q with State := PlayerStateWaitingForExistingPlayer }) }
        1 [29, 1, 1] true ⟨0, 0, 0⟩).map
      (fun h => (h.state.Players.Get 1).map (fun p => (p.State, p.Alive))) =
      some (some (PlayerStateReady, true)) ∧
    (handlePacket id (fun _ => true)
        { loadingGame with
          Players := loadingGame.Players.modify 1
            (fun q => { q with State := PlayerStateWaitingForExistingPlayer }) }
        1 [30, 1, 1] true ⟨0, 0, 0⟩).map
      (fun h => (h.state.Players.Get 1).map (fun p => (p.State, p.Alive))) =
      some (some (PlayerStateReady, true)) ∧
    (handlePacket id (fun _ => true)
        { loadingGame with
          Players := loadingGame.Players.modify 1
            (fun q => { q with State := PlayerStateWaitingForExistingPlayer }) }
        1 [9, 1, 0, 0, 2, 0, 0, 0, 0, 1, 2, 3, 65] true ⟨0, 0, 0⟩).map
      (fun h => ((h.state.Players.Get 1).map (fun p => (p.State, p.Alive)), h.disconnect)) =
      some (some (PlayerStateWaitingForExistingPlayer, false), some DisconnectReasonBanned) := by
  decide

/-! ## Team ids on the wire (C24) -/

/-- The packets of a spectator: every builder but that of `ShortPlayerData`
writes the team 2. -/
theorem spectator_packets (p : Player) (spawnPos : Vector3f) :
    (existingPlayerPacket (p.SetTeam spectatorTeamID)).Team = 2 ∧
    (newPlayerPacket (p.SetTeam spectatorTeamID)).Team = 2 ∧
    (spectatorConfirmationPacket (p.SetTeam spectatorTeamID)).Team = 2 ∧
    (respawnPacket (p.SetTeam spectatorTeamID) spawnPos).Team = 2 ∧
    (changeTeamPacket (p.SetTeam spectatorTeamID)).TeamID = 2 ∧
    (shortPlayerDataPacket (p.SetTeam spectatorTeamID)).Team = 255 :=
  ⟨rfl, rfl, rfl, rfl, rfl, rfl⟩

/-- Evaluation for C24: the two conversions map 0, 1, 2 to 0, 1, 255 and back,
but when the ready player 1 of team 0 asks for the spectator team (wire id 2),
`changePlayerTeam` sends a `ShortPlayerData` packet with the team 255 and then a
`CreatePlayer` packet with the team 2. -/
theorem C24_short_player_data_carries_255 :
    toInternalTeamID 0 = some 0 ∧ toInternalTeamID 1 = some 1 ∧ toInternalTeamID 2 = some 255 ∧
    toNetworkTeamID 0 = 0 ∧ toNetworkTeamID 1 = 1 ∧ toNetworkTeamID 255 = 2 ∧
    (handlePacket id (fun _ => false) readyGame 1 [29, 1, 2] true ⟨0, 0, 0⟩).map
      (fun h => h.sent.map (fun o => (o, o.team))) =
      some [(Outgoing.shortPlayerData
              { PacketID := PacketTypeShortPlayerData, PlayerID := 1, Team := 255, Weapon := 0 },
             255),
            (Outgoing.createPlayer
              { PacketID := PacketTypeCreatePlayer, PlayerID := 1, Weapon := 0, Team := 2,
                X := 0x40000000, Y := 0x40000000, Z := 0x40000000, Name := [] },
             2)] := by
  decide

/-! ## Damage to a dead player (C29) -/

/-- Evaluation for C29: player 1 is dead (state `Dead`, 0 hit points, respawn
due at `3000000007`). A further `damagePlayer` call for 10 points returns
`true` again and moves the respawn time to the new value `9000000000`; the
number of deaths stays 1. -/
theorem C29_dead_player_killed_again :
    (deadGame.Players.Get 1).map (fun p => (p.State, p.Alive, p.HP, p.RespawnTime, p.Deaths)) =
      some (PlayerStateDead, false, 0, 3000000007, 1) ∧
    (damagePlayer deadGame 1 10 ⟨0, 0, 0⟩ 0 9000000000).2 = true ∧
    ((damagePlayer deadGame 1 10 ⟨0, 0, 0⟩ 0 9000000000).1.Players.Get 1).map
      (fun p => (p.State, p.Alive, p.HP, p.RespawnTime, p.Deaths)) =
      some (PlayerStateDead, false, 0, 9000000000, 1) := by
  decide

/-- The answer of `damagePlayer` is the test `HP == 0` after `Damage`: it is
`true` for every registered player that has no hit points left, whether or not
this call took them. -/
theorem damagePlayer_result (gs : gamestate.GameState) (playerID damage : Nat)
    (source : Vector3f) (damageType respawnAt : Nat) (p : Player)
    (h : gs.Players.Get playerID = some p) :
    (damagePlayer gs playerID damage source damageType respawnAt).2 =
      decide ((p.Damage damage source damageType).HP = 0) := by
  unfold damagePlayer
  rw [h]
  simp only []
  split_ifs with h0
  · simp [h0]
  · simp [h0]

end server

namespace vote

open player

/-! ## A votekick whose requirement is met at the start (C30) -/

/-- Evaluation for C30: a votekick among five players at 35 percent requires
one yes vote. `Start` records the instigator's yes vote and leaves the vote
active although the yes count 1 has reached the requirement 1; a following
`no` vote of player 2 makes no call of `onSuccess` and leaves the vote active
with no vote remaining; only a further yes vote, of player 3, ends the vote
with one call of `onSuccess`, and without it `Timeout` ends the vote with no
such call. -/
theorem C30_met_at_start_stays_active :
    sampleKick.Start.toOption = some startedKick ∧
    startedKick.active = true ∧ startedKick.yesVotes = 1 ∧ startedKick.getRequiredVotes = 1 ∧
    startedKick.getVotesRemaining = 0 ∧
    (startedKick.CastVote (player.New 2) (some false)).2 = (none, 0) ∧
    (startedKick.CastVote (player.New 2) (some false)).1.active = true ∧
    (startedKick.CastVote (player.New 2) (some false)).1.getVotesRemaining = 0 ∧
    (((startedKick.CastVote (player.New 2) (some false)).1).CastVote (player.New 3)
      (some true)).2 = (none, 1) ∧
    (((startedKick.CastVote (player.New 2) (some false)).1).CastVote (player.New 3)
      (some true)).1.active = false ∧
    ((startedKick.CastVote (player.New 2) (some false)).1).Timeout.active = false := by
  decide

/-- Once a vote is recorded, a `no` never ends the vote, and a `yes` ends it
with one call of `onSuccess` exactly when no vote remains. -/
theorem tally_spec (v : Votekick) :
    v.tally false = (v, none, 0) ∧
    (v.getVotesRemaining = 0 → v.tally true = ({ v with active := false }, none, 1)) ∧
    (v.getVotesRemaining ≠ 0 → v.tally true = (v, none, 0)) := by
  refine ⟨?_, ?_, ?_⟩
  · unfold Votekick.tally
    rw [if_neg]
    rintro ⟨h, _⟩
    cases h
  · intro h
    unfold Votekick.tally
    rw [if_pos ⟨rfl, h⟩]
    rfl
  · intro h
    unfold Votekick.tally
    rw [if_neg]
    rintro ⟨_, h0⟩
    exact h h0

end vote

namespace vxl

/-! ## Span headers that ask for more than they carry (C27) -/

/-- Evaluation for C27: for a 1 x 1 x 1 map, the four bytes of a span header
with length 1, colour start 0 and colour end 5 pass both tests of
`loadFromData`, and the colour loop then indexes the empty `colorData`; the
header with length 0, colour start 5 and colour end 0 has the data length -12
and makes the slice expression `data[offset+4 : offset+length]` fail. Both
calls of `Create` end in a run time panic, not in a returned error. -/
theorem C27_span_header_panics :
    Create 1 1 1 (some [1, 0, 5, 0]) = .error .indexPanic ∧
    Create 1 1 1 (some [0, 5, 0, 0]) = .error .indexPanic ∧
    (⟨1, 0, 5, 0⟩ : span).dataLength = 4 ∧ (⟨0, 5, 0, 0⟩ : span).dataLength = -12 := by
  refine ⟨rfl, rfl, rfl, rfl⟩

end vxl

namespace vxl

/-! ## Chunks as finite maps (C26) -/

/-- On a sound chunk `get` returns a colour exactly for the entries. -/
theorem chunk.get_some_iff (c : chunk) (h : c.sorted) (p color : Nat) :
    c.get p = some color ↔ (⟨p, color⟩ : block) ∈ c.entries := by
  constructor
  · intro hg
    unfold chunk.get at hg
    simp only [] at hg
    by_cases hf : c.search p < c.count ∧ (c.at (c.search p)).pos = p
    · rw [if_pos hf] at hg
      have hc : (c.at (c.search p)).color = color := Option.some.inj hg
      refine (chunk.mem_entries c h.1 _).2 ⟨c.search p, hf.1, ?_⟩
      have h2 := hf.2
      rcases hx : c.at (c.search p) with ⟨bp, bc⟩
      rw [hx] at hc h2
      simp only at hc h2
      rw [hc, h2]
    · rw [if_neg hf] at hg
      cases hg
  · exact chunk.get_of_mem c h p color

/-- On a sound chunk `get` reports a position absent exactly when no entry has it. -/
theorem chunk.get_none_iff (c : chunk) (h : c.sorted) (p : Nat) :
    c.get p = none ↔ ∀ b ∈ c.entries, b.pos ≠ p := by
  constructor
  · intro hg b hb hp
    have hm : (⟨p, b.color⟩ : block) ∈ c.entries := by
      rw [← hp]
      exact hb
    rw [chunk.get_of_mem c h p b.color hm] at hg
    cases hg
  · intro hn
    cases hg : c.get p with
    | none => rfl
    | some color =>
      exact absurd rfl (hn _ ((chunk.get_some_iff c h p color).1 hg))

/-- Two sound chunks with the same entries at a position give the same answer there. -/
theorem chunk.get_congr (c d : chunk) (hc : c.sorted) (hd : d.sorted) (q : Nat)
    (hm : ∀ color, (⟨q, color⟩ : block) ∈ c.entries ↔ (⟨q, color⟩ : block) ∈ d.entries) :
    c.get q = d.get q := by
  cases hg : d.get q with
  | none =>
    rw [chunk.get_none_iff c hc]
    intro b hb hp
    have hb2 : (⟨q, b.color⟩ : block) ∈ c.entries := by
      rw [← hp]
      exact hb
    exact (chunk.get_none_iff d hd q).1 hg _ ((hm b.color).1 hb2) rfl
  | some color =>
    rw [chunk.get_some_iff c hc, hm, ← chunk.get_some_iff d hd]
    exact hg

/-- The entries after `insert`: the colour of the entry found is replaced, or a
new entry is put at the index that the search returns. -/
theorem chunk.insert_entries_eq (c : chunk) (h : c.count ≤ c.blocks.length) (p color : Nat) :
    (c.insert p color).entries =
      if c.search p < c.count ∧ (c.at (c.search p)).pos = p then
        c.entries.set (c.search p) ⟨p, color⟩
      else c.entries.take (c.search p) ++ ⟨p, color⟩ :: c.entries.drop (c.search p) := by
  unfold chunk.insert
  by_cases hf : c.search p < c.count ∧ (c.at (c.search p)).pos = p
  · simp only [hf, and_self, if_true]
    simp only [chunk.entries, List.set_take]
  · rw [if_neg hf, if_neg hf]
    have hidx := chunk.search_le c p
    have hgl := (chunk.grow_length c h).1
    have hgc := chunk.grow_count c
    have hge := chunk.grow_entries c h
    simp only [hgc]
    have hA : (c.grow.blocks.take (c.search p)).length = c.search p := by
      rw [List.length_take]; omega
    have hB : ((c.grow.blocks.drop (c.search p)).take (c.count - c.search p)).length =
        c.count - c.search p := by
      rw [List.length_take, List.length_drop]; omega
    have hlen : (c.grow.blocks.take (c.search p) ++ [(⟨p, color⟩ : block)] ++
        (c.grow.blocks.drop (c.search p)).take (c.count - c.search p)).length = c.count + 1 := by
      simp only [List.length_append, hA, hB, List.length_singleton]; omega
    simp only [chunk.entries]
    rw [List.take_append_of_le_length (by rw [hlen]), List.take_of_length_le (by rw [hlen])]
    have h1 : c.grow.blocks.take (c.search p) = (c.blocks.take c.count).take (c.search p) := by
      rw [← hge, List.take_take, Nat.min_eq_left hidx]
    have h2 : (c.grow.blocks.drop (c.search p)).take (c.count - c.search p) =
        (c.blocks.take c.count).drop (c.search p) := by
      rw [← hge, List.drop_take]
    rw [h1, h2]
    simp

/-- The chunk after `insert` is sound and its slice is not empty. -/
theorem chunk.insert_sorted (c : chunk) (h : c.sorted) (p color : Nat) :
    (c.insert p color).sorted ∧ 0 < (c.insert p color).blocks.length := by
  have hle := (chunk.insert_entries c h.1 p color).1
  have hs := chunk.search_spec c h p
  have hl := chunk.entries_length c h.1
  have hpos : 0 < (c.insert p color).blocks.length := by
    unfold chunk.insert
    by_cases hf : c.search p < c.count ∧ (c.at (c.search p)).pos = p
    · simp only [hf, and_self, if_true, List.length_set]
      have := h.1
      omega
    · rw [if_neg hf]
      simp only [List.length_append, List.length_singleton]
      omega
  refine ⟨⟨hle, ?_⟩, hpos⟩
  rw [chunk.insert_entries_eq c h.1]
  by_cases hf : c.search p < c.count ∧ (c.at (c.search p)).pos = p
  · rw [if_pos hf]
    have hmap : (c.entries.set (c.search p) ⟨p, color⟩).map block.pos = c.entries.map block.pos := by
      rw [List.map_set]
      apply List.ext_getElem
      · simp
      · intro a h1 h2
        rw [List.getElem_set]
        split
        · rename_i heq
          subst heq
          simp only [List.getElem_map]
          rw [chunk.entries_getElem]
          exact hf.2.symm
        · rfl
    rw [hmap]
    exact h.2
  · rw [if_neg hf]
    have hsplit : c.entries.map block.pos =
        (c.entries.take (c.search p)).map block.pos ++
          (c.entries.drop (c.search p)).map block.pos := by
      rw [← List.map_append, List.take_append_drop]
    have hP := h.2
    rw [hsplit, List.pairwise_append] at hP
    simp only [List.map_append, List.map_cons]
    rw [List.pairwise_append]
    refine ⟨hP.1, ?_, ?_⟩
    · rw [List.pairwise_cons]
      refine ⟨?_, hP.2.1⟩
      intro a ha
      obtain ⟨b, hb, rfl⟩ := List.mem_map.1 ha
      obtain ⟨i, hi, rfl⟩ := List.mem_iff_getElem.1 hb
      rw [List.length_drop, hl] at hi
      rw [List.getElem_drop, chunk.entries_getElem]
      have hge := hs.2.2 (c.search p + i) (by omega) (by omega)
      rcases Nat.eq_or_lt_of_le hge with heq | hlt
      · exfalso
        by_cases hi0 : i = 0
        · subst hi0
          exact hf ⟨by omega, heq.symm⟩
        · have hlt2 := chunk.sorted_at c h (c.search p) (c.search p + i) (by omega) (by omega)
          have hge0 := hs.2.2 (c.search p) (Nat.le_refl _) (by omega)
          omega
      · exact hlt
    · intro a ha b hb
      rcases List.mem_cons.1 hb with heq | hb
      · obtain ⟨e, he, rfl⟩ := List.mem_map.1 ha
        obtain ⟨i, hi, rfl⟩ := List.mem_iff_getElem.1 he
        have hi2 : i < c.search p := by
          rw [List.length_take] at hi
          omega
        rw [List.getElem_take, chunk.entries_getElem, heq]
        exact hs.2.1 i hi2
      · exact hP.2.2 a ha b hb

/-- The chunk and the answer of `remove` when the position has no entry. -/
theorem chunk.remove_absent (c : chunk) (p : Nat)
    (hf : ¬ (c.search p < c.count ∧ (c.at (c.search p)).pos = p)) :
    c.remove p = (c, false) := by
  unfold chunk.remove
  have hyes : c.search p ≥ c.count ∨ (c.at (c.search p)).pos ≠ p := by
    by_cases h1 : c.search p < c.count
    · exact Or.inr (fun h2 => hf ⟨h1, h2⟩)
    · exact Or.inl (by omega)
  simp only [hyes, if_true]

/-- The slice stays non-empty under `remove`. -/
theorem chunk.remove_length_pos (c : chunk) (h : c.count ≤ c.blocks.length)
    (h0 : 0 < c.blocks.length) (p : Nat) : 0 < (c.remove p).1.blocks.length := by
  by_cases hf : c.search p < c.count ∧ (c.at (c.search p)).pos = p
  · unfold chunk.remove
    have hnot : ¬ (c.search p ≥ c.count ∨ (c.at (c.search p)).pos ≠ p) := by
      intro hc; rcases hc with hc | hc
      · omega
      · exact hc hf.2
    simp only [hnot, if_false]
    have hml : (c.blocks.take (c.search p) ++
        (c.blocks.drop (c.search p + 1)).take (c.count - 1 - c.search p) ++
        c.blocks.drop (c.count - 1)).length = c.blocks.length := by
      simp only [List.length_append, List.length_take, List.length_drop]; omega
    split
    · split
      · rename_i hpos
        simp only [List.length_append, List.length_replicate]
        omega
      · show 0 < _
        rw [hml]; exact h0
    · show 0 < _
      rw [hml]; exact h0
  · rw [chunk.remove_absent c p hf]
    exact h0

/-- The chunk after `remove` is sound. -/
theorem chunk.remove_sorted (c : chunk) (h : c.sorted) (p : Nat) : (c.remove p).1.sorted := by
  by_cases hf : c.search p < c.count ∧ (c.at (c.search p)).pos = p
  · have hr := chunk.remove_entries c h.1 p hf
    refine ⟨hr.2.1, ?_⟩
    rw [hr.2.2]
    exact List.Pairwise.sublist (List.Sublist.map _ (List.eraseIdx_sublist _ _)) h.2
  · rw [chunk.remove_absent c p hf]
    exact h

/-- The answer of `remove` tells whether the position had an entry. -/
theorem chunk.remove_result (c : chunk) (h : c.sorted) (p : Nat) :
    (c.remove p).2 = (c.get p).isSome := by
  by_cases hf : c.search p < c.count ∧ (c.at (c.search p)).pos = p
  · rw [(chunk.remove_entries c h.1 p hf).1]
    unfold chunk.get
    simp only [hf, and_self, if_true, Option.isSome_some]
  · rw [chunk.remove_absent c p hf]
    unfold chunk.get
    simp only [hf, if_false, Option.isSome_none]

/-- C26: on a chunk whose first `count` entries increase strictly by position,
with `count <= len(blocks)` and a non-empty slice (as `newChunk` allocates it),
`insert` and `remove` keep these properties, and `get`, `insert` and `remove`
behave as lookup, update and delete of a finite map: after `insert(p, color)`
`get(p)` is `(color, true)`, after `remove(p)` `get(p)` reports the position
absent, `remove` reports whether the position was present, and `get` of every
other position `q` is unchanged. -/
theorem C26_chunk_finite_map (c : chunk) (h : c.sorted) (h0 : 0 < c.blocks.length)
    (p color q : Nat) :
    ((c.insert p color).sorted ∧ 0 < (c.insert p color).blocks.length) ∧
    ((c.remove p).1.sorted ∧ 0 < (c.remove p).1.blocks.length) ∧
    (c.insert p color).get p = some color ∧
    (c.remove p).1.get p = none ∧
    (c.remove p).2 = (c.get p).isSome ∧
    (q ≠ p → (c.insert p color).get q = c.get q) ∧
    (q ≠ p → (c.remove p).1.get q = c.get q) := by
  have hi := chunk.insert_sorted c h p color
  have hr := chunk.remove_sorted c h p
  have hl := chunk.entries_length c h.1
  refine ⟨hi, ⟨hr, chunk.remove_length_pos c h.1 h0 p⟩, ?_, ?_, chunk.remove_result c h p, ?_, ?_⟩
  · apply chunk.get_of_mem _ hi.1
    rw [chunk.insert_entries_eq c h.1]
    by_cases hf : c.search p < c.count ∧ (c.at (c.search p)).pos = p
    · rw [if_pos hf]
      exact List.mem_set _ _ (by rw [hl]; exact hf.1) _
    · rw [if_neg hf]
      simp
  · by_cases hf : c.search p < c.count ∧ (c.at (c.search p)).pos = p
    · rw [chunk.get_none_iff _ hr]
      exact chunk.remove_no_entry c h p hf
    · rw [chunk.remove_absent c p hf]
      unfold chunk.get
      simp only [hf, if_false]
  · intro hq
    apply chunk.get_congr _ _ hi.1 h
    intro col
    rw [chunk.insert_entries_eq c h.1]
    by_cases hf : c.search p < c.count ∧ (c.at (c.search p)).pos = p
    · rw [if_pos hf]
      constructor
      · intro hm
        rcases List.mem_or_eq_of_mem_set hm with hm | heq
        · exact hm
        · exact absurd (congrArg block.pos heq) hq
      · intro hm
        obtain ⟨a, ha, hat⟩ := List.mem_iff_getElem.1 hm
        have hne : c.search p ≠ a := by
          intro heq
          subst heq
          rw [chunk.entries_getElem] at hat
          have := congrArg block.pos hat
          rw [hf.2] at this
          exact hq this.symm
        refine List.mem_iff_getElem.2 ⟨a, by simpa using ha, ?_⟩
        rw [List.getElem_set_ne hne]
        exact hat
    · rw [if_neg hf]
      constructor
      · intro hm
        rcases List.mem_append.1 hm with hm | hm
        · exact List.mem_of_mem_take hm
        · rcases List.mem_cons.1 hm with heq | hm
          · exact absurd (congrArg block.pos heq) hq
          · exact List.mem_of_mem_drop hm
      · intro hm
        rw [← List.take_append_drop (c.search p) c.entries] at hm
        rcases List.mem_append.1 hm with hm | hm
        · exact List.mem_append.2 (Or.inl hm)
        · exact List.mem_append.2 (Or.inr (List.mem_cons_of_mem _ hm))
  · intro hq
    apply chunk.get_congr _ _ hr h
    intro col
    by_cases hf : c.search p < c.count ∧ (c.at (c.search p)).pos = p
    · rw [(chunk.remove_entries c h.1 p hf).2.2]
      constructor
      · intro hm
        exact (List.eraseIdx_sublist _ _).subset hm
      · intro hm
        obtain ⟨a, ha, hat⟩ := List.mem_iff_getElem.1 hm
        rw [List.mem_eraseIdx_iff_getElem]
        refine ⟨a, ha, ?_, hat⟩
        intro heq
        subst heq
        rw [chunk.entries_getElem] at hat
        have := congrArg block.pos hat
        rw [hf.2] at this
        exact hq this.symm
    · rw [chunk.remove_absent c p hf]

/-- C26 at the chunk that holds the positions 3 and 5: position 4 is inserted
and removed, position 5 is looked at. -/
theorem C26_chunk_finite_map_witness :
    ((newChunk.insert 5 1).insert 3 2).sorted ∧
    ((((newChunk.insert 5 1).insert 3 2).insert 4 7).get 4 = some 7) ∧
    ((((newChunk.insert 5 1).insert 3 2).insert 4 7).get 5 = some 1) :=
  ⟨by decide,
   (C26_chunk_finite_map ((newChunk.insert 5 1).insert 3 2) (by decide) (by decide) 4 7 5).2.2.1,
   ((C26_chunk_finite_map ((newChunk.insert 5 1).insert 3 2) (by decide) (by decide)
      4 7 5).2.2.2.2.2.1 (by decide)).trans (by decide)⟩

end vxl

namespace mapmeta

/-! ## Map metadata expressions (C25) -/

/-- The assignments are evaluated in their order: the last one sees the
environment that the ones before it have built, and an assignment whose
expression fails leaves the environment as it is. -/
theorem evalAssignments_append (assignments : List assignment) (last : assignment) (env : Env) :
    evalAssignments (assignments ++ [last]) env =
      match evaluateExpression last.Expr (evalAssignments assignments env) with
      | .ok val => setKey (evalAssignments assignments env) last.Name val
      | .error _ => evalAssignments assignments env := by
  unfold evalAssignments
  rw [List.foldl_append]
  rfl

/-- A name that an earlier assignment has set is in scope with its value. -/
theorem getKey_setKey (env : Env) (name : List Nat) (val : Value) :
    getKey (setKey env name val) name = some val := by
  unfold getKey setKey
  simp

/-- Multiplication, division and floor division bind tighter than addition and
subtraction, operators of one level associate to the left, and parentheses
override both, for all operands. -/
theorem precedence (a b c : Nat) :
    (evaluateExpression (ascii "x + y * z") (xyz a b c)).toOption.map Value.num =
      some (f64.add a (f64.mul b c)) ∧
    (evaluateExpression (ascii "x * y + z") (xyz a b c)).toOption.map Value.num =
      some (f64.add (f64.mul a b) c) ∧
    (evaluateExpression (ascii "x - y / z") (xyz a b c)).toOption.map Value.num =
      some (f64.sub a (f64.div b c)) ∧
    (evaluateExpression (ascii "x / y - z") (xyz a b c)).toOption.map Value.num =
      some (f64.sub (f64.div a b) c) ∧
    (evaluateExpression (ascii "x + y // z") (xyz a b c)).toOption.map Value.num =
      some (f64.add a (f64.floor (f64.div b c))) ∧
    (evaluateExpression (ascii "x - y - z") (xyz a b c)).toOption.map Value.num =
      some (f64.sub (f64.sub a b) c) ∧
    (evaluateExpression (ascii "x - y + z") (xyz a b c)).toOption.map Value.num =
      some (f64.add (f64.sub a b) c) ∧
    (evaluateExpression (ascii "x / y / z") (xyz a b c)).toOption.map Value.num =
      some (f64.div (f64.div a b) c) ∧
    (evaluateExpression (ascii "x / y * z") (xyz a b c)).toOption.map Value.num =
      some (f64.mul (f64.div a b) c) ∧
    (evaluateExpression (ascii "x // y // z") (xyz a b c)).toOption.map Value.num =
      some (f64.floor (f64.div (f64.floor (f64.div a b)) c)) ∧
    (evaluateExpression (ascii "(x + y) * z") (xyz a b c)).toOption.map Value.num =
      some (f64.mul (f64.add a b) c) ∧
    (evaluateExpression (ascii "x - (y - z)") (xyz a b c)).toOption.map Value.num =
      some (f64.sub a (f64.sub b c)) ∧
    (evaluateExpression (ascii "x / (y * z)") (xyz a b c)).toOption.map Value.num =
      some (f64.div a (f64.mul b c)) :=
  ⟨rfl, rfl, rfl, rfl, rfl, rfl, rfl, rfl, rfl, rfl, rfl, rfl, rfl⟩

/-- Tuples and lists collect their elements in order, a trailing comma adds no
element and line feeds between the tokens change nothing, for all operands. -/
theorem brackets (a b c : Nat) :
    (evaluateExpression (ascii "(x, y + z)") (xyz a b c)).toOption.map Value.floats =
      some [a, f64.add b c] ∧
    (evaluateExpression (ascii "(x, y + z,)") (xyz a b c)).toOption.map Value.floats =
      some [a, f64.add b c] ∧
    (evaluateExpression (ascii "[x, y + z]") (xyz a b c)).toOption.map Value.floats =
      some [a, f64.add b c] ∧
    (evaluateExpression (ascii "[x, y + z,]") (xyz a b c)).toOption.map Value.floats =
      some [a, f64.add b c] ∧
    (evaluateExpression (ascii "(\n    x,\n    y + z,\n)") (xyz a b c)).toOption.map Value.floats =
      some [a, f64.add b c] ∧
    (evaluateExpression (ascii "[\n    x,\n    y + z,\n]") (xyz a b c)).toOption.map Value.floats =
      some [a, f64.add b c] ∧
    (evaluateExpression (ascii "(x,)") (xyz a b c)).toOption.map Value.floats = some [a] ∧
    (evaluateExpression (ascii "((x, y), [z])") (xyz a b c)).toOption.map
        (fun v => toMatrix v 1) = some [[a], [c]] :=
  ⟨rfl, rfl, rfl, rfl, rfl, rfl, rfl, rfl⟩

/-- The assignments that `scanAssignments` finds in the source of the test: the
bracketed right-hand sides that span several lines are read up to their
closing bracket. -/
theorem testSource_assignments :
    (scanAssignments (normalizeInput testSource)).map (fun a => a.Name) =
      [ascii "name", ascii "version", ascii "author", ascii "description", ascii "fog",
       ascii "murderball", ascii "extensions", ascii "AREA", ascii "PAD", ascii "WIDTH",
       ascii "BLUE_RECT", ascii "GREEN_RECT", ascii "area", ascii "ball", ascii "blue_goal",
       ascii "green_goal", ascii "penalty_areas", ascii "spawn_locations_blue",
       ascii "spawn_locations_green", ascii "protected"] ∧
    ((scanAssignments (normalizeInput testSource)).get? 14).map (fun a => a.Expr) =
      some (ascii "(\n    AREA[0],\n    AREA[1],\n    40,\n    AREA[0] + 5,\n    AREA[1] + 5,\n    64,\n)") ∧
    ((scanAssignments (normalizeInput testSource)).get? 16).map (fun a => a.Expr) =
      some (ascii ("[\n    (AREA[0], AREA[1], AREA[0] + 12, AREA[3]),\n" ++
        "    (AREA[2] - 12, AREA[1], AREA[2], AREA[3]),\n]")) := by
  decide!

/-- C25: `Parse` evaluates the assignments in source order with the earlier
names in scope; `*`, `/` and `//` bind tighter than `+` and `-`, operators of
one level associate to the left and parentheses group, for all operands;
tuples and lists collect their elements, an index selects an element, a
bracketed right-hand side may span several lines and a trailing comma adds no
element. For the source of the test `Parse` gives the blue spawn area
`[174, 190, 192, 322]`, the green one `[318, 190, 336, 322]`, the ball
`[255, 256, 40]`, a blue goal of 6 numbers, 2 penalty areas and the extension
`water_damage = int64(100)`. -/
theorem C25_Parse_expressions (a b c : Nat) (assignments : List assignment) (last : assignment)
    (env : Env) :
    (evalAssignments (assignments ++ [last]) env =
      match evaluateExpression last.Expr (evalAssignments assignments env) with
      | .ok val => setKey (evalAssignments assignments env) last.Name val
      | .error _ => evalAssignments assignments env) ∧
    ((evaluateExpression (ascii "x + y * z") (xyz a b c)).toOption.map Value.num =
        some (f64.add a (f64.mul b c)) ∧
      (evaluateExpression (ascii "x * y + z") (xyz a b c)).toOption.map Value.num =
        some (f64.add (f64.mul a b) c) ∧
      (evaluateExpression (ascii "x - y / z") (xyz a b c)).toOption.map Value.num =
        some (f64.sub a (f64.div b c)) ∧
      (evaluateExpression (ascii "x + y // z") (xyz a b c)).toOption.map Value.num =
        some (f64.add a (f64.floor (f64.div b c))) ∧
      (evaluateExpression (ascii "x - y - z") (xyz a b c)).toOption.map Value.num =
        some (f64.sub (f64.sub a b) c) ∧
      (evaluateExpression (ascii "x / y / z") (xyz a b c)).toOption.map Value.num =
        some (f64.div (f64.div a b) c) ∧
      (evaluateExpression (ascii "x / y * z") (xyz a b c)).toOption.map Value.num =
        some (f64.mul (f64.div a b) c) ∧
      (evaluateExpression (ascii "(x + y) * z") (xyz a b c)).toOption.map Value.num =
        some (f64.mul (f64.add a b) c) ∧
      (evaluateExpression (ascii "x - (y - z)") (xyz a b c)).toOption.map Value.num =
        some (f64.sub a (f64.sub b c))) ∧
    ((evaluateExpression (ascii "(x, y + z)") (xyz a b c)).toOption.map Value.floats =
        some [a, f64.add b c] ∧
      (evaluateExpression (ascii "[x, y + z,]") (xyz a b c)).toOption.map Value.floats =
        some [a, f64.add b c] ∧
      (evaluateExpression (ascii "(\n    x,\n    y + z,\n)") (xyz a b c)).toOption.map
          Value.floats = some [a, f64.add b c]) ∧
    ((evaluateExpression (ascii "t[0] + t[2] * t[1]")
          [(ascii "t", .list [.number (f64.ofInt 7), .number (f64.ofInt 3),
            .number (f64.ofInt 5)])]).toOption.map Value.num = some (f64.ofInt 22) ∧
      (Parse testSource).map (fun m => (m.Spawns.BlueArea, m.Spawns.GreenArea)) =
        some ([f64.ofInt 174, f64.ofInt 190, f64.ofInt 192, f64.ofInt 322],
          [f64.ofInt 318, f64.ofInt 190, f64.ofInt 336, f64.ofInt 322]) ∧
      (Parse testSource).map
          (fun m => m.Rules.map (fun r => (r.Ball, r.BlueGoal.length, r.PenaltyAreas.length))) =
        some (some ([f64.ofInt 255, f64.ofInt 256, f64.ofInt 40], 6, 2)) ∧
      (Parse testSource).map
          (fun m => (getKey m.Extensions (ascii "water_damage")).bind Any.asInt64) =
        some (some 100)) := by
  refine ⟨evalAssignments_append assignments last env, ?_, ?_, ?_⟩
  · exact ⟨rfl, rfl, rfl, rfl, rfl, rfl, rfl, rfl, rfl⟩
  · exact ⟨rfl, rfl, rfl⟩
  · decide!

/-- The rest of what the test checks: name, version, author, fog, the
protected list, the spawn points and the flag `murderball`. -/
theorem testSource_rest :
    (Parse testSource).map (fun m => m.Metadata) =
      some { Name := ascii "Test Map", Version := ascii "1.2", Author := ascii "Author",
             Description := ascii "A multi-line description" } ∧
    (Parse testSource).map (fun m => m.Fog) = some (some { R := 128, G := 200, B := 64 }) ∧
    (Parse testSource).map (fun m => m.Rules.map (fun r => r.Protected)) =
      some (some [ascii "A1", ascii "B2"]) ∧
    (Parse testSource).map (fun m => (m.Spawns.Blue.length, m.Spawns.Green.length)) =
      some (2, 1) ∧
    (Parse testSource).map (fun m => m.Rules.map (fun r => (r.Area.length, r.GreenGoal.length))) =
      some (some (4, 6)) ∧
    (Parse testSource).map (fun m => (getKey m.Extensions (ascii "murderball")).bind Any.asBool) =
      some (some true) := by
  decide!

end mapmeta
